import Mathlib

/-!
# ProPhat voice: a shallow embedding of `Source/DSP/ProPhatVoice.h`

The per-voice render pipeline of the synthesiser (`ProPhatVoice<T>`) is translated
into pure state-passing functions on a record `Voice`.

Conventions of the embedding

* Samples and parameters (`float` / `T`) are exact rationals `ℚ`: rounding, infinities
  and NaN are outside the model.  `int` is `Int` (no value in the voice gets near the
  32-bit limits).
* An audio buffer is a total function `channel → index → sample` (`Buf`); extents are
  implicit.
* The collaborators whose code is not part of `ProPhatVoice.h` (the oscillator bank
  `PhatOscillators`, the JUCE `ADSR`, `LadderFilter`/`Gain` chain and the LFO
  `dsp::Oscillator`) are an abstract state `X` with an interface record `Ext X`; every
  theorem holds for every implementation of that interface.
* The constants of `Helpers.h` (`Constants::…`) are the record `Constants`.
* The cutoff and resonance handed to the ladder filter are kept in the voice record
  (`ladderCutoffHz`, `ladderResonance`) together with a count of the calls of
  `setCutoffFrequencyHz` (`ladderCutoffWrites`).
* The scratch buffer is held by a pointer (`std::unique_ptr overlap`) that is null from
  construction until `prepare` allocates the buffer: `overlapAllocated` says whether the
  pointer holds a buffer, and `overlap` is what it points to while it does.
* A function that contains a loop or a nested call returns `Option`.  `none` means that
  there is no result: the fuel of the loop or the nesting depth of the model is used up
  (the theorems show that neither happens), or the C++ code dereferences the null pointer
  `overlap` (`stopNote (_, false)` and the kill overlap on a voice that was never
  prepared).
-/

namespace ProPhat

variable {X : Type}

/-- Audio buffer or block: `b c i` is sample `i` of channel `c`. -/
abbrev Buf : Type := Nat → Nat → ℚ

/-- The all-zero buffer, the result of `AudioBuffer::clear`. -/
def Buf.silence : Buf := fun _ _ => 0

/-- JUCE `jlimit (lowerLimit, upperLimit, valueToConstrain)`. -/
def jlimit (lowerLimit upperLimit valueToConstrain : ℚ) : ℚ :=
  if valueToConstrain < lowerLimit then lowerLimit
  else if upperLimit < valueToConstrain then upperLimit
  else valueToConstrain

/-- JUCE `jmap (sourceValue, sourceRangeMin, sourceRangeMax, targetRangeMin, targetRangeMax)`. -/
def jmap (sourceValue sourceRangeMin sourceRangeMax targetRangeMin targetRangeMax : ℚ) : ℚ :=
  targetRangeMin
    + ((targetRangeMax - targetRangeMin) * (sourceValue - sourceRangeMin))
        / (sourceRangeMax - sourceRangeMin)

/-- The value of `std::numeric_limits<float>::epsilon ()`, which is `2^-23`. -/
def floatEpsilon : ℚ := 1 / 8388608

/-- The field `envelopeAmount` of the voice (`static constexpr auto envelopeAmount { 2 }`). -/
def envelopeAmount : ℚ := 2

/-- The field `lfoUpdateRate` of the voice (`static constexpr auto lfoUpdateRate = 100`). -/
def lfoUpdateRate : Int := 100

/-- JUCE `ADSR::Parameters`. -/
structure ADSRParameters where
  attack : ℚ
  decay : ℚ
  sustain : ℚ
  release : ℚ
deriving DecidableEq

/-- The selection stored in `lfoDest.curSelection`: the four enumerators of `LfoDest`
that `updateLfo` switches on, or any other integer. -/
inductive LfoDest where
  | osc1Freq
  | osc2Freq
  | filterCutOff
  | filterResonance
  | unrecognised (raw : Int)
deriving DecidableEq

/-- The argument of `setLfoShape`: the four enumerators of `LfoShape`, or any other integer. -/
inductive LfoShape where
  | triangle
  | saw
  | square
  | random
  | unrecognised (raw : Int)
deriving DecidableEq

/-- The parameter identifiers of `ProPhatParameterIds` that the voice listens to, or any
other string. -/
inductive ParamId where
  | ampAttackID
  | ampDecayID
  | ampSustainID
  | ampReleaseID
  | filterEnvAttackID
  | filterEnvDecayID
  | filterEnvSustainID
  | filterEnvReleaseID
  | lfoShapeID
  | lfoDestID
  | lfoFreqID
  | lfoAmountID
  | filterCutoffID
  | filterResonanceID
  | other (name : String)
deriving DecidableEq

/-- The constants of `Constants::` (declared in `Utility/Helpers.h`) that the voice reads. -/
structure Constants where
  /-- The lower end `cutOffRange.start`. -/
  cutOffStart : ℚ
  /-- The upper end `cutOffRange.end`. -/
  cutOffEnd : ℚ
  killRampSamples : Int
  rampUpSamples : Int
  defaultFilterCutoff : ℚ
  defaultFilterResonance : ℚ
  defaultLfoAmount : ℚ
  defaultLfoFreq : ℚ
  defaultLfoDest : LfoDest
  /-- The map `lfoNoteRange.convertFrom0to1`. -/
  lfoNoteRangeConvertFrom0to1 : ℚ → ℚ
  /-- How `(int) newValue` selects an `LfoShape` enumerator. -/
  lfoShapeOfInt : Int → LfoShape
  /-- How `(int) newValue` selects an `LfoDest` enumerator. -/
  lfoDestOfInt : Int → LfoDest

/-- Interface of the collaborators of the voice, acting on their joint state `X`:
the oscillator bank (`oscillators`), the effect chain (`processorChain`), the two
envelopes (`ampADSR`, `filterADSR`) and the LFO oscillator (`lfo`, with the random
generator its shape function may capture). -/
structure Ext (X : Type) where
  /-- The call `oscillators.prepare (spec)`: sample rate, maximum block size, channels. -/
  oscPrepare : X → ℚ → Nat → Nat → X
  /-- The call `processorChain.prepare (spec)`. -/
  chainPrepare : X → ℚ → Nat → Nat → X
  /-- The call `ampADSR.setSampleRate`. -/
  ampSetSampleRate : X → ℚ → X
  /-- The call `filterADSR.setSampleRate`. -/
  filterSetSampleRate : X → ℚ → X
  /-- The call `lfo.prepare (spec)`. -/
  lfoPrepare : X → ℚ → Nat → Nat → X
  /-- The call `oscillators.prepareRender (numSamples)`: the working block. -/
  prepareRender : X → Int → X × Buf
  /-- The call `oscillators.process (pos, subBlockSize)`: the raw samples of the sub-block. -/
  oscProcess : X → Int → Int → X × Buf
  /-- The call `processorChain.process` on a sub-block of the given size, the ladder filter
  being set to the given cutoff and resonance. -/
  chainProcess : X → ℚ → ℚ → Int → Buf → X × Buf
  /-- The call `filterADSR.getNextSample ()`. -/
  filterEnvNext : X → X × ℚ
  /-- The call `ampADSR.getNextSample ()`. -/
  ampEnvNext : X → X × ℚ
  /-- The call `ampADSR.isActive ()`. -/
  ampIsActive : X → Bool
  ampSetParameters : X → ADSRParameters → X
  ampReset : X → X
  ampNoteOn : X → X
  ampNoteOff : X → X
  filterSetParameters : X → ADSRParameters → X
  filterReset : X → X
  filterNoteOn : X → X
  filterNoteOff : X → X
  /-- The call `oscillators.updateOscFrequencies (midiNoteNumber, velocity, pitchWheel)`. -/
  updateOscFrequencies : X → Int → ℚ → Int → X
  updateOscLevels : X → X
  resetLfoOscNoteOffsets : X → X
  setLfoOsc1NoteOffset : X → ℚ → X
  setLfoOsc2NoteOffset : X → ℚ → X
  pitchWheelMoved : X → Int → X
  /-- The call `lfo.processSample (T (0))`. -/
  lfoProcessSample : X → X × ℚ
  /-- The call `lfo.initialise` with the function of one of the four shapes. -/
  lfoInitialise : X → LfoShape → X
  /-- The call `lfo.setFrequency`. -/
  lfoSetFrequency : X → ℚ → X

/-- The state of one `ProPhatVoice`, with the part of its base class
`juce::SynthesiserVoice` and of its collaborators that the voice reads. -/
structure Voice (X : Type) where
  /-- Joint state of the collaborators. -/
  ext : X
  voiceId : Int
  /-- Base class: `getSampleRate ()`. -/
  sampleRate : ℚ
  /-- Base class: `getCurrentlyPlayingNote ()`, `-1` when there is none. -/
  currentlyPlayingNote : Int
  lfoCutOffContributionHz : ℚ
  /-- Whether the pointer `overlap` holds a buffer (`overlap != nullptr`): false from
  construction until `prepare`. -/
  overlapAllocated : Bool
  /-- The scratch buffer `*overlap`, read and written only while `overlapAllocated`. -/
  overlap : Buf
  overlapIndex : Int
  currentlyKillingVoice : Bool
  /-- The set `*voicesBeingKilled`, shared with the other voices. -/
  voicesBeingKilled : Finset Int
  /-- Ladder filter: the last value given to `setCutoffFrequencyHz`. -/
  ladderCutoffHz : ℚ
  /-- Ladder filter: the number of calls of `setCutoffFrequencyHz` so far. -/
  ladderCutoffWrites : Nat
  /-- Ladder filter: the last value given to `setResonance`. -/
  ladderResonance : ℚ
  ampParams : ADSRParameters
  filterEnvParams : ADSRParameters
  currentlyReleasingNote : Bool
  justDoneReleaseEnvelope : Bool
  curFilterCutoff : ℚ
  curFilterResonance : ℚ
  lfoUpdateCounter : Int
  lfoAmount : ℚ
  lfoDest : LfoDest
  rampingUp : Bool
  rampUpSamplesLeft : Int
  tiltCutoff : ℚ
  curPreparedSamples : Int

/-- Base class `isVoiceActive ()`: `getCurrentlyPlayingNote () >= 0`. -/
def Voice.isVoiceActive (v : Voice X) : Bool := decide (0 ≤ v.currentlyPlayingNote)

/-! ## Filter setters -/

/-- `ProPhatVoice::setFilterCutoffInternal`. -/
def setFilterCutoffInternal (C : Constants) (v : Voice X) (curCutOff : ℚ) : Voice X :=
  let limitedCutOff := jlimit C.cutOffStart C.cutOffEnd curCutOff
  { v with ladderCutoffHz := limitedCutOff, ladderCutoffWrites := v.ladderCutoffWrites + 1 }

/-- `ProPhatVoice::setFilterResonanceInternal`. -/
def setFilterResonanceInternal (v : Voice X) (curResonance : ℚ) : Voice X :=
  let limitedResonance := jlimit 0 1 curResonance
  { v with ladderResonance := limitedResonance }

/-- `ProPhatVoice::setFilterCutoff`. -/
def setFilterCutoff (C : Constants) (newValue : ℚ) (v : Voice X) : Voice X :=
  let v1 := { v with curFilterCutoff := newValue }
  setFilterCutoffInternal C v1 (v1.curFilterCutoff + v1.tiltCutoff)

/-- `ProPhatVoice::setFilterTiltCutoff`. -/
def setFilterTiltCutoff (C : Constants) (newValue : ℚ) (v : Voice X) : Voice X :=
  let v1 := { v with tiltCutoff := newValue }
  setFilterCutoffInternal C v1 (v1.curFilterCutoff + v1.tiltCutoff)

/-- `ProPhatVoice::setFilterResonance`. -/
def setFilterResonance (newAmount : ℚ) (v : Voice X) : Voice X :=
  let v1 := { v with curFilterResonance := newAmount }
  setFilterResonanceInternal v1 v1.curFilterResonance

/-! ## Envelope and LFO setters -/

/-- `ProPhatVoice::setAmpParam`. -/
def setAmpParam (E : Ext X) (parameterID : ParamId) (newValue : ℚ) (v : Voice X) : Voice X :=
  let newValue := if newValue ≤ 0 then floatEpsilon else newValue
  let ampParams :=
    if parameterID = ParamId.ampAttackID then { v.ampParams with attack := newValue }
    else if parameterID = ParamId.ampDecayID then { v.ampParams with decay := newValue }
    else if parameterID = ParamId.ampSustainID then { v.ampParams with sustain := newValue }
    else if parameterID = ParamId.ampReleaseID then { v.ampParams with release := newValue }
    else v.ampParams
  { v with ampParams := ampParams, ext := E.ampSetParameters v.ext ampParams }

/-- `ProPhatVoice::setFilterEnvParam`. -/
def setFilterEnvParam (E : Ext X) (parameterID : ParamId) (newValue : ℚ) (v : Voice X) :
    Voice X :=
  let newValue := if newValue ≤ 0 then floatEpsilon else newValue
  let filterEnvParams :=
    if parameterID = ParamId.filterEnvAttackID then { v.filterEnvParams with attack := newValue }
    else if parameterID = ParamId.filterEnvDecayID then
      { v.filterEnvParams with decay := newValue }
    else if parameterID = ParamId.filterEnvSustainID then
      { v.filterEnvParams with sustain := newValue }
    else if parameterID = ParamId.filterEnvReleaseID then
      { v.filterEnvParams with release := newValue }
    else v.filterEnvParams
  { v with filterEnvParams := filterEnvParams,
           ext := E.filterSetParameters v.ext filterEnvParams }

/-- `ProPhatVoice::setLfoShape`: an unrecognised shape reaches `default:` and, the
assertion apart, does nothing. -/
def setLfoShape (E : Ext X) (shape : LfoShape) (v : Voice X) : Voice X :=
  match shape with
  | LfoShape.unrecognised _ => v
  | s => { v with ext := E.lfoInitialise v.ext s }

/-- `ProPhatVoice::setLfoDest`. -/
def setLfoDest (E : Ext X) (dest : LfoDest) (v : Voice X) : Voice X :=
  { v with ext := E.resetLfoOscNoteOffsets v.ext, lfoDest := dest }

/-- `ProPhatVoice::setLfoFreq`. -/
def setLfoFreq (E : Ext X) (newFreq : ℚ) (v : Voice X) : Voice X :=
  { v with ext := E.lfoSetFrequency v.ext newFreq }

/-- `ProPhatVoice::setLfoAmount`. -/
def setLfoAmount (newAmount : ℚ) (v : Voice X) : Voice X :=
  { v with lfoAmount := newAmount }

/-- `ProPhatVoice::pitchWheelMoved`. -/
def pitchWheelMoved (E : Ext X) (newPitchWheelValue : Int) (v : Voice X) : Voice X :=
  { v with ext := E.pitchWheelMoved v.ext newPitchWheelValue }

/-- `ProPhatVoice::controllerMoved`. -/
def controllerMoved (C : Constants) (controllerNumber newValue : Int) (v : Voice X) : Voice X :=
  if controllerNumber = 1 then
    setFilterTiltCutoff C (jmap (newValue : ℚ) 0 127 v.curFilterCutoff C.cutOffEnd) v
  else v

/-- The conversion `(int) newValue` of a `float`: truncation towards zero. -/
def truncToInt (q : ℚ) : Int := if 0 ≤ q then ⌊q⌋ else ⌈q⌉

/-- `ProPhatVoice::parameterChanged`: the chain of comparisons; an identifier that
matches none reaches `jassertfalse` and, the assertion apart, does nothing. -/
def parameterChanged (E : Ext X) (C : Constants) (parameterID : ParamId) (newValue : ℚ)
    (v : Voice X) : Voice X :=
  if parameterID = ParamId.ampAttackID ∨ parameterID = ParamId.ampDecayID
      ∨ parameterID = ParamId.ampSustainID ∨ parameterID = ParamId.ampReleaseID then
    setAmpParam E parameterID newValue v
  else if parameterID = ParamId.filterEnvAttackID ∨ parameterID = ParamId.filterEnvDecayID
      ∨ parameterID = ParamId.filterEnvSustainID
      ∨ parameterID = ParamId.filterEnvReleaseID then
    setFilterEnvParam E parameterID newValue v
  else if parameterID = ParamId.lfoShapeID then
    setLfoShape E (C.lfoShapeOfInt (truncToInt newValue)) v
  else if parameterID = ParamId.lfoDestID then
    setLfoDest E (C.lfoDestOfInt (truncToInt newValue)) v
  else if parameterID = ParamId.lfoFreqID then setLfoFreq E newValue v
  else if parameterID = ParamId.lfoAmountID then setLfoAmount newValue v
  else if parameterID = ParamId.filterCutoffID then setFilterCutoff C newValue v
  else if parameterID = ParamId.filterResonanceID then setFilterResonance newValue v
  else v

/-- `ProPhatVoice::updateLfo`. -/
def updateLfo (E : Ext X) (C : Constants) (v : Voice X) : Voice X :=
  let r := E.lfoProcessSample v.ext
  let lfoOut := r.2 * v.lfoAmount
  let v1 := { v with ext := r.1 }
  match v1.lfoDest with
  | LfoDest.osc1Freq =>
    { v1 with ext := E.setLfoOsc1NoteOffset v1.ext (C.lfoNoteRangeConvertFrom0to1 lfoOut) }
  | LfoDest.osc2Freq =>
    { v1 with ext := E.setLfoOsc2NoteOffset v1.ext (C.lfoNoteRangeConvertFrom0to1 lfoOut) }
  | LfoDest.filterCutOff =>
    { v1 with lfoCutOffContributionHz := jmap lfoOut 0 1 10 10000 }
  | LfoDest.filterResonance =>
    setFilterResonanceInternal v1 (v1.curFilterResonance * (1 + envelopeAmount * lfoOut))
  | LfoDest.unrecognised _ => v1

/-! ## Construction and preparation -/

/-- `ProPhatVoice::ProPhatVoice`, with the default member initialisers of the class and
of the base class (no note, the sample rate the host gives).  The pointer `overlap` is
null: no scratch buffer is allocated before `prepare` (the value of the field `overlap`
stands for nothing yet). -/
def construct (E : Ext X) (C : Constants) (x : X) (vId : Int) (activeVoiceSet : Finset Int)
    (sampleRate : ℚ) : Voice X :=
  let v0 : Voice X :=
    { ext := x
      voiceId := vId
      sampleRate := sampleRate
      currentlyPlayingNote := -1
      lfoCutOffContributionHz := 0
      overlapAllocated := false
      overlap := Buf.silence
      overlapIndex := -1
      currentlyKillingVoice := false
      voicesBeingKilled := activeVoiceSet
      ladderCutoffHz := C.defaultFilterCutoff
      ladderCutoffWrites := 0
      ladderResonance := C.defaultFilterResonance
      ampParams := { attack := 1 / 10, decay := 1 / 10, sustain := 1, release := 1 / 10 }
      filterEnvParams := { attack := 1 / 10, decay := 1 / 10, sustain := 1, release := 1 / 10 }
      currentlyReleasingNote := false
      justDoneReleaseEnvelope := false
      curFilterCutoff := C.defaultFilterCutoff
      curFilterResonance := C.defaultFilterResonance
      lfoUpdateCounter := lfoUpdateRate
      lfoAmount := C.defaultLfoAmount
      lfoDest := LfoDest.unrecognised 0
      rampingUp := false
      rampUpSamplesLeft := 0
      tiltCutoff := 0
      curPreparedSamples := 0 }
  let v1 := setFilterCutoffInternal C v0 C.defaultFilterCutoff
  let v2 := setFilterResonanceInternal v1 C.defaultFilterResonance
  let v3 := { v2 with lfoDest := C.defaultLfoDest }
  setLfoFreq E C.defaultLfoFreq (setLfoShape E LfoShape.triangle v3)

/-- `ProPhatVoice::prepare` with the fields of `spec`: `spec.maximumBlockSize` becomes
`curPreparedSamples`, the scratch buffer is allocated with `killRampSamples` samples and
cleared, and the collaborators are prepared in the order of the source. -/
def prepare (E : Ext X) (sampleRate : ℚ) (maximumBlockSize numChannels : Nat) (v : Voice X) :
    Voice X :=
  let x1 := E.oscPrepare v.ext sampleRate maximumBlockSize numChannels
  let x2 := E.chainPrepare x1 sampleRate maximumBlockSize numChannels
  let x3 := E.ampSetParameters (E.ampSetSampleRate x2 sampleRate) v.ampParams
  let x4 := E.filterSetParameters (E.filterSetSampleRate x3 sampleRate) v.filterEnvParams
  let x5 := E.lfoPrepare x4 (sampleRate / (lfoUpdateRate : ℚ)) maximumBlockSize numChannels
  { v with curPreparedSamples := (maximumBlockSize : Int), ext := x5,
           overlapAllocated := true, overlap := Buf.silence }

/-! ## Note start, ramp-up and kill overlap -/

/-- `ProPhatVoice::startNote`. -/
def startNote (E : Ext X) (C : Constants) (midiNoteNumber : Int) (velocity : ℚ)
    (currentPitchWheelPosition : Int) (v : Voice X) : Voice X :=
  let x1 := E.ampNoteOn (E.ampReset (E.ampSetParameters v.ext v.ampParams))
  let x2 := E.filterNoteOn (E.filterReset (E.filterSetParameters x1 v.filterEnvParams))
  let x3 := E.updateOscFrequencies x2 midiNoteNumber velocity currentPitchWheelPosition
  { v with ext := E.updateOscLevels x3, rampingUp := true,
           rampUpSamplesLeft := C.rampUpSamples }

/-- `ProPhatVoice::processRampUp` on a sub-block of `curBlockSize` samples. -/
def processRampUp (C : Constants) (v : Voice X) (block : Buf) (curBlockSize : Int) :
    Voice X × Buf :=
  let curRampUpLenght : Int := min curBlockSize v.rampUpSamplesLeft
  let prevRampUpValue : ℚ :=
    ((C.rampUpSamples - v.rampUpSamplesLeft : Int) : ℚ) / (C.rampUpSamples : ℚ)
  let nextRampUpValue : ℚ := prevRampUpValue + (curRampUpLenght : ℚ) / (C.rampUpSamples : ℚ)
  let incr : ℚ := (nextRampUpValue - prevRampUpValue) / (curRampUpLenght : ℚ)
  let block1 : Buf := fun c i =>
    if (i : Int) < curRampUpLenght then block c i * (prevRampUpValue + (i : ℚ) * incr)
    else block c i
  let left := v.rampUpSamplesLeft - curRampUpLenght
  let v1 := { v with rampUpSamplesLeft := left }
  (if left ≤ 0 then { v1 with rampingUp := false } else v1, block1)

/-- `ProPhatVoice::processKillOverlap` on a sub-block of `curBlockSize` samples, with the
scratch buffer `*overlap` at hand: the sub-block loop (`subBlock`) does not return when
this call has a sample of the scratch buffer to read and the pointer `overlap` is null. -/
def processKillOverlap (C : Constants) (v : Voice X) (block : Buf) (curBlockSize : Int) :
    Voice X × Buf :=
  let curSamples : Int := min (C.killRampSamples - v.overlapIndex) curBlockSize
  let block1 : Buf := fun c i =>
    if (i : Int) < curSamples then block c i + v.overlap c (v.overlapIndex + (i : Int)).toNat
    else block c i
  let v1 := { v with overlapIndex := v.overlapIndex + curSamples }
  (if v1.overlapIndex ≥ C.killRampSamples then
      { v1 with overlapIndex := -1, voicesBeingKilled := v1.voicesBeingKilled.erase v1.voiceId }
    else v1, block1)

/-- `ProPhatVoice::applyKillRamp`: `outputBuffer.applyGainRamp (startSample, numSamples,
1.f, 0.f)` multiplies sample `startSample + i` by the start gain `1` advanced `i` times by
`(0 - 1) / numSamples`; the killing flag is then cleared. -/
def applyKillRamp (v : Voice X) (outputBuffer : Buf) (startSample : Nat) (numSamples : Int) :
    Voice X × Buf :=
  let increment : ℚ := (0 - 1) / (numSamples : ℚ)
  let out : Buf := fun c j =>
    if startSample ≤ j ∧ ((j - startSample : Nat) : Int) < numSamples then
      outputBuffer c j * (1 + ((j - startSample : Nat) : ℚ) * increment)
    else outputBuffer c j
  ({ v with currentlyKillingVoice := false }, out)

/-! ## The render loop -/

/-- The envelope loop of a sub-block: `n` times `filterADSR.getNextSample ()` then
`ampADSR.getNextSample ()`.  Returns the collaborators afterwards, the last filter envelope
value (`filterEnvelope`, which starts at `0.f`) and the amplitude envelope values in order. -/
def runEnvelopes (E : Ext X) : Nat → X → ℚ → X × ℚ × List ℚ
  | 0, x, filterEnvelope => (x, filterEnvelope, [])
  | n + 1, x, _ =>
    let f := E.filterEnvNext x
    let a := E.ampEnvNext f.1
    let r := runEnvelopes E n a.1 f.2
    (r.1, r.2.1, a.2 :: r.2.2)

/-- What a sub-block holds after the oscillators, the effect chain and the envelopes. -/
structure SubBlock (X : Type) where
  v : Voice X
  blk : Buf
  filterEnvelope : ℚ

/-- First part of the body of the sub-block loop of `renderNextBlockTemplate`:
`oscillators.process`, `processorChain.process` and the envelope loop, which multiplies
every channel's sample `i` by the amplitude envelope. -/
def subBlockHead (E : Ext X) (pos subBlockSize : Int) (v : Voice X) : SubBlock X :=
  let o := E.oscProcess v.ext pos subBlockSize
  let p := E.chainProcess o.1 v.ladderCutoffHz v.ladderResonance subBlockSize o.2
  let e := runEnvelopes E subBlockSize.toNat p.1 0
  { v := { v with ext := e.1 }
    blk := fun c i => if i < subBlockSize.toNat then p.2 c i * e.2.2.getD i 1 else p.2 c i
    filterEnvelope := e.2.1 }

/-- The test `if (currentlyReleasingNote && ! ampADSR.isActive ())` of the sub-block loop;
`stop` is the call `stopNote (0.f, false)`. -/
def releaseCheck (E : Ext X) (stop : Voice X → Option (Voice X)) (v : Voice X) :
    Option (Voice X) :=
  if v.currentlyReleasingNote = true ∧ E.ampIsActive v.ext = false then
    stop { v with currentlyReleasingNote := false, justDoneReleaseEnvelope := true }
  else some v

/-- Last part of the body of the sub-block loop: ramp-up, kill overlap, the LFO counter
and `updateLfo`, and the filter cutoff of the sub-block. -/
def subBlockTail (E : Ext X) (C : Constants) (subBlockSize : Int) (filterEnvelope : ℚ)
    (v : Voice X) (blk : Buf) : Voice X × Buf :=
  let a := if v.rampingUp = true then processRampUp C v blk subBlockSize else (v, blk)
  let b := if a.1.overlapIndex > -1 then processKillOverlap C a.1 a.2 subBlockSize else a
  let v1 := { b.1 with lfoUpdateCounter := b.1.lfoUpdateCounter - subBlockSize }
  let v2 :=
    if v1.lfoUpdateCounter = 0 then updateLfo E C { v1 with lfoUpdateCounter := lfoUpdateRate }
    else v1
  let curCutOff : ℚ :=
    (v2.curFilterCutoff + v2.tiltCutoff) * (1 + envelopeAmount * filterEnvelope)
      + v2.lfoCutOffContributionHz
  (setFilterCutoffInternal C v2 curCutOff, b.2)

/-- State of the sub-block loop: the voice, the working block `currentAudioBlock` and `pos`. -/
structure LoopState (X : Type) where
  v : Voice X
  block : Buf
  pos : Int

/-- The value of `subBlockSize` in an iteration of the sub-block loop. -/
def subBlockSize (numSamples : Int) (st : LoopState X) : Int :=
  min (numSamples - st.pos) st.v.lfoUpdateCounter

/-- One iteration of the sub-block loop of `renderNextBlockTemplate`.  The sub-block is a
view of the working block at `pos`: its samples are written there.  With the overlap
cursor armed (`overlapIndex > -1`) the iteration calls `processKillOverlap`, which reads
`curSamples` samples of `*overlap`: when it has a sample to read and the pointer `overlap`
is null, the iteration does not return. -/
def subBlock (E : Ext X) (C : Constants) (stop : Voice X → Option (Voice X))
    (numSamples : Int) (st : LoopState X) : Option (LoopState X) :=
  let n := subBlockSize numSamples st
  let h := subBlockHead E st.pos n st.v
  match releaseCheck E stop h.v with
  | none => none
  | some v1 =>
    if v1.overlapIndex > -1 ∧ v1.overlapAllocated = false ∧
        0 < min (C.killRampSamples - v1.overlapIndex) n then none
    else
      let t := subBlockTail E C n h.filterEnvelope v1 h.blk
      some
        { v := t.1
          block := fun c j =>
            if st.pos ≤ (j : Int) ∧ (j : Int) < st.pos + n then t.2 c (j - st.pos.toNat)
            else st.block c j
          pos := st.pos + n }

/-- The loop `for (int pos = 0; pos < numSamples;)`, with fuel: `none` when the fuel runs out
before `pos` reaches `numSamples`. -/
def renderLoop (E : Ext X) (C : Constants) (stop : Voice X → Option (Voice X))
    (numSamples : Int) : Nat → LoopState X → Option (LoopState X)
  | 0, st => if st.pos < numSamples then none else some st
  | fuel + 1, st =>
    if st.pos < numSamples then
      match subBlock E C stop numSamples st with
      | none => none
      | some st1 => renderLoop E C stop numSamples fuel st1
    else some st

/-- The statement `AudioBlock<T> (outputBuffer).getSubBlock (startSample, numSamples).add
(currentAudioBlock)`. -/
def addToOutput (outputBuffer : Buf) (startSample : Nat) (numSamples : Int) (block : Buf) :
    Buf := fun c j =>
  if startSample ≤ j ∧ ((j - startSample : Nat) : Int) < numSamples then
    outputBuffer c j + block c (j - startSample)
  else outputBuffer c j

/-- The body of `renderNextBlockTemplate`; `stop` is the call `stopNote (0.f, false)` of the
sub-block loop.  A sub-block holds at least one sample unless the loop is stuck, so
`numSamples` iterations are enough fuel. -/
def renderCore (E : Ext X) (C : Constants) (stop : Voice X → Option (Voice X))
    (v : Voice X) (outputBuffer : Buf) (startSample : Nat) (numSamples : Int) :
    Option (Voice X × Buf) :=
  if v.currentlyKillingVoice = false ∧ v.isVoiceActive = false then some (v, outputBuffer)
  else
    let numSamples := min numSamples v.curPreparedSamples
    let p := E.prepareRender v.ext numSamples
    match renderLoop E C stop numSamples numSamples.toNat
        { v := { v with ext := p.1 }, block := p.2, pos := 0 } with
    | none => none
    | some st =>
      let out := addToOutput outputBuffer startSample numSamples st.block
      if st.v.currentlyKillingVoice = true then
        some (applyKillRamp st.v out startSample numSamples)
      else some (st.v, out)

/-- `ProPhatVoice::stopNote`; `render` is the call `renderNextBlock (*overlap, 0,
Constants::killRampSamples)`.  Its output buffer is the scratch buffer itself: the loop of
the nested render reads the cleared scratch buffer, and what the nested render leaves in its
output buffer is the new scratch buffer.  The kill path starts with `overlap->clear ()`:
with the pointer `overlap` null (a voice that was never prepared) the call does not
return. -/
def stopNoteCore (E : Ext X) (C : Constants)
    (render : Voice X → Buf → Nat → Int → Option (Voice X × Buf))
    (allowTailOff : Bool) (v : Voice X) : Option (Voice X) :=
  if allowTailOff = true then
    some { v with currentlyReleasingNote := true,
                  ext := E.filterNoteOff (E.ampNoteOff v.ext) }
  else
    let killed : Option (Voice X) :=
      if v.sampleRate ≠ 0 ∧ v.justDoneReleaseEnvelope = false then
        if v.overlapAllocated = true then
          let v1 := { v with rampingUp := false, overlap := Buf.silence,
                             voicesBeingKilled := insert v.voiceId v.voicesBeingKilled,
                             currentlyKillingVoice := true }
          match render v1 v1.overlap 0 C.killRampSamples with
          | none => none
          | some r => some { r.1 with overlap := r.2, overlapIndex := 0 }
        else none
      else some v
    match killed with
    | none => none
    | some v2 => some { v2 with justDoneReleaseEnvelope := false, currentlyPlayingNote := -1 }

/-- The pair `renderNextBlock` / `stopNote (_, false)` call each other; `depth` bounds the
nesting of the calls, and `none` is returned when it is used up. -/
def renderNextBlockAt (E : Ext X) (C : Constants) :
    Nat → Voice X → Buf → Nat → Int → Option (Voice X × Buf)
  | 0 => fun _ _ _ _ => none
  | depth + 1 => renderCore E C (stopNoteCore E C (renderNextBlockAt E C depth) false)

/-- The nesting the model allows: `stopNote` → `renderNextBlock` → `stopNote`. -/
def nestingFuel : Nat := 2

/-- `ProPhatVoice::renderNextBlock` (for the sample type of the voice), that is
`renderNextBlockTemplate`. -/
def renderNextBlock (E : Ext X) (C : Constants) (v : Voice X) (outputBuffer : Buf)
    (startSample : Nat) (numSamples : Int) : Option (Voice X × Buf) :=
  renderNextBlockAt E C nestingFuel v outputBuffer startSample numSamples

/-- `ProPhatVoice::stopNote`. -/
def stopNote (E : Ext X) (C : Constants) (allowTailOff : Bool) (v : Voice X) :
    Option (Voice X) :=
  stopNoteCore E C (renderNextBlockAt E C nestingFuel) allowTailOff v

/-! ## Fixtures: a small concrete instance of the collaborators and constants -/

/-- A collaborator state for examples: a sample clock. -/
def demoExt (filterEnv ampEnv : ℚ) : Ext Nat where
  oscPrepare := fun x _ _ _ => x
  chainPrepare := fun x _ _ _ => x
  ampSetSampleRate := fun x _ => x
  filterSetSampleRate := fun x _ => x
  lfoPrepare := fun x _ _ _ => x
  prepareRender := fun x _ => (x, Buf.silence)
  oscProcess := fun x _ n => (x + n.toNat, fun _ _ => 1)
  chainProcess := fun x _ _ _ b => (x, b)
  filterEnvNext := fun x => (x, filterEnv)
  ampEnvNext := fun x => (x, ampEnv)
  ampIsActive := fun _ => true
  ampSetParameters := fun x _ => x
  ampReset := fun x => x
  ampNoteOn := fun x => x
  ampNoteOff := fun x => x
  filterSetParameters := fun x _ => x
  filterReset := fun x => x
  filterNoteOn := fun x => x
  filterNoteOff := fun x => x
  updateOscFrequencies := fun x _ _ _ => x
  updateOscLevels := fun x => x
  resetLfoOscNoteOffsets := fun x => x
  setLfoOsc1NoteOffset := fun x _ => x
  setLfoOsc2NoteOffset := fun x _ => x
  pitchWheelMoved := fun x _ => x
  lfoProcessSample := fun x => (x, 1 / 2)
  lfoInitialise := fun x _ => x
  lfoSetFrequency := fun x _ => x

/-- Constants for examples: a cutoff range of 20 Hz to 18 kHz, a kill ramp of
`killRamp` samples and a ramp-up of `rampUp` samples. -/
def demoConstants (killRamp rampUp : Int) : Constants where
  cutOffStart := 20
  cutOffEnd := 18000
  killRampSamples := killRamp
  rampUpSamples := rampUp
  defaultFilterCutoff := 1000
  defaultFilterResonance := 1 / 2
  defaultLfoAmount := 1
  defaultLfoFreq := 3
  defaultLfoDest := LfoDest.filterCutOff
  lfoNoteRangeConvertFrom0to1 := fun q => q
  lfoShapeOfInt := fun n =>
    if n = 0 then LfoShape.triangle else if n = 1 then LfoShape.saw
    else if n = 2 then LfoShape.square else if n = 3 then LfoShape.random
    else LfoShape.unrecognised n
  lfoDestOfInt := fun n =>
    if n = 0 then LfoDest.osc1Freq else if n = 1 then LfoDest.osc2Freq
    else if n = 2 then LfoDest.filterCutOff else if n = 3 then LfoDest.filterResonance
    else LfoDest.unrecognised n

/-- A constructed and prepared voice for examples: id 7, 44.1 kHz, 512 samples prepared. -/
def demoVoice (E : Ext Nat) (C : Constants) : Voice Nat :=
  prepare E 44100 512 2 (construct E C 0 7 ∅ 44100)

/-- A sounding example voice: note 60 started on the example voice. -/
def demoSounding (E : Ext Nat) (C : Constants) : Voice Nat :=
  startNote E C 60 1 8192 { demoVoice E C with currentlyPlayingNote := 60 }

/-! ## Ranges of the filter parameters and the working block -/

/-- The cutoff held by the ladder filter lies in `cutOffRange`. -/
def CutoffInRange (C : Constants) (v : Voice X) : Prop :=
  C.cutOffStart ≤ v.ladderCutoffHz ∧ v.ladderCutoffHz ≤ C.cutOffEnd

/-- The resonance held by the ladder filter lies in `[0, 1]`. -/
def ResonanceInRange (v : Voice X) : Prop :=
  0 ≤ v.ladderResonance ∧ v.ladderResonance ≤ 1

/-- The working block after an iteration of the sub-block loop. -/
def writeSubBlock (st : LoopState X) (n : Int) (blk : Buf) : Buf := fun c j =>
  if st.pos ≤ (j : Int) ∧ (j : Int) < st.pos + n then blk c (j - st.pos.toNat) else st.block c j

/-! ## The nested `stopNote` of the render loop -/

/-- What the test `if (currentlyReleasingNote && ! ampADSR.isActive ())` leaves when the
`stopNote (0.f, false)` it calls finds `justDoneReleaseEnvelope` set. -/
def afterRelease (E : Ext X) (v : Voice X) : Voice X :=
  if v.currentlyReleasingNote = true ∧ E.ampIsActive v.ext = false then
    { v with currentlyReleasingNote := false, justDoneReleaseEnvelope := false,
             currentlyPlayingNote := -1 }
  else v

/-- The state after one iteration of the sub-block loop, the nested `stopNote` being the
one of the voice. -/
def subBlockResult (E : Ext X) (C : Constants) (numSamples : Int) (st : LoopState X) :
    LoopState X :=
  let n := subBlockSize numSamples st
  let h := subBlockHead E st.pos n st.v
  let t := subBlockTail E C n h.filterEnvelope (afterRelease E h.v) h.blk
  { v := t.1, block := writeSubBlock st n t.2, pos := st.pos + n }

/-! ## The overlap cursor across a sub-block -/

/-- The overlap cursor after a sub-block of `n` samples. -/
def overlapIndexAfter (C : Constants) (idx n : Int) : Int :=
  if idx > -1 then
    if idx + min (C.killRampSamples - idx) n ≥ C.killRampSamples then -1
    else idx + min (C.killRampSamples - idx) n
  else idx

/-! ## The scratch buffer -/

/-- An armed overlap cursor has a scratch buffer to read: `overlapIndex > -1` only with the
pointer `overlap` holding a buffer. -/
def ScratchOk (v : Voice X) : Prop :=
  v.overlapIndex > -1 → v.overlapAllocated = true

/-! ## The LFO counter -/

/-- Between sub-blocks the counter `lfoUpdateCounter` lies in `[1, lfoUpdateRate]`. -/
def LfoCounterOk (v : Voice X) : Prop :=
  1 ≤ v.lfoUpdateCounter ∧ v.lfoUpdateCounter ≤ lfoUpdateRate

/-! ## The render call as a whole -/

/-- The number of samples a render call processes: none when the call returns at once,
otherwise the request limited to the prepared block size. -/
def samplesProcessed (v : Voice X) (numSamples : Int) : Int :=
  if v.currentlyKillingVoice = false ∧ v.isVoiceActive = false then 0
  else max 0 (min numSamples v.curPreparedSamples)

/-- The loop state with which `renderNextBlockTemplate` enters its sub-block loop. -/
def loopEntry (E : Ext X) (v : Voice X) (numSamples : Int) : LoopState X :=
  { v := { v with ext := (E.prepareRender v.ext (min numSamples v.curPreparedSamples)).1 }
    block := (E.prepareRender v.ext (min numSamples v.curPreparedSamples)).2
    pos := 0 }

/-- What `renderNextBlockTemplate` returns when its sub-block loop leaves the state `st`. -/
def renderExit (st : LoopState X) (outputBuffer : Buf) (startSample : Nat) (numSamples : Int) :
    Voice X × Buf :=
  if st.v.currentlyKillingVoice = true then
    applyKillRamp st.v (addToOutput outputBuffer startSample numSamples st.block)
      startSample numSamples
  else (st.v, addToOutput outputBuffer startSample numSamples st.block)

/-! ## The envelope loop -/

/-- The collaborators after `k` samples of the envelope loop of a sub-block. -/
def envelopeState (E : Ext X) : Nat → X → X
  | 0, x => x
  | k + 1, x => envelopeState E k (E.ampEnvNext (E.filterEnvNext x).1).1

/-- The value `filterADSR.getNextSample ()` returns at sample `k` (counted from 0) of the
envelope loop of a sub-block entered with the collaborators in state `x`. -/
def filterEnvelopeAt (E : Ext X) (x : X) (k : Nat) : ℚ :=
  (E.filterEnvNext (envelopeState E k x)).2

/-! ## Runs of the render loop -/

/-- The voice `w` is reached from the voice `v` by iterations of the sub-block loop and by
whole render calls. -/
inductive RenderSteps (E : Ext X) (C : Constants) : Voice X → Voice X → Prop
  | refl (v : Voice X) : RenderSteps E C v v
  | subBlock {v : Voice X} {st st1 : LoopState X}
      (r : Voice X → Buf → Nat → Int → Option (Voice X × Buf)) (numSamples : Int) :
      RenderSteps E C v st.v →
      subBlock E C (stopNoteCore E C r false) numSamples st = some st1 →
      RenderSteps E C v st1.v
  | render {v w : Voice X} {res : Voice X × Buf} (out : Buf) (start : Nat) (n : Int) :
      RenderSteps E C v w →
      renderNextBlock E C w out start n = some res →
      RenderSteps E C v res.1

/-- The state in which C4 holds after `setFilterCutoff (x)`: base cutoff `x`, no tilt, no
LFO contribution, another LFO destination than the cutoff, and `clamp (x)` applied. -/
def RoundTripState (C : Constants) (x : ℚ) (v : Voice X) : Prop :=
  v.curFilterCutoff = x ∧ v.tiltCutoff = 0 ∧ v.lfoCutOffContributionHz = 0 ∧
    v.lfoDest ≠ LfoDest.filterCutOff ∧
    v.ladderCutoffHz = jlimit C.cutOffStart C.cutOffEnd x

/-! ## Setters and the lifecycle fields -/

/-- The voices `v` and `w` agree on every field that the note lifecycle and the render loop
use for their control flow. -/
structure SameLifecycle (v w : Voice X) : Prop where
  voiceId : w.voiceId = v.voiceId
  sampleRate : w.sampleRate = v.sampleRate
  currentlyPlayingNote : w.currentlyPlayingNote = v.currentlyPlayingNote
  overlapAllocated : w.overlapAllocated = v.overlapAllocated
  overlap : w.overlap = v.overlap
  overlapIndex : w.overlapIndex = v.overlapIndex
  currentlyKillingVoice : w.currentlyKillingVoice = v.currentlyKillingVoice
  voicesBeingKilled : w.voicesBeingKilled = v.voicesBeingKilled
  currentlyReleasingNote : w.currentlyReleasingNote = v.currentlyReleasingNote
  justDoneReleaseEnvelope : w.justDoneReleaseEnvelope = v.justDoneReleaseEnvelope
  lfoUpdateCounter : w.lfoUpdateCounter = v.lfoUpdateCounter
  rampingUp : w.rampingUp = v.rampingUp
  rampUpSamplesLeft : w.rampUpSamplesLeft = v.rampUpSamplesLeft
  curPreparedSamples : w.curPreparedSamples = v.curPreparedSamples

/-! ## Ramp-up -/

/-- The ramp-up gain of the claim: `k / rampUpSamples` for the `k`-th sample after the note
start while `k < rampUpSamples`, and 1 afterwards. -/
def rampUpGain (C : Constants) (k : Nat) : ℚ :=
  if (k : Int) < C.rampUpSamples then (k : ℚ) / (C.rampUpSamples : ℚ) else 1

/-- What the kill overlap adds to sample `i` of channel `c` of a sub-block of `n` samples:
the scratch sample at the cursor, while the cursor is armed and the scratch lasts. -/
def killTail (C : Constants) (v : Voice X) (n : Int) (c i : Nat) : ℚ :=
  if v.overlapIndex > -1 ∧ (i : Int) < min (C.killRampSamples - v.overlapIndex) n then
    v.overlap c (v.overlapIndex + (i : Int)).toNat
  else 0

/-- The ramp-up fields of a voice that has processed `N` samples since its note start. -/
def RampInv (C : Constants) (N : Nat) (v : Voice X) : Prop :=
  LfoCounterOk v ∧
  ((N : Int) < C.rampUpSamples →
    v.rampingUp = true ∧ v.rampUpSamplesLeft = C.rampUpSamples - (N : Int)) ∧
  (C.rampUpSamples ≤ (N : Int) → v.rampingUp = false)

/-- The voice `v` is reached `N` processed samples after a `startNote`, by sub-block
iterations, render calls, `stopNote` with tail-off and parameter changes, with no forced
kill in between (the `stopNote` that the render loop issues when a release has ended is
part of the sub-block iteration). -/
inductive AfterStart (E : Ext X) (C : Constants) : Nat → Voice X → Prop
  | start (midiNoteNumber : Int) (velocity : ℚ) (pitchWheel : Int) (v : Voice X) :
      LfoCounterOk v → AfterStart E C 0 (startNote E C midiNoteNumber velocity pitchWheel v)
  | head {N : Nat} {v : Voice X} (pos n : Int) :
      AfterStart E C N v → AfterStart E C N (subBlockHead E pos n v).v
  | release {N : Nat} {v : Voice X} :
      AfterStart E C N v → AfterStart E C N (afterRelease E v)
  | subBlock {N : Nat} {st st1 : LoopState X}
      (r : Voice X → Buf → Nat → Int → Option (Voice X × Buf)) (numSamples : Int) :
      AfterStart E C N st.v → st.pos < numSamples →
      subBlock E C (stopNoteCore E C r false) numSamples st = some st1 →
      AfterStart E C (N + (subBlockSize numSamples st).toNat) st1.v
  | render {N : Nat} {v : Voice X} {res : Voice X × Buf} (out : Buf) (start : Nat) (n : Int) :
      AfterStart E C N v → renderNextBlock E C v out start n = some res →
      AfterStart E C (N + (samplesProcessed v n).toNat) res.1
  | tailOff {N : Nat} {v w : Voice X} :
      AfterStart E C N v → stopNote E C true v = some w → AfterStart E C N w
  | parameterChanged {N : Nat} {v : Voice X} (p : ParamId) (x : ℚ) :
      AfterStart E C N v → AfterStart E C N (parameterChanged E C p x v)
  | controllerMoved {N : Nat} {v : Voice X} (c x : Int) :
      AfterStart E C N v → AfterStart E C N (controllerMoved C c x v)
  | pitchWheelMoved {N : Nat} {v : Voice X} (p : Int) :
      AfterStart E C N v → AfterStart E C N (pitchWheelMoved E p v)

/-! ## The forced kill -/

/-- The state in which the kill path of `stopNote` enters its nested render call. -/
def killEntry (v : Voice X) : Voice X :=
  { v with rampingUp := false, overlap := Buf.silence,
           voicesBeingKilled := insert v.voiceId v.voicesBeingKilled,
           currentlyKillingVoice := true }

/-- The state in which the kill path of `stopNote` returns when the sub-block loop of its
nested render call of `n` samples was left in the state `st`. -/
def killExit (st : LoopState X) (n : Int) : Voice X :=
  { st.v with currentlyKillingVoice := false,
              overlap := (applyKillRamp st.v (addToOutput Buf.silence 0 n st.block) 0 n).2,
              overlapIndex := 0,
              justDoneReleaseEnvelope := false,
              currentlyPlayingNote := -1 }

/-! ## The kill window -/

/-- A request to `renderNextBlock`. -/
structure RenderCall where
  outputBuffer : Buf
  startSample : Nat
  numSamples : Int

/-- A sequence of render calls on a voice: the voice afterwards and the number of samples
the calls processed in total. -/
def renderCalls (E : Ext X) (C : Constants) : List RenderCall → Voice X → Option (Voice X × Int)
  | [], v => some (v, 0)
  | call :: calls, v =>
    match renderNextBlock E C v call.outputBuffer call.startSample call.numSamples with
    | none => none
    | some res =>
      match renderCalls E C calls res.1 with
      | none => none
      | some rest => some (rest.1, samplesProcessed v call.numSamples + rest.2)

/-- The kill window of the voice `vId`, `T` processed samples after the cursor was armed:
the scratch buffer is allocated, the cursor counts the samples and the id is in the set
until `killRampSamples` samples have been processed. -/
def KillWindow (C : Constants) (vId : Int) (T : Int) (v : Voice X) : Prop :=
  (LfoCounterOk v ∧ v.overlapAllocated = true) ∧ v.voiceId = vId ∧ 0 ≤ T ∧
  (T < C.killRampSamples → v.overlapIndex = T ∧ vId ∈ v.voicesBeingKilled) ∧
  (C.killRampSamples ≤ T → v.overlapIndex = -1 ∧ vId ∉ v.voicesBeingKilled)

/-! ## Reachable states -/

/-- The states a voice passes through: from construction, through `prepare`, the host
setting the sample rate and starting a note, `startNote`, `stopNote`, render calls and the
setters; the states inside a render call and inside the kill path of `stopNote` (between
the stages of a sub-block iteration) are included.  The kill path is entered with the
scratch buffer allocated: with the pointer `overlap` null, `stopNote` does not get there. -/
inductive Reachable (E : Ext X) (C : Constants) : Voice X → Prop
  | construct (x : X) (vId : Int) (activeVoiceSet : Finset Int) (sampleRate : ℚ) :
      Reachable E C (construct E C x vId activeVoiceSet sampleRate)
  | prepare {v : Voice X} (sampleRate : ℚ) (maximumBlockSize numChannels : Nat) :
      Reachable E C v → Reachable E C (prepare E sampleRate maximumBlockSize numChannels v)
  | setSampleRate {v : Voice X} (newRate : ℚ) :
      Reachable E C v → Reachable E C { v with sampleRate := newRate }
  | hostStartVoice {v : Voice X} (midiNoteNumber : Int) (velocity : ℚ) (pitchWheel : Int) :
      Reachable E C v →
      Reachable E C (startNote E C midiNoteNumber velocity pitchWheel
        { v with currentlyPlayingNote := midiNoteNumber })
  | startNote {v : Voice X} (midiNoteNumber : Int) (velocity : ℚ) (pitchWheel : Int) :
      Reachable E C v → Reachable E C (startNote E C midiNoteNumber velocity pitchWheel v)
  | stopNote {v w : Voice X} (allowTailOff : Bool) :
      Reachable E C v → stopNote E C allowTailOff v = some w → Reachable E C w
  | render {v : Voice X} {res : Voice X × Buf} (out : Buf) (start : Nat) (n : Int) :
      Reachable E C v → renderNextBlock E C v out start n = some res → Reachable E C res.1
  | parameterChanged {v : Voice X} (p : ParamId) (x : ℚ) :
      Reachable E C v → Reachable E C (parameterChanged E C p x v)
  | setAmpParam {v : Voice X} (p : ParamId) (x : ℚ) :
      Reachable E C v → Reachable E C (setAmpParam E p x v)
  | setFilterEnvParam {v : Voice X} (p : ParamId) (x : ℚ) :
      Reachable E C v → Reachable E C (setFilterEnvParam E p x v)
  | setLfoShape {v : Voice X} (s : LfoShape) :
      Reachable E C v → Reachable E C (setLfoShape E s v)
  | setLfoDest {v : Voice X} (d : LfoDest) :
      Reachable E C v → Reachable E C (setLfoDest E d v)
  | setLfoFreq {v : Voice X} (x : ℚ) :
      Reachable E C v → Reachable E C (setLfoFreq E x v)
  | setLfoAmount {v : Voice X} (x : ℚ) :
      Reachable E C v → Reachable E C (setLfoAmount x v)
  | setFilterCutoff {v : Voice X} (x : ℚ) :
      Reachable E C v → Reachable E C (setFilterCutoff C x v)
  | setFilterTiltCutoff {v : Voice X} (x : ℚ) :
      Reachable E C v → Reachable E C (setFilterTiltCutoff C x v)
  | setFilterResonance {v : Voice X} (x : ℚ) :
      Reachable E C v → Reachable E C (setFilterResonance x v)
  | controllerMoved {v : Voice X} (c x : Int) :
      Reachable E C v → Reachable E C (controllerMoved C c x v)
  | pitchWheelMoved {v : Voice X} (p : Int) :
      Reachable E C v → Reachable E C (pitchWheelMoved E p v)
  | killEntry {v : Voice X} :
      Reachable E C v → v.sampleRate ≠ 0 ∧ v.justDoneReleaseEnvelope = false →
      v.overlapAllocated = true → Reachable E C (killEntry v)
  | loopEntry {v : Voice X} (n : Int) :
      Reachable E C v → Reachable E C (loopEntry E v n).v
  | subBlockHead {v : Voice X} (pos n : Int) :
      Reachable E C v → Reachable E C (subBlockHead E pos n v).v
  | afterRelease {v : Voice X} :
      Reachable E C v → Reachable E C (afterRelease E v)
  | processRampUp {v : Voice X} (blk : Buf) (n : Int) :
      Reachable E C v → Reachable E C (processRampUp C v blk n).1
  | subBlock {st st1 : LoopState X}
      (r : Voice X → Buf → Nat → Int → Option (Voice X × Buf)) (numSamples : Int) :
      Reachable E C st.v → st.pos < numSamples →
      subBlock E C (stopNoteCore E C r false) numSamples st = some st1 →
      Reachable E C st1.v

/-- Between the stages of the render loop the LFO counter is in range and the overlap
cursor is `-1` or an index into the scratch buffer. -/
def CursorInv (C : Constants) (v : Voice X) : Prop :=
  LfoCounterOk v ∧
  (v.overlapIndex = -1 ∨ (0 ≤ v.overlapIndex ∧ v.overlapIndex < C.killRampSamples))

/-! ## The nested render of the kill path against a plain render -/

/-- The voice `w` with another scratch buffer, Active-Kill-Set and killing flag. -/
def withKill (o : Buf) (S : Finset Int) (k : Bool) (w : Voice X) : Voice X :=
  { w with overlap := o, voicesBeingKilled := S, currentlyKillingVoice := k }

/-- The loop state `st` with another scratch buffer, Active-Kill-Set and killing flag. -/
def LoopState.withKill (o : Buf) (S : Finset Int) (k : Bool) (st : LoopState X) :
    LoopState X :=
  { st with v := ProPhat.withKill o S k st.v }

/-- The statement `if (rampingUp) processRampUp (oscBlock, subBlockSize)`. -/
def rampUpStage (C : Constants) (a : Voice X × Buf) (n : Int) : Voice X × Buf :=
  if a.1.rampingUp = true then processRampUp C a.1 a.2 n else a

/-- The statement `if (overlapIndex > -1) processKillOverlap (oscBlock, subBlockSize)`. -/
def killOverlapStage (C : Constants) (a : Voice X × Buf) (n : Int) : Voice X × Buf :=
  if a.1.overlapIndex > -1 then processKillOverlap C a.1 a.2 n else a

/-- The LFO counter of the sub-block loop: `lfoUpdateCounter -= subBlockSize` and, at 0,
the reset of the counter and `updateLfo ()`. -/
def lfoStage (E : Ext X) (C : Constants) (v : Voice X) (n : Int) : Voice X :=
  if v.lfoUpdateCounter - n = 0 then
    updateLfo E C { v with lfoUpdateCounter := lfoUpdateRate }
  else { v with lfoUpdateCounter := v.lfoUpdateCounter - n }

/-- The filter cutoff of the sub-block: `curCutOff` and `setFilterCutoffInternal`. -/
def cutoffStage (C : Constants) (v : Voice X) (filterEnvelope : ℚ) : Voice X :=
  setFilterCutoffInternal C v
    ((v.curFilterCutoff + v.tiltCutoff) * (1 + envelopeAmount * filterEnvelope)
      + v.lfoCutOffContributionHz)

/-! ## The LFO destination -/

/-- Modelled from the spec: the LFO note-offset state of the oscillator bank
(`PhatOscillators`, whose source is not part of the sources at hand). The bank holds one
LFO note offset per oscillator; `resetLfoOscNoteOffsets` resets both to the initial
offset, `setLfoOsc1NoteOffset` and `setLfoOsc2NoteOffset` store the offset of their
oscillator and leave the other, and evaluating the LFO does not touch the bank. -/
structure OscBankModel (E : Ext X) where
  lfoOsc1NoteOffset : X → ℚ
  lfoOsc2NoteOffset : X → ℚ
  initialNoteOffset : ℚ
  reset_osc1 : ∀ x, lfoOsc1NoteOffset (E.resetLfoOscNoteOffsets x) = initialNoteOffset
  reset_osc2 : ∀ x, lfoOsc2NoteOffset (E.resetLfoOscNoteOffsets x) = initialNoteOffset
  set1_osc1 : ∀ x q, lfoOsc1NoteOffset (E.setLfoOsc1NoteOffset x q) = q
  set1_osc2 : ∀ x q, lfoOsc2NoteOffset (E.setLfoOsc1NoteOffset x q) = lfoOsc2NoteOffset x
  set2_osc1 : ∀ x q, lfoOsc1NoteOffset (E.setLfoOsc2NoteOffset x q) = lfoOsc1NoteOffset x
  set2_osc2 : ∀ x q, lfoOsc2NoteOffset (E.setLfoOsc2NoteOffset x q) = q
  lfo_osc1 : ∀ x, lfoOsc1NoteOffset (E.lfoProcessSample x).1 = lfoOsc1NoteOffset x
  lfo_osc2 : ∀ x, lfoOsc2NoteOffset (E.lfoProcessSample x).1 = lfoOsc2NoteOffset x

/-- A collaborator state for examples that holds the two LFO note offsets of the
oscillator bank and nothing else. -/
def demoBankExt : Ext (ℚ × ℚ) where
  oscPrepare := fun x _ _ _ => x
  chainPrepare := fun x _ _ _ => x
  ampSetSampleRate := fun x _ => x
  filterSetSampleRate := fun x _ => x
  lfoPrepare := fun x _ _ _ => x
  prepareRender := fun x _ => (x, Buf.silence)
  oscProcess := fun x _ _ => (x, fun _ _ => 1)
  chainProcess := fun x _ _ _ b => (x, b)
  filterEnvNext := fun x => (x, 0)
  ampEnvNext := fun x => (x, 1)
  ampIsActive := fun _ => true
  ampSetParameters := fun x _ => x
  ampReset := fun x => x
  ampNoteOn := fun x => x
  ampNoteOff := fun x => x
  filterSetParameters := fun x _ => x
  filterReset := fun x => x
  filterNoteOn := fun x => x
  filterNoteOff := fun x => x
  updateOscFrequencies := fun x _ _ _ => x
  updateOscLevels := fun x => x
  resetLfoOscNoteOffsets := fun _ => (0, 0)
  setLfoOsc1NoteOffset := fun x q => (q, x.2)
  setLfoOsc2NoteOffset := fun x q => (x.1, q)
  pitchWheelMoved := fun x _ => x
  lfoProcessSample := fun x => (x, 1 / 2)
  lfoInitialise := fun x _ => x
  lfoSetFrequency := fun x _ => x

/-- The oscillator bank of the example collaborators `demoBankExt`. -/
def demoBank : OscBankModel demoBankExt where
  lfoOsc1NoteOffset := fun x => x.1
  lfoOsc2NoteOffset := fun x => x.2
  initialNoteOffset := 0
  reset_osc1 := fun _ => rfl
  reset_osc2 := fun _ => rfl
  set1_osc1 := fun _ _ => rfl
  set1_osc2 := fun _ _ => rfl
  set2_osc1 := fun _ _ => rfl
  set2_osc2 := fun _ _ => rfl
  lfo_osc1 := fun _ => rfl
  lfo_osc2 := fun _ => rfl

/-- An example voice whose oscillator bank holds the LFO note offsets 3 and 5, with the
LFO routed to the pitch of oscillator 1, in the middle of note 60. -/
def demoBankVoice : Voice (ℚ × ℚ) :=
  { startNote demoBankExt (demoConstants 4 4) 60 1 8192
      { prepare demoBankExt 44100 512 2
          (construct demoBankExt (demoConstants 4 4) (3, 5) 7 ∅ 44100) with
        currentlyPlayingNote := 60 } with
    lfoDest := LfoDest.osc1Freq }

/-- The fields of a voice other than the collaborators and the LFO destination. -/
structure SameButLfoDest (v w : Voice X) : Prop where
  lifecycle : SameLifecycle v w
  lfoCutOffContributionHz : w.lfoCutOffContributionHz = v.lfoCutOffContributionHz
  ladderCutoffHz : w.ladderCutoffHz = v.ladderCutoffHz
  ladderCutoffWrites : w.ladderCutoffWrites = v.ladderCutoffWrites
  ladderResonance : w.ladderResonance = v.ladderResonance
  ampParams : w.ampParams = v.ampParams
  filterEnvParams : w.filterEnvParams = v.filterEnvParams
  curFilterCutoff : w.curFilterCutoff = v.curFilterCutoff
  curFilterResonance : w.curFilterResonance = v.curFilterResonance
  lfoAmount : w.lfoAmount = v.lfoAmount
  tiltCutoff : w.tiltCutoff = v.tiltCutoff

/-! ## The end of a release inside the sub-block loop -/

/-- The test `if (currentlyReleasingNote && ! ampADSR.isActive ())` succeeds in the
iteration of the sub-block loop that starts in `st`: the voice is releasing and, after the
envelope loop of the sub-block, the amplitude envelope is no longer active. -/
def releaseEnds (E : Ext X) (numSamples : Int) (st : LoopState X) : Prop :=
  st.v.currentlyReleasingNote = true ∧
  E.ampIsActive (subBlockHead E st.pos (subBlockSize numSamples st) st.v).v.ext = false

/-- The voice has no current note and both release flags are clear. -/
def NoteEnded (v : Voice X) : Prop :=
  v.currentlyPlayingNote = -1 ∧ v.currentlyReleasingNote = false ∧
  v.justDoneReleaseEnvelope = false

/-- Some iteration of the sub-block loop that starts in `st` (with the given fuel) finds
the release ended. -/
def releaseEndsWithin (E : Ext X) (C : Constants) (numSamples : Int) :
    Nat → LoopState X → Prop
  | 0, _ => False
  | fuel + 1, st =>
    st.pos < numSamples ∧
    (releaseEnds E numSamples st ∨
      releaseEndsWithin E C numSamples fuel (subBlockResult E C numSamples st))

/-! ## States between public operations -/

/-- The states of a voice between public operations: from construction, through
`prepare`, the host setting the sample rate and starting a note, `startNote`, `stopNote`
(with and without tail-off), render calls, parameter changes and controller moves. -/
inductive BetweenOps (E : Ext X) (C : Constants) : Voice X → Prop
  | construct (x : X) (vId : Int) (activeVoiceSet : Finset Int) (sampleRate : ℚ) :
      BetweenOps E C (construct E C x vId activeVoiceSet sampleRate)
  | prepare {v : Voice X} (sampleRate : ℚ) (maximumBlockSize numChannels : Nat) :
      BetweenOps E C v → BetweenOps E C (prepare E sampleRate maximumBlockSize numChannels v)
  | setSampleRate {v : Voice X} (newRate : ℚ) :
      BetweenOps E C v → BetweenOps E C { v with sampleRate := newRate }
  | hostStartVoice {v : Voice X} (midiNoteNumber : Int) (velocity : ℚ) (pitchWheel : Int) :
      BetweenOps E C v →
      BetweenOps E C (startNote E C midiNoteNumber velocity pitchWheel
        { v with currentlyPlayingNote := midiNoteNumber })
  | startNote {v : Voice X} (midiNoteNumber : Int) (velocity : ℚ) (pitchWheel : Int) :
      BetweenOps E C v → BetweenOps E C (startNote E C midiNoteNumber velocity pitchWheel v)
  | stopNote {v w : Voice X} (allowTailOff : Bool) :
      BetweenOps E C v → stopNote E C allowTailOff v = some w → BetweenOps E C w
  | render {v : Voice X} {res : Voice X × Buf} (out : Buf) (start : Nat) (n : Int) :
      BetweenOps E C v → renderNextBlock E C v out start n = some res → BetweenOps E C res.1
  | parameterChanged {v : Voice X} (p : ParamId) (x : ℚ) :
      BetweenOps E C v → BetweenOps E C (parameterChanged E C p x v)
  | controllerMoved {v : Voice X} (c x : Int) :
      BetweenOps E C v → BetweenOps E C (controllerMoved C c x v)
  | pitchWheelMoved {v : Voice X} (p : Int) :
      BetweenOps E C v → BetweenOps E C (pitchWheelMoved E p v)

/-- What holds between public operations: the LFO counter is in range, the killing flag is
clear, and a positive ramp-up countdown on a sounding voice means the ramp-up is armed. -/
def PublicInv (v : Voice X) : Prop :=
  LfoCounterOk v ∧ v.currentlyKillingVoice = false ∧
  (v.rampingUp = false → 0 < v.rampUpSamplesLeft → v.isVoiceActive = false)

/-! ## The four lifecycle conditions -/

/-- The lifecycle condition "killing" in the words of the specification: killing flag set
or overlap cursor non-negative. -/
def isKilling (v : Voice X) : Prop :=
  v.currentlyKillingVoice = true ∨ 0 ≤ v.overlapIndex

/-- The lifecycle condition "idle" in the words of the specification: no current note and
no kill window. -/
def isIdle (v : Voice X) : Prop :=
  v.isVoiceActive = false ∧ ¬ isKilling v

/-- The lifecycle condition "sounding" in the words of the specification: note active, not
releasing. -/
def isSounding (v : Voice X) : Prop :=
  v.isVoiceActive = true ∧ v.currentlyReleasingNote = false

/-- The lifecycle condition "releasing" in the words of the specification:
`currentlyReleasingNote` set. -/
def isReleasing (v : Voice X) : Prop :=
  v.currentlyReleasingNote = true

/-- Exactly one of four conditions holds. -/
def ExactlyOne (a b c d : Prop) : Prop :=
  (a ∧ ¬ b ∧ ¬ c ∧ ¬ d) ∨ (¬ a ∧ b ∧ ¬ c ∧ ¬ d) ∨ (¬ a ∧ ¬ b ∧ c ∧ ¬ d) ∨
    (¬ a ∧ ¬ b ∧ ¬ c ∧ d)

/-- Exactly one of the four lifecycle conditions holds for the voice. -/
def OneLifecycleCondition (v : Voice X) : Prop :=
  ExactlyOne (isIdle v) (isSounding v) (isReleasing v) (isKilling v)

/-! ## The end of a release inside a render call -/

/-- The example collaborators with an amplitude envelope that has run out. -/
def demoExtEnded : Ext Nat :=
  { demoExt 0 1 with ampIsActive := fun _ => false }

/-! ## Render calls and the prepared block size -/

/-- The loop states of a render call of `numSamples` samples that enters its sub-block loop
in `st0`: `st0` and what the iterations make of it. -/
inductive LoopReach (E : Ext X) (C : Constants) (numSamples : Int) (st0 : LoopState X) :
    LoopState X → Prop
  | entry : LoopReach E C numSamples st0 st0
  | step {st : LoopState X} :
      LoopReach E C numSamples st0 st → st.pos < numSamples →
      LoopReach E C numSamples st0 (subBlockResult E C numSamples st)

/-! ## The envelope parameters -/

/-- Both envelopes have a strictly positive sustain level. -/
def SustainPositive (v : Voice X) : Prop :=
  0 < v.ampParams.sustain ∧ 0 < v.filterEnvParams.sustain

/-- The voices `v` and `w` hold the same parameter values. -/
structure SameParams (v w : Voice X) : Prop where
  ampParams : w.ampParams = v.ampParams
  filterEnvParams : w.filterEnvParams = v.filterEnvParams
  lfoDest : w.lfoDest = v.lfoDest
  lfoAmount : w.lfoAmount = v.lfoAmount
  curFilterCutoff : w.curFilterCutoff = v.curFilterCutoff
  curFilterResonance : w.curFilterResonance = v.curFilterResonance
  tiltCutoff : w.tiltCutoff = v.tiltCutoff

/-! ## What the LFO leaves behind when its destination changes -/

/-- The voice `w` is reached from the voice `v` by iterations of the sub-block loop, render
calls, note starts and stops, controller and pitch-wheel moves and parameter changes other
than the LFO destination and the filter resonance. -/
inductive LaterWithSameRouting (E : Ext X) (C : Constants) : Voice X → Voice X → Prop
  | refl (v : Voice X) : LaterWithSameRouting E C v v
  | subBlock {v : Voice X} {st : LoopState X} (numSamples : Int) :
      LaterWithSameRouting E C v st.v →
      LaterWithSameRouting E C v (subBlockResult E C numSamples st).v
  | render {v w : Voice X} {res : Voice X × Buf} (out : Buf) (start : Nat) (n : Int) :
      LaterWithSameRouting E C v w → renderNextBlock E C w out start n = some res →
      LaterWithSameRouting E C v res.1
  | hostStartVoice {v w : Voice X} (midiNoteNumber : Int) (velocity : ℚ) (pitchWheel : Int) :
      LaterWithSameRouting E C v w →
      LaterWithSameRouting E C v (startNote E C midiNoteNumber velocity pitchWheel
        { w with currentlyPlayingNote := midiNoteNumber })
  | startNote {v w : Voice X} (midiNoteNumber : Int) (velocity : ℚ) (pitchWheel : Int) :
      LaterWithSameRouting E C v w →
      LaterWithSameRouting E C v (startNote E C midiNoteNumber velocity pitchWheel w)
  | stopNote {v w u : Voice X} (allowTailOff : Bool) :
      LaterWithSameRouting E C v w → stopNote E C allowTailOff w = some u →
      LaterWithSameRouting E C v u
  | parameterChanged {v w : Voice X} (p : ParamId) (x : ℚ) :
      LaterWithSameRouting E C v w → p ≠ ParamId.lfoDestID → p ≠ ParamId.filterResonanceID →
      LaterWithSameRouting E C v (parameterChanged E C p x w)
  | controllerMoved {v w : Voice X} (c x : Int) :
      LaterWithSameRouting E C v w → LaterWithSameRouting E C v (controllerMoved C c x w)
  | pitchWheelMoved {v w : Voice X} (p : Int) :
      LaterWithSameRouting E C v w → LaterWithSameRouting E C v (pitchWheelMoved E p w)

/-- From `a` to `b` the LFO destination is kept, and so is what the LFO last wrote to a
destination other than the current one: the cutoff contribution and the resonance applied
to the filter. -/
def RoutingKept (a b : Voice X) : Prop :=
  b.lfoDest = a.lfoDest ∧
  (a.lfoDest ≠ LfoDest.filterCutOff →
    b.lfoCutOffContributionHz = a.lfoCutOffContributionHz) ∧
  (a.lfoDest ≠ LfoDest.filterResonance → b.ladderResonance = a.ladderResonance)

/-! ## The iterations of the sub-block loop -/

/-- The loop states in which the iterations of the sub-block loop start, in order, when
the loop is entered in `st` with the given fuel. -/
def loopTrace (E : Ext X) (C : Constants) (numSamples : Int) :
    Nat → LoopState X → List (LoopState X)
  | 0, _ => []
  | fuel + 1, st =>
    if st.pos < numSamples then
      st :: loopTrace E C numSamples fuel (subBlockResult E C numSamples st)
    else []

/-- The loop states in which the iterations of the sub-block loop of a render call start:
none when the call returns at once. -/
def renderTrace (E : Ext X) (C : Constants) (v : Voice X) (numSamples : Int) :
    List (LoopState X) :=
  if v.currentlyKillingVoice = false ∧ v.isVoiceActive = false then []
  else
    loopTrace E C (min numSamples v.curPreparedSamples)
      (min numSamples v.curPreparedSamples).toNat (loopEntry E v numSamples)

/-- The iteration that starts in `st` takes the branch `if (lfoUpdateCounter == 0)` after
`lfoUpdateCounter -= subBlockSize`, that is, it calls `updateLfo ()`. -/
def lfoTicks (numSamples : Int) (st : LoopState X) : Bool :=
  decide (st.v.lfoUpdateCounter - subBlockSize numSamples st = 0)

/-- The number of calls of `updateLfo ()` in the iterations that start in the given loop
states. -/
def lfoUpdatesOf (numSamples : Int) (trace : List (LoopState X)) : Nat :=
  trace.countP (lfoTicks numSamples)

/-- The number of calls of `updateLfo ()` in a sequence of render calls. -/
def renderCallsLfoUpdates (E : Ext X) (C : Constants) : List RenderCall → Voice X → Nat
  | [], _ => 0
  | call :: calls, v =>
    match renderNextBlock E C v call.outputBuffer call.startSample call.numSamples with
    | none => 0
    | some res =>
      lfoUpdatesOf (min call.numSamples v.curPreparedSamples)
          (renderTrace E C v call.numSamples)
        + renderCallsLfoUpdates E C calls res.1

/-- The voice of an iteration of the sub-block loop when it reaches the statement
`lfoUpdateCounter -= subBlockSize`: after the oscillators, the effect chain, the envelopes,
the release check, the ramp-up and the kill overlap. -/
def beforeLfoStage (E : Ext X) (C : Constants) (numSamples : Int) (st : LoopState X) :
    Voice X :=
  (killOverlapStage C
    (rampUpStage C
      (afterRelease E (subBlockHead E st.pos (subBlockSize numSamples st) st.v).v,
        (subBlockHead E st.pos (subBlockSize numSamples st) st.v).blk)
      (subBlockSize numSamples st))
    (subBlockSize numSamples st)).1

/-! ## The kill overlap, sample by sample -/

/-- The samples of the sub-block of the iteration that starts in `st` after the
oscillators, the effect chain, the amplitude envelope and the ramp-up, before the kill
overlap. -/
def freshSamples (E : Ext X) (C : Constants) (numSamples : Int) (st : LoopState X) : Buf :=
  (rampUpStage C
    (afterRelease E (subBlockHead E st.pos (subBlockSize numSamples st) st.v).v,
      (subBlockHead E st.pos (subBlockSize numSamples st) st.v).blk)
    (subBlockSize numSamples st)).2

/-- The samples of the sub-block of the iteration that starts in `st` when the iteration
ends. -/
def mixedSamples (E : Ext X) (C : Constants) (numSamples : Int) (st : LoopState X) : Buf :=
  (subBlockTail E C (subBlockSize numSamples st)
    (subBlockHead E st.pos (subBlockSize numSamples st) st.v).filterEnvelope
    (afterRelease E (subBlockHead E st.pos (subBlockSize numSamples st) st.v).v)
    (subBlockHead E st.pos (subBlockSize numSamples st) st.v).blk).2

/-! ## The LFO shape functions -/

/-- The function `setLfoShape` installs for `LfoShape::triangle`:
`(std::sin (x) + 1) / 2`; `sin` stands for `std::sin`. -/
def lfoTriangle (sin : ℚ → ℚ) (x : ℚ) : ℚ := (sin x + 1) / 2

/-- The function `setLfoShape` installs for `LfoShape::saw`:
`jmap (x, -pi, pi, 0, 1)`; `pi` stands for `MathConstants<T>::pi`. -/
def lfoSaw (pi : ℚ) (x : ℚ) : ℚ := jmap x (-pi) pi 0 1

/-- The function `setLfoShape` installs for `LfoShape::square`. -/
def lfoSquare (x : ℚ) : ℚ := if x < 0 then 0 else 1

/-- What the function installed for `LfoShape::random` captures of the voice: the random
generator `rng`, the held value `randomValue` and the flag `valueWasBig`. `draws` counts the
calls of `rng.nextFloat ()`; it is not a field of the source. -/
structure RandomLfo (R : Type) where
  rng : R
  randomValue : ℚ
  valueWasBig : Bool
  draws : Nat

/-- The member initialisers `randomValue = 0.f` and `valueWasBig = false`. -/
def RandomLfo.initial {R : Type} (rng : R) : RandomLfo R :=
  { rng := rng, randomValue := 0, valueWasBig := false, draws := 0 }

/-- The function `setLfoShape` installs for `LfoShape::random`, with the state it reads and
writes made explicit; `nextFloat` stands for `juce::Random::nextFloat`. -/
def lfoRandom {R : Type} (nextFloat : R → R × ℚ) (s : RandomLfo R) (x : ℚ) :
    RandomLfo R × ℚ :=
  if x ≤ 0 ∧ s.valueWasBig = true then
    let d := nextFloat s.rng
    ({ rng := d.1, randomValue := d.2, valueWasBig := false, draws := s.draws + 1 }, d.2)
  else if x > 0 ∧ s.valueWasBig = false then
    let d := nextFloat s.rng
    ({ rng := d.1, randomValue := d.2, valueWasBig := true, draws := s.draws + 1 }, d.2)
  else (s, s.randomValue)

/-- The function that `setLfoShape` hands to `lfo.initialise` for a shape, acting on the
state of the random shape; `none` for a shape that reaches `default:`. -/
def lfoShapeFunction {R : Type} (sin : ℚ → ℚ) (pi : ℚ) (nextFloat : R → R × ℚ) :
    LfoShape → Option (RandomLfo R → ℚ → RandomLfo R × ℚ)
  | LfoShape.triangle => some (fun s x => (s, lfoTriangle sin x))
  | LfoShape.saw => some (fun s x => (s, lfoSaw pi x))
  | LfoShape.square => some (fun s x => (s, lfoSquare x))
  | LfoShape.random => some (lfoRandom nextFloat)
  | LfoShape.unrecognised _ => none

/-- Successive evaluations of the random shape at the phases `xs`: the state afterwards and
the values returned, in order. -/
def lfoRandomRun {R : Type} (nextFloat : R → R × ℚ) : List ℚ → RandomLfo R →
    RandomLfo R × List ℚ
  | [], s => (s, [])
  | x :: xs, s =>
    let r := lfoRandom nextFloat s x
    let rest := lfoRandomRun nextFloat xs r.1
    (rest.1, r.2 :: rest.2)

/-- The number of changes of sign class (`x > 0` against `x ≤ 0`) along the phases `xs`,
starting from the class `big`. -/
def signClassChanges : Bool → List ℚ → Nat
  | _, [] => 0
  | big, x :: xs =>
    (if decide (x > 0) = big then 0 else 1) + signClassChanges (decide (x > 0)) xs

/-- An example random generator: a counter whose values are 0, 1/4, 1/2, 3/4 in turn. -/
def demoNextFloat (r : Nat) : Nat × ℚ := (r + 1, ((r % 4 : Nat) : ℚ) / 4)

/-- The held value of the random shape lies in `[0, 1)`. -/
def HeldInUnit {R : Type} (s : RandomLfo R) : Prop :=
  0 ≤ s.randomValue ∧ s.randomValue < 1

/-! # Theorems -/

/-! ## Basic facts -/

theorem jlimit_ge {lo hi : ℚ} (h : lo ≤ hi) (x : ℚ) : lo ≤ jlimit lo hi x := by
  unfold jlimit
  split_ifs with h1 h2
  · exact le_refl lo
  · exact h
  · exact not_lt.mp h1

theorem jlimit_le {lo hi : ℚ} (h : lo ≤ hi) (x : ℚ) : jlimit lo hi x ≤ hi := by
  unfold jlimit
  split_ifs with h1 h2
  · exact h
  · exact le_refl hi
  · exact not_lt.mp h2

theorem floatEpsilon_pos : 0 < floatEpsilon := by
  unfold floatEpsilon
  norm_num

theorem setFilterCutoffInternal_inRange (C : Constants) (h : C.cutOffStart ≤ C.cutOffEnd)
    (v : Voice X) (x : ℚ) : CutoffInRange C (setFilterCutoffInternal C v x) :=
  ⟨jlimit_ge h x, jlimit_le h x⟩

theorem setFilterResonanceInternal_inRange (v : Voice X) (x : ℚ) :
    ResonanceInRange (setFilterResonanceInternal v x) :=
  ⟨jlimit_ge zero_le_one x, jlimit_le zero_le_one x⟩

theorem subBlockTail_inRange (E : Ext X) (C : Constants) (h : C.cutOffStart ≤ C.cutOffEnd)
    (n : Int) (fe : ℚ) (v : Voice X) (blk : Buf) :
    CutoffInRange C (subBlockTail E C n fe v blk).1 := by
  unfold subBlockTail
  exact setFilterCutoffInternal_inRange C h _ _

theorem subBlock_some {E : Ext X} {C : Constants} {stop : Voice X → Option (Voice X)}
    {numSamples : Int} {st st1 : LoopState X}
    (hs : subBlock E C stop numSamples st = some st1) :
    ∃ v1, releaseCheck E stop
        (subBlockHead E st.pos (subBlockSize numSamples st) st.v).v = some v1 ∧
      st1 =
        { v := (subBlockTail E C (subBlockSize numSamples st)
                  (subBlockHead E st.pos (subBlockSize numSamples st) st.v).filterEnvelope v1
                  (subBlockHead E st.pos (subBlockSize numSamples st) st.v).blk).1
          block := writeSubBlock st (subBlockSize numSamples st)
                    (subBlockTail E C (subBlockSize numSamples st)
                      (subBlockHead E st.pos (subBlockSize numSamples st) st.v).filterEnvelope v1
                      (subBlockHead E st.pos (subBlockSize numSamples st) st.v).blk).2
          pos := st.pos + subBlockSize numSamples st } := by
  dsimp only [subBlock] at hs
  cases hrc : releaseCheck E stop (subBlockHead E st.pos (subBlockSize numSamples st) st.v).v with
  | none => rw [hrc] at hs; exact absurd hs (by simp)
  | some v1 =>
    rw [hrc] at hs
    dsimp only at hs
    split_ifs at hs
    simp only [Option.some.injEq] at hs
    exact ⟨v1, rfl, hs.symm⟩

theorem subBlock_inRange (E : Ext X) (C : Constants) (h : C.cutOffStart ≤ C.cutOffEnd)
    (stop : Voice X → Option (Voice X)) (numSamples : Int) (st st1 : LoopState X)
    (hs : subBlock E C stop numSamples st = some st1) : CutoffInRange C st1.v := by
  obtain ⟨v1, _, rfl⟩ := subBlock_some hs
  exact subBlockTail_inRange E C h _ _ _ _

/-! ## The nested `stopNote` of the render loop -/

theorem stopNoteCore_justDone (E : Ext X) (C : Constants)
    (r : Voice X → Buf → Nat → Int → Option (Voice X × Buf)) (v : Voice X)
    (h : v.justDoneReleaseEnvelope = true) :
    stopNoteCore E C r false v
      = some { v with justDoneReleaseEnvelope := false, currentlyPlayingNote := -1 } := by
  simp [stopNoteCore, h]

theorem releaseCheck_stopNoteCore (E : Ext X) (C : Constants)
    (r : Voice X → Buf → Nat → Int → Option (Voice X × Buf)) (v : Voice X) :
    releaseCheck E (stopNoteCore E C r false) v = some (afterRelease E v) := by
  unfold releaseCheck afterRelease
  split_ifs with h
  · rw [stopNoteCore_justDone E C r _ rfl]
  · rfl

/-- An iteration of the sub-block loop in terms of `subBlockResult`: it returns unless the
cursor is armed, with a sample of the scratch buffer to read, and the pointer `overlap` is
null. -/
theorem subBlock_eq (E : Ext X) (C : Constants)
    (r : Voice X → Buf → Nat → Int → Option (Voice X × Buf)) (numSamples : Int)
    (st : LoopState X) :
    subBlock E C (stopNoteCore E C r false) numSamples st
      = if st.v.overlapIndex > -1 ∧ st.v.overlapAllocated = false ∧
            0 < min (C.killRampSamples - st.v.overlapIndex) (subBlockSize numSamples st)
          then none
        else some (subBlockResult E C numSamples st) := by
  unfold subBlock
  simp only [releaseCheck_stopNoteCore]
  have h1 : (afterRelease E
      (subBlockHead E st.pos (subBlockSize numSamples st) st.v).v).overlapIndex
      = st.v.overlapIndex := by
    unfold afterRelease; split_ifs <;> rfl
  have h2 : (afterRelease E
      (subBlockHead E st.pos (subBlockSize numSamples st) st.v).v).overlapAllocated
      = st.v.overlapAllocated := by
    unfold afterRelease; split_ifs <;> rfl
  rw [h1, h2]
  rfl

theorem subBlock_stopNoteCore (E : Ext X) (C : Constants)
    (r : Voice X → Buf → Nat → Int → Option (Voice X × Buf)) (numSamples : Int)
    (st : LoopState X) (hA : ScratchOk st.v) :
    subBlock E C (stopNoteCore E C r false) numSamples st
      = some (subBlockResult E C numSamples st) := by
  rw [subBlock_eq, if_neg]
  rintro ⟨h1, h2, _⟩
  rw [hA h1] at h2
  exact absurd h2 (by decide)

/-- An iteration of the sub-block loop that returns found the scratch buffer it needed and
returns `subBlockResult`. -/
theorem subBlock_of_some (E : Ext X) (C : Constants)
    (r : Voice X → Buf → Nat → Int → Option (Voice X × Buf)) (numSamples : Int)
    (st st1 : LoopState X)
    (hs : subBlock E C (stopNoteCore E C r false) numSamples st = some st1) :
    st1 = subBlockResult E C numSamples st ∧
      ¬ (st.v.overlapIndex > -1 ∧ st.v.overlapAllocated = false ∧
        0 < min (C.killRampSamples - st.v.overlapIndex) (subBlockSize numSamples st)) := by
  rw [subBlock_eq] at hs
  split_ifs at hs with h
  simp only [Option.some.injEq] at hs
  exact ⟨hs.symm, h⟩

/-- With the cursor armed, a sample of the scratch buffer to read and the pointer `overlap`
null an iteration of the sub-block loop does not return. -/
theorem subBlock_null (E : Ext X) (C : Constants)
    (r : Voice X → Buf → Nat → Int → Option (Voice X × Buf)) (numSamples : Int)
    (st : LoopState X) (h1 : st.v.overlapIndex > -1) (h2 : st.v.overlapAllocated = false)
    (h3 : 0 < min (C.killRampSamples - st.v.overlapIndex) (subBlockSize numSamples st)) :
    subBlock E C (stopNoteCore E C r false) numSamples st = none := by
  rw [subBlock_eq, if_pos ⟨h1, h2, h3⟩]

/-! ## Frame lemmas: the fields a stage of the sub-block loop leaves alone -/

@[simp] theorem setFilterCutoffInternal_ext (C : Constants) (v : Voice X) (x : ℚ) :
    (setFilterCutoffInternal C v x).ext = v.ext := rfl

@[simp] theorem setFilterCutoffInternal_voiceId (C : Constants) (v : Voice X) (x : ℚ) :
    (setFilterCutoffInternal C v x).voiceId = v.voiceId := rfl

@[simp] theorem setFilterCutoffInternal_sampleRate (C : Constants) (v : Voice X) (x : ℚ) :
    (setFilterCutoffInternal C v x).sampleRate = v.sampleRate := rfl

@[simp] theorem setFilterCutoffInternal_currentlyPlayingNote (C : Constants) (v : Voice X) (x : ℚ) :
    (setFilterCutoffInternal C v x).currentlyPlayingNote = v.currentlyPlayingNote := rfl

@[simp] theorem setFilterCutoffInternal_lfoCutOffContributionHz (C : Constants) (v : Voice X) (x : ℚ) :
    (setFilterCutoffInternal C v x).lfoCutOffContributionHz = v.lfoCutOffContributionHz := rfl

@[simp] theorem setFilterCutoffInternal_overlap (C : Constants) (v : Voice X) (x : ℚ) :
    (setFilterCutoffInternal C v x).overlap = v.overlap := rfl

@[simp] theorem setFilterCutoffInternal_overlapIndex (C : Constants) (v : Voice X) (x : ℚ) :
    (setFilterCutoffInternal C v x).overlapIndex = v.overlapIndex := rfl

@[simp] theorem setFilterCutoffInternal_currentlyKillingVoice (C : Constants) (v : Voice X) (x : ℚ) :
    (setFilterCutoffInternal C v x).currentlyKillingVoice = v.currentlyKillingVoice := rfl

@[simp] theorem setFilterCutoffInternal_voicesBeingKilled (C : Constants) (v : Voice X) (x : ℚ) :
    (setFilterCutoffInternal C v x).voicesBeingKilled = v.voicesBeingKilled := rfl

@[simp] theorem setFilterCutoffInternal_ladderResonance (C : Constants) (v : Voice X) (x : ℚ) :
    (setFilterCutoffInternal C v x).ladderResonance = v.ladderResonance := rfl

@[simp] theorem setFilterCutoffInternal_ampParams (C : Constants) (v : Voice X) (x : ℚ) :
    (setFilterCutoffInternal C v x).ampParams = v.ampParams := rfl

@[simp] theorem setFilterCutoffInternal_filterEnvParams (C : Constants) (v : Voice X) (x : ℚ) :
    (setFilterCutoffInternal C v x).filterEnvParams = v.filterEnvParams := rfl

@[simp] theorem setFilterCutoffInternal_currentlyReleasingNote (C : Constants) (v : Voice X) (x : ℚ) :
    (setFilterCutoffInternal C v x).currentlyReleasingNote = v.currentlyReleasingNote := rfl

@[simp] theorem setFilterCutoffInternal_justDoneReleaseEnvelope (C : Constants) (v : Voice X) (x : ℚ) :
    (setFilterCutoffInternal C v x).justDoneReleaseEnvelope = v.justDoneReleaseEnvelope := rfl

@[simp] theorem setFilterCutoffInternal_curFilterCutoff (C : Constants) (v : Voice X) (x : ℚ) :
    (setFilterCutoffInternal C v x).curFilterCutoff = v.curFilterCutoff := rfl

@[simp] theorem setFilterCutoffInternal_curFilterResonance (C : Constants) (v : Voice X) (x : ℚ) :
    (setFilterCutoffInternal C v x).curFilterResonance = v.curFilterResonance := rfl

@[simp] theorem setFilterCutoffInternal_lfoUpdateCounter (C : Constants) (v : Voice X) (x : ℚ) :
    (setFilterCutoffInternal C v x).lfoUpdateCounter = v.lfoUpdateCounter := rfl

@[simp] theorem setFilterCutoffInternal_lfoAmount (C : Constants) (v : Voice X) (x : ℚ) :
    (setFilterCutoffInternal C v x).lfoAmount = v.lfoAmount := rfl

@[simp] theorem setFilterCutoffInternal_lfoDest (C : Constants) (v : Voice X) (x : ℚ) :
    (setFilterCutoffInternal C v x).lfoDest = v.lfoDest := rfl

@[simp] theorem setFilterCutoffInternal_rampingUp (C : Constants) (v : Voice X) (x : ℚ) :
    (setFilterCutoffInternal C v x).rampingUp = v.rampingUp := rfl

@[simp] theorem setFilterCutoffInternal_rampUpSamplesLeft (C : Constants) (v : Voice X) (x : ℚ) :
    (setFilterCutoffInternal C v x).rampUpSamplesLeft = v.rampUpSamplesLeft := rfl

@[simp] theorem setFilterCutoffInternal_tiltCutoff (C : Constants) (v : Voice X) (x : ℚ) :
    (setFilterCutoffInternal C v x).tiltCutoff = v.tiltCutoff := rfl

@[simp] theorem setFilterCutoffInternal_curPreparedSamples (C : Constants) (v : Voice X) (x : ℚ) :
    (setFilterCutoffInternal C v x).curPreparedSamples = v.curPreparedSamples := rfl

@[simp] theorem setFilterCutoffInternal_overlapAllocated (C : Constants) (v : Voice X) (x : ℚ) :
    (setFilterCutoffInternal C v x).overlapAllocated = v.overlapAllocated := rfl

@[simp] theorem setFilterResonanceInternal_ext (v : Voice X) (x : ℚ) :
    (setFilterResonanceInternal v x).ext = v.ext := rfl

@[simp] theorem setFilterResonanceInternal_voiceId (v : Voice X) (x : ℚ) :
    (setFilterResonanceInternal v x).voiceId = v.voiceId := rfl

@[simp] theorem setFilterResonanceInternal_sampleRate (v : Voice X) (x : ℚ) :
    (setFilterResonanceInternal v x).sampleRate = v.sampleRate := rfl

@[simp] theorem setFilterResonanceInternal_currentlyPlayingNote (v : Voice X) (x : ℚ) :
    (setFilterResonanceInternal v x).currentlyPlayingNote = v.currentlyPlayingNote := rfl

@[simp] theorem setFilterResonanceInternal_lfoCutOffContributionHz (v : Voice X) (x : ℚ) :
    (setFilterResonanceInternal v x).lfoCutOffContributionHz = v.lfoCutOffContributionHz := rfl

@[simp] theorem setFilterResonanceInternal_overlap (v : Voice X) (x : ℚ) :
    (setFilterResonanceInternal v x).overlap = v.overlap := rfl

@[simp] theorem setFilterResonanceInternal_overlapIndex (v : Voice X) (x : ℚ) :
    (setFilterResonanceInternal v x).overlapIndex = v.overlapIndex := rfl

@[simp] theorem setFilterResonanceInternal_currentlyKillingVoice (v : Voice X) (x : ℚ) :
    (setFilterResonanceInternal v x).currentlyKillingVoice = v.currentlyKillingVoice := rfl

@[simp] theorem setFilterResonanceInternal_voicesBeingKilled (v : Voice X) (x : ℚ) :
    (setFilterResonanceInternal v x).voicesBeingKilled = v.voicesBeingKilled := rfl

@[simp] theorem setFilterResonanceInternal_ladderCutoffHz (v : Voice X) (x : ℚ) :
    (setFilterResonanceInternal v x).ladderCutoffHz = v.ladderCutoffHz := rfl

@[simp] theorem setFilterResonanceInternal_ladderCutoffWrites (v : Voice X) (x : ℚ) :
    (setFilterResonanceInternal v x).ladderCutoffWrites = v.ladderCutoffWrites := rfl

@[simp] theorem setFilterResonanceInternal_ampParams (v : Voice X) (x : ℚ) :
    (setFilterResonanceInternal v x).ampParams = v.ampParams := rfl

@[simp] theorem setFilterResonanceInternal_filterEnvParams (v : Voice X) (x : ℚ) :
    (setFilterResonanceInternal v x).filterEnvParams = v.filterEnvParams := rfl

@[simp] theorem setFilterResonanceInternal_currentlyReleasingNote (v : Voice X) (x : ℚ) :
    (setFilterResonanceInternal v x).currentlyReleasingNote = v.currentlyReleasingNote := rfl

@[simp] theorem setFilterResonanceInternal_justDoneReleaseEnvelope (v : Voice X) (x : ℚ) :
    (setFilterResonanceInternal v x).justDoneReleaseEnvelope = v.justDoneReleaseEnvelope := rfl

@[simp] theorem setFilterResonanceInternal_curFilterCutoff (v : Voice X) (x : ℚ) :
    (setFilterResonanceInternal v x).curFilterCutoff = v.curFilterCutoff := rfl

@[simp] theorem setFilterResonanceInternal_curFilterResonance (v : Voice X) (x : ℚ) :
    (setFilterResonanceInternal v x).curFilterResonance = v.curFilterResonance := rfl

@[simp] theorem setFilterResonanceInternal_lfoUpdateCounter (v : Voice X) (x : ℚ) :
    (setFilterResonanceInternal v x).lfoUpdateCounter = v.lfoUpdateCounter := rfl

@[simp] theorem setFilterResonanceInternal_lfoAmount (v : Voice X) (x : ℚ) :
    (setFilterResonanceInternal v x).lfoAmount = v.lfoAmount := rfl

@[simp] theorem setFilterResonanceInternal_lfoDest (v : Voice X) (x : ℚ) :
    (setFilterResonanceInternal v x).lfoDest = v.lfoDest := rfl

@[simp] theorem setFilterResonanceInternal_rampingUp (v : Voice X) (x : ℚ) :
    (setFilterResonanceInternal v x).rampingUp = v.rampingUp := rfl

@[simp] theorem setFilterResonanceInternal_rampUpSamplesLeft (v : Voice X) (x : ℚ) :
    (setFilterResonanceInternal v x).rampUpSamplesLeft = v.rampUpSamplesLeft := rfl

@[simp] theorem setFilterResonanceInternal_tiltCutoff (v : Voice X) (x : ℚ) :
    (setFilterResonanceInternal v x).tiltCutoff = v.tiltCutoff := rfl

@[simp] theorem setFilterResonanceInternal_curPreparedSamples (v : Voice X) (x : ℚ) :
    (setFilterResonanceInternal v x).curPreparedSamples = v.curPreparedSamples := rfl

@[simp] theorem setFilterResonanceInternal_overlapAllocated (v : Voice X) (x : ℚ) :
    (setFilterResonanceInternal v x).overlapAllocated = v.overlapAllocated := rfl

@[simp] theorem updateLfo_voiceId (E : Ext X) (C : Constants) (v : Voice X) :
    (updateLfo E C v).voiceId = v.voiceId := by
  unfold updateLfo; dsimp only; split <;> rfl

@[simp] theorem updateLfo_sampleRate (E : Ext X) (C : Constants) (v : Voice X) :
    (updateLfo E C v).sampleRate = v.sampleRate := by
  unfold updateLfo; dsimp only; split <;> rfl

@[simp] theorem updateLfo_currentlyPlayingNote (E : Ext X) (C : Constants) (v : Voice X) :
    (updateLfo E C v).currentlyPlayingNote = v.currentlyPlayingNote := by
  unfold updateLfo; dsimp only; split <;> rfl

@[simp] theorem updateLfo_overlap (E : Ext X) (C : Constants) (v : Voice X) :
    (updateLfo E C v).overlap = v.overlap := by
  unfold updateLfo; dsimp only; split <;> rfl

@[simp] theorem updateLfo_overlapIndex (E : Ext X) (C : Constants) (v : Voice X) :
    (updateLfo E C v).overlapIndex = v.overlapIndex := by
  unfold updateLfo; dsimp only; split <;> rfl

@[simp] theorem updateLfo_currentlyKillingVoice (E : Ext X) (C : Constants) (v : Voice X) :
    (updateLfo E C v).currentlyKillingVoice = v.currentlyKillingVoice := by
  unfold updateLfo; dsimp only; split <;> rfl

@[simp] theorem updateLfo_voicesBeingKilled (E : Ext X) (C : Constants) (v : Voice X) :
    (updateLfo E C v).voicesBeingKilled = v.voicesBeingKilled := by
  unfold updateLfo; dsimp only; split <;> rfl

@[simp] theorem updateLfo_ladderCutoffHz (E : Ext X) (C : Constants) (v : Voice X) :
    (updateLfo E C v).ladderCutoffHz = v.ladderCutoffHz := by
  unfold updateLfo; dsimp only; split <;> rfl

@[simp] theorem updateLfo_ladderCutoffWrites (E : Ext X) (C : Constants) (v : Voice X) :
    (updateLfo E C v).ladderCutoffWrites = v.ladderCutoffWrites := by
  unfold updateLfo; dsimp only; split <;> rfl

@[simp] theorem updateLfo_ampParams (E : Ext X) (C : Constants) (v : Voice X) :
    (updateLfo E C v).ampParams = v.ampParams := by
  unfold updateLfo; dsimp only; split <;> rfl

@[simp] theorem updateLfo_filterEnvParams (E : Ext X) (C : Constants) (v : Voice X) :
    (updateLfo E C v).filterEnvParams = v.filterEnvParams := by
  unfold updateLfo; dsimp only; split <;> rfl

@[simp] theorem updateLfo_currentlyReleasingNote (E : Ext X) (C : Constants) (v : Voice X) :
    (updateLfo E C v).currentlyReleasingNote = v.currentlyReleasingNote := by
  unfold updateLfo; dsimp only; split <;> rfl

@[simp] theorem updateLfo_justDoneReleaseEnvelope (E : Ext X) (C : Constants) (v : Voice X) :
    (updateLfo E C v).justDoneReleaseEnvelope = v.justDoneReleaseEnvelope := by
  unfold updateLfo; dsimp only; split <;> rfl

@[simp] theorem updateLfo_curFilterCutoff (E : Ext X) (C : Constants) (v : Voice X) :
    (updateLfo E C v).curFilterCutoff = v.curFilterCutoff := by
  unfold updateLfo; dsimp only; split <;> rfl

@[simp] theorem updateLfo_curFilterResonance (E : Ext X) (C : Constants) (v : Voice X) :
    (updateLfo E C v).curFilterResonance = v.curFilterResonance := by
  unfold updateLfo; dsimp only; split <;> rfl

@[simp] theorem updateLfo_lfoUpdateCounter (E : Ext X) (C : Constants) (v : Voice X) :
    (updateLfo E C v).lfoUpdateCounter = v.lfoUpdateCounter := by
  unfold updateLfo; dsimp only; split <;> rfl

@[simp] theorem updateLfo_lfoAmount (E : Ext X) (C : Constants) (v : Voice X) :
    (updateLfo E C v).lfoAmount = v.lfoAmount := by
  unfold updateLfo; dsimp only; split <;> rfl

@[simp] theorem updateLfo_lfoDest (E : Ext X) (C : Constants) (v : Voice X) :
    (updateLfo E C v).lfoDest = v.lfoDest := by
  unfold updateLfo; dsimp only; split <;> rfl

@[simp] theorem updateLfo_rampingUp (E : Ext X) (C : Constants) (v : Voice X) :
    (updateLfo E C v).rampingUp = v.rampingUp := by
  unfold updateLfo; dsimp only; split <;> rfl

@[simp] theorem updateLfo_rampUpSamplesLeft (E : Ext X) (C : Constants) (v : Voice X) :
    (updateLfo E C v).rampUpSamplesLeft = v.rampUpSamplesLeft := by
  unfold updateLfo; dsimp only; split <;> rfl

@[simp] theorem updateLfo_tiltCutoff (E : Ext X) (C : Constants) (v : Voice X) :
    (updateLfo E C v).tiltCutoff = v.tiltCutoff := by
  unfold updateLfo; dsimp only; split <;> rfl

@[simp] theorem updateLfo_curPreparedSamples (E : Ext X) (C : Constants) (v : Voice X) :
    (updateLfo E C v).curPreparedSamples = v.curPreparedSamples := by
  unfold updateLfo; dsimp only; split <;> rfl

@[simp] theorem updateLfo_overlapAllocated (E : Ext X) (C : Constants) (v : Voice X) :
    (updateLfo E C v).overlapAllocated = v.overlapAllocated := by
  unfold updateLfo; dsimp only; split <;> rfl

@[simp] theorem processRampUp_ext (C : Constants) (v : Voice X) (b : Buf) (n : Int) :
    (processRampUp C v b n).1.ext = v.ext := by
  unfold processRampUp; dsimp only; split_ifs <;> rfl

@[simp] theorem processRampUp_voiceId (C : Constants) (v : Voice X) (b : Buf) (n : Int) :
    (processRampUp C v b n).1.voiceId = v.voiceId := by
  unfold processRampUp; dsimp only; split_ifs <;> rfl

@[simp] theorem processRampUp_sampleRate (C : Constants) (v : Voice X) (b : Buf) (n : Int) :
    (processRampUp C v b n).1.sampleRate = v.sampleRate := by
  unfold processRampUp; dsimp only; split_ifs <;> rfl

@[simp] theorem processRampUp_currentlyPlayingNote (C : Constants) (v : Voice X) (b : Buf) (n : Int) :
    (processRampUp C v b n).1.currentlyPlayingNote = v.currentlyPlayingNote := by
  unfold processRampUp; dsimp only; split_ifs <;> rfl

@[simp] theorem processRampUp_lfoCutOffContributionHz (C : Constants) (v : Voice X) (b : Buf) (n : Int) :
    (processRampUp C v b n).1.lfoCutOffContributionHz = v.lfoCutOffContributionHz := by
  unfold processRampUp; dsimp only; split_ifs <;> rfl

@[simp] theorem processRampUp_overlap (C : Constants) (v : Voice X) (b : Buf) (n : Int) :
    (processRampUp C v b n).1.overlap = v.overlap := by
  unfold processRampUp; dsimp only; split_ifs <;> rfl

@[simp] theorem processRampUp_overlapIndex (C : Constants) (v : Voice X) (b : Buf) (n : Int) :
    (processRampUp C v b n).1.overlapIndex = v.overlapIndex := by
  unfold processRampUp; dsimp only; split_ifs <;> rfl

@[simp] theorem processRampUp_currentlyKillingVoice (C : Constants) (v : Voice X) (b : Buf) (n : Int) :
    (processRampUp C v b n).1.currentlyKillingVoice = v.currentlyKillingVoice := by
  unfold processRampUp; dsimp only; split_ifs <;> rfl

@[simp] theorem processRampUp_voicesBeingKilled (C : Constants) (v : Voice X) (b : Buf) (n : Int) :
    (processRampUp C v b n).1.voicesBeingKilled = v.voicesBeingKilled := by
  unfold processRampUp; dsimp only; split_ifs <;> rfl

@[simp] theorem processRampUp_ladderCutoffHz (C : Constants) (v : Voice X) (b : Buf) (n : Int) :
    (processRampUp C v b n).1.ladderCutoffHz = v.ladderCutoffHz := by
  unfold processRampUp; dsimp only; split_ifs <;> rfl

@[simp] theorem processRampUp_ladderCutoffWrites (C : Constants) (v : Voice X) (b : Buf) (n : Int) :
    (processRampUp C v b n).1.ladderCutoffWrites = v.ladderCutoffWrites := by
  unfold processRampUp; dsimp only; split_ifs <;> rfl

@[simp] theorem processRampUp_ladderResonance (C : Constants) (v : Voice X) (b : Buf) (n : Int) :
    (processRampUp C v b n).1.ladderResonance = v.ladderResonance := by
  unfold processRampUp; dsimp only; split_ifs <;> rfl

@[simp] theorem processRampUp_ampParams (C : Constants) (v : Voice X) (b : Buf) (n : Int) :
    (processRampUp C v b n).1.ampParams = v.ampParams := by
  unfold processRampUp; dsimp only; split_ifs <;> rfl

@[simp] theorem processRampUp_filterEnvParams (C : Constants) (v : Voice X) (b : Buf) (n : Int) :
    (processRampUp C v b n).1.filterEnvParams = v.filterEnvParams := by
  unfold processRampUp; dsimp only; split_ifs <;> rfl

@[simp] theorem processRampUp_currentlyReleasingNote (C : Constants) (v : Voice X) (b : Buf) (n : Int) :
    (processRampUp C v b n).1.currentlyReleasingNote = v.currentlyReleasingNote := by
  unfold processRampUp; dsimp only; split_ifs <;> rfl

@[simp] theorem processRampUp_justDoneReleaseEnvelope (C : Constants) (v : Voice X) (b : Buf) (n : Int) :
    (processRampUp C v b n).1.justDoneReleaseEnvelope = v.justDoneReleaseEnvelope := by
  unfold processRampUp; dsimp only; split_ifs <;> rfl

@[simp] theorem processRampUp_curFilterCutoff (C : Constants) (v : Voice X) (b : Buf) (n : Int) :
    (processRampUp C v b n).1.curFilterCutoff = v.curFilterCutoff := by
  unfold processRampUp; dsimp only; split_ifs <;> rfl

@[simp] theorem processRampUp_curFilterResonance (C : Constants) (v : Voice X) (b : Buf) (n : Int) :
    (processRampUp C v b n).1.curFilterResonance = v.curFilterResonance := by
  unfold processRampUp; dsimp only; split_ifs <;> rfl

@[simp] theorem processRampUp_lfoUpdateCounter (C : Constants) (v : Voice X) (b : Buf) (n : Int) :
    (processRampUp C v b n).1.lfoUpdateCounter = v.lfoUpdateCounter := by
  unfold processRampUp; dsimp only; split_ifs <;> rfl

@[simp] theorem processRampUp_lfoAmount (C : Constants) (v : Voice X) (b : Buf) (n : Int) :
    (processRampUp C v b n).1.lfoAmount = v.lfoAmount := by
  unfold processRampUp; dsimp only; split_ifs <;> rfl

@[simp] theorem processRampUp_lfoDest (C : Constants) (v : Voice X) (b : Buf) (n : Int) :
    (processRampUp C v b n).1.lfoDest = v.lfoDest := by
  unfold processRampUp; dsimp only; split_ifs <;> rfl

@[simp] theorem processRampUp_tiltCutoff (C : Constants) (v : Voice X) (b : Buf) (n : Int) :
    (processRampUp C v b n).1.tiltCutoff = v.tiltCutoff := by
  unfold processRampUp; dsimp only; split_ifs <;> rfl

@[simp] theorem processRampUp_curPreparedSamples (C : Constants) (v : Voice X) (b : Buf) (n : Int) :
    (processRampUp C v b n).1.curPreparedSamples = v.curPreparedSamples := by
  unfold processRampUp; dsimp only; split_ifs <;> rfl

@[simp] theorem processRampUp_overlapAllocated (C : Constants) (v : Voice X) (b : Buf) (n : Int) :
    (processRampUp C v b n).1.overlapAllocated = v.overlapAllocated := by
  unfold processRampUp; dsimp only; split_ifs <;> rfl

@[simp] theorem processKillOverlap_ext (C : Constants) (v : Voice X) (b : Buf) (n : Int) :
    (processKillOverlap C v b n).1.ext = v.ext := by
  unfold processKillOverlap; dsimp only; split_ifs <;> rfl

@[simp] theorem processKillOverlap_voiceId (C : Constants) (v : Voice X) (b : Buf) (n : Int) :
    (processKillOverlap C v b n).1.voiceId = v.voiceId := by
  unfold processKillOverlap; dsimp only; split_ifs <;> rfl

@[simp] theorem processKillOverlap_sampleRate (C : Constants) (v : Voice X) (b : Buf) (n : Int) :
    (processKillOverlap C v b n).1.sampleRate = v.sampleRate := by
  unfold processKillOverlap; dsimp only; split_ifs <;> rfl

@[simp] theorem processKillOverlap_currentlyPlayingNote (C : Constants) (v : Voice X) (b : Buf) (n : Int) :
    (processKillOverlap C v b n).1.currentlyPlayingNote = v.currentlyPlayingNote := by
  unfold processKillOverlap; dsimp only; split_ifs <;> rfl

@[simp] theorem processKillOverlap_lfoCutOffContributionHz (C : Constants) (v : Voice X) (b : Buf) (n : Int) :
    (processKillOverlap C v b n).1.lfoCutOffContributionHz = v.lfoCutOffContributionHz := by
  unfold processKillOverlap; dsimp only; split_ifs <;> rfl

@[simp] theorem processKillOverlap_overlap (C : Constants) (v : Voice X) (b : Buf) (n : Int) :
    (processKillOverlap C v b n).1.overlap = v.overlap := by
  unfold processKillOverlap; dsimp only; split_ifs <;> rfl

@[simp] theorem processKillOverlap_currentlyKillingVoice (C : Constants) (v : Voice X) (b : Buf) (n : Int) :
    (processKillOverlap C v b n).1.currentlyKillingVoice = v.currentlyKillingVoice := by
  unfold processKillOverlap; dsimp only; split_ifs <;> rfl

@[simp] theorem processKillOverlap_ladderCutoffHz (C : Constants) (v : Voice X) (b : Buf) (n : Int) :
    (processKillOverlap C v b n).1.ladderCutoffHz = v.ladderCutoffHz := by
  unfold processKillOverlap; dsimp only; split_ifs <;> rfl

@[simp] theorem processKillOverlap_ladderCutoffWrites (C : Constants) (v : Voice X) (b : Buf) (n : Int) :
    (processKillOverlap C v b n).1.ladderCutoffWrites = v.ladderCutoffWrites := by
  unfold processKillOverlap; dsimp only; split_ifs <;> rfl

@[simp] theorem processKillOverlap_ladderResonance (C : Constants) (v : Voice X) (b : Buf) (n : Int) :
    (processKillOverlap C v b n).1.ladderResonance = v.ladderResonance := by
  unfold processKillOverlap; dsimp only; split_ifs <;> rfl

@[simp] theorem processKillOverlap_ampParams (C : Constants) (v : Voice X) (b : Buf) (n : Int) :
    (processKillOverlap C v b n).1.ampParams = v.ampParams := by
  unfold processKillOverlap; dsimp only; split_ifs <;> rfl

@[simp] theorem processKillOverlap_filterEnvParams (C : Constants) (v : Voice X) (b : Buf) (n : Int) :
    (processKillOverlap C v b n).1.filterEnvParams = v.filterEnvParams := by
  unfold processKillOverlap; dsimp only; split_ifs <;> rfl

@[simp] theorem processKillOverlap_currentlyReleasingNote (C : Constants) (v : Voice X) (b : Buf) (n : Int) :
    (processKillOverlap C v b n).1.currentlyReleasingNote = v.currentlyReleasingNote := by
  unfold processKillOverlap; dsimp only; split_ifs <;> rfl

@[simp] theorem processKillOverlap_justDoneReleaseEnvelope (C : Constants) (v : Voice X) (b : Buf) (n : Int) :
    (processKillOverlap C v b n).1.justDoneReleaseEnvelope = v.justDoneReleaseEnvelope := by
  unfold processKillOverlap; dsimp only; split_ifs <;> rfl

@[simp] theorem processKillOverlap_curFilterCutoff (C : Constants) (v : Voice X) (b : Buf) (n : Int) :
    (processKillOverlap C v b n).1.curFilterCutoff = v.curFilterCutoff := by
  unfold processKillOverlap; dsimp only; split_ifs <;> rfl

@[simp] theorem processKillOverlap_curFilterResonance (C : Constants) (v : Voice X) (b : Buf) (n : Int) :
    (processKillOverlap C v b n).1.curFilterResonance = v.curFilterResonance := by
  unfold processKillOverlap; dsimp only; split_ifs <;> rfl

@[simp] theorem processKillOverlap_lfoUpdateCounter (C : Constants) (v : Voice X) (b : Buf) (n : Int) :
    (processKillOverlap C v b n).1.lfoUpdateCounter = v.lfoUpdateCounter := by
  unfold processKillOverlap; dsimp only; split_ifs <;> rfl

@[simp] theorem processKillOverlap_lfoAmount (C : Constants) (v : Voice X) (b : Buf) (n : Int) :
    (processKillOverlap C v b n).1.lfoAmount = v.lfoAmount := by
  unfold processKillOverlap; dsimp only; split_ifs <;> rfl

@[simp] theorem processKillOverlap_lfoDest (C : Constants) (v : Voice X) (b : Buf) (n : Int) :
    (processKillOverlap C v b n).1.lfoDest = v.lfoDest := by
  unfold processKillOverlap; dsimp only; split_ifs <;> rfl

@[simp] theorem processKillOverlap_rampingUp (C : Constants) (v : Voice X) (b : Buf) (n : Int) :
    (processKillOverlap C v b n).1.rampingUp = v.rampingUp := by
  unfold processKillOverlap; dsimp only; split_ifs <;> rfl

@[simp] theorem processKillOverlap_rampUpSamplesLeft (C : Constants) (v : Voice X) (b : Buf) (n : Int) :
    (processKillOverlap C v b n).1.rampUpSamplesLeft = v.rampUpSamplesLeft := by
  unfold processKillOverlap; dsimp only; split_ifs <;> rfl

@[simp] theorem processKillOverlap_tiltCutoff (C : Constants) (v : Voice X) (b : Buf) (n : Int) :
    (processKillOverlap C v b n).1.tiltCutoff = v.tiltCutoff := by
  unfold processKillOverlap; dsimp only; split_ifs <;> rfl

@[simp] theorem processKillOverlap_curPreparedSamples (C : Constants) (v : Voice X) (b : Buf) (n : Int) :
    (processKillOverlap C v b n).1.curPreparedSamples = v.curPreparedSamples := by
  unfold processKillOverlap; dsimp only; split_ifs <;> rfl

@[simp] theorem processKillOverlap_overlapAllocated (C : Constants) (v : Voice X) (b : Buf) (n : Int) :
    (processKillOverlap C v b n).1.overlapAllocated = v.overlapAllocated := by
  unfold processKillOverlap; dsimp only; split_ifs <;> rfl

@[simp] theorem afterRelease_ext (E : Ext X) (v : Voice X) :
    (afterRelease E v).ext = v.ext := by
  unfold afterRelease; split_ifs <;> rfl

@[simp] theorem afterRelease_voiceId (E : Ext X) (v : Voice X) :
    (afterRelease E v).voiceId = v.voiceId := by
  unfold afterRelease; split_ifs <;> rfl

@[simp] theorem afterRelease_sampleRate (E : Ext X) (v : Voice X) :
    (afterRelease E v).sampleRate = v.sampleRate := by
  unfold afterRelease; split_ifs <;> rfl

@[simp] theorem afterRelease_lfoCutOffContributionHz (E : Ext X) (v : Voice X) :
    (afterRelease E v).lfoCutOffContributionHz = v.lfoCutOffContributionHz := by
  unfold afterRelease; split_ifs <;> rfl

@[simp] theorem afterRelease_overlap (E : Ext X) (v : Voice X) :
    (afterRelease E v).overlap = v.overlap := by
  unfold afterRelease; split_ifs <;> rfl

@[simp] theorem afterRelease_overlapIndex (E : Ext X) (v : Voice X) :
    (afterRelease E v).overlapIndex = v.overlapIndex := by
  unfold afterRelease; split_ifs <;> rfl

@[simp] theorem afterRelease_currentlyKillingVoice (E : Ext X) (v : Voice X) :
    (afterRelease E v).currentlyKillingVoice = v.currentlyKillingVoice := by
  unfold afterRelease; split_ifs <;> rfl

@[simp] theorem afterRelease_voicesBeingKilled (E : Ext X) (v : Voice X) :
    (afterRelease E v).voicesBeingKilled = v.voicesBeingKilled := by
  unfold afterRelease; split_ifs <;> rfl

@[simp] theorem afterRelease_ladderCutoffHz (E : Ext X) (v : Voice X) :
    (afterRelease E v).ladderCutoffHz = v.ladderCutoffHz := by
  unfold afterRelease; split_ifs <;> rfl

@[simp] theorem afterRelease_ladderCutoffWrites (E : Ext X) (v : Voice X) :
    (afterRelease E v).ladderCutoffWrites = v.ladderCutoffWrites := by
  unfold afterRelease; split_ifs <;> rfl

@[simp] theorem afterRelease_ladderResonance (E : Ext X) (v : Voice X) :
    (afterRelease E v).ladderResonance = v.ladderResonance := by
  unfold afterRelease; split_ifs <;> rfl

@[simp] theorem afterRelease_ampParams (E : Ext X) (v : Voice X) :
    (afterRelease E v).ampParams = v.ampParams := by
  unfold afterRelease; split_ifs <;> rfl

@[simp] theorem afterRelease_filterEnvParams (E : Ext X) (v : Voice X) :
    (afterRelease E v).filterEnvParams = v.filterEnvParams := by
  unfold afterRelease; split_ifs <;> rfl

@[simp] theorem afterRelease_curFilterCutoff (E : Ext X) (v : Voice X) :
    (afterRelease E v).curFilterCutoff = v.curFilterCutoff := by
  unfold afterRelease; split_ifs <;> rfl

@[simp] theorem afterRelease_curFilterResonance (E : Ext X) (v : Voice X) :
    (afterRelease E v).curFilterResonance = v.curFilterResonance := by
  unfold afterRelease; split_ifs <;> rfl

@[simp] theorem afterRelease_lfoUpdateCounter (E : Ext X) (v : Voice X) :
    (afterRelease E v).lfoUpdateCounter = v.lfoUpdateCounter := by
  unfold afterRelease; split_ifs <;> rfl

@[simp] theorem afterRelease_lfoAmount (E : Ext X) (v : Voice X) :
    (afterRelease E v).lfoAmount = v.lfoAmount := by
  unfold afterRelease; split_ifs <;> rfl

@[simp] theorem afterRelease_lfoDest (E : Ext X) (v : Voice X) :
    (afterRelease E v).lfoDest = v.lfoDest := by
  unfold afterRelease; split_ifs <;> rfl

@[simp] theorem afterRelease_rampingUp (E : Ext X) (v : Voice X) :
    (afterRelease E v).rampingUp = v.rampingUp := by
  unfold afterRelease; split_ifs <;> rfl

@[simp] theorem afterRelease_rampUpSamplesLeft (E : Ext X) (v : Voice X) :
    (afterRelease E v).rampUpSamplesLeft = v.rampUpSamplesLeft := by
  unfold afterRelease; split_ifs <;> rfl

@[simp] theorem afterRelease_tiltCutoff (E : Ext X) (v : Voice X) :
    (afterRelease E v).tiltCutoff = v.tiltCutoff := by
  unfold afterRelease; split_ifs <;> rfl

@[simp] theorem afterRelease_curPreparedSamples (E : Ext X) (v : Voice X) :
    (afterRelease E v).curPreparedSamples = v.curPreparedSamples := by
  unfold afterRelease; split_ifs <;> rfl

@[simp] theorem afterRelease_overlapAllocated (E : Ext X) (v : Voice X) :
    (afterRelease E v).overlapAllocated = v.overlapAllocated := by
  unfold afterRelease; split_ifs <;> rfl

@[simp] theorem subBlockHead_voiceId (E : Ext X) (pos n : Int) (v : Voice X) :
    (subBlockHead E pos n v).v.voiceId = v.voiceId := rfl

@[simp] theorem subBlockHead_sampleRate (E : Ext X) (pos n : Int) (v : Voice X) :
    (subBlockHead E pos n v).v.sampleRate = v.sampleRate := rfl

@[simp] theorem subBlockHead_currentlyPlayingNote (E : Ext X) (pos n : Int) (v : Voice X) :
    (subBlockHead E pos n v).v.currentlyPlayingNote = v.currentlyPlayingNote := rfl

@[simp] theorem subBlockHead_lfoCutOffContributionHz (E : Ext X) (pos n : Int) (v : Voice X) :
    (subBlockHead E pos n v).v.lfoCutOffContributionHz = v.lfoCutOffContributionHz := rfl

@[simp] theorem subBlockHead_overlap (E : Ext X) (pos n : Int) (v : Voice X) :
    (subBlockHead E pos n v).v.overlap = v.overlap := rfl

@[simp] theorem subBlockHead_overlapIndex (E : Ext X) (pos n : Int) (v : Voice X) :
    (subBlockHead E pos n v).v.overlapIndex = v.overlapIndex := rfl

@[simp] theorem subBlockHead_currentlyKillingVoice (E : Ext X) (pos n : Int) (v : Voice X) :
    (subBlockHead E pos n v).v.currentlyKillingVoice = v.currentlyKillingVoice := rfl

@[simp] theorem subBlockHead_voicesBeingKilled (E : Ext X) (pos n : Int) (v : Voice X) :
    (subBlockHead E pos n v).v.voicesBeingKilled = v.voicesBeingKilled := rfl

@[simp] theorem subBlockHead_ladderCutoffHz (E : Ext X) (pos n : Int) (v : Voice X) :
    (subBlockHead E pos n v).v.ladderCutoffHz = v.ladderCutoffHz := rfl

@[simp] theorem subBlockHead_ladderCutoffWrites (E : Ext X) (pos n : Int) (v : Voice X) :
    (subBlockHead E pos n v).v.ladderCutoffWrites = v.ladderCutoffWrites := rfl

@[simp] theorem subBlockHead_ladderResonance (E : Ext X) (pos n : Int) (v : Voice X) :
    (subBlockHead E pos n v).v.ladderResonance = v.ladderResonance := rfl

@[simp] theorem subBlockHead_ampParams (E : Ext X) (pos n : Int) (v : Voice X) :
    (subBlockHead E pos n v).v.ampParams = v.ampParams := rfl

@[simp] theorem subBlockHead_filterEnvParams (E : Ext X) (pos n : Int) (v : Voice X) :
    (subBlockHead E pos n v).v.filterEnvParams = v.filterEnvParams := rfl

@[simp] theorem subBlockHead_currentlyReleasingNote (E : Ext X) (pos n : Int) (v : Voice X) :
    (subBlockHead E pos n v).v.currentlyReleasingNote = v.currentlyReleasingNote := rfl

@[simp] theorem subBlockHead_justDoneReleaseEnvelope (E : Ext X) (pos n : Int) (v : Voice X) :
    (subBlockHead E pos n v).v.justDoneReleaseEnvelope = v.justDoneReleaseEnvelope := rfl

@[simp] theorem subBlockHead_curFilterCutoff (E : Ext X) (pos n : Int) (v : Voice X) :
    (subBlockHead E pos n v).v.curFilterCutoff = v.curFilterCutoff := rfl

@[simp] theorem subBlockHead_curFilterResonance (E : Ext X) (pos n : Int) (v : Voice X) :
    (subBlockHead E pos n v).v.curFilterResonance = v.curFilterResonance := rfl

@[simp] theorem subBlockHead_lfoUpdateCounter (E : Ext X) (pos n : Int) (v : Voice X) :
    (subBlockHead E pos n v).v.lfoUpdateCounter = v.lfoUpdateCounter := rfl

@[simp] theorem subBlockHead_lfoAmount (E : Ext X) (pos n : Int) (v : Voice X) :
    (subBlockHead E pos n v).v.lfoAmount = v.lfoAmount := rfl

@[simp] theorem subBlockHead_lfoDest (E : Ext X) (pos n : Int) (v : Voice X) :
    (subBlockHead E pos n v).v.lfoDest = v.lfoDest := rfl

@[simp] theorem subBlockHead_rampingUp (E : Ext X) (pos n : Int) (v : Voice X) :
    (subBlockHead E pos n v).v.rampingUp = v.rampingUp := rfl

@[simp] theorem subBlockHead_rampUpSamplesLeft (E : Ext X) (pos n : Int) (v : Voice X) :
    (subBlockHead E pos n v).v.rampUpSamplesLeft = v.rampUpSamplesLeft := rfl

@[simp] theorem subBlockHead_tiltCutoff (E : Ext X) (pos n : Int) (v : Voice X) :
    (subBlockHead E pos n v).v.tiltCutoff = v.tiltCutoff := rfl

@[simp] theorem subBlockHead_curPreparedSamples (E : Ext X) (pos n : Int) (v : Voice X) :
    (subBlockHead E pos n v).v.curPreparedSamples = v.curPreparedSamples := rfl

@[simp] theorem subBlockHead_overlapAllocated (E : Ext X) (pos n : Int) (v : Voice X) :
    (subBlockHead E pos n v).v.overlapAllocated = v.overlapAllocated := rfl

@[simp] theorem applyKillRamp_ext (v : Voice X) (b : Buf) (s : Nat) (n : Int) :
    (applyKillRamp v b s n).1.ext = v.ext := rfl

@[simp] theorem applyKillRamp_voiceId (v : Voice X) (b : Buf) (s : Nat) (n : Int) :
    (applyKillRamp v b s n).1.voiceId = v.voiceId := rfl

@[simp] theorem applyKillRamp_sampleRate (v : Voice X) (b : Buf) (s : Nat) (n : Int) :
    (applyKillRamp v b s n).1.sampleRate = v.sampleRate := rfl

@[simp] theorem applyKillRamp_currentlyPlayingNote (v : Voice X) (b : Buf) (s : Nat) (n : Int) :
    (applyKillRamp v b s n).1.currentlyPlayingNote = v.currentlyPlayingNote := rfl

@[simp] theorem applyKillRamp_lfoCutOffContributionHz (v : Voice X) (b : Buf) (s : Nat) (n : Int) :
    (applyKillRamp v b s n).1.lfoCutOffContributionHz = v.lfoCutOffContributionHz := rfl

@[simp] theorem applyKillRamp_overlap (v : Voice X) (b : Buf) (s : Nat) (n : Int) :
    (applyKillRamp v b s n).1.overlap = v.overlap := rfl

@[simp] theorem applyKillRamp_overlapIndex (v : Voice X) (b : Buf) (s : Nat) (n : Int) :
    (applyKillRamp v b s n).1.overlapIndex = v.overlapIndex := rfl

@[simp] theorem applyKillRamp_voicesBeingKilled (v : Voice X) (b : Buf) (s : Nat) (n : Int) :
    (applyKillRamp v b s n).1.voicesBeingKilled = v.voicesBeingKilled := rfl

@[simp] theorem applyKillRamp_ladderCutoffHz (v : Voice X) (b : Buf) (s : Nat) (n : Int) :
    (applyKillRamp v b s n).1.ladderCutoffHz = v.ladderCutoffHz := rfl

@[simp] theorem applyKillRamp_ladderCutoffWrites (v : Voice X) (b : Buf) (s : Nat) (n : Int) :
    (applyKillRamp v b s n).1.ladderCutoffWrites = v.ladderCutoffWrites := rfl

@[simp] theorem applyKillRamp_ladderResonance (v : Voice X) (b : Buf) (s : Nat) (n : Int) :
    (applyKillRamp v b s n).1.ladderResonance = v.ladderResonance := rfl

@[simp] theorem applyKillRamp_ampParams (v : Voice X) (b : Buf) (s : Nat) (n : Int) :
    (applyKillRamp v b s n).1.ampParams = v.ampParams := rfl

@[simp] theorem applyKillRamp_filterEnvParams (v : Voice X) (b : Buf) (s : Nat) (n : Int) :
    (applyKillRamp v b s n).1.filterEnvParams = v.filterEnvParams := rfl

@[simp] theorem applyKillRamp_currentlyReleasingNote (v : Voice X) (b : Buf) (s : Nat) (n : Int) :
    (applyKillRamp v b s n).1.currentlyReleasingNote = v.currentlyReleasingNote := rfl

@[simp] theorem applyKillRamp_justDoneReleaseEnvelope (v : Voice X) (b : Buf) (s : Nat) (n : Int) :
    (applyKillRamp v b s n).1.justDoneReleaseEnvelope = v.justDoneReleaseEnvelope := rfl

@[simp] theorem applyKillRamp_curFilterCutoff (v : Voice X) (b : Buf) (s : Nat) (n : Int) :
    (applyKillRamp v b s n).1.curFilterCutoff = v.curFilterCutoff := rfl

@[simp] theorem applyKillRamp_curFilterResonance (v : Voice X) (b : Buf) (s : Nat) (n : Int) :
    (applyKillRamp v b s n).1.curFilterResonance = v.curFilterResonance := rfl

@[simp] theorem applyKillRamp_lfoUpdateCounter (v : Voice X) (b : Buf) (s : Nat) (n : Int) :
    (applyKillRamp v b s n).1.lfoUpdateCounter = v.lfoUpdateCounter := rfl

@[simp] theorem applyKillRamp_lfoAmount (v : Voice X) (b : Buf) (s : Nat) (n : Int) :
    (applyKillRamp v b s n).1.lfoAmount = v.lfoAmount := rfl

@[simp] theorem applyKillRamp_lfoDest (v : Voice X) (b : Buf) (s : Nat) (n : Int) :
    (applyKillRamp v b s n).1.lfoDest = v.lfoDest := rfl

@[simp] theorem applyKillRamp_rampingUp (v : Voice X) (b : Buf) (s : Nat) (n : Int) :
    (applyKillRamp v b s n).1.rampingUp = v.rampingUp := rfl

@[simp] theorem applyKillRamp_rampUpSamplesLeft (v : Voice X) (b : Buf) (s : Nat) (n : Int) :
    (applyKillRamp v b s n).1.rampUpSamplesLeft = v.rampUpSamplesLeft := rfl

@[simp] theorem applyKillRamp_tiltCutoff (v : Voice X) (b : Buf) (s : Nat) (n : Int) :
    (applyKillRamp v b s n).1.tiltCutoff = v.tiltCutoff := rfl

@[simp] theorem applyKillRamp_curPreparedSamples (v : Voice X) (b : Buf) (s : Nat) (n : Int) :
    (applyKillRamp v b s n).1.curPreparedSamples = v.curPreparedSamples := rfl

@[simp] theorem applyKillRamp_overlapAllocated (v : Voice X) (b : Buf) (s : Nat) (n : Int) :
    (applyKillRamp v b s n).1.overlapAllocated = v.overlapAllocated := rfl

@[simp] theorem subBlockTail_voiceId (E : Ext X) (C : Constants) (n : Int) (fe : ℚ) (v : Voice X) (b : Buf) :
    (subBlockTail E C n fe v b).1.voiceId = v.voiceId := by
  unfold subBlockTail; dsimp only; split_ifs <;> simp

@[simp] theorem subBlockTail_sampleRate (E : Ext X) (C : Constants) (n : Int) (fe : ℚ) (v : Voice X) (b : Buf) :
    (subBlockTail E C n fe v b).1.sampleRate = v.sampleRate := by
  unfold subBlockTail; dsimp only; split_ifs <;> simp

@[simp] theorem subBlockTail_currentlyPlayingNote (E : Ext X) (C : Constants) (n : Int) (fe : ℚ) (v : Voice X) (b : Buf) :
    (subBlockTail E C n fe v b).1.currentlyPlayingNote = v.currentlyPlayingNote := by
  unfold subBlockTail; dsimp only; split_ifs <;> simp

@[simp] theorem subBlockTail_overlap (E : Ext X) (C : Constants) (n : Int) (fe : ℚ) (v : Voice X) (b : Buf) :
    (subBlockTail E C n fe v b).1.overlap = v.overlap := by
  unfold subBlockTail; dsimp only; split_ifs <;> simp

@[simp] theorem subBlockTail_currentlyKillingVoice (E : Ext X) (C : Constants) (n : Int) (fe : ℚ) (v : Voice X) (b : Buf) :
    (subBlockTail E C n fe v b).1.currentlyKillingVoice = v.currentlyKillingVoice := by
  unfold subBlockTail; dsimp only; split_ifs <;> simp

@[simp] theorem subBlockTail_ampParams (E : Ext X) (C : Constants) (n : Int) (fe : ℚ) (v : Voice X) (b : Buf) :
    (subBlockTail E C n fe v b).1.ampParams = v.ampParams := by
  unfold subBlockTail; dsimp only; split_ifs <;> simp

@[simp] theorem subBlockTail_filterEnvParams (E : Ext X) (C : Constants) (n : Int) (fe : ℚ) (v : Voice X) (b : Buf) :
    (subBlockTail E C n fe v b).1.filterEnvParams = v.filterEnvParams := by
  unfold subBlockTail; dsimp only; split_ifs <;> simp

@[simp] theorem subBlockTail_currentlyReleasingNote (E : Ext X) (C : Constants) (n : Int) (fe : ℚ) (v : Voice X) (b : Buf) :
    (subBlockTail E C n fe v b).1.currentlyReleasingNote = v.currentlyReleasingNote := by
  unfold subBlockTail; dsimp only; split_ifs <;> simp

@[simp] theorem subBlockTail_justDoneReleaseEnvelope (E : Ext X) (C : Constants) (n : Int) (fe : ℚ) (v : Voice X) (b : Buf) :
    (subBlockTail E C n fe v b).1.justDoneReleaseEnvelope = v.justDoneReleaseEnvelope := by
  unfold subBlockTail; dsimp only; split_ifs <;> simp

@[simp] theorem subBlockTail_curFilterCutoff (E : Ext X) (C : Constants) (n : Int) (fe : ℚ) (v : Voice X) (b : Buf) :
    (subBlockTail E C n fe v b).1.curFilterCutoff = v.curFilterCutoff := by
  unfold subBlockTail; dsimp only; split_ifs <;> simp

@[simp] theorem subBlockTail_curFilterResonance (E : Ext X) (C : Constants) (n : Int) (fe : ℚ) (v : Voice X) (b : Buf) :
    (subBlockTail E C n fe v b).1.curFilterResonance = v.curFilterResonance := by
  unfold subBlockTail; dsimp only; split_ifs <;> simp

@[simp] theorem subBlockTail_lfoAmount (E : Ext X) (C : Constants) (n : Int) (fe : ℚ) (v : Voice X) (b : Buf) :
    (subBlockTail E C n fe v b).1.lfoAmount = v.lfoAmount := by
  unfold subBlockTail; dsimp only; split_ifs <;> simp

@[simp] theorem subBlockTail_lfoDest (E : Ext X) (C : Constants) (n : Int) (fe : ℚ) (v : Voice X) (b : Buf) :
    (subBlockTail E C n fe v b).1.lfoDest = v.lfoDest := by
  unfold subBlockTail; dsimp only; split_ifs <;> simp

@[simp] theorem subBlockTail_tiltCutoff (E : Ext X) (C : Constants) (n : Int) (fe : ℚ) (v : Voice X) (b : Buf) :
    (subBlockTail E C n fe v b).1.tiltCutoff = v.tiltCutoff := by
  unfold subBlockTail; dsimp only; split_ifs <;> simp

@[simp] theorem subBlockTail_curPreparedSamples (E : Ext X) (C : Constants) (n : Int) (fe : ℚ) (v : Voice X) (b : Buf) :
    (subBlockTail E C n fe v b).1.curPreparedSamples = v.curPreparedSamples := by
  unfold subBlockTail; dsimp only; split_ifs <;> simp

@[simp] theorem subBlockTail_overlapAllocated (E : Ext X) (C : Constants) (n : Int) (fe : ℚ) (v : Voice X) (b : Buf) :
    (subBlockTail E C n fe v b).1.overlapAllocated = v.overlapAllocated := by
  unfold subBlockTail; dsimp only; split_ifs <;> simp

@[simp] theorem subBlockResult_voiceId (E : Ext X) (C : Constants) (numSamples : Int) (st : LoopState X) :
    (subBlockResult E C numSamples st).v.voiceId = st.v.voiceId := by
  simp [subBlockResult]

@[simp] theorem subBlockResult_sampleRate (E : Ext X) (C : Constants) (numSamples : Int) (st : LoopState X) :
    (subBlockResult E C numSamples st).v.sampleRate = st.v.sampleRate := by
  simp [subBlockResult]

@[simp] theorem subBlockResult_overlap (E : Ext X) (C : Constants) (numSamples : Int) (st : LoopState X) :
    (subBlockResult E C numSamples st).v.overlap = st.v.overlap := by
  simp [subBlockResult]

@[simp] theorem subBlockResult_currentlyKillingVoice (E : Ext X) (C : Constants) (numSamples : Int) (st : LoopState X) :
    (subBlockResult E C numSamples st).v.currentlyKillingVoice = st.v.currentlyKillingVoice := by
  simp [subBlockResult]

@[simp] theorem subBlockResult_ampParams (E : Ext X) (C : Constants) (numSamples : Int) (st : LoopState X) :
    (subBlockResult E C numSamples st).v.ampParams = st.v.ampParams := by
  simp [subBlockResult]

@[simp] theorem subBlockResult_filterEnvParams (E : Ext X) (C : Constants) (numSamples : Int) (st : LoopState X) :
    (subBlockResult E C numSamples st).v.filterEnvParams = st.v.filterEnvParams := by
  simp [subBlockResult]

@[simp] theorem subBlockResult_curFilterCutoff (E : Ext X) (C : Constants) (numSamples : Int) (st : LoopState X) :
    (subBlockResult E C numSamples st).v.curFilterCutoff = st.v.curFilterCutoff := by
  simp [subBlockResult]

@[simp] theorem subBlockResult_curFilterResonance (E : Ext X) (C : Constants) (numSamples : Int) (st : LoopState X) :
    (subBlockResult E C numSamples st).v.curFilterResonance = st.v.curFilterResonance := by
  simp [subBlockResult]

@[simp] theorem subBlockResult_lfoAmount (E : Ext X) (C : Constants) (numSamples : Int) (st : LoopState X) :
    (subBlockResult E C numSamples st).v.lfoAmount = st.v.lfoAmount := by
  simp [subBlockResult]

@[simp] theorem subBlockResult_lfoDest (E : Ext X) (C : Constants) (numSamples : Int) (st : LoopState X) :
    (subBlockResult E C numSamples st).v.lfoDest = st.v.lfoDest := by
  simp [subBlockResult]

@[simp] theorem subBlockResult_tiltCutoff (E : Ext X) (C : Constants) (numSamples : Int) (st : LoopState X) :
    (subBlockResult E C numSamples st).v.tiltCutoff = st.v.tiltCutoff := by
  simp [subBlockResult]

@[simp] theorem subBlockResult_curPreparedSamples (E : Ext X) (C : Constants) (numSamples : Int) (st : LoopState X) :
    (subBlockResult E C numSamples st).v.curPreparedSamples = st.v.curPreparedSamples := by
  simp [subBlockResult]

@[simp] theorem subBlockResult_overlapAllocated (E : Ext X) (C : Constants) (numSamples : Int) (st : LoopState X) :
    (subBlockResult E C numSamples st).v.overlapAllocated = st.v.overlapAllocated := by
  simp [subBlockResult]

/-! ## What the stages of the sub-block loop do to the fields they change -/

theorem processRampUp_rampUpSamplesLeft (C : Constants) (v : Voice X) (b : Buf) (n : Int) :
    (processRampUp C v b n).1.rampUpSamplesLeft
      = v.rampUpSamplesLeft - min n v.rampUpSamplesLeft := by
  unfold processRampUp; dsimp only; split_ifs <;> rfl

theorem processRampUp_rampingUp (C : Constants) (v : Voice X) (b : Buf) (n : Int) :
    (processRampUp C v b n).1.rampingUp
      = if v.rampUpSamplesLeft - min n v.rampUpSamplesLeft ≤ 0 then false else v.rampingUp := by
  unfold processRampUp; dsimp only; split_ifs <;> rfl

theorem processKillOverlap_overlapIndex (C : Constants) (v : Voice X) (b : Buf) (n : Int) :
    (processKillOverlap C v b n).1.overlapIndex
      = if v.overlapIndex + min (C.killRampSamples - v.overlapIndex) n ≥ C.killRampSamples
        then -1 else v.overlapIndex + min (C.killRampSamples - v.overlapIndex) n := by
  unfold processKillOverlap; dsimp only; split_ifs <;> rfl

theorem processKillOverlap_voicesBeingKilled (C : Constants) (v : Voice X) (b : Buf) (n : Int) :
    (processKillOverlap C v b n).1.voicesBeingKilled
      = if v.overlapIndex + min (C.killRampSamples - v.overlapIndex) n ≥ C.killRampSamples
        then v.voicesBeingKilled.erase v.voiceId else v.voicesBeingKilled := by
  unfold processKillOverlap; dsimp only; split_ifs <;> rfl

theorem subBlockTail_overlapIndex (E : Ext X) (C : Constants) (n : Int) (fe : ℚ)
    (v : Voice X) (b : Buf) :
    (subBlockTail E C n fe v b).1.overlapIndex = overlapIndexAfter C v.overlapIndex n := by
  unfold subBlockTail overlapIndexAfter; dsimp only
  split_ifs <;> simp_all [processKillOverlap_overlapIndex]

theorem subBlockTail_voicesBeingKilled (E : Ext X) (C : Constants) (n : Int) (fe : ℚ)
    (v : Voice X) (b : Buf) :
    (subBlockTail E C n fe v b).1.voicesBeingKilled
      = if v.overlapIndex > -1
          ∧ v.overlapIndex + min (C.killRampSamples - v.overlapIndex) n ≥ C.killRampSamples
        then v.voicesBeingKilled.erase v.voiceId else v.voicesBeingKilled := by
  unfold subBlockTail; dsimp only
  split_ifs <;> simp_all [processKillOverlap_voicesBeingKilled]

theorem subBlockTail_lfoUpdateCounter (E : Ext X) (C : Constants) (n : Int) (fe : ℚ)
    (v : Voice X) (b : Buf) :
    (subBlockTail E C n fe v b).1.lfoUpdateCounter
      = if v.lfoUpdateCounter - n = 0 then lfoUpdateRate else v.lfoUpdateCounter - n := by
  unfold subBlockTail; dsimp only
  split_ifs <;> simp_all

theorem subBlockTail_rampUpSamplesLeft (E : Ext X) (C : Constants) (n : Int) (fe : ℚ)
    (v : Voice X) (b : Buf) :
    (subBlockTail E C n fe v b).1.rampUpSamplesLeft
      = if v.rampingUp = true then v.rampUpSamplesLeft - min n v.rampUpSamplesLeft
        else v.rampUpSamplesLeft := by
  unfold subBlockTail; dsimp only
  split_ifs <;> simp_all [processRampUp_rampUpSamplesLeft]

theorem subBlockTail_rampingUp (E : Ext X) (C : Constants) (n : Int) (fe : ℚ)
    (v : Voice X) (b : Buf) :
    (subBlockTail E C n fe v b).1.rampingUp
      = if v.rampingUp = true ∧ v.rampUpSamplesLeft - min n v.rampUpSamplesLeft ≤ 0 then false
        else v.rampingUp := by
  unfold subBlockTail; dsimp only
  split_ifs <;> simp_all [processRampUp_rampingUp]

theorem subBlockTail_ladderCutoffHz (E : Ext X) (C : Constants) (n : Int) (fe : ℚ)
    (v : Voice X) (b : Buf) :
    (subBlockTail E C n fe v b).1.ladderCutoffHz
      = jlimit C.cutOffStart C.cutOffEnd
          (((subBlockTail E C n fe v b).1.curFilterCutoff
              + (subBlockTail E C n fe v b).1.tiltCutoff) * (1 + envelopeAmount * fe)
            + (subBlockTail E C n fe v b).1.lfoCutOffContributionHz) := rfl

theorem subBlockTail_ladderCutoffWrites (E : Ext X) (C : Constants) (n : Int) (fe : ℚ)
    (v : Voice X) (b : Buf) :
    (subBlockTail E C n fe v b).1.ladderCutoffWrites = v.ladderCutoffWrites + 1 := by
  unfold subBlockTail; dsimp only
  split_ifs <;> simp [setFilterCutoffInternal]

/-! ## One iteration of the sub-block loop, field by field -/

theorem subBlockResult_pos (E : Ext X) (C : Constants) (numSamples : Int) (st : LoopState X) :
    (subBlockResult E C numSamples st).pos = st.pos + subBlockSize numSamples st := rfl

theorem subBlockResult_overlapIndex (E : Ext X) (C : Constants) (numSamples : Int)
    (st : LoopState X) :
    (subBlockResult E C numSamples st).v.overlapIndex
      = overlapIndexAfter C st.v.overlapIndex (subBlockSize numSamples st) := by
  simp [subBlockResult, subBlockTail_overlapIndex]

theorem subBlockResult_voicesBeingKilled (E : Ext X) (C : Constants) (numSamples : Int)
    (st : LoopState X) :
    (subBlockResult E C numSamples st).v.voicesBeingKilled
      = if st.v.overlapIndex > -1
          ∧ st.v.overlapIndex + min (C.killRampSamples - st.v.overlapIndex)
              (subBlockSize numSamples st) ≥ C.killRampSamples
        then st.v.voicesBeingKilled.erase st.v.voiceId else st.v.voicesBeingKilled := by
  simp [subBlockResult, subBlockTail_voicesBeingKilled]

theorem subBlockResult_lfoUpdateCounter (E : Ext X) (C : Constants) (numSamples : Int)
    (st : LoopState X) :
    (subBlockResult E C numSamples st).v.lfoUpdateCounter
      = if st.v.lfoUpdateCounter - subBlockSize numSamples st = 0 then lfoUpdateRate
        else st.v.lfoUpdateCounter - subBlockSize numSamples st := by
  simp [subBlockResult, subBlockTail_lfoUpdateCounter]

theorem subBlockResult_rampUpSamplesLeft (E : Ext X) (C : Constants) (numSamples : Int)
    (st : LoopState X) :
    (subBlockResult E C numSamples st).v.rampUpSamplesLeft
      = if st.v.rampingUp = true then
          st.v.rampUpSamplesLeft - min (subBlockSize numSamples st) st.v.rampUpSamplesLeft
        else st.v.rampUpSamplesLeft := by
  simp [subBlockResult, subBlockTail_rampUpSamplesLeft]

theorem subBlockResult_rampingUp (E : Ext X) (C : Constants) (numSamples : Int)
    (st : LoopState X) :
    (subBlockResult E C numSamples st).v.rampingUp
      = if st.v.rampingUp = true
          ∧ st.v.rampUpSamplesLeft - min (subBlockSize numSamples st) st.v.rampUpSamplesLeft ≤ 0
        then false else st.v.rampingUp := by
  simp [subBlockResult, subBlockTail_rampingUp]

theorem subBlockResult_ladderCutoffWrites (E : Ext X) (C : Constants) (numSamples : Int)
    (st : LoopState X) :
    (subBlockResult E C numSamples st).v.ladderCutoffWrites = st.v.ladderCutoffWrites + 1 := by
  simp [subBlockResult, subBlockTail_ladderCutoffWrites]

/-! ## The LFO counter and the progress of the sub-block loop -/

theorem subBlockSize_pos {numSamples : Int} {st : LoopState X} (h : LfoCounterOk st.v)
    (hp : st.pos < numSamples) : 1 ≤ subBlockSize numSamples st := by
  unfold subBlockSize
  have := h.1
  omega

theorem subBlockSize_le {numSamples : Int} {st : LoopState X} :
    subBlockSize numSamples st ≤ numSamples - st.pos := by
  unfold subBlockSize
  omega

theorem subBlockResult_lfoCounterOk (E : Ext X) (C : Constants) (numSamples : Int)
    (st : LoopState X) (h : LfoCounterOk st.v) (hp : st.pos < numSamples) :
    LfoCounterOk (subBlockResult E C numSamples st).v := by
  have h1 := subBlockSize_pos h hp
  have h2 : subBlockSize numSamples st ≤ st.v.lfoUpdateCounter := by
    unfold subBlockSize; omega
  unfold LfoCounterOk at *
  rw [subBlockResult_lfoUpdateCounter]
  unfold lfoUpdateRate at *
  split_ifs <;> omega

/-! ## The scratch buffer of an armed cursor -/

theorem ScratchOk.of_same_scratch {v w : Voice X} (h : ScratchOk v)
    (h1 : w.overlapIndex = v.overlapIndex)
    (h2 : w.overlapAllocated = v.overlapAllocated) : ScratchOk w := by
  unfold ScratchOk at *
  rw [h1, h2]
  exact h

theorem scratchOk_of_allocated {v : Voice X} (h : v.overlapAllocated = true) :
    ScratchOk v := fun _ => h

theorem scratchOk_of_idle {v : Voice X} (h : v.overlapIndex = -1) : ScratchOk v := by
  intro h1
  rw [h] at h1
  exact absurd h1 (by decide)

theorem subBlockResult_scratchOk (E : Ext X) (C : Constants) (numSamples : Int)
    (st : LoopState X) (h : ScratchOk st.v) :
    ScratchOk (subBlockResult E C numSamples st).v := by
  unfold ScratchOk at *
  rw [subBlockResult_overlapAllocated, subBlockResult_overlapIndex]
  intro h1
  apply h
  unfold overlapIndexAfter at h1
  split_ifs at h1 <;> omega

/-- Induction over the sub-block loop: a property of the loop state that every iteration
keeps holds when the loop is left, and `pos` has then reached `numSamples`. -/
theorem renderLoop_induct {E : Ext X} {C : Constants} {stop : Voice X → Option (Voice X)}
    {numSamples : Int} (P : LoopState X → Prop)
    (hstep : ∀ st st1, P st → st.pos < numSamples →
      subBlock E C stop numSamples st = some st1 → P st1) :
    ∀ (fuel : Nat) (st st1 : LoopState X), P st →
      renderLoop E C stop numSamples fuel st = some st1 → P st1 ∧ numSamples ≤ st1.pos := by
  intro fuel
  induction fuel with
  | zero =>
    intro st st1 hP h
    unfold renderLoop at h
    split_ifs at h with hp
    simp only [Option.some.injEq] at h
    subst h
    exact ⟨hP, not_lt.mp hp⟩
  | succ f ih =>
    intro st st1 hP h
    unfold renderLoop at h
    split_ifs at h with hp
    · cases hs : subBlock E C stop numSamples st with
      | none => rw [hs] at h; exact absurd h (by simp)
      | some st2 =>
        rw [hs] at h
        exact ih st2 st1 (hstep st st2 hP hp hs) h
    · simp only [Option.some.injEq] at h
      subst h
      exact ⟨hP, not_lt.mp hp⟩

/-- The sub-block loop of a voice returns: with the counter in `[1, lfoUpdateRate]` every
sub-block holds at least one sample, so fuel for the remaining samples is enough, and an
armed cursor has its scratch buffer. -/
theorem renderLoop_total (E : Ext X) (C : Constants)
    (r : Voice X → Buf → Nat → Int → Option (Voice X × Buf)) (numSamples : Int) :
    ∀ (fuel : Nat) (st : LoopState X), LfoCounterOk st.v → ScratchOk st.v →
      (numSamples - st.pos).toNat ≤ fuel →
      ∃ st1, renderLoop E C (stopNoteCore E C r false) numSamples fuel st = some st1 := by
  intro fuel
  induction fuel with
  | zero =>
    intro st _ _ hf
    unfold renderLoop
    have : ¬ st.pos < numSamples := by omega
    simp [this]
  | succ f ih =>
    intro st hok hA hf
    unfold renderLoop
    split_ifs with hp
    · rw [subBlock_stopNoteCore E C r numSamples st hA]
      apply ih
      · exact subBlockResult_lfoCounterOk E C numSamples st hok hp
      · exact subBlockResult_scratchOk E C numSamples st hA
      · have := subBlockSize_pos hok hp
        rw [subBlockResult_pos]
        omega
    · exact ⟨st, rfl⟩

/-! ## The render call as a whole -/

theorem renderCore_skip (E : Ext X) (C : Constants) (stop : Voice X → Option (Voice X))
    (v : Voice X) (out : Buf) (start : Nat) (n : Int)
    (h : v.currentlyKillingVoice = false ∧ v.isVoiceActive = false) :
    renderCore E C stop v out start n = some (v, out) := by
  unfold renderCore
  rw [if_pos h]

theorem renderCore_run (E : Ext X) (C : Constants) (stop : Voice X → Option (Voice X))
    (v : Voice X) (out : Buf) (start : Nat) (n : Int)
    (h : ¬ (v.currentlyKillingVoice = false ∧ v.isVoiceActive = false)) :
    renderCore E C stop v out start n
      = (renderLoop E C stop (min n v.curPreparedSamples) (min n v.curPreparedSamples).toNat
          (loopEntry E v n)).map
          (fun st => renderExit st out start (min n v.curPreparedSamples)) := by
  unfold renderCore
  rw [if_neg h]
  dsimp only [loopEntry]
  cases renderLoop E C stop (min n v.curPreparedSamples) (min n v.curPreparedSamples).toNat
      { v := { v with ext := (E.prepareRender v.ext (min n v.curPreparedSamples)).1 },
        block := (E.prepareRender v.ext (min n v.curPreparedSamples)).2, pos := 0 } with
  | none => rfl
  | some st => simp only [Option.map, renderExit]; split_ifs <;> rfl

/-- A render call of a voice whose LFO counter is in range, and whose overlap cursor is armed
only with a scratch buffer at hand, returns, and every property of the loop state that holds
on entry and that every iteration keeps holds for the state in which the sub-block loop is
left; `pos` is then the number of samples processed. -/
theorem renderCore_inner (E : Ext X) (C : Constants)
    (r : Voice X → Buf → Nat → Int → Option (Voice X × Buf))
    (v : Voice X) (out : Buf) (start : Nat) (n : Int)
    (h : ¬ (v.currentlyKillingVoice = false ∧ v.isVoiceActive = false))
    (hok : LfoCounterOk v) (hA : ScratchOk v) (P : LoopState X → Prop)
    (h0 : P (loopEntry E v n))
    (hstep : ∀ st, P st → LfoCounterOk st.v → 0 ≤ st.pos →
      st.pos < min n v.curPreparedSamples →
      P (subBlockResult E C (min n v.curPreparedSamples) st)) :
    ∃ st, P st ∧ LfoCounterOk st.v ∧ st.pos = max 0 (min n v.curPreparedSamples) ∧
      renderCore E C (stopNoteCore E C r false) v out start n
        = some (renderExit st out start (min n v.curPreparedSamples)) := by
  rw [renderCore_run E C _ v out start n h]
  obtain ⟨st, hst⟩ := renderLoop_total E C r (min n v.curPreparedSamples)
    (min n v.curPreparedSamples).toNat (loopEntry E v n) hok hA (by simp [loopEntry])
  have hind := renderLoop_induct
    (fun s => P s ∧ LfoCounterOk s.v ∧ 0 ≤ s.pos ∧ s.pos ≤ max 0 (min n v.curPreparedSamples))
    (by
      intro s s1 hs hp hsub
      obtain ⟨hsub, _⟩ := subBlock_of_some E C _ _ _ _ hsub
      subst hsub
      refine ⟨hstep s hs.1 hs.2.1 hs.2.2.1 hp,
        subBlockResult_lfoCounterOk E C _ s hs.2.1 hp, ?_, ?_⟩
      · have := subBlockSize_pos hs.2.1 hp
        rw [subBlockResult_pos]; omega
      · have := @subBlockSize_le X (min n v.curPreparedSamples) s
        rw [subBlockResult_pos]; omega)
    _ _ st ⟨h0, hok, by simp [loopEntry], by simp [loopEntry]⟩ hst
  refine ⟨st, hind.1.1, hind.1.2.1, ?_, by rw [hst]; rfl⟩
  have := hind.1.2.2
  have := hind.2
  omega

/-- A render call that returned, on a voice whose LFO counter is in range: every property
of the loop state that holds on entry and that every iteration keeps holds for the state in
which the sub-block loop was left; `pos` is then the number of samples processed. -/
theorem renderCore_inner_of_some (E : Ext X) (C : Constants)
    (r : Voice X → Buf → Nat → Int → Option (Voice X × Buf))
    (v : Voice X) (out : Buf) (start : Nat) (n : Int) (res : Voice X × Buf)
    (h : ¬ (v.currentlyKillingVoice = false ∧ v.isVoiceActive = false))
    (hres : renderCore E C (stopNoteCore E C r false) v out start n = some res)
    (hok : LfoCounterOk v) (P : LoopState X → Prop) (h0 : P (loopEntry E v n))
    (hstep : ∀ st, P st → LfoCounterOk st.v → 0 ≤ st.pos →
      st.pos < min n v.curPreparedSamples →
      P (subBlockResult E C (min n v.curPreparedSamples) st)) :
    ∃ st, P st ∧ LfoCounterOk st.v ∧ st.pos = max 0 (min n v.curPreparedSamples) ∧
      res = renderExit st out start (min n v.curPreparedSamples) := by
  rw [renderCore_run E C _ v out start n h] at hres
  cases hl : renderLoop E C (stopNoteCore E C r false) (min n v.curPreparedSamples)
      (min n v.curPreparedSamples).toNat (loopEntry E v n) with
  | none => rw [hl] at hres; exact absurd hres (by simp)
  | some st =>
    rw [hl] at hres
    simp only [Option.map, Option.some.injEq] at hres
    have hind := renderLoop_induct
      (fun s => P s ∧ LfoCounterOk s.v ∧ 0 ≤ s.pos ∧
        s.pos ≤ max 0 (min n v.curPreparedSamples))
      (by
        intro s s1 hs hp hsub
        obtain ⟨hsub, _⟩ := subBlock_of_some E C _ _ _ _ hsub
        subst hsub
        refine ⟨hstep s hs.1 hs.2.1 hs.2.2.1 hp,
          subBlockResult_lfoCounterOk E C _ s hs.2.1 hp, ?_, ?_⟩
        · have := subBlockSize_pos hs.2.1 hp
          rw [subBlockResult_pos]; omega
        · have := @subBlockSize_le X (min n v.curPreparedSamples) s
          rw [subBlockResult_pos]; omega)
      _ _ st ⟨h0, hok, by simp [loopEntry], by simp [loopEntry]⟩ hl
    refine ⟨st, hind.1.1, hind.1.2.1, ?_, hres.symm⟩
    have := hind.1.2.2
    have := hind.2
    omega

/-! ## The envelope loop -/

theorem runEnvelopes_last (E : Ext X) :
    ∀ (n : Nat) (x : X) (f0 : ℚ),
      (runEnvelopes E (n + 1) x f0).2.1 = filterEnvelopeAt E x n := by
  intro n
  induction n with
  | zero => intro x f0; rfl
  | succ k ih =>
    intro x f0
    show (runEnvelopes E (k + 1) (E.ampEnvNext (E.filterEnvNext x).1).1
      (E.filterEnvNext x).2).2.1 = _
    rw [ih]
    rfl

theorem runEnvelopes_const (E : Ext X) (q : ℚ) (hE : ∀ x, (E.filterEnvNext x).2 = q) :
    ∀ (n : Nat) (x : X), (runEnvelopes E n x q).2.1 = q := by
  intro n
  induction n with
  | zero => intro x; rfl
  | succ k ih =>
    intro x
    show (runEnvelopes E k (E.ampEnvNext (E.filterEnvNext x).1).1
      (E.filterEnvNext x).2).2.1 = _
    rw [hE, ih]

theorem renderNextBlock_eq (E : Ext X) (C : Constants) :
    renderNextBlock E C
      = renderCore E C (stopNoteCore E C (renderNextBlockAt E C 1) false) := rfl

theorem renderExit_fst (st : LoopState X) (out : Buf) (start : Nat) (n : Int) :
    (renderExit st out start n).1 = { st.v with currentlyKillingVoice := false } := by
  unfold renderExit
  split_ifs with h
  · rfl
  · have h2 : st.v.currentlyKillingVoice = false := by simpa using h
    cases hv : st.v
    simp only [hv] at h2
    simp [h2] at *

/-! ## The filter: cutoff, resonance and envelope parameters -/

/-- C1. Every cutoff handed to the ladder filter lies in `cutOffRange` when
`cutOffRange.start ≤ cutOffRange.end`: for every state and every value, after
`setFilterCutoffInternal`, `setFilterCutoff` and `setFilterTiltCutoff`, after every
iteration of the sub-block loop of render (which returns when an armed overlap cursor has
its scratch buffer), and after every render call on a voice whose filter cutoff was in range
before. -/
theorem cutoff_applied_in_range (E : Ext X) (C : Constants)
    (h : C.cutOffStart ≤ C.cutOffEnd) :
    (∀ (v : Voice X) (x : ℚ), CutoffInRange C (setFilterCutoffInternal C v x)) ∧
    (∀ (v : Voice X) (x : ℚ), CutoffInRange C (setFilterCutoff C x v)) ∧
    (∀ (v : Voice X) (x : ℚ), CutoffInRange C (setFilterTiltCutoff C x v)) ∧
    (∀ (r : Voice X → Buf → Nat → Int → Option (Voice X × Buf)) (numSamples : Int)
        (st : LoopState X), ScratchOk st.v →
      ∃ st1, subBlock E C (stopNoteCore E C r false) numSamples st = some st1 ∧
        CutoffInRange C st1.v) ∧
    (∀ (v : Voice X) (out : Buf) (start : Nat) (n : Int),
      LfoCounterOk v → ScratchOk v → CutoffInRange C v →
      ∃ res, renderNextBlock E C v out start n = some res ∧ CutoffInRange C res.1) := by
  refine ⟨fun v x => setFilterCutoffInternal_inRange C h v x,
    fun v x => setFilterCutoffInternal_inRange C h _ _,
    fun v x => setFilterCutoffInternal_inRange C h _ _, ?_, ?_⟩
  · intro r numSamples st hA
    exact ⟨_, subBlock_stopNoteCore E C r numSamples st hA,
      subBlockTail_inRange E C h _ _ _ _⟩
  · intro v out start n hok hA hv
    rw [renderNextBlock_eq]
    by_cases hg : v.currentlyKillingVoice = false ∧ v.isVoiceActive = false
    · exact ⟨_, renderCore_skip E C _ v out start n hg, hv⟩
    · obtain ⟨st, hP, _, _, hr⟩ := renderCore_inner E C (renderNextBlockAt E C 1) v out start n
        hg hok hA (fun s => CutoffInRange C s.v) hv
        (fun s _ _ _ _ => subBlockTail_inRange E C h _ _ _ _)
      refine ⟨_, hr, ?_⟩
      rw [renderExit_fst]
      exact hP

/-- Witness of C1: a cutoff of 50 kHz set on the example voice is applied as a value inside
the range 20 Hz .. 18 kHz. -/
theorem cutoff_applied_in_range_witness :
    (demoConstants 4 4).cutOffStart ≤ (demoConstants 4 4).cutOffEnd ∧
    CutoffInRange (demoConstants 4 4)
      (setFilterCutoff (demoConstants 4 4) 50000
        (demoVoice (demoExt 0 1) (demoConstants 4 4))) :=
  ⟨by norm_num [demoConstants],
    (cutoff_applied_in_range (demoExt 0 1) (demoConstants 4 4)
      (by norm_num [demoConstants])).2.1 _ 50000⟩

/-- C2. The resonance handed to the ladder filter lies in `[0, 1]`: for every state and
every value after `setFilterResonanceInternal` and `setFilterResonance`; after `updateLfo`
with destination `filterResonance`, whatever the LFO output, amount and base resonance;
and `updateLfo` with any other destination leaves the applied resonance in `[0, 1]`. -/
theorem resonance_applied_in_unit_interval (E : Ext X) (C : Constants) (v : Voice X) :
    (∀ x : ℚ, ResonanceInRange (setFilterResonanceInternal v x)) ∧
    (∀ x : ℚ, ResonanceInRange (setFilterResonance x v)) ∧
    (v.lfoDest = LfoDest.filterResonance → ResonanceInRange (updateLfo E C v)) ∧
    (ResonanceInRange v → ResonanceInRange (updateLfo E C v)) := by
  refine ⟨fun x => setFilterResonanceInternal_inRange v x,
    fun x => setFilterResonanceInternal_inRange _ _, ?_, ?_⟩
  · intro hd
    unfold updateLfo
    simp only [hd]
    exact setFilterResonanceInternal_inRange _ _
  · intro hv
    unfold updateLfo
    dsimp only
    split
    · exact hv
    · exact hv
    · exact hv
    · exact setFilterResonanceInternal_inRange _ _
    · exact hv

/-- Witness of C2: with destination `filterResonance`, base resonance 5 and LFO amount 3,
the resonance applied by `updateLfo` on the example voice is in `[0, 1]`. -/
theorem resonance_applied_in_unit_interval_witness :
    ResonanceInRange
      (updateLfo (demoExt 0 1) (demoConstants 4 4)
        { demoVoice (demoExt 0 1) (demoConstants 4 4) with
            lfoDest := LfoDest.filterResonance, curFilterResonance := 5, lfoAmount := 3 }) :=
  (resonance_applied_in_unit_interval (demoExt 0 1) (demoConstants 4 4)
    { demoVoice (demoExt 0 1) (demoConstants 4 4) with
        lfoDest := LfoDest.filterResonance, curFilterResonance := 5, lfoAmount := 3 }).2.2.1 rfl

/-- C3. Every iteration of the sub-block loop of render returns (the one exception is an
iteration entered with the overlap cursor armed, a scratch sample to mix and the scratch
pointer null, which is no state of a voice and where the source dereferences the null
pointer) and leaves
the ladder filter with the cutoff `jlimit (cutOffRange.start, cutOffRange.end, (curFilterCutoff +
tiltCutoff) * (1 + envelopeAmount * e) + lfoCutOffContributionHz)`, where `envelopeAmount`
is 2, `e` is the value of `filterEnvelope` after the envelope loop, which for a sub-block
of at least one sample is what `filterADSR.getNextSample ()` returned at its last sample;
the cutoff is written exactly once in the iteration, and the base cutoff and the tilt are
those of the state before. -/
theorem cutoff_combined_once_per_subBlock (E : Ext X) (C : Constants)
    (r : Voice X → Buf → Nat → Int → Option (Voice X × Buf)) (numSamples : Int)
    (st : LoopState X) :
    ∃ st1, subBlock E C (stopNoteCore E C r false) numSamples st
        = (if st.v.overlapIndex > -1 ∧ st.v.overlapAllocated = false ∧
              0 < min (C.killRampSamples - st.v.overlapIndex) (subBlockSize numSamples st)
           then none else some st1) ∧
      st1.v.ladderCutoffHz
        = jlimit C.cutOffStart C.cutOffEnd
            ((st1.v.curFilterCutoff + st1.v.tiltCutoff)
                * (1 + envelopeAmount
                    * (subBlockHead E st.pos (subBlockSize numSamples st) st.v).filterEnvelope)
              + st1.v.lfoCutOffContributionHz) ∧
      envelopeAmount = 2 ∧
      (1 ≤ subBlockSize numSamples st →
        (subBlockHead E st.pos (subBlockSize numSamples st) st.v).filterEnvelope
          = filterEnvelopeAt E
              (E.chainProcess (E.oscProcess st.v.ext st.pos (subBlockSize numSamples st)).1
                st.v.ladderCutoffHz st.v.ladderResonance (subBlockSize numSamples st)
                (E.oscProcess st.v.ext st.pos (subBlockSize numSamples st)).2).1
              ((subBlockSize numSamples st).toNat - 1)) ∧
      st1.v.ladderCutoffWrites = st.v.ladderCutoffWrites + 1 ∧
      st1.v.curFilterCutoff = st.v.curFilterCutoff ∧
      st1.v.tiltCutoff = st.v.tiltCutoff := by
  refine ⟨_, subBlock_eq E C r numSamples st, ?_, rfl, ?_,
    subBlockResult_ladderCutoffWrites E C numSamples st,
    subBlockResult_curFilterCutoff E C numSamples st,
    subBlockResult_tiltCutoff E C numSamples st⟩
  · exact subBlockTail_ladderCutoffHz E C _ _ _ _
  · intro hn
    obtain ⟨k, hk⟩ : ∃ k, (subBlockSize numSamples st).toNat = k + 1 :=
      ⟨(subBlockSize numSamples st).toNat - 1, by omega⟩
    unfold subBlockHead
    dsimp only
    rw [hk, runEnvelopes_last]
    rfl

/-- C5. `setAmpParam` and `setFilterEnvParam` with the attack, decay or release identifier
store `numeric_limits<float>::epsilon ()` for a value `≤ 0` and the value itself otherwise;
what is stored is strictly positive, as is the epsilon. -/
theorem envelope_durations_floored (E : Ext X) (v : Voice X) (x : ℚ) :
    (setAmpParam E ParamId.ampAttackID x v).ampParams.attack
      = (if x ≤ 0 then floatEpsilon else x) ∧
    (setAmpParam E ParamId.ampDecayID x v).ampParams.decay
      = (if x ≤ 0 then floatEpsilon else x) ∧
    (setAmpParam E ParamId.ampReleaseID x v).ampParams.release
      = (if x ≤ 0 then floatEpsilon else x) ∧
    (setFilterEnvParam E ParamId.filterEnvAttackID x v).filterEnvParams.attack
      = (if x ≤ 0 then floatEpsilon else x) ∧
    (setFilterEnvParam E ParamId.filterEnvDecayID x v).filterEnvParams.decay
      = (if x ≤ 0 then floatEpsilon else x) ∧
    (setFilterEnvParam E ParamId.filterEnvReleaseID x v).filterEnvParams.release
      = (if x ≤ 0 then floatEpsilon else x) ∧
    0 < (if x ≤ 0 then floatEpsilon else x) ∧
    0 < floatEpsilon := by
  refine ⟨?_, ?_, ?_, ?_, ?_, ?_, ?_, floatEpsilon_pos⟩
  · simp [setAmpParam]
  · simp [setAmpParam]
  · simp [setAmpParam]
  · simp [setFilterEnvParam]
  · simp [setFilterEnvParam]
  · simp [setFilterEnvParam]
  · split_ifs with hx
    · exact floatEpsilon_pos
    · exact not_le.mp hx

/-- A render call that returned left its sub-block loop in a state that has every property
which holds on entry and which every iteration keeps. -/
theorem renderCore_of_some (E : Ext X) (C : Constants)
    (r : Voice X → Buf → Nat → Int → Option (Voice X × Buf))
    (v : Voice X) (out : Buf) (start : Nat) (n : Int) (res : Voice X × Buf)
    (h : ¬ (v.currentlyKillingVoice = false ∧ v.isVoiceActive = false))
    (hres : renderCore E C (stopNoteCore E C r false) v out start n = some res)
    (P : LoopState X → Prop) (h0 : P (loopEntry E v n))
    (hstep : ∀ st, P st → st.pos < min n v.curPreparedSamples →
      P (subBlockResult E C (min n v.curPreparedSamples) st)) :
    ∃ st, P st ∧ res = renderExit st out start (min n v.curPreparedSamples) := by
  rw [renderCore_run E C _ v out start n h] at hres
  cases hl : renderLoop E C (stopNoteCore E C r false) (min n v.curPreparedSamples)
      (min n v.curPreparedSamples).toNat (loopEntry E v n) with
  | none => rw [hl] at hres; exact absurd hres (by simp)
  | some st =>
    rw [hl] at hres
    simp only [Option.map, Option.some.injEq] at hres
    have hind := renderLoop_induct P
      (by
        intro s s1 hs hp hsub
        obtain ⟨hsub, _⟩ := subBlock_of_some E C _ _ _ _ hsub
        subst hsub
        exact hstep s hs hp)
      _ _ st h0 hl
    exact ⟨st, hind.1, hres.symm⟩

theorem updateLfo_lfoCutOffContributionHz_of_ne (E : Ext X) (C : Constants) (v : Voice X)
    (h : v.lfoDest ≠ LfoDest.filterCutOff) :
    (updateLfo E C v).lfoCutOffContributionHz = v.lfoCutOffContributionHz := by
  unfold updateLfo
  dsimp only
  split
  · rfl
  · rfl
  · rename_i hd; exact absurd hd h
  · rfl
  · rfl

theorem subBlockTail_lfoCutOffContributionHz_of_ne (E : Ext X) (C : Constants) (n : Int)
    (fe : ℚ) (v : Voice X) (b : Buf) (h : v.lfoDest ≠ LfoDest.filterCutOff) :
    (subBlockTail E C n fe v b).1.lfoCutOffContributionHz = v.lfoCutOffContributionHz := by
  unfold subBlockTail
  dsimp only
  split_ifs <;>
    simp [updateLfo_lfoCutOffContributionHz_of_ne, h]

theorem subBlockResult_lfoCutOffContributionHz_of_ne (E : Ext X) (C : Constants)
    (numSamples : Int) (st : LoopState X) (h : st.v.lfoDest ≠ LfoDest.filterCutOff) :
    (subBlockResult E C numSamples st).v.lfoCutOffContributionHz
      = st.v.lfoCutOffContributionHz := by
  unfold subBlockResult
  dsimp only
  rw [subBlockTail_lfoCutOffContributionHz_of_ne]
  · simp
  · simpa using h

theorem subBlockResult_ladderCutoffHz (E : Ext X) (C : Constants) (numSamples : Int)
    (st : LoopState X) :
    (subBlockResult E C numSamples st).v.ladderCutoffHz
      = jlimit C.cutOffStart C.cutOffEnd
          (((subBlockResult E C numSamples st).v.curFilterCutoff
              + (subBlockResult E C numSamples st).v.tiltCutoff)
            * (1 + envelopeAmount
                * (subBlockHead E st.pos (subBlockSize numSamples st) st.v).filterEnvelope)
            + (subBlockResult E C numSamples st).v.lfoCutOffContributionHz) :=
  subBlockTail_ladderCutoffHz E C _ _ _ _

theorem subBlockHead_filterEnvelope_const (E : Ext X) (q : ℚ)
    (hE : ∀ x, (E.filterEnvNext x).2 = q) (hq : q = 0) (pos n : Int) (v : Voice X) :
    (subBlockHead E pos n v).filterEnvelope = 0 := by
  subst hq
  unfold subBlockHead
  dsimp only
  exact runEnvelopes_const E 0 hE _ _

theorem subBlockResult_roundTrip (E : Ext X) (C : Constants) (x : ℚ)
    (hE : ∀ y, (E.filterEnvNext y).2 = 0) (numSamples : Int) (st : LoopState X)
    (h : RoundTripState C x st.v) :
    RoundTripState C x (subBlockResult E C numSamples st).v := by
  obtain ⟨h1, h2, h3, h4, _⟩ := h
  refine ⟨by simp [h1], by simp [h2],
    by rw [subBlockResult_lfoCutOffContributionHz_of_ne E C _ _ h4, h3], by simpa using h4, ?_⟩
  rw [subBlockResult_ladderCutoffHz, subBlockResult_lfoCutOffContributionHz_of_ne E C _ _ h4,
    subBlockHead_filterEnvelope_const E 0 hE rfl, h3]
  simp [h1, h2]

theorem renderSteps_roundTrip (E : Ext X) (C : Constants) (x : ℚ)
    (hE : ∀ y, (E.filterEnvNext y).2 = 0) (v w : Voice X) (hv : RoundTripState C x v)
    (hs : RenderSteps E C v w) : RoundTripState C x w := by
  induction hs with
  | refl => exact hv
  | subBlock r numSamples _ hsub ih =>
    obtain ⟨hsub, _⟩ := subBlock_of_some E C _ _ _ _ hsub
    subst hsub
    exact subBlockResult_roundTrip E C x hE _ _ ih
  | @render w res out start n _ hr ih =>
    rw [renderNextBlock_eq] at hr
    by_cases hg : w.currentlyKillingVoice = false ∧ w.isVoiceActive = false
    · rw [renderCore_skip E C _ w out start n hg] at hr
      simp only [Option.some.injEq] at hr
      subst hr
      exact ih
    · obtain ⟨st, hP, hres⟩ := renderCore_of_some E C _ w out start n res hg hr
        (fun s => RoundTripState C x s.v) ih
        (fun s hs _ => subBlockResult_roundTrip E C x hE _ s hs)
      rw [hres, renderExit_fst]
      exact hP

/-- A render call on a voice whose LFO counter is in range, and whose overlap cursor is
armed only with a scratch buffer at hand, returns. -/
theorem renderNextBlock_total (E : Ext X) (C : Constants) (v : Voice X) (out : Buf)
    (start : Nat) (n : Int) (hok : LfoCounterOk v) (hA : ScratchOk v) :
    ∃ res, renderNextBlock E C v out start n = some res := by
  rw [renderNextBlock_eq]
  by_cases hg : v.currentlyKillingVoice = false ∧ v.isVoiceActive = false
  · exact ⟨_, renderCore_skip E C _ v out start n hg⟩
  · obtain ⟨st, _, _, _, hres⟩ := renderCore_inner E C (renderNextBlockAt E C 1) v out
      start n hg hok hA (fun _ => True) trivial (fun _ _ _ _ _ => trivial)
    exact ⟨_, hres⟩

/-- C4, amended. With tilt offset 0, a filter envelope that returns 0, no stored LFO cutoff
contribution and an LFO destination other than the filter cutoff, the cutoff applied to
the filter after `setFilterCutoff (x)`, and after every later iteration of the sub-block
loop and every later render call, is `jlimit (cutOffRange.start, cutOffRange.end, x)`;
the iterations and the render calls return for a voice whose LFO counter is in
`[1, lfoUpdateRate]` and whose overlap cursor is armed only with a scratch buffer at hand. -/
theorem cutoff_round_trip (E : Ext X) (C : Constants) (v : Voice X) (x : ℚ)
    (henv : ∀ y, (E.filterEnvNext y).2 = 0) (htilt : v.tiltCutoff = 0)
    (hlfo : v.lfoCutOffContributionHz = 0) (hdest : v.lfoDest ≠ LfoDest.filterCutOff) :
    (setFilterCutoff C x v).ladderCutoffHz = jlimit C.cutOffStart C.cutOffEnd x ∧
    (∀ w, RenderSteps E C (setFilterCutoff C x v) w →
      w.ladderCutoffHz = jlimit C.cutOffStart C.cutOffEnd x) ∧
    (∀ (w : Voice X) (blk : Buf) (pos numSamples : Int)
        (r : Voice X → Buf → Nat → Int → Option (Voice X × Buf)),
      RenderSteps E C (setFilterCutoff C x v) w → ScratchOk w →
      ∃ st1, subBlock E C (stopNoteCore E C r false) numSamples
          { v := w, block := blk, pos := pos } = some st1 ∧
        st1.v.ladderCutoffHz = jlimit C.cutOffStart C.cutOffEnd x) ∧
    (∀ (w : Voice X) (out : Buf) (start : Nat) (n : Int),
      RenderSteps E C (setFilterCutoff C x v) w → LfoCounterOk w → ScratchOk w →
      ∃ res, renderNextBlock E C w out start n = some res ∧
        res.1.ladderCutoffHz = jlimit C.cutOffStart C.cutOffEnd x) := by
  have h0 : RoundTripState C x (setFilterCutoff C x v) := by
    refine ⟨rfl, htilt, hlfo, hdest, ?_⟩
    show jlimit _ _ (x + v.tiltCutoff) = _
    rw [htilt, add_zero]
  have hall : ∀ w, RenderSteps E C (setFilterCutoff C x v) w →
      w.ladderCutoffHz = jlimit C.cutOffStart C.cutOffEnd x :=
    fun w hw => (renderSteps_roundTrip E C x henv _ w h0 hw).2.2.2.2
  refine ⟨h0.2.2.2.2, hall, ?_, ?_⟩
  · intro w blk pos numSamples r hw hA
    have hs := subBlock_stopNoteCore E C r numSamples { v := w, block := blk, pos := pos } hA
    exact ⟨_, hs, hall _ (RenderSteps.subBlock r numSamples hw hs)⟩
  · intro w out start n hw hok hA
    obtain ⟨res, hr⟩ := renderNextBlock_total E C w out start n hok hA
    exact ⟨res, hr, hall _ (RenderSteps.render out start n hw hr)⟩

/-- A render call whose samples fit in one sub-block: the sub-block loop runs once. -/
theorem renderCore_single (E : Ext X) (C : Constants)
    (r : Voice X → Buf → Nat → Int → Option (Voice X × Buf))
    (v : Voice X) (out : Buf) (start : Nat) (n : Int)
    (h : ¬ (v.currentlyKillingVoice = false ∧ v.isVoiceActive = false))
    (h1 : 0 < min n v.curPreparedSamples)
    (h2 : min n v.curPreparedSamples ≤ v.lfoUpdateCounter) (hA : ScratchOk v) :
    renderCore E C (stopNoteCore E C r false) v out start n
      = some (renderExit (subBlockResult E C (min n v.curPreparedSamples) (loopEntry E v n))
          out start (min n v.curPreparedSamples)) := by
  rw [renderCore_run E C _ v out start n h]
  obtain ⟨k, hk⟩ : ∃ k, (min n v.curPreparedSamples).toNat = k + 1 :=
    ⟨(min n v.curPreparedSamples).toNat - 1, by omega⟩
  rw [hk]
  have hpos : (subBlockResult E C (min n v.curPreparedSamples) (loopEntry E v n)).pos
      = min n v.curPreparedSamples := by
    rw [subBlockResult_pos]
    unfold subBlockSize
    simp only [loopEntry]
    omega
  have hdone : ∀ f, renderLoop E C (stopNoteCore E C r false) (min n v.curPreparedSamples) f
      (subBlockResult E C (min n v.curPreparedSamples) (loopEntry E v n))
      = some (subBlockResult E C (min n v.curPreparedSamples) (loopEntry E v n)) := by
    intro f
    cases f with
    | zero => unfold renderLoop; rw [if_neg (by rw [hpos]; exact lt_irrefl _)]
    | succ f => unfold renderLoop; rw [if_neg (by rw [hpos]; exact lt_irrefl _)]
  unfold renderLoop
  rw [if_pos (by simpa [loopEntry] using h1),
    subBlock_stopNoteCore E C r _ _ (show ScratchOk (loopEntry E v n).v from hA)]
  dsimp only
  rw [hdone]
  rfl

theorem subBlockTail_lfoCutOffContributionHz_tick (E : Ext X) (C : Constants) (n : Int)
    (fe : ℚ) (v : Voice X) (b : Buf) (hc : v.lfoUpdateCounter - n = 0)
    (hd : v.lfoDest = LfoDest.filterCutOff) :
    (subBlockTail E C n fe v b).1.lfoCutOffContributionHz
      = jmap ((E.lfoProcessSample v.ext).2 * v.lfoAmount) 0 1 10 10000 := by
  have key : ∀ w : Voice X, w.lfoDest = LfoDest.filterCutOff →
      (updateLfo E C w).lfoCutOffContributionHz
        = jmap ((E.lfoProcessSample w.ext).2 * w.lfoAmount) 0 1 10 10000 := by
    intro w hw
    unfold updateLfo
    simp only [hw]
  unfold subBlockTail
  dsimp only
  split_ifs <;> simp_all

/-- Witness of C4 (amended): the example voice with the LFO routed to the resonance and the
cutoff set to 1000 Hz; a render call of 100 samples returns with `clamp (1000)` applied. -/
theorem cutoff_round_trip_witness :
    (∀ y, ((demoExt 0 1).filterEnvNext y).2 = 0) ∧
    (setLfoDest (demoExt 0 1) LfoDest.filterResonance
        (demoSounding (demoExt 0 1) (demoConstants 4 4))).tiltCutoff = 0 ∧
    (setLfoDest (demoExt 0 1) LfoDest.filterResonance
        (demoSounding (demoExt 0 1) (demoConstants 4 4))).lfoCutOffContributionHz = 0 ∧
    ∃ res, renderNextBlock (demoExt 0 1) (demoConstants 4 4)
        (setFilterCutoff (demoConstants 4 4) 1000
          (setLfoDest (demoExt 0 1) LfoDest.filterResonance
            (demoSounding (demoExt 0 1) (demoConstants 4 4))))
        Buf.silence 0 100 = some res ∧
      res.1.ladderCutoffHz
        = jlimit (demoConstants 4 4).cutOffStart (demoConstants 4 4).cutOffEnd 1000 :=
  ⟨fun _ => rfl, rfl, rfl,
    (cutoff_round_trip (demoExt 0 1) (demoConstants 4 4)
      (setLfoDest (demoExt 0 1) LfoDest.filterResonance
        (demoSounding (demoExt 0 1) (demoConstants 4 4))) 1000
      (fun _ => rfl) rfl rfl (by decide)).2.2.2 _ Buf.silence 0 100 (RenderSteps.refl _)
      ⟨show (1 : Int) ≤ 100 by decide, show (100 : Int) ≤ 100 by decide⟩
      (scratchOk_of_idle rfl)⟩

/-- C4 as stated fails: on the sounding example voice with tilt 0, filter envelope 0, LFO
amount 0 and the LFO routed to the filter cutoff, `setFilterCutoff (1000)` followed by a
render call of 100 samples (one control-rate tick) leaves 1010 Hz applied, not
`clamp (1000) = 1000`: with amount 0 the LFO contributes `jmap (0, 0, 1, 10, 10000) = 10`. -/
theorem cutoff_round_trip_counterexample :
    (setFilterCutoff (demoConstants 4 4) 1000
        (setLfoAmount 0 (demoSounding (demoExt 0 1) (demoConstants 4 4)))).tiltCutoff = 0 ∧
    (setFilterCutoff (demoConstants 4 4) 1000
        (setLfoAmount 0 (demoSounding (demoExt 0 1) (demoConstants 4 4)))).lfoAmount = 0 ∧
    (setFilterCutoff (demoConstants 4 4) 1000
        (setLfoAmount 0 (demoSounding (demoExt 0 1) (demoConstants 4 4)))).lfoDest
      = LfoDest.filterCutOff ∧
    (∀ y, ((demoExt 0 1).filterEnvNext y).2 = 0) ∧
    jlimit (demoConstants 4 4).cutOffStart (demoConstants 4 4).cutOffEnd 1000 = 1000 ∧
    ∃ res, renderNextBlock (demoExt 0 1) (demoConstants 4 4)
        (setFilterCutoff (demoConstants 4 4) 1000
          (setLfoAmount 0 (demoSounding (demoExt 0 1) (demoConstants 4 4))))
        Buf.silence 0 100 = some res ∧ res.1.ladderCutoffHz = 1010 := by
  refine ⟨rfl, rfl, rfl, fun _ => rfl, by norm_num [jlimit, demoConstants], ?_⟩
  have hr := renderCore_single (demoExt 0 1) (demoConstants 4 4)
    (renderNextBlockAt (demoExt 0 1) (demoConstants 4 4) 1)
    (setFilterCutoff (demoConstants 4 4) 1000
      (setLfoAmount 0 (demoSounding (demoExt 0 1) (demoConstants 4 4))))
    Buf.silence 0 100 (by decide) (by decide) (by decide) (scratchOk_of_idle rfl)
  refine ⟨_, hr, ?_⟩
  · rw [renderExit_fst]
    dsimp only
    rw [subBlockResult_ladderCutoffHz,
      subBlockHead_filterEnvelope_const (demoExt 0 1) 0 (fun _ => rfl) rfl]
    have hl : (subBlockResult (demoExt 0 1) (demoConstants 4 4)
        (min 100 (setFilterCutoff (demoConstants 4 4) 1000
          (setLfoAmount 0 (demoSounding (demoExt 0 1) (demoConstants 4 4)))).curPreparedSamples)
        (loopEntry (demoExt 0 1) (setFilterCutoff (demoConstants 4 4) 1000
          (setLfoAmount 0 (demoSounding (demoExt 0 1) (demoConstants 4 4)))) 100)).v.lfoCutOffContributionHz
        = 10 := by
      unfold subBlockResult
      dsimp only
      rw [subBlockTail_lfoCutOffContributionHz_tick _ _ _ _ _ _ (by decide) rfl]
      simp only [afterRelease_lfoAmount, subBlockHead_lfoAmount]
      norm_num [jmap, loopEntry, setFilterCutoff, setFilterCutoffInternal, setLfoAmount]
    rw [hl]
    simp only [subBlockResult_curFilterCutoff, subBlockResult_tiltCutoff]
    norm_num [jlimit, envelopeAmount, loopEntry, setFilterCutoff, setFilterCutoffInternal,
      setLfoAmount, demoSounding, startNote, demoVoice, prepare, construct, setLfoFreq,
      setLfoShape, setFilterResonanceInternal, demoConstants]

/-! ## Setters and the lifecycle fields -/

theorem SameLifecycle.refl (v : Voice X) : SameLifecycle v v :=
  ⟨rfl, rfl, rfl, rfl, rfl, rfl, rfl, rfl, rfl, rfl, rfl, rfl, rfl, rfl⟩

theorem setAmpParam_sameLifecycle (E : Ext X) (p : ParamId) (x : ℚ) (v : Voice X) :
    SameLifecycle v (setAmpParam E p x v) :=
  ⟨rfl, rfl, rfl, rfl, rfl, rfl, rfl, rfl, rfl, rfl, rfl, rfl, rfl, rfl⟩

theorem setFilterEnvParam_sameLifecycle (E : Ext X) (p : ParamId) (x : ℚ) (v : Voice X) :
    SameLifecycle v (setFilterEnvParam E p x v) :=
  ⟨rfl, rfl, rfl, rfl, rfl, rfl, rfl, rfl, rfl, rfl, rfl, rfl, rfl, rfl⟩

theorem setLfoShape_sameLifecycle (E : Ext X) (s : LfoShape) (v : Voice X) :
    SameLifecycle v (setLfoShape E s v) := by
  cases s <;> exact ⟨rfl, rfl, rfl, rfl, rfl, rfl, rfl, rfl, rfl, rfl, rfl, rfl, rfl, rfl⟩

theorem setLfoDest_sameLifecycle (E : Ext X) (d : LfoDest) (v : Voice X) :
    SameLifecycle v (setLfoDest E d v) :=
  ⟨rfl, rfl, rfl, rfl, rfl, rfl, rfl, rfl, rfl, rfl, rfl, rfl, rfl, rfl⟩

theorem setLfoFreq_sameLifecycle (E : Ext X) (x : ℚ) (v : Voice X) :
    SameLifecycle v (setLfoFreq E x v) :=
  ⟨rfl, rfl, rfl, rfl, rfl, rfl, rfl, rfl, rfl, rfl, rfl, rfl, rfl, rfl⟩

theorem setLfoAmount_sameLifecycle (x : ℚ) (v : Voice X) :
    SameLifecycle v (setLfoAmount x v) :=
  ⟨rfl, rfl, rfl, rfl, rfl, rfl, rfl, rfl, rfl, rfl, rfl, rfl, rfl, rfl⟩

theorem setFilterCutoff_sameLifecycle (C : Constants) (x : ℚ) (v : Voice X) :
    SameLifecycle v (setFilterCutoff C x v) :=
  ⟨rfl, rfl, rfl, rfl, rfl, rfl, rfl, rfl, rfl, rfl, rfl, rfl, rfl, rfl⟩

theorem setFilterTiltCutoff_sameLifecycle (C : Constants) (x : ℚ) (v : Voice X) :
    SameLifecycle v (setFilterTiltCutoff C x v) :=
  ⟨rfl, rfl, rfl, rfl, rfl, rfl, rfl, rfl, rfl, rfl, rfl, rfl, rfl, rfl⟩

theorem setFilterResonance_sameLifecycle (x : ℚ) (v : Voice X) :
    SameLifecycle v (setFilterResonance x v) :=
  ⟨rfl, rfl, rfl, rfl, rfl, rfl, rfl, rfl, rfl, rfl, rfl, rfl, rfl, rfl⟩

theorem pitchWheelMoved_sameLifecycle (E : Ext X) (p : Int) (v : Voice X) :
    SameLifecycle v (pitchWheelMoved E p v) :=
  ⟨rfl, rfl, rfl, rfl, rfl, rfl, rfl, rfl, rfl, rfl, rfl, rfl, rfl, rfl⟩

theorem controllerMoved_sameLifecycle (C : Constants) (c x : Int) (v : Voice X) :
    SameLifecycle v (controllerMoved C c x v) := by
  unfold controllerMoved
  split_ifs
  · exact setFilterTiltCutoff_sameLifecycle C _ v
  · exact SameLifecycle.refl v

theorem parameterChanged_sameLifecycle (E : Ext X) (C : Constants) (p : ParamId) (x : ℚ)
    (v : Voice X) : SameLifecycle v (parameterChanged E C p x v) := by
  unfold parameterChanged
  split_ifs
  · exact setAmpParam_sameLifecycle E p x v
  · exact setFilterEnvParam_sameLifecycle E p x v
  · exact setLfoShape_sameLifecycle E _ v
  · exact setLfoDest_sameLifecycle E _ v
  · exact setLfoFreq_sameLifecycle E x v
  · exact setLfoAmount_sameLifecycle x v
  · exact setFilterCutoff_sameLifecycle C x v
  · exact setFilterResonance_sameLifecycle x v
  · exact SameLifecycle.refl v

/-! ## Ramp-up -/

theorem RampInv.of_same_ramp {C : Constants} {N : Nat} {v w : Voice X} (h : RampInv C N v)
    (hc : w.lfoUpdateCounter = v.lfoUpdateCounter) (hr : w.rampingUp = v.rampingUp)
    (hl : w.rampUpSamplesLeft = v.rampUpSamplesLeft) : RampInv C N w := by
  unfold RampInv LfoCounterOk at *
  rw [hc, hr, hl]
  exact h

theorem subBlockResult_rampInv (E : Ext X) (C : Constants)
    (numSamples : Int) (st : LoopState X) (N : Nat) (h : RampInv C N st.v)
    (hp : st.pos < numSamples) :
    RampInv C (N + (subBlockSize numSamples st).toNat) (subBlockResult E C numSamples st).v := by
  have hn := subBlockSize_pos h.1 hp
  refine ⟨subBlockResult_lfoCounterOk E C numSamples st h.1 hp, ?_, ?_⟩
  · intro hlt
    have hN : (N : Int) < C.rampUpSamples := by omega
    obtain ⟨hr, hl⟩ := h.2.1 hN
    rw [subBlockResult_rampingUp, subBlockResult_rampUpSamplesLeft, hr, hl]
    simp only [true_and, if_true]
    constructor
    · rw [if_neg]
      push_cast at hlt
      omega
    · push_cast at hlt ⊢
      omega
  · intro hge
    rw [subBlockResult_rampingUp]
    by_cases hN : (N : Int) < C.rampUpSamples
    · obtain ⟨hr, hl⟩ := h.2.1 hN
      rw [hr, hl, if_pos]
      refine ⟨rfl, ?_⟩
      push_cast at hge
      omega
    · have := h.2.2 (not_lt.mp hN)
      rw [this]
      simp

theorem render_rampInv (E : Ext X) (C : Constants)
    (v : Voice X) (out : Buf) (start : Nat) (n : Int) (res : Voice X × Buf) (N : Nat)
    (h : RampInv C N v) (hr : renderNextBlock E C v out start n = some res) :
    RampInv C (N + (samplesProcessed v n).toNat) res.1 := by
  rw [renderNextBlock_eq] at hr
  by_cases hg : v.currentlyKillingVoice = false ∧ v.isVoiceActive = false
  · rw [renderCore_skip E C _ v out start n hg] at hr
    simp only [Option.some.injEq] at hr
    subst hr
    simpa [samplesProcessed, hg] using h
  · obtain ⟨st, hP, _, hpos, hres⟩ := renderCore_inner_of_some E C (renderNextBlockAt E C 1)
      v out start n res hg hr h.1 (fun s => RampInv C (N + s.pos.toNat) s.v)
      (by simpa [loopEntry] using h.of_same_ramp rfl rfl rfl)
      (by
        intro s hs hok h0 hlt
        have hn := subBlockSize_pos hok hlt
        have := subBlockResult_rampInv E C _ s _ hs hlt
        rw [subBlockResult_pos]
        have e : N + (s.pos + subBlockSize (min n v.curPreparedSamples) s).toNat
            = N + s.pos.toNat + (subBlockSize (min n v.curPreparedSamples) s).toNat := by
          omega
        rw [e]
        exact this)
    subst hres
    rw [renderExit_fst]
    have e : samplesProcessed v n = st.pos := by
      unfold samplesProcessed
      rw [if_neg hg, hpos]
    rw [e]
    exact hP.of_same_ramp rfl rfl rfl

theorem afterStart_rampInv (E : Ext X) (C : Constants) (hR : 0 < C.rampUpSamples)
    (N : Nat) (v : Voice X) (h : AfterStart E C N v) : RampInv C N v := by
  induction h with
  | start note vel pw v hok =>
    refine ⟨hok, fun _ => ⟨rfl, by simp [startNote]⟩, fun hle => ?_⟩
    simp at hle
    omega
  | head pos n _ ih => exact ih.of_same_ramp rfl rfl rfl
  | release _ ih => exact ih.of_same_ramp (by simp) (by simp) (by simp)
  | subBlock r numSamples _ hp hsub ih =>
    obtain ⟨hsub, _⟩ := subBlock_of_some E C _ _ _ _ hsub
    subst hsub
    exact subBlockResult_rampInv E C _ _ _ ih hp
  | render out start n _ hr ih => exact render_rampInv E C _ out start n _ _ ih hr
  | tailOff _ hs ih =>
    simp only [stopNote, stopNoteCore, if_true, Option.some.injEq] at hs
    subst hs
    exact ih.of_same_ramp rfl rfl rfl
  | @parameterChanged _ w p x _ ih =>
    have := parameterChanged_sameLifecycle E C p x w
    exact ih.of_same_ramp this.lfoUpdateCounter this.rampingUp this.rampUpSamplesLeft
  | @controllerMoved _ w c x _ ih =>
    have := controllerMoved_sameLifecycle C c x w
    exact ih.of_same_ramp this.lfoUpdateCounter this.rampingUp this.rampUpSamplesLeft
  | pitchWheelMoved p _ ih => exact ih.of_same_ramp rfl rfl rfl

theorem processRampUp_block (C : Constants) (v : Voice X) (blk : Buf) (n : Int) (c i : Nat) :
    (processRampUp C v blk n).2 c i
      = if (i : Int) < min n v.rampUpSamplesLeft then
          blk c i * (((C.rampUpSamples - v.rampUpSamplesLeft : Int) : ℚ) / (C.rampUpSamples : ℚ)
            + (i : ℚ)
              * (((((C.rampUpSamples - v.rampUpSamplesLeft : Int) : ℚ) / (C.rampUpSamples : ℚ)
                    + ((min n v.rampUpSamplesLeft : Int) : ℚ) / (C.rampUpSamples : ℚ))
                  - ((C.rampUpSamples - v.rampUpSamplesLeft : Int) : ℚ) / (C.rampUpSamples : ℚ))
                / ((min n v.rampUpSamplesLeft : Int) : ℚ)))
        else blk c i := rfl

theorem processKillOverlap_block (C : Constants) (v : Voice X) (blk : Buf) (n : Int)
    (c i : Nat) :
    (processKillOverlap C v blk n).2 c i
      = if (i : Int) < min (C.killRampSamples - v.overlapIndex) n then
          blk c i + v.overlap c (v.overlapIndex + (i : Int)).toNat
        else blk c i := rfl

/-- The ramp-up stage of a sub-block multiplies sample `i` by the gain of sample `N + i`
after the note start. -/
theorem rampStage_gain (C : Constants) (hR : 0 < C.rampUpSamples) (N : Nat) (v : Voice X)
    (h : RampInv C N v) (blk : Buf) (n : Int) (c i : Nat) (hi : (i : Int) < n) :
    (if v.rampingUp = true then processRampUp C v blk n else (v, blk)).2 c i
      = blk c i * rampUpGain C (N + i) := by
  have hRq : (C.rampUpSamples : ℚ) ≠ 0 := by
    have : (0 : ℚ) < (C.rampUpSamples : ℚ) := by exact_mod_cast hR
    exact ne_of_gt this
  by_cases hN : (N : Int) < C.rampUpSamples
  · obtain ⟨hr, hl⟩ := h.2.1 hN
    rw [if_pos hr, processRampUp_block, hl]
    by_cases hlt : (i : Int) < min n (C.rampUpSamples - (N : Int))
    · rw [if_pos hlt]
      have hgain : rampUpGain C (N + i) = ((N : ℚ) + (i : ℚ)) / (C.rampUpSamples : ℚ) := by
        unfold rampUpGain
        rw [if_pos (by push_cast; omega)]
        push_cast
        rfl
      have hm : ((min n (C.rampUpSamples - (N : Int)) : Int) : ℚ) ≠ 0 := by
        have : (0 : Int) < min n (C.rampUpSamples - (N : Int)) := by omega
        have : (0 : ℚ) < ((min n (C.rampUpSamples - (N : Int)) : Int) : ℚ) := by
          exact_mod_cast this
        exact ne_of_gt this
      rw [hgain]
      have e : ((C.rampUpSamples - (C.rampUpSamples - (N : Int)) : Int) : ℚ) = (N : ℚ) := by
        push_cast
        ring
      rw [e]
      generalize ((min n (C.rampUpSamples - (N : Int)) : Int) : ℚ) = m at hm
      field_simp
      ring
    · rw [if_neg hlt]
      unfold rampUpGain
      rw [if_neg (by push_cast; omega), mul_one]
  · have hr := h.2.2 (not_lt.mp hN)
    rw [if_neg (by simp [hr])]
    unfold rampUpGain
    rw [if_neg (by push_cast; omega), mul_one]

theorem killStage_block (C : Constants) (a : Voice X × Buf) (n : Int) (c i : Nat) :
    (if a.1.overlapIndex > -1 then processKillOverlap C a.1 a.2 n else a).2 c i
      = a.2 c i + killTail C a.1 n c i := by
  unfold killTail
  by_cases ho : a.1.overlapIndex > -1
  · rw [if_pos ho, processKillOverlap_block]
    by_cases hi : (i : Int) < min (C.killRampSamples - a.1.overlapIndex) n
    · rw [if_pos hi, if_pos ⟨ho, hi⟩]
    · rw [if_neg hi, if_neg (fun h => hi h.2), add_zero]
  · rw [if_neg ho, if_neg (fun h => ho h.1), add_zero]

theorem killTail_congr (C : Constants) (v w : Voice X) (n : Int) (c i : Nat)
    (h1 : w.overlapIndex = v.overlapIndex) (h2 : w.overlap = v.overlap) :
    killTail C w n c i = killTail C v n c i := by
  unfold killTail
  rw [h1, h2]

theorem subBlockTail_block (E : Ext X) (C : Constants) (n : Int) (fe : ℚ) (v : Voice X)
    (blk : Buf) (c i : Nat) :
    (subBlockTail E C n fe v blk).2 c i
      = (if v.rampingUp = true then processRampUp C v blk n else (v, blk)).2 c i
        + killTail C v n c i := by
  unfold subBlockTail
  dsimp only
  rw [killStage_block]
  congr 1
  apply killTail_congr
  · split_ifs <;> simp
  · split_ifs <;> simp

/-- C6. After `startNote`, however the following samples are split into render calls and
sub-blocks (parameter changes and `stopNote` with tail-off included, no forced kill in
between), the sub-block that holds the samples `N, N + 1, …` after the note start leaves in
its sample `i` the rendered sample (oscillators, effect chain, amplitude envelope) times
the gain `rampUpGain (N + i)`, plus the scratch sample the kill overlap adds; the gain is
`k / rampUpSamples` for `k < rampUpSamples` and 1 from there on, so it starts at 0 and is
strictly increasing up to sample `rampUpSamples`. -/
theorem rampUp_gain_partition_independent (E : Ext X) (C : Constants)
    (hR : 0 < C.rampUpSamples) :
    (∀ (N : Nat) (v : Voice X), AfterStart E C N v →
      ∀ (n : Int) (fe : ℚ) (blk : Buf) (c i : Nat), (i : Int) < n →
        (subBlockTail E C n fe v blk).2 c i
          = blk c i * rampUpGain C (N + i) + killTail C v n c i) ∧
    (∀ k : Nat, (k : Int) < C.rampUpSamples →
      rampUpGain C k = (k : ℚ) / (C.rampUpSamples : ℚ)) ∧
    (∀ k : Nat, C.rampUpSamples ≤ (k : Int) → rampUpGain C k = 1) ∧
    rampUpGain C 0 = 0 ∧
    (∀ j k : Nat, j < k → (k : Int) ≤ C.rampUpSamples → rampUpGain C j < rampUpGain C k) := by
  have hRq : (0 : ℚ) < (C.rampUpSamples : ℚ) := by exact_mod_cast hR
  refine ⟨?_, ?_, ?_, ?_, ?_⟩
  · intro N v h n fe blk c i hi
    rw [subBlockTail_block, rampStage_gain C hR N v (afterStart_rampInv E C hR N v h) blk n c i hi]
  · intro k hk
    unfold rampUpGain
    rw [if_pos hk]
  · intro k hk
    unfold rampUpGain
    rw [if_neg (not_lt.mpr hk)]
  · unfold rampUpGain
    rw [if_pos (by exact_mod_cast hR)]
    simp
  · intro j k hjk hk
    have hj : (j : Int) < C.rampUpSamples := by omega
    unfold rampUpGain
    rw [if_pos hj]
    have hjR : (j : ℚ) < (C.rampUpSamples : ℚ) := by exact_mod_cast hj
    split_ifs with hk2
    · have : (j : ℚ) < (k : ℚ) := by exact_mod_cast hjk
      exact div_lt_div_of_pos_right this hRq
    · rw [div_lt_one hRq]
      exact hjR

/-- Witness of C6: the example voice right after `startNote`, with a ramp-up of 4 samples;
sample 2 of a first sub-block of 3 samples gets the gain of sample 2 after the note start. -/
theorem rampUp_gain_partition_independent_witness :
    (0 : Int) < (demoConstants 4 4).rampUpSamples ∧
    (subBlockTail (demoExt 0 1) (demoConstants 4 4) 3 0
        (demoSounding (demoExt 0 1) (demoConstants 4 4)) (fun _ _ => 1)).2 0 2
      = 1 * rampUpGain (demoConstants 4 4) (0 + 2)
        + killTail (demoConstants 4 4) (demoSounding (demoExt 0 1) (demoConstants 4 4)) 3 0 2 :=
  ⟨by decide,
    (rampUp_gain_partition_independent (demoExt 0 1) (demoConstants 4 4) (by decide)).1 0
      (demoSounding (demoExt 0 1) (demoConstants 4 4))
      (AfterStart.start 60 1 8192 _
        ⟨show (1 : Int) ≤ 100 by decide, show (100 : Int) ≤ 100 by decide⟩)
      3 0 (fun _ _ => 1) 0 2 (by decide)⟩

/-! ## The forced kill -/

theorem stopNoteCore_skip (E : Ext X) (C : Constants)
    (r : Voice X → Buf → Nat → Int → Option (Voice X × Buf)) (v : Voice X)
    (h : ¬ (v.sampleRate ≠ 0 ∧ v.justDoneReleaseEnvelope = false)) :
    stopNoteCore E C r false v
      = some { v with justDoneReleaseEnvelope := false, currentlyPlayingNote := -1 } := by
  unfold stopNoteCore
  simp only [Bool.false_eq_true, if_false, if_neg h]

/-- The kill path of `stopNote` on a voice that was never prepared: `overlap->clear ()`
dereferences the null pointer and the call does not return. -/
theorem stopNoteCore_null (E : Ext X) (C : Constants)
    (r : Voice X → Buf → Nat → Int → Option (Voice X × Buf)) (v : Voice X)
    (h : v.sampleRate ≠ 0 ∧ v.justDoneReleaseEnvelope = false)
    (hal : v.overlapAllocated = false) :
    stopNoteCore E C r false v = none := by
  unfold stopNoteCore
  simp only [Bool.false_eq_true, if_false, if_pos h]
  rw [if_neg (by rw [hal]; decide)]

theorem stopNoteCore_kill (E : Ext X) (C : Constants)
    (r : Voice X → Buf → Nat → Int → Option (Voice X × Buf)) (v : Voice X)
    (h : v.sampleRate ≠ 0 ∧ v.justDoneReleaseEnvelope = false)
    (hal : v.overlapAllocated = true) :
    stopNoteCore E C r false v
      = (r (killEntry v) Buf.silence 0 C.killRampSamples).map
          (fun res => { res.1 with overlap := res.2, overlapIndex := 0,
                                   justDoneReleaseEnvelope := false,
                                   currentlyPlayingNote := -1 }) := by
  unfold stopNoteCore
  simp only [Bool.false_eq_true, if_false, if_pos h]
  rw [if_pos hal]
  show (match (match r (killEntry v) Buf.silence 0 C.killRampSamples with
      | none => none
      | some r => some { r.1 with overlap := r.2, overlapIndex := 0 }) with
    | none => none
    | some v2 => some { v2 with justDoneReleaseEnvelope := false, currentlyPlayingNote := -1 })
    = _
  cases r (killEntry v) Buf.silence 0 C.killRampSamples with
  | none => rfl
  | some res => rfl

/-- The kill path of `stopNote` on a prepared voice (scratch buffer allocated) returns, and
every property of the loop state that holds when the nested render enters its sub-block
loop and that every iteration keeps holds for the state in which that loop is left. -/
theorem stopNote_kill (E : Ext X) (C : Constants) (v : Voice X) (hok : LfoCounterOk v)
    (hal : v.overlapAllocated = true)
    (h : v.sampleRate ≠ 0 ∧ v.justDoneReleaseEnvelope = false)
    (P : LoopState X → Prop) (h0 : P (loopEntry E (killEntry v) C.killRampSamples))
    (hstep : ∀ st, P st → LfoCounterOk st.v → 0 ≤ st.pos →
      st.pos < min C.killRampSamples v.curPreparedSamples →
      P (subBlockResult E C (min C.killRampSamples v.curPreparedSamples) st)) :
    ∃ st, P st ∧ LfoCounterOk st.v ∧
      st.pos = max 0 (min C.killRampSamples v.curPreparedSamples) ∧
      stopNote E C false v
        = some (killExit st (min C.killRampSamples v.curPreparedSamples)) := by
  obtain ⟨st, ⟨hP, hk⟩, hok1, hpos, hres⟩ := renderCore_inner E C (renderNextBlockAt E C 1)
    (killEntry v) Buf.silence 0 C.killRampSamples (by simp [killEntry]) hok
    (scratchOk_of_allocated hal)
    (fun s => P s ∧ s.v.currentlyKillingVoice = true) ⟨h0, rfl⟩
    (fun s hs hok2 hp hlt => ⟨hstep s hs.1 hok2 hp hlt, by simpa using hs.2⟩)
  refine ⟨st, hP, hok1, hpos, ?_⟩
  unfold stopNote
  rw [stopNoteCore_kill E C _ v h hal]
  show Option.map _ (renderCore E C (stopNoteCore E C (renderNextBlockAt E C 1) false)
    (killEntry v) Buf.silence 0 C.killRampSamples) = _
  rw [hres]
  simp only [Option.map, renderExit, if_pos hk]
  rfl

/-- A `stopNote (_, false)` that returned from the kill path found the scratch buffer
allocated. -/
theorem stopNote_kill_allocated (E : Ext X) (C : Constants) (v w : Voice X)
    (h : v.sampleRate ≠ 0 ∧ v.justDoneReleaseEnvelope = false)
    (hs : stopNote E C false v = some w) : v.overlapAllocated = true := by
  cases hal : v.overlapAllocated
  · unfold stopNote at hs
    rw [stopNoteCore_null E C _ v h hal] at hs
    exact absurd hs (by simp)
  · rfl

/-- A `stopNote (_, false)` that returned from the kill path: every property of the loop
state that holds when the nested render enters its sub-block loop and that every iteration
keeps holds for the state in which that loop was left. -/
theorem stopNote_kill_of_some (E : Ext X) (C : Constants) (v w : Voice X)
    (hok : LfoCounterOk v) (h : v.sampleRate ≠ 0 ∧ v.justDoneReleaseEnvelope = false)
    (hs : stopNote E C false v = some w)
    (P : LoopState X → Prop) (h0 : P (loopEntry E (killEntry v) C.killRampSamples))
    (hstep : ∀ st, P st → LfoCounterOk st.v → 0 ≤ st.pos →
      st.pos < min C.killRampSamples v.curPreparedSamples →
      P (subBlockResult E C (min C.killRampSamples v.curPreparedSamples) st)) :
    ∃ st, P st ∧ LfoCounterOk st.v ∧
      st.pos = max 0 (min C.killRampSamples v.curPreparedSamples) ∧
      w = killExit st (min C.killRampSamples v.curPreparedSamples) := by
  obtain ⟨st, hP, hok1, hpos, hres⟩ := stopNote_kill E C v hok
    (stopNote_kill_allocated E C v w h hs) h P h0 hstep
  rw [hs] at hres
  simp only [Option.some.injEq] at hres
  exact ⟨st, hP, hok1, hpos, hres⟩

/-- A render call that returns leaves the pointer `overlap` as it was. -/
theorem render_overlapAllocated (E : Ext X) (C : Constants) (v : Voice X) (out : Buf)
    (start : Nat) (n : Int) (res : Voice X × Buf)
    (hres : renderNextBlock E C v out start n = some res) :
    res.1.overlapAllocated = v.overlapAllocated := by
  rw [renderNextBlock_eq] at hres
  by_cases hg : v.currentlyKillingVoice = false ∧ v.isVoiceActive = false
  · rw [renderCore_skip E C _ v out start n hg] at hres
    simp only [Option.some.injEq] at hres
    subst hres
    rfl
  · obtain ⟨st, hP, hr⟩ := renderCore_of_some E C _ v out start n res hg hres
      (fun s => s.v.overlapAllocated = v.overlapAllocated) rfl
      (fun s hs _ => (subBlockResult_overlapAllocated E C _ s).trans hs)
    rw [hr, renderExit_fst]
    exact hP

/-- A `stopNote` that returns leaves the pointer `overlap` as it was. -/
theorem stopNote_overlapAllocated (E : Ext X) (C : Constants) (v w : Voice X) (b : Bool)
    (hs : stopNote E C b v = some w) : w.overlapAllocated = v.overlapAllocated := by
  cases b with
  | true =>
    unfold stopNote stopNoteCore at hs
    simp only [if_true, Option.some.injEq] at hs
    subst hs
    rfl
  | false =>
    by_cases hg : v.sampleRate ≠ 0 ∧ v.justDoneReleaseEnvelope = false
    · have hal := stopNote_kill_allocated E C v w hg hs
      unfold stopNote at hs
      rw [stopNoteCore_kill E C _ v hg hal] at hs
      cases hr : renderNextBlockAt E C nestingFuel (killEntry v) Buf.silence 0
          C.killRampSamples with
      | none => rw [hr] at hs; exact absurd hs (by simp)
      | some res =>
        rw [hr] at hs
        simp only [Option.map, Option.some.injEq] at hs
        subst hs
        exact render_overlapAllocated E C (killEntry v) Buf.silence 0 C.killRampSamples
          res hr
    · unfold stopNote at hs
      rw [stopNoteCore_skip E C _ v hg] at hs
      simp only [Option.some.injEq] at hs
      subst hs
      rfl

/-- Render calls and `stopNote` keep an armed cursor with its scratch buffer. -/
theorem render_scratchOk (E : Ext X) (C : Constants) (v : Voice X) (out : Buf)
    (start : Nat) (n : Int) (res : Voice X × Buf) (hA : ScratchOk v)
    (hres : renderNextBlock E C v out start n = some res) : ScratchOk res.1 := by
  rw [renderNextBlock_eq] at hres
  by_cases hg : v.currentlyKillingVoice = false ∧ v.isVoiceActive = false
  · rw [renderCore_skip E C _ v out start n hg] at hres
    simp only [Option.some.injEq] at hres
    subst hres
    exact hA
  · obtain ⟨st, hP, hr⟩ := renderCore_of_some E C _ v out start n res hg hres
      (fun s => ScratchOk s.v) hA
      (fun s hs _ => subBlockResult_scratchOk E C _ s hs)
    rw [hr, renderExit_fst]
    exact hP.of_same_scratch rfl rfl

theorem stopNote_scratchOk (E : Ext X) (C : Constants) (v w : Voice X) (b : Bool)
    (hA : ScratchOk v) (hs : stopNote E C b v = some w) : ScratchOk w := by
  have hal := stopNote_overlapAllocated E C v w b hs
  cases b with
  | true =>
    unfold stopNote stopNoteCore at hs
    simp only [if_true, Option.some.injEq] at hs
    subst hs
    exact hA
  | false =>
    by_cases hg : v.sampleRate ≠ 0 ∧ v.justDoneReleaseEnvelope = false
    · apply scratchOk_of_allocated
      rw [hal]
      exact stopNote_kill_allocated E C v w hg hs
    · unfold stopNote at hs
      rw [stopNoteCore_skip E C _ v hg] at hs
      simp only [Option.some.injEq] at hs
      subst hs
      exact hA

/-! ## The kill window -/

theorem subBlockResult_killWindow (E : Ext X) (C : Constants) (vId : Int) (T : Int)
    (numSamples : Int) (st : LoopState X) (h : KillWindow C vId T st.v)
    (hp : st.pos < numSamples) :
    KillWindow C vId (T + subBlockSize numSamples st) (subBlockResult E C numSamples st).v := by
  have hn := subBlockSize_pos h.1.1 hp
  obtain ⟨⟨hok, hal⟩, hid, hT, h1, h2⟩ := h
  refine ⟨⟨subBlockResult_lfoCounterOk E C numSamples st hok hp, by simpa using hal⟩,
    by simpa using hid, by omega, ?_, ?_⟩
  · intro hlt
    obtain ⟨hi, hm⟩ := h1 (by omega)
    rw [subBlockResult_overlapIndex, subBlockResult_voicesBeingKilled, hi]
    unfold overlapIndexAfter
    rw [if_pos (by omega), if_neg (by omega), if_neg (by omega)]
    exact ⟨by omega, hm⟩
  · intro hge
    rw [subBlockResult_overlapIndex, subBlockResult_voicesBeingKilled]
    unfold overlapIndexAfter
    by_cases hlt : T < C.killRampSamples
    · obtain ⟨hi, _⟩ := h1 hlt
      rw [hi, if_pos (by omega), if_pos (by omega), if_pos ⟨by omega, by omega⟩, hid]
      exact ⟨rfl, Finset.not_mem_erase _ _⟩
    · obtain ⟨hi, hm⟩ := h2 (by omega)
      rw [hi, if_neg (by omega), if_neg (by omega)]
      exact ⟨rfl, hm⟩

theorem render_killWindow (E : Ext X) (C : Constants) (vId : Int) (T : Int) (v : Voice X)
    (out : Buf) (start : Nat) (n : Int) (h : KillWindow C vId T v) :
    ∃ res, renderNextBlock E C v out start n = some res ∧
      KillWindow C vId (T + samplesProcessed v n) res.1 := by
  rw [renderNextBlock_eq]
  by_cases hg : v.currentlyKillingVoice = false ∧ v.isVoiceActive = false
  · refine ⟨_, renderCore_skip E C _ v out start n hg, ?_⟩
    simpa [samplesProcessed, hg] using h
  · obtain ⟨st, hP, _, hpos, hres⟩ := renderCore_inner E C (renderNextBlockAt E C 1) v out
      start n hg h.1.1 (scratchOk_of_allocated h.1.2)
      (fun s => KillWindow C vId (T + s.pos) s.v)
      (by simpa [loopEntry] using h)
      (by
        intro s hs _ _ hlt
        have := subBlockResult_killWindow E C vId _ _ s hs hlt
        rw [subBlockResult_pos, ← add_assoc]
        exact this)
    refine ⟨_, hres, ?_⟩
    rw [renderExit_fst]
    have e : samplesProcessed v n = st.pos := by
      unfold samplesProcessed
      rw [if_neg hg, hpos]
    rw [e]
    exact hP

theorem renderCalls_killWindow (E : Ext X) (C : Constants) (vId : Int) :
    ∀ (calls : List RenderCall) (T : Int) (v : Voice X), KillWindow C vId T v →
      ∃ w total, renderCalls E C calls v = some (w, total) ∧ KillWindow C vId (T + total) w := by
  intro calls
  induction calls with
  | nil => intro T v h; exact ⟨v, 0, rfl, by simpa using h⟩
  | cons call calls ih =>
    intro T v h
    obtain ⟨res, hr, hres⟩ := render_killWindow E C vId T v call.outputBuffer call.startSample
      call.numSamples h
    obtain ⟨w, total, hw, hk⟩ := ih _ res.1 hres
    refine ⟨w, samplesProcessed v call.numSamples + total, ?_, ?_⟩
    · unfold renderCalls
      rw [hr]
      dsimp only
      rw [hw]
    · rw [← add_assoc]
      exact hk

/-- What a forced kill that takes the kill path on a voice with an idle cursor leaves, and
what follows once the voice is started again. -/
theorem forcedKill_window (E : Ext X) (C : Constants) (hK : 0 < C.killRampSamples)
    (v : Voice X) (hok : LfoCounterOk v) (hal : v.overlapAllocated = true)
    (h : v.sampleRate ≠ 0 ∧ v.justDoneReleaseEnvelope = false) (hidx : v.overlapIndex = -1) :
    ∃ v1, stopNote E C false v = some v1 ∧ KillWindow C v.voiceId 0 v1 ∧
      v1.currentlyPlayingNote = -1 ∧ v1.currentlyKillingVoice = false ∧
      v1.rampingUp = false := by
  obtain ⟨st, ⟨hi, hs, hid, hr, hal1⟩, hok1, _, hres⟩ := stopNote_kill E C v hok hal h
    (fun s => s.v.overlapIndex = -1 ∧
      s.v.voicesBeingKilled = insert v.voiceId v.voicesBeingKilled ∧ s.v.voiceId = v.voiceId ∧
      s.v.rampingUp = false ∧ s.v.overlapAllocated = true)
    ⟨hidx, rfl, rfl, rfl, hal⟩
    (by
      intro s hs _ _ _
      refine ⟨?_, ?_, by simpa using hs.2.2.1, ?_, by simpa using hs.2.2.2.2⟩
      · rw [subBlockResult_overlapIndex, hs.1]; rfl
      · rw [subBlockResult_voicesBeingKilled, hs.1, hs.2.1]; rfl
      · rw [subBlockResult_rampingUp, hs.2.2.2.1]; simp)
  refine ⟨_, hres, ⟨⟨hok1, hal1⟩, hid, le_refl 0, ?_, ?_⟩, rfl, rfl, hr⟩
  · intro _
    refine ⟨rfl, ?_⟩
    show v.voiceId ∈ st.v.voicesBeingKilled
    rw [hs]
    exact Finset.mem_insert_self _ _
  · intro hle
    omega

theorem renderCalls_idle (E : Ext X) (C : Constants) (v : Voice X)
    (hk : v.currentlyKillingVoice = false) (hn : v.isVoiceActive = false) :
    ∀ calls : List RenderCall, renderCalls E C calls v = some (v, 0) := by
  intro calls
  induction calls with
  | nil => rfl
  | cons call calls ih =>
    unfold renderCalls
    rw [renderNextBlock_eq, renderCore_skip E C _ v _ _ _ ⟨hk, hn⟩]
    dsimp only
    rw [ih]
    simp [samplesProcessed, hk, hn]

theorem demoSounding_lfoCounterOk (fe ae : ℚ) (k r : Int) :
    LfoCounterOk (demoSounding (demoExt fe ae) (demoConstants k r)) :=
  ⟨show (1 : Int) ≤ 100 by decide, show (100 : Int) ≤ 100 by decide⟩

theorem demoSounding_sampleRate (fe ae : ℚ) (k r : Int) :
    (demoSounding (demoExt fe ae) (demoConstants k r)).sampleRate ≠ 0 := by
  show (44100 : ℚ) ≠ 0
  norm_num

/-- C7, amended. A forced kill that takes the kill path (sample rate non-zero, release not
just finished) on a prepared voice (scratch buffer allocated) whose overlap cursor is idle
returns with the voice id in the Active-Kill-Set. Render calls on the killed voice process
no samples and change nothing, so the id stays. Once the voice has been started again,
after any sequence of render calls
the set contains the id exactly when fewer than `killRampSamples` samples have been
processed since (a request counts only up to the prepared block size). -/
theorem killSet_holds_id_for_killRampSamples (E : Ext X) (C : Constants)
    (hK : 0 < C.killRampSamples) (v : Voice X) (hok : LfoCounterOk v)
    (hal : v.overlapAllocated = true)
    (hrate : v.sampleRate ≠ 0) (hjd : v.justDoneReleaseEnvelope = false)
    (hidx : v.overlapIndex = -1) :
    ∃ v1, stopNote E C false v = some v1 ∧ v.voiceId ∈ v1.voicesBeingKilled ∧
      (∀ calls : List RenderCall, renderCalls E C calls v1 = some (v1, 0)) ∧
      ∀ (midiNoteNumber : Int) (velocity : ℚ) (pitchWheel : Int) (calls : List RenderCall),
        ∃ w total,
          renderCalls E C calls
              (startNote E C midiNoteNumber velocity pitchWheel
                { v1 with currentlyPlayingNote := midiNoteNumber })
            = some (w, total) ∧
          (v.voiceId ∈ w.voicesBeingKilled ↔ total < C.killRampSamples) := by
  obtain ⟨v1, hs, hw, hnote, hkill, _⟩ := forcedKill_window E C hK v hok hal ⟨hrate, hjd⟩ hidx
  refine ⟨v1, hs, (hw.2.2.2.1 hK).2, ?_, ?_⟩
  · exact renderCalls_idle E C v1 hkill (by simp [Voice.isVoiceActive, hnote])
  · intro note vel pw calls
    have h0 : KillWindow C v.voiceId 0
        (startNote E C note vel pw { v1 with currentlyPlayingNote := note }) := hw
    obtain ⟨w, total, hr, hk⟩ := renderCalls_killWindow E C v.voiceId calls 0 _ h0
    refine ⟨w, total, hr, ?_⟩
    rw [zero_add] at hk
    constructor
    · intro hmem
      by_contra hge
      exact (hk.2.2.2.2 (not_lt.mp hge)).2 hmem
    · intro hlt
      exact (hk.2.2.2.1 hlt).2

/-- Witness of C7 (amended): the sounding example voice, with a kill ramp of 4 samples,
killed, started again and rendered for 3 and then 1 samples. -/
theorem killSet_holds_id_for_killRampSamples_witness :
    (0 : Int) < (demoConstants 4 4).killRampSamples ∧
    ∃ v1, stopNote (demoExt 0 1) (demoConstants 4 4) false
          (demoSounding (demoExt 0 1) (demoConstants 4 4)) = some v1 ∧
      (demoSounding (demoExt 0 1) (demoConstants 4 4)).voiceId ∈ v1.voicesBeingKilled ∧
      (∀ calls : List RenderCall,
        renderCalls (demoExt 0 1) (demoConstants 4 4) calls v1 = some (v1, 0)) ∧
      ∀ (midiNoteNumber : Int) (velocity : ℚ) (pitchWheel : Int) (calls : List RenderCall),
        ∃ w total,
          renderCalls (demoExt 0 1) (demoConstants 4 4) calls
              (startNote (demoExt 0 1) (demoConstants 4 4) midiNoteNumber velocity pitchWheel
                { v1 with currentlyPlayingNote := midiNoteNumber })
            = some (w, total) ∧
          ((demoSounding (demoExt 0 1) (demoConstants 4 4)).voiceId ∈ w.voicesBeingKilled
            ↔ total < (demoConstants 4 4).killRampSamples) :=
  ⟨by decide,
    killSet_holds_id_for_killRampSamples (demoExt 0 1) (demoConstants 4 4) (by decide)
      (demoSounding (demoExt 0 1) (demoConstants 4 4)) (demoSounding_lfoCounterOk 0 1 4 4)
      rfl (demoSounding_sampleRate 0 1 4 4) rfl rfl⟩

/-- C7 as stated fails: the sounding example voice (id 7, kill ramp of 4 samples) is killed
with `stopNote (false)`; a render call that requests 4 further samples from that voice
returns at once, because the voice has no current note, and the id 7 is still in the
Active-Kill-Set. -/
theorem killSet_holds_id_for_killRampSamples_counterexample :
    (demoSounding (demoExt 0 1) (demoConstants 4 4)).isVoiceActive = true ∧
    (demoSounding (demoExt 0 1) (demoConstants 4 4)).voiceId = 7 ∧
    (demoConstants 4 4).killRampSamples = 4 ∧
    ∃ v1, stopNote (demoExt 0 1) (demoConstants 4 4) false
          (demoSounding (demoExt 0 1) (demoConstants 4 4)) = some v1 ∧
      ∃ res, renderNextBlock (demoExt 0 1) (demoConstants 4 4) v1 Buf.silence 0 4 = some res ∧
        (7 : Int) ∈ res.1.voicesBeingKilled := by
  refine ⟨by decide, rfl, rfl, ?_⟩
  obtain ⟨v1, hs, hw, hnote, hkill, _⟩ := forcedKill_window (demoExt 0 1) (demoConstants 4 4)
    (by decide) (demoSounding (demoExt 0 1) (demoConstants 4 4))
    (demoSounding_lfoCounterOk 0 1 4 4) rfl ⟨demoSounding_sampleRate 0 1 4 4, rfl⟩ rfl
  refine ⟨v1, hs, (v1, Buf.silence), ?_, (hw.2.2.2.1 (by decide)).2⟩
  rw [renderNextBlock_eq]
  exact renderCore_skip _ _ _ v1 _ _ _ ⟨hkill, by simp [Voice.isVoiceActive, hnote]⟩

/-! ## Reachable states -/

theorem CursorInv.of_same_cursor {C : Constants} {v w : Voice X} (h : CursorInv C v)
    (hc : w.lfoUpdateCounter = v.lfoUpdateCounter) (hi : w.overlapIndex = v.overlapIndex) :
    CursorInv C w := by
  unfold CursorInv LfoCounterOk at *
  rw [hc, hi]
  exact h

theorem subBlockResult_cursorInv (E : Ext X) (C : Constants) (numSamples : Int)
    (st : LoopState X) (h : CursorInv C st.v) (hp : st.pos < numSamples) :
    CursorInv C (subBlockResult E C numSamples st).v := by
  have hn := subBlockSize_pos h.1 hp
  refine ⟨subBlockResult_lfoCounterOk E C numSamples st h.1 hp, ?_⟩
  rw [subBlockResult_overlapIndex]
  unfold overlapIndexAfter
  rcases h.2 with h1 | h1
  · left
    rw [h1]
    rfl
  · split_ifs <;> omega

theorem render_cursorInv (E : Ext X) (C : Constants) (v : Voice X) (out : Buf) (start : Nat)
    (n : Int) (res : Voice X × Buf) (h : CursorInv C v)
    (hr : renderNextBlock E C v out start n = some res) : CursorInv C res.1 := by
  rw [renderNextBlock_eq] at hr
  by_cases hg : v.currentlyKillingVoice = false ∧ v.isVoiceActive = false
  · rw [renderCore_skip E C _ v out start n hg] at hr
    simp only [Option.some.injEq] at hr
    subst hr
    exact h
  · obtain ⟨st, hP, _, _, hres⟩ := renderCore_inner_of_some E C (renderNextBlockAt E C 1)
      v out start n res hg hr h.1 (fun s => CursorInv C s.v) (h.of_same_cursor rfl rfl)
      (fun s hs _ _ hlt => subBlockResult_cursorInv E C _ s hs hlt)
    subst hres
    rw [renderExit_fst]
    exact hP.of_same_cursor rfl rfl

theorem stopNote_tailOff (E : Ext X) (C : Constants) (v : Voice X) :
    stopNote E C true v
      = some { v with currentlyReleasingNote := true,
                      ext := E.filterNoteOff (E.ampNoteOff v.ext) } := by
  simp [stopNote, stopNoteCore]

/-- `stopNote` returns on a prepared voice (scratch buffer allocated) whose LFO counter is in
range. -/
theorem stopNote_total (E : Ext X) (C : Constants) (v : Voice X) (b : Bool)
    (hok : LfoCounterOk v) (hal : v.overlapAllocated = true) :
    ∃ w, stopNote E C b v = some w := by
  cases b with
  | true => exact ⟨_, stopNote_tailOff E C v⟩
  | false =>
    by_cases hg : v.sampleRate ≠ 0 ∧ v.justDoneReleaseEnvelope = false
    · obtain ⟨st, _, _, _, hres⟩ := stopNote_kill E C v hok hal hg (fun _ => True) trivial
        (fun _ _ _ _ _ => trivial)
      exact ⟨_, hres⟩
    · exact ⟨_, stopNoteCore_skip E C _ v hg⟩

theorem stopNote_cursorInv (E : Ext X) (C : Constants) (hK : 0 < C.killRampSamples)
    (v w : Voice X) (b : Bool) (h : CursorInv C v) (hs : stopNote E C b v = some w) :
    CursorInv C w := by
  cases b with
  | true =>
    rw [stopNote_tailOff] at hs
    simp only [Option.some.injEq] at hs
    subst hs
    exact h.of_same_cursor rfl rfl
  | false =>
    by_cases hg : v.sampleRate ≠ 0 ∧ v.justDoneReleaseEnvelope = false
    · obtain ⟨st, _, hok, _, hres⟩ := stopNote_kill_of_some E C v w h.1 hg hs
        (fun _ => True) trivial (fun _ _ _ _ _ => trivial)
      subst hres
      exact ⟨hok, Or.inr ⟨le_refl 0, hK⟩⟩
    · unfold stopNote at hs
      rw [stopNoteCore_skip E C _ v hg] at hs
      simp only [Option.some.injEq] at hs
      subst hs
      exact h.of_same_cursor rfl rfl

theorem reachable_cursorInv (E : Ext X) (C : Constants) (hK : 0 < C.killRampSamples)
    (v : Voice X) (h : Reachable E C v) : CursorInv C v := by
  induction h with
  | construct x vId s rate =>
    refine ⟨⟨?_, ?_⟩, Or.inl ?_⟩
    · show (1 : Int) ≤ 100
      decide
    · exact le_refl _
    · rfl
  | prepare sr m nc _ ih => exact ih.of_same_cursor rfl rfl
  | setSampleRate r _ ih => exact ih.of_same_cursor rfl rfl
  | hostStartVoice note vel pw _ ih => exact ih.of_same_cursor rfl rfl
  | startNote note vel pw _ ih => exact ih.of_same_cursor rfl rfl
  | @stopNote v w b _ hs ih => exact stopNote_cursorInv E C hK v w b ih hs
  | @render v res out start n _ hr ih => exact render_cursorInv E C v out start n res ih hr
  | @parameterChanged v p x _ ih =>
    have := parameterChanged_sameLifecycle E C p x v
    exact ih.of_same_cursor this.lfoUpdateCounter this.overlapIndex
  | setAmpParam p x _ ih => exact ih.of_same_cursor rfl rfl
  | setFilterEnvParam p x _ ih => exact ih.of_same_cursor rfl rfl
  | @setLfoShape v s _ ih =>
    have := setLfoShape_sameLifecycle E s v
    exact ih.of_same_cursor this.lfoUpdateCounter this.overlapIndex
  | setLfoDest d _ ih => exact ih.of_same_cursor rfl rfl
  | setLfoFreq x _ ih => exact ih.of_same_cursor rfl rfl
  | setLfoAmount x _ ih => exact ih.of_same_cursor rfl rfl
  | setFilterCutoff x _ ih => exact ih.of_same_cursor rfl rfl
  | setFilterTiltCutoff x _ ih => exact ih.of_same_cursor rfl rfl
  | setFilterResonance x _ ih => exact ih.of_same_cursor rfl rfl
  | @controllerMoved v c x _ ih =>
    have := controllerMoved_sameLifecycle C c x v
    exact ih.of_same_cursor this.lfoUpdateCounter this.overlapIndex
  | pitchWheelMoved p _ ih => exact ih.of_same_cursor rfl rfl
  | killEntry _ _ _ ih => exact ih.of_same_cursor rfl rfl
  | loopEntry n _ ih => exact ih.of_same_cursor rfl rfl
  | subBlockHead pos n _ ih => exact ih.of_same_cursor rfl rfl
  | afterRelease _ ih => exact ih.of_same_cursor (by simp) (by simp)
  | processRampUp blk n _ ih => exact ih.of_same_cursor (by simp) (by simp)
  | subBlock r numSamples _ hp hsub ih =>
    obtain ⟨hsub, _⟩ := subBlock_of_some E C _ _ _ _ hsub
    subst hsub
    exact subBlockResult_cursorInv E C _ _ ih hp

/-- C8. With `killRampSamples > 0`, in every state the voice passes through (the states
inside render and `stopNote` included) the overlap cursor is `-1` or lies in
`[0, killRampSamples)`; a `processKillOverlap` that brings the cursor to `killRampSamples`
(or beyond) leaves it at `-1` with the voice id erased from the Active-Kill-Set; and every
scratch index `overlapIndex + i` that `processKillOverlap` reads lies in
`[0, killRampSamples)`. -/
theorem overlap_cursor_in_bounds (E : Ext X) (C : Constants) (hK : 0 < C.killRampSamples)
    (v : Voice X) (h : Reachable E C v) :
    (v.overlapIndex = -1 ∨ (0 ≤ v.overlapIndex ∧ v.overlapIndex < C.killRampSamples)) ∧
    (∀ (blk : Buf) (n : Int),
      v.overlapIndex + min (C.killRampSamples - v.overlapIndex) n ≥ C.killRampSamples →
      (processKillOverlap C v blk n).1.overlapIndex = -1 ∧
      v.voiceId ∉ (processKillOverlap C v blk n).1.voicesBeingKilled) ∧
    (∀ (blk : Buf) (n : Int),
      ¬ v.overlapIndex + min (C.killRampSamples - v.overlapIndex) n ≥ C.killRampSamples →
      (processKillOverlap C v blk n).1.overlapIndex
          = v.overlapIndex + min (C.killRampSamples - v.overlapIndex) n ∧
      (processKillOverlap C v blk n).1.voicesBeingKilled = v.voicesBeingKilled) ∧
    (∀ (n : Int) (i : Nat), v.overlapIndex > -1 →
      (i : Int) < min (C.killRampSamples - v.overlapIndex) n →
      0 ≤ v.overlapIndex + (i : Int) ∧ v.overlapIndex + (i : Int) < C.killRampSamples) := by
  have hc := (reachable_cursorInv E C hK v h).2
  refine ⟨hc, ?_, ?_, ?_⟩
  · intro blk n hge
    rw [processKillOverlap_overlapIndex, processKillOverlap_voicesBeingKilled, if_pos hge,
      if_pos hge]
    exact ⟨rfl, Finset.not_mem_erase _ _⟩
  · intro blk n hlt
    rw [processKillOverlap_overlapIndex, processKillOverlap_voicesBeingKilled, if_neg hlt,
      if_neg hlt]
    exact ⟨rfl, rfl⟩
  · intro n i hgt hi
    omega

/-- Witness of C8: the example voice after a forced kill, with a kill ramp of 4 samples. -/
theorem overlap_cursor_in_bounds_witness :
    (0 : Int) < (demoConstants 4 4).killRampSamples ∧
    ∀ w, stopNote (demoExt 0 1) (demoConstants 4 4) false
        (demoSounding (demoExt 0 1) (demoConstants 4 4)) = some w →
      (w.overlapIndex = -1 ∨
        (0 ≤ w.overlapIndex ∧ w.overlapIndex < (demoConstants 4 4).killRampSamples)) :=
  ⟨by decide, fun w hw =>
    (overlap_cursor_in_bounds (demoExt 0 1) (demoConstants 4 4) (by decide) w
      (Reachable.stopNote false
        (Reachable.hostStartVoice 60 1 8192
          (Reachable.prepare 44100 512 2 (Reachable.construct 0 7 ∅ 44100))) hw)).1⟩

/-! ## The nested render of the kill path against a plain render -/

theorem subBlockHead_withKill (E : Ext X) (o : Buf) (S : Finset Int) (k : Bool)
    (pos n : Int) (w : Voice X) :
    subBlockHead E pos n (withKill o S k w)
      = { subBlockHead E pos n w with v := withKill o S k (subBlockHead E pos n w).v } := rfl

theorem afterRelease_withKill (E : Ext X) (o : Buf) (S : Finset Int) (k : Bool)
    (w : Voice X) :
    afterRelease E (withKill o S k w) = withKill o S k (afterRelease E w) := by
  unfold afterRelease
  by_cases h : w.currentlyReleasingNote = true ∧ E.ampIsActive w.ext = false
  · rw [if_pos h, if_pos (by exact h)]
    rfl
  · rw [if_neg h, if_neg (by exact h)]

theorem processRampUp_withKill (C : Constants) (o : Buf) (S : Finset Int) (k : Bool)
    (w : Voice X) (blk : Buf) (n : Int) :
    processRampUp C (withKill o S k w) blk n
      = (withKill o S k (processRampUp C w blk n).1, (processRampUp C w blk n).2) := by
  unfold processRampUp
  dsimp only
  by_cases h : w.rampUpSamplesLeft - min n w.rampUpSamplesLeft ≤ 0
  · rw [if_pos h, if_pos (by exact h)]
    rfl
  · rw [if_neg h, if_neg (by exact h)]
    rfl

theorem updateLfo_withKill (E : Ext X) (C : Constants) (o : Buf) (S : Finset Int) (k : Bool)
    (w : Voice X) :
    updateLfo E C (withKill o S k w) = withKill o S k (updateLfo E C w) := by
  unfold updateLfo
  dsimp only
  cases hd : w.lfoDest <;> (simp only [withKill, hd]; first | done | rfl)

theorem subBlockTail_stages (E : Ext X) (C : Constants) (n : Int) (fe : ℚ) (v : Voice X)
    (blk : Buf) :
    subBlockTail E C n fe v blk
      = (cutoffStage C (lfoStage E C (killOverlapStage C (rampUpStage C (v, blk) n) n).1 n) fe,
          (killOverlapStage C (rampUpStage C (v, blk) n) n).2) := rfl

theorem rampUpStage_withKill (C : Constants) (o : Buf) (S : Finset Int) (k : Bool)
    (w : Voice X) (blk : Buf) (n : Int) :
    rampUpStage C (withKill o S k w, blk) n
      = (withKill o S k (rampUpStage C (w, blk) n).1, (rampUpStage C (w, blk) n).2) := by
  unfold rampUpStage
  by_cases hr : w.rampingUp = true
  · rw [if_pos hr, if_pos (by exact hr)]
    exact processRampUp_withKill C o S k w blk n
  · rw [if_neg hr, if_neg (by exact hr)]

theorem rampUpStage_overlapIndex (C : Constants) (w : Voice X) (blk : Buf) (n : Int) :
    (rampUpStage C (w, blk) n).1.overlapIndex = w.overlapIndex := by
  unfold rampUpStage
  split_ifs <;> simp

theorem killOverlapStage_idle (C : Constants) (a : Voice X × Buf) (n : Int)
    (h : a.1.overlapIndex = -1) : killOverlapStage C a n = a := by
  unfold killOverlapStage
  rw [if_neg (by rw [h]; decide)]

theorem lfoStage_withKill (E : Ext X) (C : Constants) (o : Buf) (S : Finset Int) (k : Bool)
    (w : Voice X) (n : Int) :
    lfoStage E C (withKill o S k w) n = withKill o S k (lfoStage E C w n) := by
  unfold lfoStage
  by_cases hc : w.lfoUpdateCounter - n = 0
  · rw [if_pos hc, if_pos (by exact hc)]
    exact updateLfo_withKill E C o S k { w with lfoUpdateCounter := lfoUpdateRate }
  · rw [if_neg hc, if_neg (by exact hc)]
    rfl

theorem cutoffStage_withKill (C : Constants) (o : Buf) (S : Finset Int) (k : Bool)
    (w : Voice X) (fe : ℚ) :
    cutoffStage C (withKill o S k w) fe = withKill o S k (cutoffStage C w fe) := rfl

theorem subBlockTail_withKill (E : Ext X) (C : Constants) (o : Buf) (S : Finset Int)
    (k : Bool) (n : Int) (fe : ℚ) (w : Voice X) (blk : Buf) (hidx : w.overlapIndex = -1) :
    subBlockTail E C n fe (withKill o S k w) blk
      = (withKill o S k (subBlockTail E C n fe w blk).1, (subBlockTail E C n fe w blk).2) := by
  rw [subBlockTail_stages, subBlockTail_stages, rampUpStage_withKill,
    killOverlapStage_idle C (withKill o S k (rampUpStage C (w, blk) n).1, _) n
      (by show (rampUpStage C (w, blk) n).1.overlapIndex = -1
          rw [rampUpStage_overlapIndex, hidx]),
    killOverlapStage_idle C (rampUpStage C (w, blk) n) n
      (by rw [rampUpStage_overlapIndex, hidx]),
    lfoStage_withKill, cutoffStage_withKill]

theorem subBlockResult_withKill (E : Ext X) (C : Constants) (o : Buf) (S : Finset Int)
    (k : Bool) (numSamples : Int) (st : LoopState X) (hidx : st.v.overlapIndex = -1) :
    subBlockResult E C numSamples (st.withKill o S k)
      = (subBlockResult E C numSamples st).withKill o S k := by
  unfold subBlockResult
  dsimp only
  have hsz : subBlockSize numSamples (st.withKill o S k) = subBlockSize numSamples st := rfl
  have hpos : (st.withKill o S k).pos = st.pos := rfl
  have hv : (st.withKill o S k).v = withKill o S k st.v := rfl
  rw [hsz, hpos, hv, subBlockHead_withKill]
  dsimp only
  rw [afterRelease_withKill, subBlockTail_withKill E C o S k _ _ _ _ (by simpa using hidx)]
  rfl

theorem renderLoop_withKill (E : Ext X) (C : Constants)
    (r : Voice X → Buf → Nat → Int → Option (Voice X × Buf)) (o : Buf) (S : Finset Int)
    (k : Bool) (numSamples : Int) :
    ∀ (fuel : Nat) (st : LoopState X), st.v.overlapIndex = -1 →
      renderLoop E C (stopNoteCore E C r false) numSamples fuel (st.withKill o S k)
        = (renderLoop E C (stopNoteCore E C r false) numSamples fuel st).map
            (LoopState.withKill o S k) := by
  intro fuel
  induction fuel with
  | zero =>
    intro st _
    unfold renderLoop
    have hpos : (st.withKill o S k).pos = st.pos := rfl
    rw [hpos]
    split_ifs <;> rfl
  | succ f ih =>
    intro st hidx
    unfold renderLoop
    have hpos : (st.withKill o S k).pos = st.pos := rfl
    rw [hpos]
    by_cases hp : st.pos < numSamples
    · rw [if_pos hp, if_pos hp,
        subBlock_stopNoteCore E C r numSamples (st.withKill o S k)
          (scratchOk_of_idle (show (st.withKill o S k).v.overlapIndex = -1 from hidx)),
        subBlock_stopNoteCore E C r numSamples st (scratchOk_of_idle hidx)]
      dsimp only
      rw [subBlockResult_withKill E C o S k numSamples st hidx]
      apply ih
      rw [subBlockResult_overlapIndex, hidx]
      rfl
    · rw [if_neg hp, if_neg hp]
      rfl

theorem applyKillRamp_block (v : Voice X) (out : Buf) (n : Int) (c i : Nat) :
    (applyKillRamp v out 0 n).2 c i
      = if (i : Int) < n then out c i * (1 + (i : ℚ) * ((0 - 1) / (n : ℚ))) else out c i := by
  unfold applyKillRamp
  simp

theorem addToOutput_silence (n : Int) (block : Buf) (c i : Nat) :
    addToOutput Buf.silence 0 n block c i = if (i : Int) < n then block c i else 0 := by
  unfold addToOutput Buf.silence
  simp

/-- The kill path of `stopNote` on a sounding voice with an idle cursor, compared with the
render call the voice would have served with its ramp-up disarmed. -/
theorem forcedKill_scratch (E : Ext X) (C : Constants) (v : Voice X) (hok : LfoCounterOk v)
    (hal : v.overlapAllocated = true)
    (h : v.sampleRate ≠ 0 ∧ v.justDoneReleaseEnvelope = false) (hidx : v.overlapIndex = -1)
    (hact : v.isVoiceActive = true) (hkf : v.currentlyKillingVoice = false) :
    ∃ v1 res, stopNote E C false v = some v1 ∧
      renderNextBlock E C { v with rampingUp := false } Buf.silence 0 C.killRampSamples
        = some res ∧
      v1.overlapIndex = 0 ∧ v1.voicesBeingKilled = insert v.voiceId v.voicesBeingKilled ∧
      v1.currentlyPlayingNote = -1 ∧ v1.rampingUp = false ∧
      v1.currentlyKillingVoice = false ∧ v1.justDoneReleaseEnvelope = false ∧
      ∀ c i : Nat,
        v1.overlap c i
          = if (i : Int) < min C.killRampSamples v.curPreparedSamples then
              res.2 c i
                * (1 - (i : ℚ) / ((min C.killRampSamples v.curPreparedSamples : Int) : ℚ))
            else 0 := by
  obtain ⟨st, hl⟩ := renderLoop_total E C (renderNextBlockAt E C 1)
    (min C.killRampSamples v.curPreparedSamples)
    (min C.killRampSamples v.curPreparedSamples).toNat
    (loopEntry E { v with rampingUp := false } C.killRampSamples) hok
    (scratchOk_of_idle hidx) (by simp [loopEntry])
  have hinv := renderLoop_induct
    (fun s : LoopState X => s.v.overlapIndex = -1 ∧ s.v.rampingUp = false
      ∧ s.v.currentlyKillingVoice = false)
    (by
      intro s s1 hs _ hsub
      obtain ⟨hsub, _⟩ := subBlock_of_some E C _ _ _ _ hsub
      subst hsub
      refine ⟨?_, ?_, by simpa using hs.2.2⟩
      · rw [subBlockResult_overlapIndex, hs.1]; rfl
      · rw [subBlockResult_rampingUp, hs.2.1]; simp)
    _ _ st ⟨hidx, rfl, hkf⟩ hl
  obtain ⟨⟨hi, hr, hk⟩, _⟩ := hinv
  have hnested := renderLoop_withKill E C (renderNextBlockAt E C 1) Buf.silence
    (insert v.voiceId v.voicesBeingKilled) true (min C.killRampSamples v.curPreparedSamples)
    (min C.killRampSamples v.curPreparedSamples).toNat
    (loopEntry E { v with rampingUp := false } C.killRampSamples) hidx
  rw [hl] at hnested
  have hstop : stopNote E C false v
      = some (killExit (st.withKill Buf.silence (insert v.voiceId v.voicesBeingKilled) true)
          (min C.killRampSamples v.curPreparedSamples)) := by
    unfold stopNote
    rw [stopNoteCore_kill E C _ v h hal]
    show Option.map _ (renderCore E C (stopNoteCore E C (renderNextBlockAt E C 1) false)
      (killEntry v) Buf.silence 0 C.killRampSamples) = _
    rw [renderCore_run E C _ (killEntry v) Buf.silence 0 C.killRampSamples
      (by simp [killEntry])]
    have e : loopEntry E (killEntry v) C.killRampSamples
        = (loopEntry E { v with rampingUp := false } C.killRampSamples).withKill Buf.silence
            (insert v.voiceId v.voicesBeingKilled) true := rfl
    have e2 : (killEntry v).curPreparedSamples = v.curPreparedSamples := rfl
    rw [e, e2, hnested]
    simp only [Option.map, renderExit]
    rw [if_pos (by rfl)]
    rfl
  have hplain : renderNextBlock E C { v with rampingUp := false } Buf.silence 0
      C.killRampSamples
      = some (st.v, addToOutput Buf.silence 0 (min C.killRampSamples v.curPreparedSamples)
          st.block) := by
    rw [renderNextBlock_eq, renderCore_run E C _ _ Buf.silence 0 C.killRampSamples
      (by
        intro hc
        have := hc.2
        rw [show ({ v with rampingUp := false } : Voice X).isVoiceActive = v.isVoiceActive
          from rfl, hact] at this
        exact absurd this (by decide))]
    have e2 : ({ v with rampingUp := false } : Voice X).curPreparedSamples
        = v.curPreparedSamples := rfl
    rw [e2, hl]
    simp only [Option.map, renderExit]
    rw [if_neg (by rw [hk]; decide)]
  refine ⟨_, _, hstop, hplain, rfl, rfl, rfl, hr, rfl, rfl, ?_⟩
  intro c i
  dsimp only [killExit, LoopState.withKill]
  rw [applyKillRamp_block, addToOutput_silence]
  split_ifs with hlt
  · congr 1
    ring
  · rfl

/-! ## What a forced kill leaves behind -/

/-- C9, amended. When `stopNote (_, false)` takes the kill path (sample rate non-zero,
release not just finished) on a sounding, prepared voice (scratch buffer allocated) whose
overlap cursor is `-1`, it returns
with the cursor at 0, the voice id in the Active-Kill-Set, no current note, ramp-up
disarmed and the killing flag clear; the scratch buffer then holds, for
`i < n = min (killRampSamples, curPreparedSamples)`, sample `i` of the render call the voice
would have served next with its ramp-up disarmed, times `1 - i / n`, and 0 from `n` on. -/
theorem forcedKill_fills_scratch (E : Ext X) (C : Constants) (v : Voice X)
    (hok : LfoCounterOk v) (hal : v.overlapAllocated = true) (hrate : v.sampleRate ≠ 0)
    (hjd : v.justDoneReleaseEnvelope = false) (hidx : v.overlapIndex = -1)
    (hact : v.isVoiceActive = true) (hkf : v.currentlyKillingVoice = false) :
    ∃ v1 res, stopNote E C false v = some v1 ∧
      renderNextBlock E C { v with rampingUp := false } Buf.silence 0 C.killRampSamples
        = some res ∧
      v1.overlapIndex = 0 ∧ v.voiceId ∈ v1.voicesBeingKilled ∧
      v1.currentlyPlayingNote = -1 ∧ v1.rampingUp = false ∧
      v1.currentlyKillingVoice = false ∧
      ∀ c i : Nat,
        v1.overlap c i
          = if (i : Int) < min C.killRampSamples v.curPreparedSamples then
              res.2 c i
                * (1 - (i : ℚ) / ((min C.killRampSamples v.curPreparedSamples : Int) : ℚ))
            else 0 := by
  obtain ⟨v1, res, h1, h2, h3, h4, h5, h6, h7, _, h9⟩ :=
    forcedKill_scratch E C v hok hal ⟨hrate, hjd⟩ hidx hact hkf
  refine ⟨v1, res, h1, h2, h3, ?_, h5, h6, h7, h9⟩
  rw [h4]
  exact Finset.mem_insert_self _ _

/-- Witness of C9 (amended): the sounding example voice, kill ramp of 4 samples. -/
theorem forcedKill_fills_scratch_witness :
    ∃ v1 res, stopNote (demoExt 0 1) (demoConstants 4 4) false
        (demoSounding (demoExt 0 1) (demoConstants 4 4)) = some v1 ∧
      renderNextBlock (demoExt 0 1) (demoConstants 4 4)
        { demoSounding (demoExt 0 1) (demoConstants 4 4) with rampingUp := false }
        Buf.silence 0 (demoConstants 4 4).killRampSamples = some res ∧
      v1.overlapIndex = 0 ∧
      (demoSounding (demoExt 0 1) (demoConstants 4 4)).voiceId ∈ v1.voicesBeingKilled ∧
      v1.currentlyPlayingNote = -1 ∧ v1.rampingUp = false ∧
      v1.currentlyKillingVoice = false ∧
      ∀ c i : Nat,
        v1.overlap c i
          = if (i : Int) < min (demoConstants 4 4).killRampSamples
                (demoSounding (demoExt 0 1) (demoConstants 4 4)).curPreparedSamples then
              res.2 c i
                * (1 - (i : ℚ) / ((min (demoConstants 4 4).killRampSamples
                    (demoSounding (demoExt 0 1) (demoConstants 4 4)).curPreparedSamples : Int) : ℚ))
            else 0 :=
  forcedKill_fills_scratch (demoExt 0 1) (demoConstants 4 4)
    (demoSounding (demoExt 0 1) (demoConstants 4 4)) (demoSounding_lfoCounterOk 0 1 4 4)
    rfl (demoSounding_sampleRate 0 1 4 4) rfl rfl (by decide) rfl

theorem runEnvelopes_demo (fe ae : ℚ) :
    ∀ (n : Nat) (x : Nat) (f0 : ℚ),
      (runEnvelopes (demoExt fe ae) n x f0).2.2 = List.replicate n ae := by
  intro n
  induction n with
  | zero => intro x f0; rfl
  | succ k ih =>
    intro x f0
    show ae :: (runEnvelopes (demoExt fe ae) k _ _).2.2 = _
    rw [ih]
    rfl

theorem subBlockHead_demo_blk (fe ae : ℚ) (pos n : Int) (v : Voice Nat) (c i : Nat)
    (hi : i < n.toNat) : (subBlockHead (demoExt fe ae) pos n v).blk c i = ae := by
  unfold subBlockHead
  dsimp only
  rw [if_pos hi, runEnvelopes_demo]
  simp [demoExt, List.getD_eq_getElem?_getD, List.getElem?_replicate, hi]

/-- The first sample a render call of 4 samples on the sounding example voice leaves in a
silent output buffer: the rendered sample 1 times the ramp-up gain of the voice. -/
theorem demo_render_first_sample (v : Voice Nat) (N : Nat)
    (hv : RampInv (demoConstants 4 4) N v) (hc : v.lfoUpdateCounter = 100)
    (hp : v.curPreparedSamples = 512) (hact : v.isVoiceActive = true)
    (hk : v.currentlyKillingVoice = false) (hidx : v.overlapIndex = -1) :
    ∃ res, renderNextBlock (demoExt 0 1) (demoConstants 4 4) v Buf.silence 0 4 = some res ∧
      res.2 0 0 = rampUpGain (demoConstants 4 4) N := by
  have hmin : min (4 : Int) v.curPreparedSamples = 4 := by rw [hp]; decide
  have hr := renderCore_single (demoExt 0 1) (demoConstants 4 4)
    (renderNextBlockAt (demoExt 0 1) (demoConstants 4 4) 1) v Buf.silence 0 4
    (by rw [hact]; simp) (by rw [hmin]; decide) (by rw [hmin, hc]; decide)
    (scratchOk_of_idle hidx)
  rw [hmin] at hr
  refine ⟨_, hr, ?_⟩
  have hkk : (subBlockResult (demoExt 0 1) (demoConstants 4 4) 4
      (loopEntry (demoExt 0 1) v 4)).v.currentlyKillingVoice = false := by
    rw [subBlockResult_currentlyKillingVoice]
    exact hk
  unfold renderExit
  rw [if_neg (by rw [hkk]; decide)]
  dsimp only
  rw [addToOutput_silence, if_pos (by decide)]
  have hsz : subBlockSize 4 (loopEntry (demoExt 0 1) v 4) = 4 := by
    unfold subBlockSize loopEntry
    dsimp only
    rw [hc]
    decide
  unfold subBlockResult
  dsimp only
  rw [hsz]
  unfold writeSubBlock
  rw [if_pos (by simp [loopEntry])]
  have hz : (0 : Nat) - (loopEntry (demoExt 0 1) v 4).pos.toNat = 0 := by simp
  rw [hz, subBlockTail_block,
    rampStage_gain (demoConstants 4 4) (by decide) N _
      (hv.of_same_ramp (by simp [loopEntry]) (by simp [loopEntry]) (by simp [loopEntry]))
      _ 4 0 0 (by decide),
    subBlockHead_demo_blk 0 1 _ 4 _ 0 0 (by decide)]
  unfold killTail
  rw [if_neg (by simp [loopEntry, hidx])]
  simp

/-- C9 as stated fails: the sounding example voice has just been started (ramp-up armed, 4
samples left) when it is killed. The first sample it would have rendered next from its
current state is `1 * 0 = 0` (ramp-up gain 0), but the first scratch sample is 1, not
`0 * (1 - 0 / 4)`: the kill path disarms the ramp-up before it renders the scratch. -/
theorem forcedKill_fills_scratch_counterexample :
    (demoSounding (demoExt 0 1) (demoConstants 4 4)).rampingUp = true ∧
    (demoSounding (demoExt 0 1) (demoConstants 4 4)).overlapIndex = -1 ∧
    ∃ v1 res, stopNote (demoExt 0 1) (demoConstants 4 4) false
        (demoSounding (demoExt 0 1) (demoConstants 4 4)) = some v1 ∧
      renderNextBlock (demoExt 0 1) (demoConstants 4 4)
        (demoSounding (demoExt 0 1) (demoConstants 4 4)) Buf.silence 0 4 = some res ∧
      res.2 0 0 = 0 ∧ v1.overlap 0 0 = 1 ∧
      v1.overlap 0 0 ≠ res.2 0 0 * (1 - (0 : ℚ) / 4) := by
  refine ⟨rfl, rfl, ?_⟩
  obtain ⟨v1, res1, h1, h2, -, -, -, -, -, -, h9⟩ :=
    forcedKill_scratch (demoExt 0 1) (demoConstants 4 4)
      (demoSounding (demoExt 0 1) (demoConstants 4 4)) (demoSounding_lfoCounterOk 0 1 4 4)
      rfl ⟨demoSounding_sampleRate 0 1 4 4, rfl⟩ rfl (by decide) rfl
  obtain ⟨res0, hr0, hs0⟩ := demo_render_first_sample
    (demoSounding (demoExt 0 1) (demoConstants 4 4)) 0
    ⟨demoSounding_lfoCounterOk 0 1 4 4, fun _ => ⟨rfl, rfl⟩, fun hle => absurd hle (by decide)⟩
    rfl rfl (by decide) rfl rfl
  obtain ⟨res2, hr2, hs2⟩ := demo_render_first_sample
    { demoSounding (demoExt 0 1) (demoConstants 4 4) with rampingUp := false } 4
    ⟨demoSounding_lfoCounterOk 0 1 4 4, fun hlt => absurd hlt (by decide), fun _ => rfl⟩
    rfl rfl (by decide) rfl rfl
  have hk4 : (demoConstants 4 4).killRampSamples = 4 := rfl
  rw [hk4, hr2] at h2
  simp only [Option.some.injEq] at h2
  subst h2
  have hg0 : rampUpGain (demoConstants 4 4) 0 = 0 := by
    unfold rampUpGain
    rw [if_pos (by decide)]
    simp
  have hg4 : rampUpGain (demoConstants 4 4) 4 = 1 := by
    unfold rampUpGain
    rw [if_neg (by decide)]
  have hscratch : v1.overlap 0 0 = 1 := by
    rw [h9 0 0, if_pos (by decide), hs2, hg4]
    simp
  have hplain : res0.2 0 0 = 0 := by rw [hs0, hg0]
  refine ⟨v1, res0, h1, hr0, hplain, hscratch, ?_⟩
  rw [hscratch, hplain]
  norm_num

/-- C10, amended. `stopNote (_, false)` on a voice whose sample rate is 0 or whose
`justDoneReleaseEnvelope` is set skips the overlap machinery: it returns the same state
with `justDoneReleaseEnvelope` cleared and no current note, so the scratch buffer, the
overlap cursor, the killing flag and the Active-Kill-Set are unchanged. -/
theorem stopNote_skips_overlap (E : Ext X) (C : Constants) (v : Voice X)
    (h : v.sampleRate = 0 ∨ v.justDoneReleaseEnvelope = true) :
    ∃ w, stopNote E C false v = some w ∧
      w = { v with justDoneReleaseEnvelope := false, currentlyPlayingNote := -1 } ∧
      w.overlap = v.overlap ∧ w.overlapIndex = v.overlapIndex ∧
      w.currentlyKillingVoice = v.currentlyKillingVoice ∧
      w.voicesBeingKilled = v.voicesBeingKilled ∧
      w.justDoneReleaseEnvelope = false ∧ w.isVoiceActive = false := by
  refine ⟨_, stopNoteCore_skip E C _ v ?_, rfl, rfl, rfl, rfl, rfl, rfl, rfl⟩
  rintro ⟨h1, h2⟩
  rcases h with h | h
  · exact h1 h
  · rw [h2] at h
    exact absurd h (by decide)

/-- Witness of C10 (amended): the sounding example voice with `justDoneReleaseEnvelope`
set. -/
theorem stopNote_skips_overlap_witness :
    ∃ w, stopNote (demoExt 0 1) (demoConstants 4 4) false
        { demoSounding (demoExt 0 1) (demoConstants 4 4) with
            justDoneReleaseEnvelope := true } = some w ∧
      w = { ({ demoSounding (demoExt 0 1) (demoConstants 4 4) with
                justDoneReleaseEnvelope := true } : Voice Nat) with
              justDoneReleaseEnvelope := false, currentlyPlayingNote := -1 } ∧
      w.overlap = (demoSounding (demoExt 0 1) (demoConstants 4 4)).overlap ∧
      w.overlapIndex = (demoSounding (demoExt 0 1) (demoConstants 4 4)).overlapIndex ∧
      w.currentlyKillingVoice
        = (demoSounding (demoExt 0 1) (demoConstants 4 4)).currentlyKillingVoice ∧
      w.voicesBeingKilled
        = (demoSounding (demoExt 0 1) (demoConstants 4 4)).voicesBeingKilled ∧
      w.justDoneReleaseEnvelope = false ∧ w.isVoiceActive = false :=
  stopNote_skips_overlap (demoExt 0 1) (demoConstants 4 4)
    { demoSounding (demoExt 0 1) (demoConstants 4 4) with justDoneReleaseEnvelope := true }
    (Or.inr rfl)

/-- C10 as stated fails: the example voice is silent (no note sounding, sample rate
44.1 kHz, release not just finished, cursor `-1`, empty Active-Kill-Set); `stopNote (_,
false)` still runs the overlap machinery and returns with the cursor at 0 and the voice id
7 in the Active-Kill-Set. -/
theorem stopNote_skips_overlap_counterexample :
    (demoVoice (demoExt 0 1) (demoConstants 4 4)).isVoiceActive = false ∧
    (demoVoice (demoExt 0 1) (demoConstants 4 4)).overlapIndex = -1 ∧
    (demoVoice (demoExt 0 1) (demoConstants 4 4)).voicesBeingKilled = ∅ ∧
    ∃ w, stopNote (demoExt 0 1) (demoConstants 4 4) false
        (demoVoice (demoExt 0 1) (demoConstants 4 4)) = some w ∧
      w.overlapIndex = 0 ∧ (7 : Int) ∈ w.voicesBeingKilled := by
  refine ⟨by decide, rfl, rfl, ?_⟩
  obtain ⟨w, hs, hw, _⟩ := forcedKill_window (demoExt 0 1) (demoConstants 4 4) (by decide)
    (demoVoice (demoExt 0 1) (demoConstants 4 4))
    ⟨show (1 : Int) ≤ 100 by decide, show (100 : Int) ≤ 100 by decide⟩ rfl
    ⟨show (44100 : ℚ) ≠ 0 by norm_num, rfl⟩ rfl
  exact ⟨w, hs, (hw.2.2.2.1 (by decide)).1, (hw.2.2.2.1 (by decide)).2⟩

/-! ## The modulation-wheel controller -/

theorem jmap_between {x lo hi a b : ℚ} (hlt : lo < hi) (h0 : lo ≤ x) (h1 : x ≤ hi) :
    min a b ≤ jmap x lo hi a b ∧ jmap x lo hi a b ≤ max a b := by
  unfold jmap
  have hd : 0 < hi - lo := by linarith
  have ht0 : 0 ≤ (x - lo) / (hi - lo) := div_nonneg (by linarith) hd.le
  have ht1 : (x - lo) / (hi - lo) ≤ 1 := by
    rw [div_le_one hd]; linarith
  have he : a + (b - a) * (x - lo) / (hi - lo) = a + (b - a) * ((x - lo) / (hi - lo)) := by
    rw [mul_div_assoc]
  rw [he]
  generalize (x - lo) / (hi - lo) = t at ht0 ht1
  rcases le_total a b with hab | hab
  · rw [min_eq_left hab, max_eq_right hab]
    constructor <;> nlinarith
  · rw [min_eq_right hab, max_eq_left hab]
    constructor <;> nlinarith

/-- C17. `controllerMoved (c, v)` changes the voice only for controller number 1: for any
other number the voice is returned as it was. For `c = 1` the tilt becomes
`curFilterCutoff + (v / 127) * (cutOffRange.end - curFilterCutoff)`, which is
`curFilterCutoff` at `v = 0`, `cutOffRange.end` at `v = 127` and lies between the two for
`0 ≤ v ≤ 127`; the base cutoff is kept and the cutoff given to the filter is
`curFilterCutoff + tilt` limited to `cutOffRange`; the lifecycle fields are untouched. -/
theorem controllerMoved_tilts_cutoff (C : Constants) (v : Voice X) :
    (∀ c x : Int, c ≠ 1 → controllerMoved C c x v = v) ∧
    (∀ x : Int,
      (controllerMoved C 1 x v).tiltCutoff
          = v.curFilterCutoff + ((x : ℚ) / 127) * (C.cutOffEnd - v.curFilterCutoff) ∧
      (controllerMoved C 1 x v).curFilterCutoff = v.curFilterCutoff ∧
      (controllerMoved C 1 x v).ladderCutoffHz
          = jlimit C.cutOffStart C.cutOffEnd
              (v.curFilterCutoff + (controllerMoved C 1 x v).tiltCutoff) ∧
      (controllerMoved C 1 x v).ladderCutoffWrites = v.ladderCutoffWrites + 1 ∧
      SameLifecycle v (controllerMoved C 1 x v) ∧
      (0 ≤ x → x ≤ 127 →
        min v.curFilterCutoff C.cutOffEnd ≤ (controllerMoved C 1 x v).tiltCutoff ∧
        (controllerMoved C 1 x v).tiltCutoff ≤ max v.curFilterCutoff C.cutOffEnd)) ∧
    (controllerMoved C 1 0 v).tiltCutoff = v.curFilterCutoff ∧
    (controllerMoved C 1 127 v).tiltCutoff = C.cutOffEnd := by
  have ht : ∀ x : Int, (controllerMoved C 1 x v).tiltCutoff
      = jmap (x : ℚ) 0 127 v.curFilterCutoff C.cutOffEnd := fun x => rfl
  refine ⟨?_, ?_, ?_, ?_⟩
  · intro c x hc
    unfold controllerMoved
    rw [if_neg hc]
  · intro x
    refine ⟨?_, rfl, rfl, rfl, controllerMoved_sameLifecycle C 1 x v, ?_⟩
    · rw [ht]
      unfold jmap
      ring
    · intro h0 h1
      rw [ht]
      exact jmap_between (by norm_num) (by exact_mod_cast h0) (by exact_mod_cast h1)
  · rw [ht]
    unfold jmap
    simp
  · rw [ht]
    unfold jmap
    norm_num

/-- Witness of C17: controller 1 at value 64 on the example voice; the tilt lies between
the base cutoff 1000 Hz and the end of the range, 18 kHz; controller 7 changes nothing. -/
theorem controllerMoved_tilts_cutoff_witness :
    controllerMoved (demoConstants 4 4) 7 64 (demoVoice (demoExt 0 1) (demoConstants 4 4))
        = demoVoice (demoExt 0 1) (demoConstants 4 4) ∧
    min (demoVoice (demoExt 0 1) (demoConstants 4 4)).curFilterCutoff
        (demoConstants 4 4).cutOffEnd
      ≤ (controllerMoved (demoConstants 4 4) 1 64
          (demoVoice (demoExt 0 1) (demoConstants 4 4))).tiltCutoff ∧
    (controllerMoved (demoConstants 4 4) 1 64
          (demoVoice (demoExt 0 1) (demoConstants 4 4))).tiltCutoff
      ≤ max (demoVoice (demoExt 0 1) (demoConstants 4 4)).curFilterCutoff
          (demoConstants 4 4).cutOffEnd :=
  ⟨(controllerMoved_tilts_cutoff (demoConstants 4 4)
      (demoVoice (demoExt 0 1) (demoConstants 4 4))).1 7 64 (by decide),
    ((controllerMoved_tilts_cutoff (demoConstants 4 4)
      (demoVoice (demoExt 0 1) (demoConstants 4 4))).2.1 64).2.2.2.2.2
        (by decide) (by decide)⟩

/-! ## Unrecognised identifiers -/

/-- C18. A parameter identifier that is none of the fourteen recognised ones, and an LFO
shape that is none of the four recognised ones, leave the whole voice state as it was:
`parameterChanged` and `setLfoShape` return the voice unchanged (the debug-build assertion
is not part of the state), also when the shape arrives through the parameter
`lfoShapeID`. -/
theorem unrecognised_parameter_or_shape_ignored (E : Ext X) (C : Constants) (v : Voice X) :
    (∀ (name : String) (x : ℚ), parameterChanged E C (ParamId.other name) x v = v) ∧
    (∀ raw : Int, setLfoShape E (LfoShape.unrecognised raw) v = v) ∧
    (∀ (x : ℚ) (raw : Int), C.lfoShapeOfInt (truncToInt x) = LfoShape.unrecognised raw →
      parameterChanged E C ParamId.lfoShapeID x v = v) := by
  refine ⟨?_, ?_, ?_⟩
  · intro name x
    unfold parameterChanged
    simp
  · intro raw
    rfl
  · intro x raw h
    unfold parameterChanged
    simp [h, setLfoShape]

/-- Witness of C18: the value 9 of the parameter `lfoShapeID` names no shape of the example
constants; the example voice is left as it was. -/
theorem unrecognised_parameter_or_shape_ignored_witness :
    parameterChanged (demoExt 0 1) (demoConstants 4 4) ParamId.lfoShapeID 9
        (demoVoice (demoExt 0 1) (demoConstants 4 4))
      = demoVoice (demoExt 0 1) (demoConstants 4 4) :=
  (unrecognised_parameter_or_shape_ignored (demoExt 0 1) (demoConstants 4 4)
    (demoVoice (demoExt 0 1) (demoConstants 4 4))).2.2 9 9 (by
      have h : truncToInt (9 : ℚ) = 9 := by
        unfold truncToInt
        rw [if_pos (by norm_num)]
        simp
      rw [h]
      rfl)

/-! ## The LFO destination -/

theorem setLfoDest_sameButLfoDest (E : Ext X) (d : LfoDest) (v : Voice X) :
    SameButLfoDest v (setLfoDest E d v) :=
  ⟨setLfoDest_sameLifecycle E d v, rfl, rfl, rfl, rfl, rfl, rfl, rfl, rfl, rfl, rfl⟩

theorem updateLfo_unrecognised (E : Ext X) (C : Constants) (w : Voice X) (raw : Int)
    (h : w.lfoDest = LfoDest.unrecognised raw) :
    updateLfo E C w = { w with ext := (E.lfoProcessSample w.ext).1 } := by
  unfold updateLfo
  dsimp only
  rw [h]

theorem updateLfo_ladderResonance_of_ne (E : Ext X) (C : Constants) (w : Voice X)
    (h : w.lfoDest ≠ LfoDest.filterResonance) :
    (updateLfo E C w).ladderResonance = w.ladderResonance := by
  unfold updateLfo
  dsimp only
  split <;> first | rfl | (rename_i hd; exact absurd hd h)

theorem updateLfo_ext_of_ne (E : Ext X) (C : Constants) (w : Voice X)
    (h1 : w.lfoDest ≠ LfoDest.osc1Freq) (h2 : w.lfoDest ≠ LfoDest.osc2Freq) :
    (updateLfo E C w).ext = (E.lfoProcessSample w.ext).1 := by
  unfold updateLfo
  dsimp only
  split <;> first | rfl | (rename_i hd; exact absurd hd h1) | (rename_i hd; exact absurd hd h2)

theorem updateLfo_osc2_of_ne (E : Ext X) (C : Constants) (B : OscBankModel E) (w : Voice X)
    (h : w.lfoDest ≠ LfoDest.osc2Freq) :
    B.lfoOsc2NoteOffset (updateLfo E C w).ext = B.lfoOsc2NoteOffset w.ext := by
  unfold updateLfo
  dsimp only
  split
  · rw [B.set1_osc2, B.lfo_osc2]
  · rename_i hd; exact absurd hd h
  · exact B.lfo_osc2 _
  · exact B.lfo_osc2 _
  · exact B.lfo_osc2 _

theorem updateLfo_osc1_of_ne (E : Ext X) (C : Constants) (B : OscBankModel E) (w : Voice X)
    (h : w.lfoDest ≠ LfoDest.osc1Freq) :
    B.lfoOsc1NoteOffset (updateLfo E C w).ext = B.lfoOsc1NoteOffset w.ext := by
  unfold updateLfo
  dsimp only
  split
  · rename_i hd; exact absurd hd h
  · rw [B.set2_osc1, B.lfo_osc1]
  · exact B.lfo_osc1 _
  · exact B.lfo_osc1 _
  · exact B.lfo_osc1 _

/-- C13. For every destination `d` and every voice state, `setLfoDest d` calls
`resetLfoOscNoteOffsets` on the collaborators, so that both LFO note offsets of the
oscillator bank are back at their initial value, and stores `d` as the destination; every
other field is kept. `d` is then the single active destination: the next `updateLfo`
writes only the target of `d` (the cutoff contribution only for `filterCutOff`, the
resonance of the filter only for `filterResonance`, the note offset of oscillator 1 only
for `osc1Freq` and that of oscillator 2 only for `osc2Freq`). -/
theorem setLfoDest_resets_offsets_and_selects (E : Ext X) (C : Constants)
    (B : OscBankModel E) (d : LfoDest) (v : Voice X) :
    (setLfoDest E d v).ext = E.resetLfoOscNoteOffsets v.ext ∧
    B.lfoOsc1NoteOffset (setLfoDest E d v).ext = B.initialNoteOffset ∧
    B.lfoOsc2NoteOffset (setLfoDest E d v).ext = B.initialNoteOffset ∧
    (setLfoDest E d v).lfoDest = d ∧
    SameButLfoDest v (setLfoDest E d v) ∧
    (d ≠ LfoDest.filterCutOff →
      (updateLfo E C (setLfoDest E d v)).lfoCutOffContributionHz
        = v.lfoCutOffContributionHz) ∧
    (d ≠ LfoDest.filterResonance →
      (updateLfo E C (setLfoDest E d v)).ladderResonance = v.ladderResonance) ∧
    (d ≠ LfoDest.osc1Freq →
      B.lfoOsc1NoteOffset (updateLfo E C (setLfoDest E d v)).ext = B.initialNoteOffset) ∧
    (d ≠ LfoDest.osc2Freq →
      B.lfoOsc2NoteOffset (updateLfo E C (setLfoDest E d v)).ext = B.initialNoteOffset) := by
  refine ⟨rfl, B.reset_osc1 _, B.reset_osc2 _, rfl, setLfoDest_sameButLfoDest E d v,
    ?_, ?_, ?_, ?_⟩
  · intro h
    rw [updateLfo_lfoCutOffContributionHz_of_ne E C _ h]
    rfl
  · intro h
    rw [updateLfo_ladderResonance_of_ne E C _ h]
    rfl
  · intro h
    rw [updateLfo_osc1_of_ne E C B _ h]
    exact B.reset_osc1 _
  · intro h
    rw [updateLfo_osc2_of_ne E C B _ h]
    exact B.reset_osc2 _

/-- Witness of C13: the example voice has the note offsets 3 and 5 and the LFO on the
pitch of oscillator 1, mid-note; `setLfoDest filterCutOff` resets both offsets to 0 and the
next LFO update leaves the filter resonance and both offsets alone. -/
theorem setLfoDest_resets_offsets_and_selects_witness :
    demoBank.lfoOsc1NoteOffset demoBankVoice.ext = 3 ∧
    demoBank.lfoOsc2NoteOffset demoBankVoice.ext = 5 ∧
    demoBankVoice.isVoiceActive = true ∧
    demoBank.lfoOsc1NoteOffset (setLfoDest demoBankExt LfoDest.filterCutOff demoBankVoice).ext
      = 0 ∧
    demoBank.lfoOsc2NoteOffset (setLfoDest demoBankExt LfoDest.filterCutOff demoBankVoice).ext
      = 0 ∧
    (setLfoDest demoBankExt LfoDest.filterCutOff demoBankVoice).lfoDest
      = LfoDest.filterCutOff ∧
    (updateLfo demoBankExt (demoConstants 4 4)
        (setLfoDest demoBankExt LfoDest.filterCutOff demoBankVoice)).ladderResonance
      = demoBankVoice.ladderResonance ∧
    demoBank.lfoOsc1NoteOffset (updateLfo demoBankExt (demoConstants 4 4)
        (setLfoDest demoBankExt LfoDest.filterCutOff demoBankVoice)).ext = 0 ∧
    demoBank.lfoOsc2NoteOffset (updateLfo demoBankExt (demoConstants 4 4)
        (setLfoDest demoBankExt LfoDest.filterCutOff demoBankVoice)).ext = 0 :=
  have h := setLfoDest_resets_offsets_and_selects demoBankExt (demoConstants 4 4) demoBank
    LfoDest.filterCutOff demoBankVoice
  ⟨rfl, rfl, by decide, h.2.1, h.2.2.1, h.2.2.2.1,
    h.2.2.2.2.2.2.1 (by decide), h.2.2.2.2.2.2.2.1 (by decide),
    h.2.2.2.2.2.2.2.2 (by decide)⟩

/-- C19, amended. `setLfoDest` does not look at the value it is given: a value that is
none of the four recognised destinations is stored as the destination and
`resetLfoOscNoteOffsets` is called on the oscillator bank, like for any other value; every
other field is kept. With such a value stored the LFO reaches no destination: `updateLfo`
advances the LFO and writes nothing else. -/
theorem setLfoDest_unrecognised_stored (E : Ext X) (C : Constants) (raw : Int)
    (v : Voice X) :
    (setLfoDest E (LfoDest.unrecognised raw) v).lfoDest = LfoDest.unrecognised raw ∧
    (setLfoDest E (LfoDest.unrecognised raw) v).ext = E.resetLfoOscNoteOffsets v.ext ∧
    setLfoDest E (LfoDest.unrecognised raw) v
      = { v with ext := E.resetLfoOscNoteOffsets v.ext,
                 lfoDest := LfoDest.unrecognised raw } ∧
    SameButLfoDest v (setLfoDest E (LfoDest.unrecognised raw) v) ∧
    updateLfo E C (setLfoDest E (LfoDest.unrecognised raw) v)
      = { setLfoDest E (LfoDest.unrecognised raw) v with
          ext := (E.lfoProcessSample (E.resetLfoOscNoteOffsets v.ext)).1 } :=
  ⟨rfl, rfl, rfl, setLfoDest_sameButLfoDest E _ v, updateLfo_unrecognised E C _ raw rfl⟩

/-- C19 as stated fails: on the example voice (LFO on the pitch of oscillator 1, note
offsets 3 and 5 in the oscillator bank) `setLfoDest` with the unrecognised value 9 changes
the stored destination, and the oscillator bank is left with both note offsets at 0. -/
theorem setLfoDest_unrecognised_stored_counterexample :
    demoBankVoice.lfoDest = LfoDest.osc1Freq ∧
    (setLfoDest demoBankExt (LfoDest.unrecognised 9) demoBankVoice).lfoDest
      = LfoDest.unrecognised 9 ∧
    (setLfoDest demoBankExt (LfoDest.unrecognised 9) demoBankVoice).lfoDest
      ≠ demoBankVoice.lfoDest ∧
    demoBankVoice.ext = (3, 5) ∧
    (setLfoDest demoBankExt (LfoDest.unrecognised 9) demoBankVoice).ext = (0, 0) ∧
    setLfoDest demoBankExt (LfoDest.unrecognised 9) demoBankVoice ≠ demoBankVoice := by
  refine ⟨rfl, rfl, ?_, rfl, rfl, ?_⟩
  · show LfoDest.unrecognised 9 ≠ LfoDest.osc1Freq
    exact fun h => LfoDest.noConfusion h
  · intro h
    have h2 : (setLfoDest demoBankExt (LfoDest.unrecognised 9) demoBankVoice).lfoDest
        = demoBankVoice.lfoDest := by rw [h]
    exact LfoDest.noConfusion h2

/-! ## What `startNote` resets -/

/-- A render call of 4 samples on the sounding example voice returns with the LFO counter
at 96. -/
theorem demo_render_counter :
    ∃ res, renderNextBlock (demoExt 0 1) (demoConstants 4 4)
        (demoSounding (demoExt 0 1) (demoConstants 4 4)) Buf.silence 0 4 = some res ∧
      res.1.lfoUpdateCounter = 96 := by
  have hr := renderCore_single (demoExt 0 1) (demoConstants 4 4)
    (renderNextBlockAt (demoExt 0 1) (demoConstants 4 4) 1)
    (demoSounding (demoExt 0 1) (demoConstants 4 4)) Buf.silence 0 4
    (by decide) (by decide) (by decide) (scratchOk_of_idle rfl)
  refine ⟨_, hr, ?_⟩
  rw [renderExit_fst]
  show (subBlockResult _ _ _ _).v.lfoUpdateCounter = 96
  rw [subBlockResult_lfoUpdateCounter]
  decide

/-- C16, amended. `startNote`, whatever the previous state, gives both envelopes their
parameters, resets them and starts them (`setParameters`, `reset`, `noteOn` on the
amplitude envelope, then on the filter envelope), updates the oscillator frequencies and
levels, and arms the ramp-up with `rampUpSamplesLeft = rampUpSamples`. It makes no call on
the LFO and does not write `lfoUpdateCounter`: the counter keeps the value it had. The
parameter values (envelope parameters, LFO destination and amount, base cutoff, resonance,
tilt, and what the filter holds) and every lifecycle field other than the ramp-up are left
unchanged. -/
theorem startNote_resets_envelopes_not_lfo (E : Ext X) (C : Constants) (note : Int)
    (velocity : ℚ) (pitchWheel : Int) (v : Voice X) :
    (startNote E C note velocity pitchWheel v).ext
      = E.updateOscLevels (E.updateOscFrequencies
          (E.filterNoteOn (E.filterReset (E.filterSetParameters
            (E.ampNoteOn (E.ampReset (E.ampSetParameters v.ext v.ampParams)))
            v.filterEnvParams)))
          note velocity pitchWheel) ∧
    (startNote E C note velocity pitchWheel v).rampingUp = true ∧
    (startNote E C note velocity pitchWheel v).rampUpSamplesLeft = C.rampUpSamples ∧
    (startNote E C note velocity pitchWheel v).lfoUpdateCounter = v.lfoUpdateCounter ∧
    startNote E C note velocity pitchWheel v
      = { v with ext := (startNote E C note velocity pitchWheel v).ext, rampingUp := true,
                 rampUpSamplesLeft := C.rampUpSamples } ∧
    (startNote E C note velocity pitchWheel v).ampParams = v.ampParams ∧
    (startNote E C note velocity pitchWheel v).filterEnvParams = v.filterEnvParams ∧
    (startNote E C note velocity pitchWheel v).lfoDest = v.lfoDest ∧
    (startNote E C note velocity pitchWheel v).lfoAmount = v.lfoAmount ∧
    (startNote E C note velocity pitchWheel v).curFilterCutoff = v.curFilterCutoff ∧
    (startNote E C note velocity pitchWheel v).curFilterResonance = v.curFilterResonance ∧
    (startNote E C note velocity pitchWheel v).tiltCutoff = v.tiltCutoff :=
  ⟨rfl, rfl, rfl, rfl, rfl, rfl, rfl, rfl, rfl, rfl, rfl, rfl⟩

/-- C16 as stated fails: the sounding example voice is constructed with `lfoUpdateCounter`
at its initial value 100; a render call of 4 samples leaves it at 96, and a `startNote`
after that leaves it at 96, not at 100. -/
theorem startNote_resets_envelopes_not_lfo_counterexample :
    (construct (demoExt 0 1) (demoConstants 4 4) 0 7 ∅ 44100).lfoUpdateCounter = 100 ∧
    ∃ res, renderNextBlock (demoExt 0 1) (demoConstants 4 4)
        (demoSounding (demoExt 0 1) (demoConstants 4 4)) Buf.silence 0 4 = some res ∧
      (startNote (demoExt 0 1) (demoConstants 4 4) 60 1 8192 res.1).lfoUpdateCounter = 96 ∧
      (startNote (demoExt 0 1) (demoConstants 4 4) 60 1 8192 res.1).lfoUpdateCounter
        ≠ (construct (demoExt 0 1) (demoConstants 4 4) 0 7 ∅ 44100).lfoUpdateCounter := by
  refine ⟨rfl, ?_⟩
  obtain ⟨res, hr, hc⟩ := demo_render_counter
  refine ⟨res, hr, hc, ?_⟩
  show res.1.lfoUpdateCounter ≠ 100
  rw [hc]
  decide

/-! ## The release check, field by field -/

theorem afterRelease_currentlyPlayingNote (E : Ext X) (v : Voice X) :
    (afterRelease E v).currentlyPlayingNote
      = if v.currentlyReleasingNote = true ∧ E.ampIsActive v.ext = false then -1
        else v.currentlyPlayingNote := by
  unfold afterRelease; split_ifs <;> rfl

theorem afterRelease_currentlyReleasingNote (E : Ext X) (v : Voice X) :
    (afterRelease E v).currentlyReleasingNote
      = if v.currentlyReleasingNote = true ∧ E.ampIsActive v.ext = false then false
        else v.currentlyReleasingNote := by
  unfold afterRelease; split_ifs <;> rfl

theorem afterRelease_justDoneReleaseEnvelope (E : Ext X) (v : Voice X) :
    (afterRelease E v).justDoneReleaseEnvelope
      = if v.currentlyReleasingNote = true ∧ E.ampIsActive v.ext = false then false
        else v.justDoneReleaseEnvelope := by
  unfold afterRelease; split_ifs <;> rfl

theorem subBlockResult_of_releaseEnds (E : Ext X) (C : Constants) (numSamples : Int)
    (st : LoopState X) (h : releaseEnds E numSamples st) :
    NoteEnded (subBlockResult E C numSamples st).v := by
  have h1 : (subBlockHead E st.pos (subBlockSize numSamples st) st.v).v.currentlyReleasingNote
      = true ∧ E.ampIsActive (subBlockHead E st.pos (subBlockSize numSamples st) st.v).v.ext
        = false := ⟨by rw [subBlockHead_currentlyReleasingNote]; exact h.1, h.2⟩
  refine ⟨?_, ?_, ?_⟩
  · simp only [subBlockResult, subBlockTail_currentlyPlayingNote,
      afterRelease_currentlyPlayingNote, if_pos h1]
  · simp only [subBlockResult, subBlockTail_currentlyReleasingNote,
      afterRelease_currentlyReleasingNote, if_pos h1]
  · simp only [subBlockResult, subBlockTail_justDoneReleaseEnvelope,
      afterRelease_justDoneReleaseEnvelope, if_pos h1]

theorem subBlockResult_of_not_releaseEnds (E : Ext X) (C : Constants) (numSamples : Int)
    (st : LoopState X) (h : ¬ releaseEnds E numSamples st) :
    (subBlockResult E C numSamples st).v.currentlyPlayingNote = st.v.currentlyPlayingNote ∧
    (subBlockResult E C numSamples st).v.currentlyReleasingNote
      = st.v.currentlyReleasingNote ∧
    (subBlockResult E C numSamples st).v.justDoneReleaseEnvelope
      = st.v.justDoneReleaseEnvelope := by
  have h1 : ¬ ((subBlockHead E st.pos (subBlockSize numSamples st) st.v).v.currentlyReleasingNote
      = true ∧ E.ampIsActive (subBlockHead E st.pos (subBlockSize numSamples st) st.v).v.ext
        = false) := by
    rw [subBlockHead_currentlyReleasingNote]
    exact h
  have h2 : ¬ (st.v.currentlyReleasingNote = true ∧
      E.ampIsActive (subBlockHead E st.pos (subBlockSize numSamples st) st.v).v.ext
        = false) := h
  refine ⟨?_, ?_, ?_⟩
  · simp only [subBlockResult, subBlockTail_currentlyPlayingNote,
      afterRelease_currentlyPlayingNote, if_neg h1, if_neg h2, subBlockHead_currentlyPlayingNote]
  · simp only [subBlockResult, subBlockTail_currentlyReleasingNote,
      afterRelease_currentlyReleasingNote, if_neg h1, if_neg h2, subBlockHead_currentlyReleasingNote]
  · simp only [subBlockResult, subBlockTail_justDoneReleaseEnvelope,
      afterRelease_justDoneReleaseEnvelope, if_neg h1, if_neg h2, subBlockHead_justDoneReleaseEnvelope]

/-- An iteration of the sub-block loop does not start a note: a voice without a current
note has none afterwards. -/
theorem subBlockResult_inactive (E : Ext X) (C : Constants) (numSamples : Int)
    (st : LoopState X) (h : st.v.isVoiceActive = false) :
    (subBlockResult E C numSamples st).v.isVoiceActive = false := by
  by_cases hr : releaseEnds E numSamples st
  · have := (subBlockResult_of_releaseEnds E C numSamples st hr).1
    unfold Voice.isVoiceActive
    rw [this]
    decide
  · have := (subBlockResult_of_not_releaseEnds E C numSamples st hr).1
    unfold Voice.isVoiceActive at *
    rw [this]
    exact h

/-- An iteration that starts with the note ended leaves it ended. -/
theorem subBlockResult_noteEnded (E : Ext X) (C : Constants) (numSamples : Int)
    (st : LoopState X) (h : NoteEnded st.v) :
    NoteEnded (subBlockResult E C numSamples st).v := by
  by_cases hr : releaseEnds E numSamples st
  · exact subBlockResult_of_releaseEnds E C numSamples st hr
  · obtain ⟨h1, h2, h3⟩ := subBlockResult_of_not_releaseEnds E C numSamples st hr
    exact ⟨h1.trans h.1, h2.trans h.2.1, h3.trans h.2.2⟩

/-! ## What holds between public operations -/

theorem PublicInv.of_same_public {v w : Voice X} (h : PublicInv v) (hs : SameLifecycle v w) :
    PublicInv w := by
  unfold PublicInv LfoCounterOk Voice.isVoiceActive at *
  rw [hs.lfoUpdateCounter, hs.currentlyKillingVoice, hs.rampingUp, hs.rampUpSamplesLeft,
    hs.currentlyPlayingNote]
  exact h

theorem subBlockResult_rampArmed (E : Ext X) (C : Constants) (numSamples : Int)
    (st : LoopState X)
    (h : st.v.rampingUp = false → 0 < st.v.rampUpSamplesLeft → st.v.isVoiceActive = false) :
    (subBlockResult E C numSamples st).v.rampingUp = false →
      0 < (subBlockResult E C numSamples st).v.rampUpSamplesLeft →
      (subBlockResult E C numSamples st).v.isVoiceActive = false := by
  rw [subBlockResult_rampingUp, subBlockResult_rampUpSamplesLeft]
  intro h1 h2
  by_cases hr : st.v.rampingUp = true
  · rw [if_pos hr] at h2
    by_cases hz : st.v.rampUpSamplesLeft
        - min (subBlockSize numSamples st) st.v.rampUpSamplesLeft ≤ 0
    · omega
    · rw [if_neg (fun hh => hz hh.2), hr] at h1
      exact absurd h1 (by decide)
  · rw [if_neg hr] at h2
    have hf : st.v.rampingUp = false := by simpa using hr
    exact subBlockResult_inactive E C numSamples st (h hf h2)

theorem render_publicInv (E : Ext X) (C : Constants) (v : Voice X) (out : Buf) (start : Nat)
    (n : Int) (res : Voice X × Buf) (h : PublicInv v)
    (hr : renderNextBlock E C v out start n = some res) : PublicInv res.1 := by
  rw [renderNextBlock_eq] at hr
  by_cases hg : v.currentlyKillingVoice = false ∧ v.isVoiceActive = false
  · rw [renderCore_skip E C _ v out start n hg] at hr
    simp only [Option.some.injEq] at hr
    subst hr
    exact h
  · obtain ⟨st, hP, hok, _, hres⟩ := renderCore_inner_of_some E C (renderNextBlockAt E C 1)
      v out start n res hg hr h.1
      (fun s => s.v.rampingUp = false → 0 < s.v.rampUpSamplesLeft → s.v.isVoiceActive = false)
      h.2.2 (fun s hs _ _ _ => subBlockResult_rampArmed E C _ s hs)
    subst hres
    rw [renderExit_fst]
    exact ⟨hok, rfl, hP⟩

theorem stopNote_publicInv (E : Ext X) (C : Constants) (v w : Voice X) (b : Bool)
    (h : PublicInv v) (hs : stopNote E C b v = some w) : PublicInv w := by
  cases b with
  | true =>
    rw [stopNote_tailOff] at hs
    simp only [Option.some.injEq] at hs
    subst hs
    exact h
  | false =>
    by_cases hg : v.sampleRate ≠ 0 ∧ v.justDoneReleaseEnvelope = false
    · obtain ⟨st, _, hok, _, hres⟩ := stopNote_kill_of_some E C v w h.1 hg hs
        (fun _ => True) trivial (fun _ _ _ _ _ => trivial)
      subst hres
      exact ⟨hok, rfl, fun _ _ => rfl⟩
    · unfold stopNote at hs
      rw [stopNoteCore_skip E C _ v hg] at hs
      simp only [Option.some.injEq] at hs
      subst hs
      exact ⟨h.1, h.2.1, fun _ _ => rfl⟩

theorem betweenOps_publicInv (E : Ext X) (C : Constants) (v : Voice X)
    (h : BetweenOps E C v) : PublicInv v := by
  induction h with
  | construct x vId s rate =>
    exact ⟨⟨show (1 : Int) ≤ 100 by decide, le_refl _⟩, rfl, fun _ _ => rfl⟩
  | prepare sr m nc _ ih => exact ih
  | setSampleRate r _ ih => exact ih
  | hostStartVoice note vel pw _ ih =>
    exact ⟨ih.1, ih.2.1, fun hr => absurd hr (by simp [startNote])⟩
  | startNote note vel pw _ ih =>
    exact ⟨ih.1, ih.2.1, fun hr => absurd hr (by simp [startNote])⟩
  | @stopNote v w b _ hs ih => exact stopNote_publicInv E C v w b ih hs
  | @render v res out start n _ hr ih => exact render_publicInv E C v out start n res ih hr
  | @parameterChanged v p x _ ih =>
    exact ih.of_same_public (parameterChanged_sameLifecycle E C p x v)
  | @controllerMoved v c x _ ih =>
    exact ih.of_same_public (controllerMoved_sameLifecycle C c x v)
  | @pitchWheelMoved v p _ ih =>
    exact ih.of_same_public (pitchWheelMoved_sameLifecycle E p v)

theorem betweenOps_reachable (E : Ext X) (C : Constants) (v : Voice X)
    (h : BetweenOps E C v) : Reachable E C v := by
  induction h with
  | construct x vId s rate => exact Reachable.construct x vId s rate
  | prepare sr m nc _ ih => exact Reachable.prepare sr m nc ih
  | setSampleRate r _ ih => exact Reachable.setSampleRate r ih
  | hostStartVoice note vel pw _ ih => exact Reachable.hostStartVoice note vel pw ih
  | startNote note vel pw _ ih => exact Reachable.startNote note vel pw ih
  | stopNote b _ hs ih => exact Reachable.stopNote b ih hs
  | render out start n _ hr ih => exact Reachable.render out start n ih hr
  | parameterChanged p x _ ih => exact Reachable.parameterChanged p x ih
  | controllerMoved c x _ ih => exact Reachable.controllerMoved c x ih
  | pitchWheelMoved p _ ih => exact Reachable.pitchWheelMoved p ih

theorem reachable_lfoCounterOk (E : Ext X) (C : Constants) (v : Voice X)
    (h : Reachable E C v) : LfoCounterOk v := by
  have same : ∀ {a b : Voice X}, LfoCounterOk a → b.lfoUpdateCounter = a.lfoUpdateCounter →
      LfoCounterOk b := by
    intro a b ha hb
    unfold LfoCounterOk at *
    rw [hb]
    exact ha
  induction h with
  | construct x vId s rate => exact ⟨show (1 : Int) ≤ 100 by decide, le_refl _⟩
  | prepare sr m nc _ ih => exact ih
  | setSampleRate r _ ih => exact ih
  | hostStartVoice note vel pw _ ih => exact ih
  | startNote note vel pw _ ih => exact ih
  | @stopNote v w b _ hs ih =>
    cases b with
    | true =>
      rw [stopNote_tailOff] at hs
      simp only [Option.some.injEq] at hs
      subst hs
      exact ih
    | false =>
      by_cases hg : v.sampleRate ≠ 0 ∧ v.justDoneReleaseEnvelope = false
      · obtain ⟨st, _, hok, _, hres⟩ := stopNote_kill_of_some E C v w ih hg hs
          (fun _ => True) trivial (fun _ _ _ _ _ => trivial)
        subst hres
        exact hok
      · have := stopNoteCore_skip E C (renderNextBlockAt E C nestingFuel) v hg
        unfold stopNote at hs
        rw [hs] at this
        simp only [Option.some.injEq] at this
        subst this
        exact ih
  | @render v res out start n _ hr ih =>
    rw [renderNextBlock_eq] at hr
    by_cases hg : v.currentlyKillingVoice = false ∧ v.isVoiceActive = false
    · rw [renderCore_skip E C _ v out start n hg] at hr
      simp only [Option.some.injEq] at hr
      subst hr
      exact ih
    · obtain ⟨st, _, hok, _, hres⟩ := renderCore_inner_of_some E C (renderNextBlockAt E C 1)
        v out start n res hg hr ih (fun _ => True) trivial (fun _ _ _ _ _ => trivial)
      subst hres
      rw [renderExit_fst]
      exact hok
  | @parameterChanged v p x _ ih =>
    exact same ih (parameterChanged_sameLifecycle E C p x v).lfoUpdateCounter
  | setAmpParam p x _ ih => exact ih
  | setFilterEnvParam p x _ ih => exact ih
  | @setLfoShape v s _ ih => exact same ih (setLfoShape_sameLifecycle E s v).lfoUpdateCounter
  | setLfoDest d _ ih => exact ih
  | setLfoFreq x _ ih => exact ih
  | setLfoAmount x _ ih => exact ih
  | setFilterCutoff x _ ih => exact ih
  | setFilterTiltCutoff x _ ih => exact ih
  | setFilterResonance x _ ih => exact ih
  | @controllerMoved v c x _ ih =>
    exact same ih (controllerMoved_sameLifecycle C c x v).lfoUpdateCounter
  | pitchWheelMoved p _ ih => exact ih
  | killEntry _ _ _ ih => exact ih
  | loopEntry n _ ih => exact ih
  | subBlockHead pos n _ ih => exact ih
  | afterRelease _ ih => exact same ih (by simp)
  | processRampUp blk n _ ih => exact same ih (by simp)
  | subBlock r numSamples _ hp hsub ih =>
    obtain ⟨hsub, _⟩ := subBlock_of_some E C _ _ _ _ hsub
    subst hsub
    exact subBlockResult_lfoCounterOk E C _ _ ih hp

/-- In every state the voice passes through, an armed overlap cursor has its scratch
buffer: the cursor is armed by the kill path of `stopNote` only, which returns only with the
buffer allocated, and nothing frees the buffer. -/
theorem reachable_scratchOk (E : Ext X) (C : Constants) (v : Voice X)
    (h : Reachable E C v) : ScratchOk v := by
  induction h with
  | construct x vId s rate => exact scratchOk_of_idle rfl
  | prepare sr m nc _ ih => exact scratchOk_of_allocated rfl
  | setSampleRate r _ ih => exact ih.of_same_scratch rfl rfl
  | hostStartVoice note vel pw _ ih => exact ih.of_same_scratch rfl rfl
  | startNote note vel pw _ ih => exact ih.of_same_scratch rfl rfl
  | @stopNote v w b _ hs ih => exact stopNote_scratchOk E C v w b ih hs
  | @render v res out start n _ hr ih => exact render_scratchOk E C v out start n res ih hr
  | @parameterChanged v p x _ ih =>
    have := parameterChanged_sameLifecycle E C p x v
    exact ih.of_same_scratch this.overlapIndex this.overlapAllocated
  | setAmpParam p x _ ih => exact ih.of_same_scratch rfl rfl
  | setFilterEnvParam p x _ ih => exact ih.of_same_scratch rfl rfl
  | @setLfoShape v s _ ih =>
    have := setLfoShape_sameLifecycle E s v
    exact ih.of_same_scratch this.overlapIndex this.overlapAllocated
  | setLfoDest d _ ih => exact ih.of_same_scratch rfl rfl
  | setLfoFreq x _ ih => exact ih.of_same_scratch rfl rfl
  | setLfoAmount x _ ih => exact ih.of_same_scratch rfl rfl
  | setFilterCutoff x _ ih => exact ih.of_same_scratch rfl rfl
  | setFilterTiltCutoff x _ ih => exact ih.of_same_scratch rfl rfl
  | setFilterResonance x _ ih => exact ih.of_same_scratch rfl rfl
  | @controllerMoved v c x _ ih =>
    have := controllerMoved_sameLifecycle C c x v
    exact ih.of_same_scratch this.overlapIndex this.overlapAllocated
  | pitchWheelMoved p _ ih => exact ih.of_same_scratch rfl rfl
  | killEntry _ _ _ ih => exact ih.of_same_scratch rfl rfl
  | loopEntry n _ ih => exact ih.of_same_scratch rfl rfl
  | subBlockHead pos n _ ih => exact ih.of_same_scratch rfl rfl
  | afterRelease _ ih => exact ih.of_same_scratch (by simp) (by simp)
  | processRampUp blk n _ ih => exact ih.of_same_scratch (by simp) (by simp)
  | subBlock r numSamples _ hp hsub ih =>
    obtain ⟨hsub, _⟩ := subBlock_of_some E C _ _ _ _ hsub
    subst hsub
    exact subBlockResult_scratchOk E C _ _ ih

/-- The sounding example voice is prepared: its scratch buffer is allocated. -/
theorem demoSounding_scratchOk (E : Ext Nat) (C : Constants) :
    ScratchOk (demoSounding E C) := scratchOk_of_allocated rfl

/-! ## The ramp-up countdown across a render call -/

theorem samplesProcessed_pos {v : Voice X} {n : Int} (h : 0 < samplesProcessed v n) :
    ¬ (v.currentlyKillingVoice = false ∧ v.isVoiceActive = false) ∧
    0 < min n v.curPreparedSamples := by
  unfold samplesProcessed at h
  split_ifs at h with hg
  · exact absurd h (lt_irrefl 0)
  · exact ⟨hg, by omega⟩

/-- A render call that processes samples with the ramp-up armed and a positive countdown
leaves the countdown strictly smaller. -/
theorem render_rampUp_armed (E : Ext X) (C : Constants) (v : Voice X) (out : Buf)
    (start : Nat) (n : Int) (hok : LfoCounterOk v) (hA : ScratchOk v)
    (hr : v.rampingUp = true)
    (hl : 0 < v.rampUpSamplesLeft) (hs : 0 < samplesProcessed v n) :
    ∃ res, renderNextBlock E C v out start n = some res ∧
      res.1.rampUpSamplesLeft < v.rampUpSamplesLeft := by
  obtain ⟨hg, hn⟩ := samplesProcessed_pos hs
  rw [renderNextBlock_eq]
  obtain ⟨st, hP, _, hpos, hres⟩ := renderCore_inner E C (renderNextBlockAt E C 1) v out
    start n hg hok hA
    (fun s => (s.pos = 0 ∧ s.v.rampingUp = true ∧ s.v.rampUpSamplesLeft = v.rampUpSamplesLeft)
      ∨ (0 < s.pos ∧ s.v.rampUpSamplesLeft < v.rampUpSamplesLeft))
    (Or.inl ⟨rfl, hr, rfl⟩)
    (by
      intro s hs hoks h0 hlt
      have hsz := subBlockSize_pos hoks hlt
      right
      rw [subBlockResult_pos, subBlockResult_rampUpSamplesLeft]
      refine ⟨by omega, ?_⟩
      rcases hs with ⟨_, h2, h3⟩ | ⟨_, h2⟩
      · rw [if_pos h2, h3]
        omega
      · split_ifs <;> omega)
  refine ⟨_, hres, ?_⟩
  rw [renderExit_fst]
  rcases hP with ⟨h1, _⟩ | ⟨_, h2⟩
  · omega
  · exact h2

/-- A render call with the ramp-up disarmed leaves the countdown as it is. -/
theorem render_rampUp_disarmed (E : Ext X) (C : Constants) (v : Voice X) (out : Buf)
    (start : Nat) (n : Int) (hok : LfoCounterOk v) (hA : ScratchOk v)
    (hr : v.rampingUp = false) :
    ∃ res, renderNextBlock E C v out start n = some res ∧
      res.1.rampUpSamplesLeft = v.rampUpSamplesLeft := by
  rw [renderNextBlock_eq]
  by_cases hg : v.currentlyKillingVoice = false ∧ v.isVoiceActive = false
  · exact ⟨_, renderCore_skip E C _ v out start n hg, rfl⟩
  · obtain ⟨st, hP, _, _, hres⟩ := renderCore_inner E C (renderNextBlockAt E C 1) v out
      start n hg hok hA
      (fun s => s.v.rampingUp = false ∧ s.v.rampUpSamplesLeft = v.rampUpSamplesLeft)
      ⟨hr, rfl⟩
      (by
        intro s hs _ _ _
        have hne : ¬ s.v.rampingUp = true := by rw [hs.1]; decide
        rw [subBlockResult_rampingUp, subBlockResult_rampUpSamplesLeft, if_neg hne,
          if_neg (fun hh => hne hh.1)]
        exact hs)
    refine ⟨_, hres, ?_⟩
    rw [renderExit_fst]
    exact hP.2

/-- C15, amended. In every state the voice passes through, a render call that processes at
least one sample with the ramp-up armed (`rampingUp`) and a positive countdown
`rampUpSamplesLeft` leaves the countdown strictly smaller. Between public operations a
sounding voice with a positive countdown has its ramp-up armed, so every render call made
there that processes at least one sample leaves a positive countdown strictly smaller. A
render call with the ramp-up disarmed, as the one `stopNote` issues on its scratch buffer
after clearing `rampingUp`, leaves the countdown as it is. -/
theorem rampUp_countdown_decreases (E : Ext X) (C : Constants) (v : Voice X) (out : Buf)
    (start : Nat) (n : Int) :
    (Reachable E C v → v.rampingUp = true → 0 < v.rampUpSamplesLeft →
      0 < samplesProcessed v n →
      ∃ res, renderNextBlock E C v out start n = some res ∧
        res.1.rampUpSamplesLeft < v.rampUpSamplesLeft) ∧
    (BetweenOps E C v → 0 < v.rampUpSamplesLeft → 0 < samplesProcessed v n →
      ∃ res, renderNextBlock E C v out start n = some res ∧
        res.1.rampUpSamplesLeft < v.rampUpSamplesLeft) ∧
    (Reachable E C v → v.rampingUp = false →
      ∃ res, renderNextBlock E C v out start n = some res ∧
        res.1.rampUpSamplesLeft = v.rampUpSamplesLeft) := by
  refine ⟨?_, ?_, ?_⟩
  · intro h hr hl hs
    exact render_rampUp_armed E C v out start n (reachable_lfoCounterOk E C v h)
      (reachable_scratchOk E C v h) hr hl hs
  · intro h hl hs
    have hinv := betweenOps_publicInv E C v h
    have hact : v.isVoiceActive = true := by
      have := (samplesProcessed_pos hs).1
      by_contra hc
      exact this ⟨hinv.2.1, by simpa using hc⟩
    have hr : v.rampingUp = true := by
      by_contra hc
      have := hinv.2.2 (by simpa using hc) hl
      rw [hact] at this
      exact absurd this (by decide)
    exact render_rampUp_armed E C v out start n hinv.1
      (reachable_scratchOk E C v (betweenOps_reachable E C v h)) hr hl hs
  · intro h hr
    exact render_rampUp_disarmed E C v out start n (reachable_lfoCounterOk E C v h)
      (reachable_scratchOk E C v h) hr

theorem demoSounding_betweenOps (E : Ext Nat) (C : Constants) :
    BetweenOps E C (demoSounding E C) :=
  BetweenOps.hostStartVoice 60 1 8192
    (BetweenOps.prepare 44100 512 2 (BetweenOps.construct 0 7 ∅ 44100))

/-- Witness of C15 (amended): a render call of 4 samples on the sounding example voice,
whose countdown is 4. -/
theorem rampUp_countdown_decreases_witness :
    ∃ res, renderNextBlock (demoExt 0 1) (demoConstants 4 4)
        (demoSounding (demoExt 0 1) (demoConstants 4 4)) Buf.silence 0 4 = some res ∧
      res.1.rampUpSamplesLeft
        < (demoSounding (demoExt 0 1) (demoConstants 4 4)).rampUpSamplesLeft :=
  (rampUp_countdown_decreases (demoExt 0 1) (demoConstants 4 4)
    (demoSounding (demoExt 0 1) (demoConstants 4 4)) Buf.silence 0 4).2.1
    (demoSounding_betweenOps _ _) (by decide) (by decide)

/-- C15 as stated fails: the sounding example voice has just been started (countdown 4)
when `stopNote (_, false)` clears `rampingUp` and renders its scratch buffer. That render
call processes 4 samples and leaves the countdown at 4. -/
theorem rampUp_countdown_decreases_counterexample :
    Reachable (demoExt 0 1) (demoConstants 4 4)
      (killEntry (demoSounding (demoExt 0 1) (demoConstants 4 4))) ∧
    (killEntry (demoSounding (demoExt 0 1) (demoConstants 4 4))).rampUpSamplesLeft = 4 ∧
    samplesProcessed (killEntry (demoSounding (demoExt 0 1) (demoConstants 4 4)))
      (demoConstants 4 4).killRampSamples = 4 ∧
    ∃ res, renderNextBlock (demoExt 0 1) (demoConstants 4 4)
        (killEntry (demoSounding (demoExt 0 1) (demoConstants 4 4))) Buf.silence 0
        (demoConstants 4 4).killRampSamples = some res ∧
      res.1.rampUpSamplesLeft = 4 ∧
      ¬ res.1.rampUpSamplesLeft
        < (killEntry (demoSounding (demoExt 0 1) (demoConstants 4 4))).rampUpSamplesLeft := by
  refine ⟨?_, rfl, by decide, ?_⟩
  · exact Reachable.killEntry
      (betweenOps_reachable _ _ _ (demoSounding_betweenOps _ _))
      ⟨demoSounding_sampleRate 0 1 4 4, rfl⟩ rfl
  · obtain ⟨res, hr, hl⟩ := render_rampUp_disarmed (demoExt 0 1) (demoConstants 4 4)
      (killEntry (demoSounding (demoExt 0 1) (demoConstants 4 4))) Buf.silence 0
      (demoConstants 4 4).killRampSamples (demoSounding_lfoCounterOk 0 1 4 4)
      (scratchOk_of_allocated rfl) rfl
    refine ⟨res, hr, hl, ?_⟩
    rw [hl]
    exact lt_irrefl _

/-! ## The four lifecycle conditions between public operations -/

/-- With the killing flag clear, exactly one of the four lifecycle conditions holds in two
cases: no kill window is open and the releasing flag is set only with a current note, or a
kill window is open on a voice that has no note and is not releasing. -/
theorem oneLifecycleCondition_iff (v : Voice X) (hk : v.currentlyKillingVoice = false) :
    OneLifecycleCondition v ↔
      (v.overlapIndex < 0 ∧ (v.currentlyReleasingNote = true → v.isVoiceActive = true)) ∨
      (0 ≤ v.overlapIndex ∧ v.isVoiceActive = false ∧ v.currentlyReleasingNote = false) := by
  unfold OneLifecycleCondition ExactlyOne isIdle isSounding isReleasing isKilling
  rw [hk]
  by_cases h0 : 0 ≤ v.overlapIndex
  · have h1 : ¬ v.overlapIndex < 0 := by omega
    cases v.isVoiceActive <;> cases v.currentlyReleasingNote <;> simp [h0, h1]
  · have h1 : v.overlapIndex < 0 := by omega
    cases v.isVoiceActive <;> cases v.currentlyReleasingNote <;> simp [h0, h1]

theorem OneLifecycleCondition.of_same {v w : Voice X} (hk : v.currentlyKillingVoice = false)
    (h1 : w.currentlyKillingVoice = v.currentlyKillingVoice)
    (h2 : w.overlapIndex = v.overlapIndex)
    (h3 : w.currentlyReleasingNote = v.currentlyReleasingNote)
    (h4 : w.currentlyPlayingNote = v.currentlyPlayingNote) :
    OneLifecycleCondition w ↔ OneLifecycleCondition v := by
  have ha : w.isVoiceActive = v.isVoiceActive := by
    unfold Voice.isVoiceActive
    rw [h4]
  rw [oneLifecycleCondition_iff w (h1.trans hk), oneLifecycleCondition_iff v hk, h2, h3, ha]

/-- An iteration of the sub-block loop keeps the cursor idle and keeps the releasing flag
clear on a voice without a note. -/
theorem subBlockResult_lifecycle (E : Ext X) (C : Constants) (numSamples : Int)
    (st : LoopState X)
    (h : st.v.overlapIndex < 0 ∧
      (st.v.currentlyReleasingNote = true → st.v.isVoiceActive = true)) :
    (subBlockResult E C numSamples st).v.overlapIndex < 0 ∧
    ((subBlockResult E C numSamples st).v.currentlyReleasingNote = true →
      (subBlockResult E C numSamples st).v.isVoiceActive = true) := by
  refine ⟨?_, ?_⟩
  · rw [subBlockResult_overlapIndex]
    unfold overlapIndexAfter
    rw [if_neg (by have := h.1; omega)]
    exact h.1
  · by_cases hr : releaseEnds E numSamples st
    · intro hh
      rw [(subBlockResult_of_releaseEnds E C numSamples st hr).2.1] at hh
      exact absurd hh (by decide)
    · obtain ⟨h1, h2, _⟩ := subBlockResult_of_not_releaseEnds E C numSamples st hr
      intro hh
      rw [h2] at hh
      have := h.2 hh
      unfold Voice.isVoiceActive at this ⊢
      rw [h1]
      exact this

/-- A render call keeps "exactly one lifecycle condition holds". -/
theorem render_oneLifecycleCondition (E : Ext X) (C : Constants) (v : Voice X) (out : Buf)
    (start : Nat) (n : Int) (res : Voice X × Buf) (hk : v.currentlyKillingVoice = false)
    (hok : LfoCounterOk v) (h : OneLifecycleCondition v)
    (hr : renderNextBlock E C v out start n = some res) : OneLifecycleCondition res.1 := by
  rw [renderNextBlock_eq] at hr
  by_cases hg : v.currentlyKillingVoice = false ∧ v.isVoiceActive = false
  · rw [renderCore_skip E C _ v out start n hg] at hr
    simp only [Option.some.injEq] at hr
    subst hr
    exact h
  · have ha : v.isVoiceActive = true := by
      cases hh : v.isVoiceActive
      · exact absurd ⟨hk, hh⟩ hg
      · rfl
    have hidx : v.overlapIndex < 0 := by
      rcases (oneLifecycleCondition_iff v hk).mp h with h1 | h1
      · exact h1.1
      · rw [ha] at h1
        exact absurd h1.2.1 (by decide)
    obtain ⟨st, hP, _, _, hres⟩ := renderCore_inner_of_some E C (renderNextBlockAt E C 1)
      v out start n res hg hr hok
      (fun s => s.v.overlapIndex < 0 ∧
        (s.v.currentlyReleasingNote = true → s.v.isVoiceActive = true))
      ⟨hidx, fun _ => ha⟩ (fun s hs _ _ _ => subBlockResult_lifecycle E C _ s hs)
    subst hres
    rw [renderExit_fst]
    exact (oneLifecycleCondition_iff _ rfl).mpr (Or.inl hP)

/-- A `stopNote (_, false)` on a voice that is not releasing leaves exactly one lifecycle
condition: killing after the kill path, idle or killing after the skip path. -/
theorem stopNote_kill_oneLifecycleCondition (E : Ext X) (C : Constants) (v w : Voice X)
    (hk : v.currentlyKillingVoice = false) (hok : LfoCounterOk v)
    (hrel : v.currentlyReleasingNote = false)
    (hs : stopNote E C false v = some w) : OneLifecycleCondition w := by
  by_cases hg : v.sampleRate ≠ 0 ∧ v.justDoneReleaseEnvelope = false
  · obtain ⟨st, hP, _, _, hres⟩ := stopNote_kill_of_some E C v w hok hg hs
      (fun s => s.v.currentlyReleasingNote = false) hrel
      (by
        intro s hs _ _ _
        by_cases hr : releaseEnds E (min C.killRampSamples v.curPreparedSamples) s
        · exact (subBlockResult_of_releaseEnds _ _ _ s hr).2.1
        · exact ((subBlockResult_of_not_releaseEnds _ _ _ s hr).2.1).trans hs)
    subst hres
    exact (oneLifecycleCondition_iff _ rfl).mpr
      (Or.inr ⟨le_refl _, rfl, hP⟩)
  · unfold stopNote at hs
    rw [stopNoteCore_skip E C _ v hg] at hs
    simp only [Option.some.injEq] at hs
    subst hs
    refine (oneLifecycleCondition_iff
      ({ v with justDoneReleaseEnvelope := false, currentlyPlayingNote := -1 } : Voice X)
      hk).mpr ?_
    by_cases h0 : 0 ≤ v.overlapIndex
    · exact Or.inr ⟨h0, rfl, hrel⟩
    · refine Or.inl ⟨by show v.overlapIndex < 0; omega, fun hh => ?_⟩
      have hh1 : v.currentlyReleasingNote = true := hh
      rw [hrel] at hh1
      exact absurd hh1 (by decide)

/-- C14, amended. Between public operations the killing flag is clear, so the condition
"killing" is the open kill window (overlap cursor non-negative). At least one of the four
conditions idle, sounding, releasing, killing holds; idle excludes sounding and killing,
and sounding excludes releasing; so exactly one holds unless the voice is sounding and
killing, releasing and killing, or idle and releasing. Exactly one holds in the voice as
constructed (idle), and the operations keep it so with three exceptions: every render call
returns and keeps it; `prepare`, a change of the sample rate, parameter changes, controller
and pitch-wheel moves keep it; a note start by the host gives exactly one condition if and
only if no kill window is open (the window of a forced kill stays open while the voice is
started again, so that its tail is mixed into the new note); `stopNote (_, true)` gives
exactly one condition if and only if the voice has a note and no kill window is open; and
`stopNote (_, false)` on a voice that is not releasing gives exactly one. On a prepared
voice `stopNote` returns. -/
theorem lifecycle_conditions_between_operations (E : Ext X) (C : Constants) (v : Voice X)
    (h : BetweenOps E C v) :
    v.currentlyKillingVoice = false ∧
    (isKilling v ↔ 0 ≤ v.overlapIndex) ∧
    (isIdle v ∨ isSounding v ∨ isReleasing v ∨ isKilling v) ∧
    ¬ (isIdle v ∧ isSounding v) ∧ ¬ (isIdle v ∧ isKilling v) ∧
    ¬ (isSounding v ∧ isReleasing v) ∧
    (OneLifecycleCondition v ↔
      ¬ (isSounding v ∧ isKilling v) ∧ ¬ (isReleasing v ∧ isKilling v) ∧
      ¬ (isIdle v ∧ isReleasing v)) ∧
    (∀ (x : X) (vId : Int) (activeVoiceSet : Finset Int) (sampleRate : ℚ),
      isIdle (construct E C x vId activeVoiceSet sampleRate) ∧
      OneLifecycleCondition (construct E C x vId activeVoiceSet sampleRate)) ∧
    (OneLifecycleCondition v → ∀ (out : Buf) (start : Nat) (n : Int),
      ∃ res, renderNextBlock E C v out start n = some res ∧ OneLifecycleCondition res.1) ∧
    (∀ (note : Int) (vel : ℚ) (pw : Int), 0 ≤ note →
      (OneLifecycleCondition
          (startNote E C note vel pw { v with currentlyPlayingNote := note })
        ↔ ¬ isKilling v)) ∧
    (∀ w, stopNote E C true v = some w →
      (isReleasing w ∧
        (OneLifecycleCondition w ↔ v.isVoiceActive = true ∧ ¬ isKilling v))) ∧
    (∀ w, stopNote E C false v = some w → ¬ isReleasing v → OneLifecycleCondition w) ∧
    (v.overlapAllocated = true → ∀ b : Bool, ∃ w, stopNote E C b v = some w) ∧
    ((∀ (sampleRate : ℚ) (maximumBlockSize numChannels : Nat),
        OneLifecycleCondition (prepare E sampleRate maximumBlockSize numChannels v)
          ↔ OneLifecycleCondition v) ∧
      (∀ newRate : ℚ,
        OneLifecycleCondition { v with sampleRate := newRate } ↔ OneLifecycleCondition v) ∧
      (∀ (note : Int) (vel : ℚ) (pw : Int),
        OneLifecycleCondition (startNote E C note vel pw v) ↔ OneLifecycleCondition v) ∧
      (∀ (p : ParamId) (x : ℚ),
        OneLifecycleCondition (parameterChanged E C p x v) ↔ OneLifecycleCondition v) ∧
      (∀ c x : Int,
        OneLifecycleCondition (controllerMoved C c x v) ↔ OneLifecycleCondition v) ∧
      (∀ p : Int,
        OneLifecycleCondition (pitchWheelMoved E p v) ↔ OneLifecycleCondition v)) := by
  have hpub := betweenOps_publicInv E C v h
  have hk := hpub.2.1
  have hreach := betweenOps_reachable E C v h
  have hkill : isKilling v ↔ 0 ≤ v.overlapIndex := by
    unfold isKilling
    rw [hk]
    simp
  have hnk : ¬ isKilling v ↔ v.overlapIndex < 0 := by
    rw [hkill]
    omega
  refine ⟨hk, hkill, ?_, ?_, ?_, ?_, ?_, ?_, ?_, ?_, ?_, ?_,
    fun hal b => stopNote_total E C v b hpub.1 hal, ?_⟩
  · unfold isIdle isSounding isReleasing
    by_cases hkw : isKilling v
    · exact Or.inr (Or.inr (Or.inr hkw))
    · cases ha : v.isVoiceActive
      · exact Or.inl ⟨rfl, hkw⟩
      · cases hr : v.currentlyReleasingNote
        · exact Or.inr (Or.inl ⟨rfl, rfl⟩)
        · exact Or.inr (Or.inr (Or.inl rfl))
  · rintro ⟨⟨h1, _⟩, h2, _⟩
    rw [h1] at h2
    exact absurd h2 (by decide)
  · rintro ⟨⟨_, h1⟩, h2⟩
    exact h1 h2
  · rintro ⟨⟨_, h1⟩, h2⟩
    unfold isReleasing at h2
    rw [h1] at h2
    exact absurd h2 (by decide)
  · rw [oneLifecycleCondition_iff v hk]
    unfold isIdle isSounding isReleasing
    rw [hkill]
    by_cases h0 : 0 ≤ v.overlapIndex
    · have h1 : ¬ v.overlapIndex < 0 := by omega
      cases v.isVoiceActive <;> cases v.currentlyReleasingNote <;> simp [h0, h1]
    · have h1 : v.overlapIndex < 0 := by omega
      cases v.isVoiceActive <;> cases v.currentlyReleasingNote <;> simp [h0, h1]
  · intro x vId s rate
    have hi : isIdle (construct E C x vId s rate) :=
      ⟨rfl, fun hh => hh.elim
        (fun h1 => absurd (show false = true from h1) (by decide))
        (fun h1 => absurd (show (0 : Int) ≤ -1 from h1) (by decide))⟩
    exact ⟨hi, (oneLifecycleCondition_iff _ rfl).mpr
      (Or.inl ⟨show (-1 : Int) < 0 by decide,
        fun hh => absurd (show false = true from hh) (by decide)⟩)⟩
  · intro hone out start n
    obtain ⟨res, hres⟩ := renderNextBlock_total E C v out start n hpub.1
      (reachable_scratchOk E C v hreach)
    exact ⟨res, hres, render_oneLifecycleCondition E C v out start n res hk hpub.1 hone hres⟩
  · intro note vel pw hn
    rw [oneLifecycleCondition_iff
      (startNote E C note vel pw { v with currentlyPlayingNote := note }) hk, hnk]
    have ha : (startNote E C note vel pw { v with currentlyPlayingNote := note }).isVoiceActive
        = true := by
      show decide (0 ≤ note) = true
      exact decide_eq_true hn
    rw [ha]
    show (v.overlapIndex < 0 ∧ (v.currentlyReleasingNote = true → true = true)) ∨
      (0 ≤ v.overlapIndex ∧ true = false ∧ v.currentlyReleasingNote = false) ↔ _
    simp
  · intro w hw
    rw [stopNote_tailOff] at hw
    simp only [Option.some.injEq] at hw
    subst hw
    refine ⟨rfl, ?_⟩
    rw [oneLifecycleCondition_iff
      ({ v with currentlyReleasingNote := true,
                ext := E.filterNoteOff (E.ampNoteOff v.ext) } : Voice X) hk, hnk]
    show (v.overlapIndex < 0 ∧ (true = true → v.isVoiceActive = true)) ∨
      (0 ≤ v.overlapIndex ∧ v.isVoiceActive = false ∧ true = false) ↔ _
    simp
    tauto
  · intro w hw hrel
    have hr : v.currentlyReleasingNote = false := by
      cases hh : v.currentlyReleasingNote
      · rfl
      · exact absurd hh hrel
    exact stopNote_kill_oneLifecycleCondition E C v w hk hpub.1 hr hw
  · refine ⟨fun _ _ _ => OneLifecycleCondition.of_same hk rfl rfl rfl rfl,
      fun _ => OneLifecycleCondition.of_same hk rfl rfl rfl rfl,
      fun _ _ _ => OneLifecycleCondition.of_same hk rfl rfl rfl rfl,
      fun p x => ?_, fun c x => ?_, fun p => ?_⟩
    · have hs := parameterChanged_sameLifecycle E C p x v
      exact OneLifecycleCondition.of_same hk hs.currentlyKillingVoice hs.overlapIndex
        hs.currentlyReleasingNote hs.currentlyPlayingNote
    · have hs := controllerMoved_sameLifecycle C c x v
      exact OneLifecycleCondition.of_same hk hs.currentlyKillingVoice hs.overlapIndex
        hs.currentlyReleasingNote hs.currentlyPlayingNote
    · have hs := pitchWheelMoved_sameLifecycle E p v
      exact OneLifecycleCondition.of_same hk hs.currentlyKillingVoice hs.overlapIndex
        hs.currentlyReleasingNote hs.currentlyPlayingNote

/-- Witness of C14 (amended): the sounding example voice is sounding and nothing else, and
a render call of 250 samples on it returns a voice for which exactly one lifecycle
condition holds. -/
theorem lifecycle_conditions_between_operations_witness :
    OneLifecycleCondition (demoSounding (demoExt 0 1) (demoConstants 4 4)) ∧
    ∃ res, renderNextBlock (demoExt 0 1) (demoConstants 4 4)
        (demoSounding (demoExt 0 1) (demoConstants 4 4)) Buf.silence 0 250 = some res ∧
      OneLifecycleCondition res.1 :=
  have hone : OneLifecycleCondition (demoSounding (demoExt 0 1) (demoConstants 4 4)) :=
    (oneLifecycleCondition_iff _ rfl).mpr (Or.inl ⟨by decide, fun _ => by decide⟩)
  ⟨hone, (lifecycle_conditions_between_operations (demoExt 0 1) (demoConstants 4 4)
    (demoSounding (demoExt 0 1) (demoConstants 4 4))
    (demoSounding_betweenOps _ _)).2.2.2.2.2.2.2.2.1 hone Buf.silence 0 250⟩

/-- A forced kill of the sounding example voice returns with the cursor at 0 and the
releasing flag clear. -/
theorem demo_forcedKill_flags :
    ∃ w, stopNote (demoExt 0 1) (demoConstants 4 4) false
        (demoSounding (demoExt 0 1) (demoConstants 4 4)) = some w ∧
      w.overlapIndex = 0 ∧ w.currentlyReleasingNote = false ∧
      w.currentlyPlayingNote = -1 := by
  obtain ⟨st, hP, _, _, hres⟩ := stopNote_kill (demoExt 0 1) (demoConstants 4 4)
    (demoSounding (demoExt 0 1) (demoConstants 4 4)) (demoSounding_lfoCounterOk 0 1 4 4)
    rfl ⟨demoSounding_sampleRate 0 1 4 4, rfl⟩
    (fun s => s.v.currentlyReleasingNote = false) rfl
    (by
      intro s hs _ _ _
      by_cases hr : releaseEnds (demoExt 0 1)
          (min (demoConstants 4 4).killRampSamples
            (demoSounding (demoExt 0 1) (demoConstants 4 4)).curPreparedSamples) s
      · exact (subBlockResult_of_releaseEnds _ _ _ s hr).2.1
      · exact ((subBlockResult_of_not_releaseEnds _ _ _ s hr).2.1).trans hs)
  exact ⟨_, hres, rfl, hP, rfl⟩

/-- A forced kill of the example voice while it releases (amplitude envelope still active)
returns with the cursor at 0 and the releasing flag still set. -/
theorem demo_releaseKill_flags :
    ∃ w, stopNote (demoExt 0 1) (demoConstants 4 4) false
        { demoSounding (demoExt 0 1) (demoConstants 4 4) with
            currentlyReleasingNote := true } = some w ∧
      w.overlapIndex = 0 ∧ w.currentlyReleasingNote = true ∧
      w.currentlyPlayingNote = -1 ∧ w.currentlyKillingVoice = false := by
  obtain ⟨st, hP, _, _, hres⟩ := stopNote_kill (demoExt 0 1) (demoConstants 4 4)
    { demoSounding (demoExt 0 1) (demoConstants 4 4) with currentlyReleasingNote := true }
    (demoSounding_lfoCounterOk 0 1 4 4)
    rfl ⟨demoSounding_sampleRate 0 1 4 4, rfl⟩
    (fun s => s.v.currentlyReleasingNote = true) rfl
    (by
      intro s hs _ _ _
      have hr : ¬ releaseEnds (demoExt 0 1)
          (min (demoConstants 4 4).killRampSamples
            ({ demoSounding (demoExt 0 1) (demoConstants 4 4) with
                currentlyReleasingNote := true } : Voice Nat).curPreparedSamples) s :=
        fun hh => absurd (show true = false from hh.2) (by decide)
      exact ((subBlockResult_of_not_releaseEnds _ _ _ s hr).2.1).trans hs)
  exact ⟨_, hres, rfl, hP, rfl, rfl⟩

/-- C14 as stated fails, in three ways. (1) The sounding example voice is killed
(`stopNote (_, false)`), which opens its kill window, and started again by the host: the
state is both sounding (note 60 active, not releasing) and killing (overlap cursor 0).
(2) `stopNote (_, true)` on the prepared example voice, which has no note: the state is
both idle and releasing. (3) `stopNote (_, true)` on the sounding example voice, then
`stopNote (_, false)`: the releasing flag is still set and the kill window is open, so the
state is both releasing and killing. In none of the three states does exactly one of the
four conditions hold. -/
theorem lifecycle_conditions_between_operations_counterexample :
    (∃ w, stopNote (demoExt 0 1) (demoConstants 4 4) false
        (demoSounding (demoExt 0 1) (demoConstants 4 4)) = some w ∧
      BetweenOps (demoExt 0 1) (demoConstants 4 4)
        (startNote (demoExt 0 1) (demoConstants 4 4) 60 1 8192
          { w with currentlyPlayingNote := 60 }) ∧
      isSounding (startNote (demoExt 0 1) (demoConstants 4 4) 60 1 8192
          { w with currentlyPlayingNote := 60 }) ∧
      isKilling (startNote (demoExt 0 1) (demoConstants 4 4) 60 1 8192
          { w with currentlyPlayingNote := 60 }) ∧
      ¬ ExactlyOne
        (isIdle (startNote (demoExt 0 1) (demoConstants 4 4) 60 1 8192
          { w with currentlyPlayingNote := 60 }))
        (isSounding (startNote (demoExt 0 1) (demoConstants 4 4) 60 1 8192
          { w with currentlyPlayingNote := 60 }))
        (isReleasing (startNote (demoExt 0 1) (demoConstants 4 4) 60 1 8192
          { w with currentlyPlayingNote := 60 }))
        (isKilling (startNote (demoExt 0 1) (demoConstants 4 4) 60 1 8192
          { w with currentlyPlayingNote := 60 }))) ∧
    (∃ w, stopNote (demoExt 0 1) (demoConstants 4 4) true
        (demoVoice (demoExt 0 1) (demoConstants 4 4)) = some w ∧
      BetweenOps (demoExt 0 1) (demoConstants 4 4) w ∧
      isIdle w ∧ isReleasing w ∧
      ¬ ExactlyOne (isIdle w) (isSounding w) (isReleasing w) (isKilling w)) ∧
    (∃ w1 w2, stopNote (demoExt 0 1) (demoConstants 4 4) true
        (demoSounding (demoExt 0 1) (demoConstants 4 4)) = some w1 ∧
      stopNote (demoExt 0 1) (demoConstants 4 4) false w1 = some w2 ∧
      BetweenOps (demoExt 0 1) (demoConstants 4 4) w2 ∧
      isReleasing w2 ∧ isKilling w2 ∧
      ¬ ExactlyOne (isIdle w2) (isSounding w2) (isReleasing w2) (isKilling w2)) := by
  refine ⟨?_, ?_, ?_⟩
  · obtain ⟨w, hw, hidx, hrel, _⟩ := demo_forcedKill_flags
    have hs : isSounding (startNote (demoExt 0 1) (demoConstants 4 4) 60 1 8192
        { w with currentlyPlayingNote := 60 }) :=
      ⟨show decide ((0 : Int) ≤ 60) = true by decide, hrel⟩
    have hk : isKilling (startNote (demoExt 0 1) (demoConstants 4 4) 60 1 8192
        { w with currentlyPlayingNote := 60 }) := by
      right
      show 0 ≤ w.overlapIndex
      rw [hidx]
    refine ⟨w, hw,
      BetweenOps.hostStartVoice 60 1 8192
        (BetweenOps.stopNote false (demoSounding_betweenOps _ _) hw), hs, hk, ?_⟩
    unfold ExactlyOne
    rintro (⟨_, h, _⟩ | ⟨_, _, _, h⟩ | ⟨_, h, _⟩ | ⟨_, h, _⟩)
    · exact h hs
    · exact h hk
    · exact h hs
    · exact h hs
  · have hw := stopNote_tailOff (demoExt 0 1) (demoConstants 4 4)
      (demoVoice (demoExt 0 1) (demoConstants 4 4))
    have hi : isIdle ({ demoVoice (demoExt 0 1) (demoConstants 4 4) with
        currentlyReleasingNote := true,
        ext := (demoExt 0 1).filterNoteOff ((demoExt 0 1).ampNoteOff
          (demoVoice (demoExt 0 1) (demoConstants 4 4)).ext) } : Voice Nat) :=
      ⟨rfl, fun hh => hh.elim (fun h1 => absurd h1 (by decide))
        (fun h1 => absurd h1 (by decide))⟩
    refine ⟨_, hw, BetweenOps.stopNote true
      (BetweenOps.prepare 44100 512 2 (BetweenOps.construct 0 7 ∅ 44100)) hw, hi, rfl, ?_⟩
    unfold ExactlyOne
    rintro (⟨_, _, h, _⟩ | ⟨h, _⟩ | ⟨h, _⟩ | ⟨h, _⟩)
    · exact h rfl
    · exact h hi
    · exact h hi
    · exact h hi
  · have hw1 := stopNote_tailOff (demoExt 0 1) (demoConstants 4 4)
      (demoSounding (demoExt 0 1) (demoConstants 4 4))
    obtain ⟨w2, hw2, hidx, hrel, _, _⟩ := demo_releaseKill_flags
    have hr : isReleasing w2 := hrel
    have hk : isKilling w2 := by
      right
      rw [hidx]
    refine ⟨_, w2, hw1, hw2,
      BetweenOps.stopNote false
        (BetweenOps.stopNote true (demoSounding_betweenOps _ _) hw1) hw2, hr, hk, ?_⟩
    unfold ExactlyOne
    rintro (⟨_, _, h, _⟩ | ⟨_, _, h, _⟩ | ⟨_, _, _, h⟩ | ⟨_, _, h, _⟩)
    · exact h hr
    · exact h hr
    · exact h hk
    · exact h hr

/-! ## The end of a release inside a render call -/

/-- Once some iteration finds the release ended, the sub-block loop is left with the note
ended. -/
theorem renderLoop_releaseEnds (E : Ext X) (C : Constants)
    (r : Voice X → Buf → Nat → Int → Option (Voice X × Buf)) (numSamples : Int) :
    ∀ (fuel : Nat) (st st1 : LoopState X),
      renderLoop E C (stopNoteCore E C r false) numSamples fuel st = some st1 →
      releaseEndsWithin E C numSamples fuel st → NoteEnded st1.v := by
  intro fuel
  induction fuel with
  | zero =>
    intro st st1 _ h
    exact absurd h (by unfold releaseEndsWithin; exact not_false)
  | succ f ih =>
    intro st st1 hl h
    unfold releaseEndsWithin at h
    obtain ⟨hp, h⟩ := h
    unfold renderLoop at hl
    rw [if_pos hp] at hl
    cases hsb : subBlock E C (stopNoteCore E C r false) numSamples st with
    | none => rw [hsb] at hl; exact absurd hl (by simp)
    | some s2 =>
      rw [hsb] at hl
      obtain ⟨hs2, _⟩ := subBlock_of_some E C _ _ _ _ hsb
      subst hs2
      dsimp only at hl
      rcases h with h | h
      · exact (renderLoop_induct (fun s : LoopState X => NoteEnded s.v)
          (by
            intro s s1 hs _ hsub
            obtain ⟨hsub, _⟩ := subBlock_of_some E C _ _ _ _ hsub
            subst hsub
            exact subBlockResult_noteEnded E C numSamples s hs)
          f _ st1 (subBlockResult_of_releaseEnds E C numSamples st h) hl).1
      · exact ih _ st1 hl h

/-- What a render call leaves of the overlap machinery: the scratch buffer as it was, and
an idle cursor idle, with the Active-Kill-Set as it was. -/
theorem renderLoop_overlap_frame (E : Ext X) (C : Constants)
    (r : Voice X → Buf → Nat → Int → Option (Voice X × Buf)) (numSamples : Int)
    (v : Voice X) (fuel : Nat) (st st1 : LoopState X)
    (h0 : st.v.overlap = v.overlap ∧
      (v.overlapIndex = -1 →
        st.v.overlapIndex = -1 ∧ st.v.voicesBeingKilled = v.voicesBeingKilled))
    (hl : renderLoop E C (stopNoteCore E C r false) numSamples fuel st = some st1) :
    st1.v.overlap = v.overlap ∧
    (v.overlapIndex = -1 →
      st1.v.overlapIndex = -1 ∧ st1.v.voicesBeingKilled = v.voicesBeingKilled) :=
  (renderLoop_induct
    (fun s : LoopState X => s.v.overlap = v.overlap ∧
      (v.overlapIndex = -1 →
        s.v.overlapIndex = -1 ∧ s.v.voicesBeingKilled = v.voicesBeingKilled))
    (by
      intro s s1 hs _ hsub
      obtain ⟨hsub, _⟩ := subBlock_of_some E C _ _ _ _ hsub
      subst hsub
      refine ⟨by rw [subBlockResult_overlap]; exact hs.1, fun hv => ?_⟩
      obtain ⟨h1, h2⟩ := hs.2 hv
      rw [subBlockResult_overlapIndex, subBlockResult_voicesBeingKilled, h1]
      exact ⟨rfl, by rw [if_neg (fun hh => absurd hh.1 (by decide))]; exact h2⟩)
    fuel st st1 h0 hl).1

/-- C11. When, after the envelopes of a sub-block, the voice is releasing and the amplitude
envelope is no longer active, the `stopNote (0.f, false)` that the render loop issues (with
`justDoneReleaseEnvelope` set) returns without entering the kill path: it changes the
current note (to none) and the two release flags (to false) and nothing else, so the
scratch buffer, the overlap cursor, the Active-Kill-Set and the killing flag are as they
were before the transition. The iteration in which this happens, and every iteration after
it, ends with no current note and both flags false. So a render call (on a state the voice
can be in) in which some iteration finds the release ended returns with no current note,
`currentlyReleasingNote` and `justDoneReleaseEnvelope` false, the scratch buffer as it was
and, when no kill window was open, the cursor at `-1` and the Active-Kill-Set as it was. -/
theorem release_end_returns_to_idle (E : Ext X) (C : Constants) :
    (∀ (r : Voice X → Buf → Nat → Int → Option (Voice X × Buf)) (v : Voice X),
      v.currentlyReleasingNote = true → E.ampIsActive v.ext = false →
      releaseCheck E (stopNoteCore E C r false) v
        = some { v with currentlyReleasingNote := false, justDoneReleaseEnvelope := false,
                        currentlyPlayingNote := -1 }) ∧
    (∀ (numSamples : Int) (st : LoopState X), releaseEnds E numSamples st →
      NoteEnded (subBlockResult E C numSamples st).v ∧
      (subBlockResult E C numSamples st).v.overlap = st.v.overlap ∧
      (subBlockResult E C numSamples st).v.currentlyKillingVoice
        = st.v.currentlyKillingVoice ∧
      (subBlockResult E C numSamples st).v.overlapIndex
        = overlapIndexAfter C st.v.overlapIndex (subBlockSize numSamples st) ∧
      (st.v.overlapIndex = -1 →
        (subBlockResult E C numSamples st).v.overlapIndex = -1 ∧
        (subBlockResult E C numSamples st).v.voicesBeingKilled = st.v.voicesBeingKilled)) ∧
    (∀ (numSamples : Int) (st : LoopState X), NoteEnded st.v →
      NoteEnded (subBlockResult E C numSamples st).v) ∧
    (∀ (v : Voice X) (out : Buf) (start : Nat) (n : Int), Reachable E C v →
      ¬ (v.currentlyKillingVoice = false ∧ v.isVoiceActive = false) →
      releaseEndsWithin E C (min n v.curPreparedSamples) (min n v.curPreparedSamples).toNat
        (loopEntry E v n) →
      ∃ res, renderNextBlock E C v out start n = some res ∧
        res.1.currentlyPlayingNote = -1 ∧ res.1.isVoiceActive = false ∧
        res.1.currentlyReleasingNote = false ∧ res.1.justDoneReleaseEnvelope = false ∧
        res.1.currentlyKillingVoice = false ∧
        res.1.overlap = v.overlap ∧
        (v.overlapIndex = -1 →
          res.1.overlapIndex = -1 ∧ res.1.voicesBeingKilled = v.voicesBeingKilled)) := by
  refine ⟨?_, ?_, ?_, ?_⟩
  · intro r v h1 h2
    rw [releaseCheck_stopNoteCore]
    unfold afterRelease
    rw [if_pos ⟨h1, h2⟩]
  · intro numSamples st h
    refine ⟨subBlockResult_of_releaseEnds E C numSamples st h, subBlockResult_overlap _ _ _ _,
      subBlockResult_currentlyKillingVoice _ _ _ _, subBlockResult_overlapIndex _ _ _ _, ?_⟩
    intro hi
    rw [subBlockResult_overlapIndex, subBlockResult_voicesBeingKilled, hi]
    exact ⟨rfl, by rw [if_neg (fun hh => absurd hh.1 (by decide))]⟩
  · intro numSamples st h
    exact subBlockResult_noteEnded E C numSamples st h
  · intro v out start n hreach hg hends
    have hok := reachable_lfoCounterOk E C v hreach
    obtain ⟨st, hl⟩ := renderLoop_total E C (renderNextBlockAt E C 1)
      (min n v.curPreparedSamples) (min n v.curPreparedSamples).toNat (loopEntry E v n) hok
      (reachable_scratchOk E C v hreach) (by simp [loopEntry])
    have hended := renderLoop_releaseEnds E C _ _ _ _ st hl hends
    have hframe := renderLoop_overlap_frame E C _ _ v _ (loopEntry E v n) st
      ⟨rfl, fun hv => ⟨hv, rfl⟩⟩ hl
    refine ⟨renderExit st out start (min n v.curPreparedSamples), ?_, ?_⟩
    · rw [renderNextBlock_eq, renderCore_run E C _ v out start n hg, hl]
      rfl
    · rw [renderExit_fst]
      refine ⟨hended.1, ?_, hended.2.1, hended.2.2, rfl, hframe.1, hframe.2⟩
      show decide (0 ≤ st.v.currentlyPlayingNote) = false
      rw [hended.1]
      decide

/-- Witness of C11: the sounding example voice, released with `stopNote (_, true)`, with an
amplitude envelope that has run out; a render call of 4 samples returns it idle, with the
scratch buffer, the cursor and the Active-Kill-Set as they were. -/
theorem release_end_returns_to_idle_witness :
    ∃ res, renderNextBlock demoExtEnded (demoConstants 4 4)
        { demoSounding demoExtEnded (demoConstants 4 4) with currentlyReleasingNote := true }
        Buf.silence 0 4 = some res ∧
      res.1.currentlyPlayingNote = -1 ∧ res.1.isVoiceActive = false ∧
      res.1.currentlyReleasingNote = false ∧ res.1.justDoneReleaseEnvelope = false ∧
      res.1.currentlyKillingVoice = false ∧
      res.1.overlap = (demoSounding demoExtEnded (demoConstants 4 4)).overlap ∧
      res.1.overlapIndex = -1 ∧
      res.1.voicesBeingKilled
        = (demoSounding demoExtEnded (demoConstants 4 4)).voicesBeingKilled := by
  obtain ⟨res, h1, h2, h3, h4, h5, h6, h7, h8⟩ :=
    (release_end_returns_to_idle demoExtEnded (demoConstants 4 4)).2.2.2
      { demoSounding demoExtEnded (demoConstants 4 4) with currentlyReleasingNote := true }
      Buf.silence 0 4
      (Reachable.stopNote true
        (betweenOps_reachable _ _ _
          (demoSounding_betweenOps demoExtEnded (demoConstants 4 4)))
        (stopNote_tailOff demoExtEnded (demoConstants 4 4)
          (demoSounding demoExtEnded (demoConstants 4 4))))
      (by decide)
      (show releaseEndsWithin demoExtEnded (demoConstants 4 4) 4 (3 + 1) _ from
        ⟨by decide, Or.inl ⟨rfl, rfl⟩⟩)
  exact ⟨res, h1, h2, h3, h4, h5, h6, h7, (h8 rfl).1, (h8 rfl).2⟩

/-! ## Render calls and the prepared block size -/

theorem renderLoop_loopReach (E : Ext X) (C : Constants)
    (r : Voice X → Buf → Nat → Int → Option (Voice X × Buf)) (numSamples : Int)
    (st0 : LoopState X) (fuel : Nat) (st st1 : LoopState X)
    (h0 : LoopReach E C numSamples st0 st)
    (hl : renderLoop E C (stopNoteCore E C r false) numSamples fuel st = some st1) :
    LoopReach E C numSamples st0 st1 :=
  (renderLoop_induct (fun s : LoopState X => LoopReach E C numSamples st0 s)
    (by
      intro s s1 hs hp hsub
      obtain ⟨hsub, _⟩ := subBlock_of_some E C _ _ _ _ hsub
      subst hsub
      exact LoopReach.step hs hp)
    fuel st st1 h0 hl).1

/-- Every loop state of a render call: `pos` stays within the clamped request, the LFO
counter stays in range, the killing flag and the prepared size are kept, and the working
block is untouched from the clamped request on. -/
theorem loopReach_inv (E : Ext X) (C : Constants) (v : Voice X) (n : Int)
    (hok : LfoCounterOk v) (s : LoopState X)
    (h : LoopReach E C (min n v.curPreparedSamples) (loopEntry E v n) s) :
    LfoCounterOk s.v ∧ 0 ≤ s.pos ∧ s.pos ≤ max 0 (min n v.curPreparedSamples) ∧
    s.v.currentlyKillingVoice = v.currentlyKillingVoice ∧
    s.v.curPreparedSamples = v.curPreparedSamples ∧
    (∀ c j : Nat, ¬ (j : Int) < min n v.curPreparedSamples →
      s.block c j = (loopEntry E v n).block c j) := by
  induction h with
  | entry => exact ⟨hok, le_refl 0, le_max_left _ _, rfl, rfl, fun _ _ _ => rfl⟩
  | @step st _ hp ih =>
    obtain ⟨h1, h2, h3, h4, h5, h6⟩ := ih
    have hsz := subBlockSize_pos h1 hp
    have hle := @subBlockSize_le X (min n v.curPreparedSamples) st
    refine ⟨subBlockResult_lfoCounterOk E C _ st h1 hp, ?_, ?_, ?_, ?_, ?_⟩
    · rw [subBlockResult_pos]; omega
    · rw [subBlockResult_pos]; omega
    · rw [subBlockResult_currentlyKillingVoice]; exact h4
    · rw [subBlockResult_curPreparedSamples]; exact h5
    · intro c j hj
      show writeSubBlock st _ _ c j = _
      unfold writeSubBlock
      rw [if_neg (by omega)]
      exact h6 c j hj

theorem addToOutput_outside (out : Buf) (start : Nat) (n : Int) (block : Buf) (c j : Nat)
    (h : ¬ (start ≤ j ∧ ((j - start : Nat) : Int) < n)) :
    addToOutput out start n block c j = out c j := by
  unfold addToOutput
  rw [if_neg h]

theorem addToOutput_inside (out : Buf) (start : Nat) (n : Int) (block : Buf) (c j : Nat)
    (h : start ≤ j ∧ ((j - start : Nat) : Int) < n) :
    addToOutput out start n block c j = out c j + block c (j - start) := by
  unfold addToOutput
  rw [if_pos h]

theorem renderExit_outside (st : LoopState X) (out : Buf) (start : Nat) (n : Int) (c j : Nat)
    (h : ¬ (start ≤ j ∧ ((j - start : Nat) : Int) < n)) :
    (renderExit st out start n).2 c j = out c j := by
  unfold renderExit
  split_ifs
  · show (if start ≤ j ∧ ((j - start : Nat) : Int) < n then _ else _) = _
    rw [if_neg h, addToOutput_outside out start n st.block c j h]
  · exact addToOutput_outside out start n st.block c j h

theorem renderExit_inside (st : LoopState X) (out : Buf) (start : Nat) (n : Int) (c j : Nat)
    (hk : st.v.currentlyKillingVoice = false)
    (h : start ≤ j ∧ ((j - start : Nat) : Int) < n) :
    (renderExit st out start n).2 c j = out c j + st.block c (j - start) := by
  unfold renderExit
  rw [if_neg (by rw [hk]; decide)]
  exact addToOutput_inside out start n st.block c j h

theorem render_curPreparedSamples (E : Ext X) (C : Constants) (v : Voice X) (out : Buf)
    (start : Nat) (n : Int) (res : Voice X × Buf)
    (hres : renderNextBlock E C v out start n = some res) :
    res.1.curPreparedSamples = v.curPreparedSamples := by
  rw [renderNextBlock_eq] at hres
  by_cases hg : v.currentlyKillingVoice = false ∧ v.isVoiceActive = false
  · rw [renderCore_skip E C _ v out start n hg] at hres
    simp only [Option.some.injEq] at hres
    subst hres
    rfl
  · obtain ⟨st, hP, hr⟩ := renderCore_of_some E C _ v out start n res hg hres
      (fun s => s.v.curPreparedSamples = v.curPreparedSamples) rfl
      (fun s hs _ => (subBlockResult_curPreparedSamples E C _ s).trans hs)
    rw [hr, renderExit_fst]
    exact hP

theorem stopNote_curPreparedSamples (E : Ext X) (C : Constants) (v w : Voice X) (b : Bool)
    (hs : stopNote E C b v = some w) : w.curPreparedSamples = v.curPreparedSamples := by
  cases b with
  | true =>
    rw [stopNote_tailOff] at hs
    simp only [Option.some.injEq] at hs
    subst hs
    rfl
  | false =>
    by_cases hg : v.sampleRate ≠ 0 ∧ v.justDoneReleaseEnvelope = false
    · have hal := stopNote_kill_allocated E C v w hg hs
      unfold stopNote at hs
      rw [stopNoteCore_kill E C _ v hg hal] at hs
      cases hr : renderNextBlockAt E C nestingFuel (killEntry v) Buf.silence 0
          C.killRampSamples with
      | none => rw [hr] at hs; exact absurd hs (by simp)
      | some res =>
        rw [hr] at hs
        simp only [Option.map, Option.some.injEq] at hs
        subst hs
        exact render_curPreparedSamples E C (killEntry v) Buf.silence 0 C.killRampSamples
          res hr
    · unfold stopNote at hs
      rw [stopNoteCore_skip E C _ v hg] at hs
      simp only [Option.some.injEq] at hs
      subst hs
      rfl

theorem reachable_prepared_nonneg (E : Ext X) (C : Constants) (v : Voice X)
    (h : Reachable E C v) : 0 ≤ v.curPreparedSamples := by
  induction h with
  | construct x vId s rate => exact le_refl 0
  | prepare sr m nc _ ih => exact Int.ofNat_nonneg m
  | setSampleRate r _ ih => exact ih
  | hostStartVoice note vel pw _ ih => exact ih
  | startNote note vel pw _ ih => exact ih
  | @stopNote v w b _ hs ih => rw [stopNote_curPreparedSamples E C v w b hs]; exact ih
  | @render v res out start n _ hr ih =>
    rw [render_curPreparedSamples E C v out start n res hr]; exact ih
  | @parameterChanged v p x _ ih =>
    rw [(parameterChanged_sameLifecycle E C p x v).curPreparedSamples]; exact ih
  | setAmpParam p x _ ih => exact ih
  | setFilterEnvParam p x _ ih => exact ih
  | @setLfoShape v s _ ih =>
    rw [(setLfoShape_sameLifecycle E s v).curPreparedSamples]; exact ih
  | setLfoDest d _ ih => exact ih
  | setLfoFreq x _ ih => exact ih
  | setLfoAmount x _ ih => exact ih
  | setFilterCutoff x _ ih => exact ih
  | setFilterTiltCutoff x _ ih => exact ih
  | setFilterResonance x _ ih => exact ih
  | @controllerMoved v c x _ ih =>
    rw [(controllerMoved_sameLifecycle C c x v).curPreparedSamples]; exact ih
  | pitchWheelMoved p _ ih => exact ih
  | killEntry _ _ _ ih => exact ih
  | loopEntry n _ ih => exact ih
  | subBlockHead pos n _ ih => exact ih
  | afterRelease _ ih => rw [afterRelease_curPreparedSamples]; exact ih
  | processRampUp blk n _ ih => rw [processRampUp_curPreparedSamples]; exact ih
  | subBlock r numSamples _ hp hsub ih =>
    obtain ⟨hsub, _⟩ := subBlock_of_some E C _ _ _ _ hsub
    subst hsub
    rw [subBlockResult_curPreparedSamples]
    exact ih

/-- C12. For every requested `numSamples` and every prepared block size `p`, a render call
on an active voice (in any state the voice can be in) returns after processing exactly
`min (numSamples, p)` samples (none for a negative request): the sub-block loop is left at
that `pos`. Every iteration handles a sub-block `[pos, pos + subBlockSize)` of at least one
sample that ends within `min (numSamples, p) ≤ p`, and the working block is untouched from
index `min (numSamples, p)` on. The output positions outside
`startSample .. startSample + min (numSamples, p) - 1` are unchanged, and (the voice not
being in the nested render of a kill) each position inside holds what it held plus the
sample of the working block. -/
theorem render_clamps_to_prepared (E : Ext X) (C : Constants) (v : Voice X) (out : Buf)
    (start : Nat) (n : Int) (hreach : Reachable E C v) (hact : v.isVoiceActive = true) :
    (0 ≤ n → samplesProcessed v n = min n v.curPreparedSamples) ∧
    ∃ st, LoopReach E C (min n v.curPreparedSamples) (loopEntry E v n) st ∧
      st.pos = samplesProcessed v n ∧
      renderNextBlock E C v out start n
        = some (renderExit st out start (min n v.curPreparedSamples)) ∧
      (∀ c j : Nat,
        ¬ (start ≤ j ∧ ((j - start : Nat) : Int) < min n v.curPreparedSamples) →
        (renderExit st out start (min n v.curPreparedSamples)).2 c j = out c j) ∧
      (v.currentlyKillingVoice = false → ∀ c j : Nat,
        start ≤ j → ((j - start : Nat) : Int) < min n v.curPreparedSamples →
        (renderExit st out start (min n v.curPreparedSamples)).2 c j
          = out c j + st.block c (j - start)) ∧
      (∀ c j : Nat, ¬ (j : Int) < min n v.curPreparedSamples →
        st.block c j = (E.prepareRender v.ext (min n v.curPreparedSamples)).2 c j) ∧
      (∀ s, LoopReach E C (min n v.curPreparedSamples) (loopEntry E v n) s →
        0 ≤ s.pos ∧ s.pos ≤ samplesProcessed v n ∧
        (s.pos < min n v.curPreparedSamples →
          1 ≤ subBlockSize (min n v.curPreparedSamples) s ∧
          s.pos + subBlockSize (min n v.curPreparedSamples) s
            ≤ min n v.curPreparedSamples ∧
          min n v.curPreparedSamples ≤ v.curPreparedSamples ∧
          (subBlockResult E C (min n v.curPreparedSamples) s).pos
            = s.pos + subBlockSize (min n v.curPreparedSamples) s)) := by
  have hok := reachable_lfoCounterOk E C v hreach
  have hp := reachable_prepared_nonneg E C v hreach
  have hg : ¬ (v.currentlyKillingVoice = false ∧ v.isVoiceActive = false) := by
    rw [hact]
    exact fun hh => absurd hh.2 (by decide)
  have hsp : samplesProcessed v n = max 0 (min n v.curPreparedSamples) := by
    unfold samplesProcessed
    rw [if_neg hg]
  refine ⟨fun hn => by rw [hsp]; omega, ?_⟩
  obtain ⟨st, hl⟩ := renderLoop_total E C (renderNextBlockAt E C 1)
    (min n v.curPreparedSamples) (min n v.curPreparedSamples).toNat (loopEntry E v n) hok
    (reachable_scratchOk E C v hreach) (by simp [loopEntry])
  have hreachL := renderLoop_loopReach E C _ _ (loopEntry E v n) _ _ st LoopReach.entry hl
  have hge := (renderLoop_induct (fun _ : LoopState X => True)
    (fun _ _ _ _ _ => trivial) _ _ st trivial hl).2
  obtain ⟨_, h2, h3, h4, _, h6⟩ := loopReach_inv E C v n hok st hreachL
  refine ⟨st, hreachL, by rw [hsp]; omega, ?_, ?_, ?_, h6, ?_⟩
  · rw [renderNextBlock_eq, renderCore_run E C _ v out start n hg, hl]
    rfl
  · intro c j hj
    exact renderExit_outside st out start _ c j hj
  · intro hk c j h1 h2
    exact renderExit_inside st out start _ c j (h4.trans hk) ⟨h1, h2⟩
  · intro s hs
    obtain ⟨s1, s2, s3, _, _, _⟩ := loopReach_inv E C v n hok s hs
    refine ⟨s2, by rw [hsp]; exact s3,
      fun hlt => ⟨subBlockSize_pos s1 hlt, ?_, min_le_right _ _, rfl⟩⟩
    have := @subBlockSize_le X (min n v.curPreparedSamples) s
    omega

/-- Witness of C12: 1000 samples are requested from the sounding example voice, which is
prepared for 512; 512 samples are processed and the output position 600 is unchanged. -/
theorem render_clamps_to_prepared_witness :
    samplesProcessed (demoSounding (demoExt 0 1) (demoConstants 4 4)) 1000 = 512 ∧
    ∃ res, renderNextBlock (demoExt 0 1) (demoConstants 4 4)
        (demoSounding (demoExt 0 1) (demoConstants 4 4)) Buf.silence 0 1000 = some res ∧
      res.2 0 600 = 0 := by
  obtain ⟨h1, st, _, _, h4, h5, _⟩ :=
    render_clamps_to_prepared (demoExt 0 1) (demoConstants 4 4)
      (demoSounding (demoExt 0 1) (demoConstants 4 4)) Buf.silence 0 1000
      (betweenOps_reachable _ _ _ (demoSounding_betweenOps _ _)) (by decide)
  exact ⟨h1 (by decide), _, h4, h5 0 600 (by decide)⟩

/-! ## The samples of the overlap mixing -/

/-- Sample `i` that a render call of 4 samples on an example voice leaves in a silent
output buffer: the rendered sample `ae` times the ramp-up gain, plus the scratch sample
the kill overlap adds. -/
theorem demo_render_sample (fe ae : ℚ) (K R : Int) (hR : 0 < R) (v : Voice Nat) (N : Nat)
    (hv : RampInv (demoConstants K R) N v) (hc : 4 ≤ v.lfoUpdateCounter)
    (hp : v.curPreparedSamples = 512)
    (hg : ¬ (v.currentlyKillingVoice = false ∧ v.isVoiceActive = false))
    (hk : v.currentlyKillingVoice = false) (hA : ScratchOk v) (i : Nat) (hi : i < 4) :
    ∃ res, renderNextBlock (demoExt fe ae) (demoConstants K R) v Buf.silence 0 4 = some res ∧
      res.2 0 i = ae * rampUpGain (demoConstants K R) (N + i)
        + killTail (demoConstants K R) v 4 0 i := by
  have hmin : min (4 : Int) v.curPreparedSamples = 4 := by rw [hp]; decide
  have hr := renderCore_single (demoExt fe ae) (demoConstants K R)
    (renderNextBlockAt (demoExt fe ae) (demoConstants K R) 1) v Buf.silence 0 4
    hg (by rw [hmin]; decide) (by rw [hmin]; exact hc) hA
  rw [hmin] at hr
  refine ⟨_, hr, ?_⟩
  have hkk : (subBlockResult (demoExt fe ae) (demoConstants K R) 4
      (loopEntry (demoExt fe ae) v 4)).v.currentlyKillingVoice = false := by
    rw [subBlockResult_currentlyKillingVoice]
    exact hk
  have hi4 : (i : Int) < 4 := by exact_mod_cast hi
  unfold renderExit
  rw [if_neg (by rw [hkk]; decide)]
  dsimp only
  rw [addToOutput_silence, if_pos hi4]
  have hsz : subBlockSize 4 (loopEntry (demoExt fe ae) v 4) = 4 := by
    unfold subBlockSize loopEntry
    dsimp only
    omega
  unfold subBlockResult
  dsimp only
  rw [hsz]
  unfold writeSubBlock
  rw [if_pos (by simp only [loopEntry]; omega)]
  have hz : i - (loopEntry (demoExt fe ae) v 4).pos.toNat = i := by simp [loopEntry]
  rw [hz, subBlockTail_block,
    rampStage_gain (demoConstants K R) hR N _
      (hv.of_same_ramp (by simp [loopEntry]) (by simp [loopEntry]) (by simp [loopEntry]))
      _ 4 0 i hi4,
    subBlockHead_demo_blk fe ae _ 4 _ 0 i (by exact hi)]
  congr 1
  apply killTail_congr <;> simp [loopEntry]

/-- The example voice that renders samples of value `ae`, with a kill ramp of 4 samples and
a ramp-up of `R` samples, is killed and started again: the scratch sample `i` is
`ae * (1 - i / 4)`, and sample `i` of the next render call is the freshly rendered sample
`ae` times the ramp-up gain plus that scratch sample. -/
theorem demo_kill_restart_mix (ae : ℚ) (R : Int) (hR : 0 < R) (i : Nat) (hi : i < 4) :
    ∃ w res, stopNote (demoExt 0 ae) (demoConstants 4 R) false
        (demoSounding (demoExt 0 ae) (demoConstants 4 R)) = some w ∧
      renderNextBlock (demoExt 0 ae) (demoConstants 4 R)
        (startNote (demoExt 0 ae) (demoConstants 4 R) 60 1 8192
          { w with currentlyPlayingNote := 60 }) Buf.silence 0 4 = some res ∧
      w.overlapIndex = 0 ∧ w.overlap 0 i = ae * (1 - (i : ℚ) / 4) ∧
      res.2 0 i = ae * rampUpGain (demoConstants 4 R) i + w.overlap 0 i := by
  have hok := demoSounding_lfoCounterOk 0 ae 4 R
  have hrate := demoSounding_sampleRate 0 ae 4 R
  have hi4 : (i : Int) < 4 := by exact_mod_cast hi
  have hK : min (demoConstants 4 R).killRampSamples
      (demoSounding (demoExt 0 ae) (demoConstants 4 R)).curPreparedSamples = 4 :=
    show min (4 : Int) 512 = 4 by decide
  have hk4 : (demoConstants 4 R).killRampSamples = 4 := rfl
  have hRR : (demoConstants 4 R).rampUpSamples = R := rfl
  obtain ⟨v1, res0, h1, h2, hidx, -, -, -, hkill, -, h9⟩ :=
    forcedKill_scratch (demoExt 0 ae) (demoConstants 4 R)
      (demoSounding (demoExt 0 ae) (demoConstants 4 R)) hok rfl ⟨hrate, rfl⟩ rfl
      (show decide ((0 : Int) ≤ 60) = true by decide) rfl
  obtain ⟨st, ⟨hP1, hP2⟩, _, hpos, hres⟩ :=
    stopNote_kill (demoExt 0 ae) (demoConstants 4 R)
      (demoSounding (demoExt 0 ae) (demoConstants 4 R)) hok rfl ⟨hrate, rfl⟩
      (fun s => s.v.lfoUpdateCounter = 100 - s.pos ∧ s.v.curPreparedSamples = 512)
      ⟨show (100 : Int) = 100 - 0 by decide, rfl⟩
      (by
        intro s hs _ h0 hlt
        rw [hK] at hlt ⊢
        rw [subBlockResult_lfoUpdateCounter, subBlockResult_pos,
          subBlockResult_curPreparedSamples]
        refine ⟨?_, hs.2⟩
        unfold subBlockSize lfoUpdateRate
        rw [hs.1]
        split_ifs <;> omega)
  rw [hK] at hpos hres
  rw [h1] at hres
  simp only [Option.some.injEq] at hres
  have hcount : v1.lfoUpdateCounter = 96 := by
    rw [hres]
    show st.v.lfoUpdateCounter = 96
    rw [hP1, hpos]
    decide
  have hprep : v1.curPreparedSamples = 512 := by
    rw [hres]
    exact hP2
  obtain ⟨res2, hr2, hs2⟩ := demo_render_sample 0 ae 4 R hR
    { demoSounding (demoExt 0 ae) (demoConstants 4 R) with rampingUp := false } R.toNat
    ⟨⟨show (1 : Int) ≤ 100 by decide, show (100 : Int) ≤ 100 by decide⟩,
      fun hlt => absurd hlt (by rw [hRR]; omega), fun _ => rfl⟩
    (show (4 : Int) ≤ 100 by decide) rfl
    (fun hh => absurd hh.2 (show ¬ decide ((0 : Int) ≤ 60) = false by decide)) rfl
    (scratchOk_of_idle rfl) i hi
  rw [hk4, hr2] at h2
  simp only [Option.some.injEq] at h2
  subst h2
  have hg2 : rampUpGain (demoConstants 4 R) (R.toNat + i) = 1 := by
    unfold rampUpGain
    rw [hRR, if_neg (by push_cast; omega)]
  have hplain : res2.2 0 i = ae := by
    rw [hs2, hg2]
    unfold killTail
    rw [if_neg (fun hh => absurd hh.1 (show ¬ ((-1 : Int) > -1) by decide))]
    ring
  have hscratch : v1.overlap 0 i = ae * (1 - (i : ℚ) / 4) := by
    rw [h9 0 i, hK, if_pos hi4, hplain]
    norm_num
  obtain ⟨res, hr, hs⟩ := demo_render_sample 0 ae 4 R hR
    (startNote (demoExt 0 ae) (demoConstants 4 R) 60 1 8192
      { v1 with currentlyPlayingNote := 60 }) 0
    ⟨⟨by show 1 ≤ v1.lfoUpdateCounter; omega,
        by show v1.lfoUpdateCounter ≤ 100; omega⟩,
      fun _ => ⟨rfl, by show R = R - ((0 : Nat) : Int); simp⟩,
      fun hle => absurd hle (by rw [hRR]; simp; exact hR)⟩
    (by show 4 ≤ v1.lfoUpdateCounter; omega) hprep
    (fun hh => absurd hh.2 (show ¬ decide ((0 : Int) ≤ 60) = false by decide)) hkill
    (scratchOk_of_allocated
      (show v1.overlapAllocated = true from
        stopNote_overlapAllocated _ _ _ v1 false h1))
    i hi
  have htail : killTail (demoConstants 4 R)
      (startNote (demoExt 0 ae) (demoConstants 4 R) 60 1 8192
        { v1 with currentlyPlayingNote := 60 }) 4 0 i = v1.overlap 0 i := by
    unfold killTail
    have hi0 : (startNote (demoExt 0 ae) (demoConstants 4 R) 60 1 8192
        { v1 with currentlyPlayingNote := 60 }).overlapIndex = 0 := hidx
    rw [hi0, hk4, if_pos ⟨by decide, by simpa using hi4⟩]
    show v1.overlap 0 (0 + (i : Int)).toNat = _
    simp
  refine ⟨v1, res, h1, hr, hidx, hscratch, ?_⟩
  rw [hs, htail, zero_add]

/-- C20. The code at two failing inputs. (1) The example voice renders samples of value
3/4, with a kill ramp of 4 samples and a ramp-up of 1 sample. It is killed with
`stopNote (_, false)`, which leaves `3/4 * (1 - 1/4) = 9/16` in the scratch sample 1, and
started again. In the next render call `processKillOverlap` adds the scratch sample 1 to
the freshly rendered sample 1, which is 3/4: the mixed sample is `21/16`, and the assertion
`total > -1 && total < 1` of `processKillOverlap` does not hold for it. (2) With a kill
ramp and a ramp-up of 4 samples each and rendered samples of value 5/4, the mixed sample 0
after the restart is the scratch sample 0, which is 5/4. -/
theorem overlap_mix_exceeds_unit :
    (∃ w res, stopNote (demoExt 0 (3 / 4)) (demoConstants 4 1) false
        (demoSounding (demoExt 0 (3 / 4)) (demoConstants 4 1)) = some w ∧
      renderNextBlock (demoExt 0 (3 / 4)) (demoConstants 4 1)
        (startNote (demoExt 0 (3 / 4)) (demoConstants 4 1) 60 1 8192
          { w with currentlyPlayingNote := 60 }) Buf.silence 0 4 = some res ∧
      w.overlapIndex = 0 ∧ w.overlap 0 1 = 9 / 16 ∧
      res.2 0 1 = 3 / 4 + w.overlap 0 1 ∧ res.2 0 1 = 21 / 16 ∧
      ¬ (res.2 0 1 > -1 ∧ res.2 0 1 < 1)) ∧
    (∃ w res, stopNote (demoExt 0 (5 / 4)) (demoConstants 4 4) false
        (demoSounding (demoExt 0 (5 / 4)) (demoConstants 4 4)) = some w ∧
      renderNextBlock (demoExt 0 (5 / 4)) (demoConstants 4 4)
        (startNote (demoExt 0 (5 / 4)) (demoConstants 4 4) 60 1 8192
          { w with currentlyPlayingNote := 60 }) Buf.silence 0 4 = some res ∧
      w.overlapIndex = 0 ∧ w.overlap 0 0 = 5 / 4 ∧
      res.2 0 0 = 0 + w.overlap 0 0 ∧ res.2 0 0 = 5 / 4 ∧
      ¬ (res.2 0 0 > -1 ∧ res.2 0 0 < 1)) := by
  constructor
  · obtain ⟨w, res, h1, h2, h3, h4, h5⟩ :=
      demo_kill_restart_mix (3 / 4) 1 (by decide) 1 (by decide)
    have hg : rampUpGain (demoConstants 4 1) 1 = 1 := by
      unfold rampUpGain
      rw [if_neg (by decide)]
    have hscratch : w.overlap 0 1 = 9 / 16 := by
      rw [h4]
      norm_num
    have hmix : res.2 0 1 = 3 / 4 + w.overlap 0 1 := by
      rw [h5, hg, mul_one]
    have htotal : res.2 0 1 = 21 / 16 := by
      rw [hmix, hscratch]
      norm_num
    refine ⟨w, res, h1, h2, h3, hscratch, hmix, htotal, ?_⟩
    rw [htotal]
    norm_num
  · obtain ⟨w, res, h1, h2, h3, h4, h5⟩ :=
      demo_kill_restart_mix (5 / 4) 4 (by decide) 0 (by decide)
    have hg : rampUpGain (demoConstants 4 4) 0 = 0 := by
      unfold rampUpGain
      rw [if_pos (by decide)]
      simp
    have hscratch : w.overlap 0 0 = 5 / 4 := by
      rw [h4]
      norm_num
    have hmix : res.2 0 0 = 0 + w.overlap 0 0 := by
      rw [h5, hg, mul_zero]
    have htotal : res.2 0 0 = 5 / 4 := by
      rw [hmix, hscratch]
      norm_num
    refine ⟨w, res, h1, h2, h3, hscratch, hmix, htotal, ?_⟩
    rw [htotal]
    norm_num

/-! ## The envelope parameters -/

theorem floored_pos (x : ℚ) : 0 < (if x ≤ 0 then floatEpsilon else x) := by
  split_ifs with hx
  · exact floatEpsilon_pos
  · exact not_le.mp hx

theorem setAmpParam_frame (E : Ext X) (p : ParamId) (x : ℚ) (v : Voice X) :
    (setAmpParam E p x v).filterEnvParams = v.filterEnvParams ∧
    (p ≠ ParamId.ampAttackID → (setAmpParam E p x v).ampParams.attack = v.ampParams.attack) ∧
    (p ≠ ParamId.ampDecayID → (setAmpParam E p x v).ampParams.decay = v.ampParams.decay) ∧
    (p ≠ ParamId.ampSustainID →
      (setAmpParam E p x v).ampParams.sustain = v.ampParams.sustain) ∧
    (p ≠ ParamId.ampReleaseID →
      (setAmpParam E p x v).ampParams.release = v.ampParams.release) := by
  unfold setAmpParam
  dsimp only
  refine ⟨rfl, ?_, ?_, ?_, ?_⟩ <;> intro hp <;> split_ifs <;> first | rfl | contradiction

theorem setFilterEnvParam_frame (E : Ext X) (p : ParamId) (x : ℚ) (v : Voice X) :
    (setFilterEnvParam E p x v).ampParams = v.ampParams ∧
    (p ≠ ParamId.filterEnvAttackID →
      (setFilterEnvParam E p x v).filterEnvParams.attack = v.filterEnvParams.attack) ∧
    (p ≠ ParamId.filterEnvDecayID →
      (setFilterEnvParam E p x v).filterEnvParams.decay = v.filterEnvParams.decay) ∧
    (p ≠ ParamId.filterEnvSustainID →
      (setFilterEnvParam E p x v).filterEnvParams.sustain = v.filterEnvParams.sustain) ∧
    (p ≠ ParamId.filterEnvReleaseID →
      (setFilterEnvParam E p x v).filterEnvParams.release = v.filterEnvParams.release) := by
  unfold setFilterEnvParam
  dsimp only
  refine ⟨rfl, ?_, ?_, ?_, ?_⟩ <;> intro hp <;> split_ifs <;> first | rfl | contradiction

theorem setAmpParam_sustain (E : Ext X) (p : ParamId) (x : ℚ) (v : Voice X) :
    (setAmpParam E p x v).ampParams.sustain
      = if p = ParamId.ampSustainID then (if x ≤ 0 then floatEpsilon else x)
        else v.ampParams.sustain := by
  unfold setAmpParam
  dsimp only
  split_ifs <;> first | rfl | contradiction | simp_all

theorem setFilterEnvParam_sustain (E : Ext X) (p : ParamId) (x : ℚ) (v : Voice X) :
    (setFilterEnvParam E p x v).filterEnvParams.sustain
      = if p = ParamId.filterEnvSustainID then (if x ≤ 0 then floatEpsilon else x)
        else v.filterEnvParams.sustain := by
  unfold setFilterEnvParam
  dsimp only
  split_ifs <;> first | rfl | contradiction | simp_all

theorem setAmpParam_sustainPositive (E : Ext X) (p : ParamId) (x : ℚ) (v : Voice X)
    (h : SustainPositive v) : SustainPositive (setAmpParam E p x v) := by
  refine ⟨?_, h.2⟩
  rw [setAmpParam_sustain]
  split_ifs
  · exact floatEpsilon_pos
  · exact lt_of_not_le ‹_›
  · exact h.1

theorem setFilterEnvParam_sustainPositive (E : Ext X) (p : ParamId) (x : ℚ) (v : Voice X)
    (h : SustainPositive v) : SustainPositive (setFilterEnvParam E p x v) := by
  refine ⟨h.1, ?_⟩
  rw [setFilterEnvParam_sustain]
  split_ifs
  · exact floatEpsilon_pos
  · exact lt_of_not_le ‹_›
  · exact h.2

theorem SameParams.trans_params {u v w : Voice X} (h1 : SameParams u v)
    (h2 : SameParams v w) : SameParams u w :=
  ⟨h2.ampParams.trans h1.ampParams, h2.filterEnvParams.trans h1.filterEnvParams,
    h2.lfoDest.trans h1.lfoDest, h2.lfoAmount.trans h1.lfoAmount,
    h2.curFilterCutoff.trans h1.curFilterCutoff,
    h2.curFilterResonance.trans h1.curFilterResonance, h2.tiltCutoff.trans h1.tiltCutoff⟩

theorem subBlockResult_sameParams (E : Ext X) (C : Constants) (numSamples : Int)
    (st : LoopState X) : SameParams st.v (subBlockResult E C numSamples st).v :=
  ⟨by simp, by simp, by simp, by simp, by simp, by simp, by simp⟩

/-- A render call leaves the parameter values as they are. -/
theorem render_sameParams (E : Ext X) (C : Constants) (v : Voice X) (out : Buf)
    (start : Nat) (n : Int) (res : Voice X × Buf)
    (hres : renderNextBlock E C v out start n = some res) : SameParams v res.1 := by
  rw [renderNextBlock_eq] at hres
  by_cases hg : v.currentlyKillingVoice = false ∧ v.isVoiceActive = false
  · rw [renderCore_skip E C _ v out start n hg] at hres
    simp only [Option.some.injEq] at hres
    subst hres
    exact ⟨rfl, rfl, rfl, rfl, rfl, rfl, rfl⟩
  · obtain ⟨st, hP, hr⟩ := renderCore_of_some E C _ v out start n res hg hres
      (fun s => SameParams v s.v) ⟨rfl, rfl, rfl, rfl, rfl, rfl, rfl⟩
      (fun s hs _ => hs.trans_params (subBlockResult_sameParams E C _ s))
    rw [hr, renderExit_fst]
    exact ⟨hP.1, hP.2, hP.3, hP.4, hP.5, hP.6, hP.7⟩

/-- `stopNote` leaves the parameter values as they are. -/
theorem stopNote_sameParams (E : Ext X) (C : Constants) (v w : Voice X) (b : Bool)
    (hs : stopNote E C b v = some w) : SameParams v w := by
  cases b with
  | true =>
    rw [stopNote_tailOff] at hs
    simp only [Option.some.injEq] at hs
    subst hs
    exact ⟨rfl, rfl, rfl, rfl, rfl, rfl, rfl⟩
  | false =>
    by_cases hg : v.sampleRate ≠ 0 ∧ v.justDoneReleaseEnvelope = false
    · have hal := stopNote_kill_allocated E C v w hg hs
      unfold stopNote at hs
      rw [stopNoteCore_kill E C _ v hg hal] at hs
      cases hr : renderNextBlockAt E C nestingFuel (killEntry v) Buf.silence 0
          C.killRampSamples with
      | none => rw [hr] at hs; exact absurd hs (by simp)
      | some res =>
        rw [hr] at hs
        simp only [Option.map, Option.some.injEq] at hs
        subst hs
        have := render_sameParams E C (killEntry v) Buf.silence 0 C.killRampSamples res hr
        exact ⟨this.1, this.2, this.3, this.4, this.5, this.6, this.7⟩
    · unfold stopNote at hs
      rw [stopNoteCore_skip E C _ v hg] at hs
      simp only [Option.some.injEq] at hs
      subst hs
      exact ⟨rfl, rfl, rfl, rfl, rfl, rfl, rfl⟩

theorem SustainPositive.of_same_envelopes {v w : Voice X} (h : SustainPositive v)
    (ha : w.ampParams = v.ampParams) (hf : w.filterEnvParams = v.filterEnvParams) :
    SustainPositive w := by
  unfold SustainPositive
  rw [ha, hf]
  exact h

theorem setLfoShape_envParams (E : Ext X) (s : LfoShape) (v : Voice X) :
    (setLfoShape E s v).ampParams = v.ampParams ∧
    (setLfoShape E s v).filterEnvParams = v.filterEnvParams := by
  cases s <;> exact ⟨rfl, rfl⟩

theorem parameterChanged_sustainPositive (E : Ext X) (C : Constants) (p : ParamId) (x : ℚ)
    (v : Voice X) (h : SustainPositive v) : SustainPositive (parameterChanged E C p x v) := by
  unfold parameterChanged
  split_ifs
  · exact setAmpParam_sustainPositive E p x v h
  · exact setFilterEnvParam_sustainPositive E p x v h
  · exact h.of_same_envelopes (setLfoShape_envParams E _ v).1 (setLfoShape_envParams E _ v).2
  · exact h
  · exact h
  · exact h
  · exact h
  · exact h
  · exact h

theorem reachable_sustainPositive (E : Ext X) (C : Constants) (v : Voice X)
    (h : Reachable E C v) : SustainPositive v := by
  induction h with
  | construct x vId s rate =>
    exact ⟨show (0 : ℚ) < 1 by norm_num, show (0 : ℚ) < 1 by norm_num⟩
  | prepare sr m nc _ ih => exact ih
  | setSampleRate r _ ih => exact ih
  | hostStartVoice note vel pw _ ih => exact ih
  | startNote note vel pw _ ih => exact ih
  | @stopNote v w b _ hs ih =>
    have := stopNote_sameParams E C v w b hs
    exact ih.of_same_envelopes this.ampParams this.filterEnvParams
  | @render v res out start n _ hr ih =>
    have := render_sameParams E C v out start n res hr
    exact ih.of_same_envelopes this.ampParams this.filterEnvParams
  | @parameterChanged v p x _ ih => exact parameterChanged_sustainPositive E C p x v ih
  | @setAmpParam v p x _ ih => exact setAmpParam_sustainPositive E p x v ih
  | @setFilterEnvParam v p x _ ih => exact setFilterEnvParam_sustainPositive E p x v ih
  | @setLfoShape v s _ ih =>
    exact ih.of_same_envelopes (setLfoShape_envParams E s v).1 (setLfoShape_envParams E s v).2
  | setLfoDest d _ ih => exact ih
  | setLfoFreq x _ ih => exact ih
  | setLfoAmount x _ ih => exact ih
  | setFilterCutoff x _ ih => exact ih
  | setFilterTiltCutoff x _ ih => exact ih
  | setFilterResonance x _ ih => exact ih
  | @controllerMoved v c x _ ih =>
    unfold controllerMoved
    split_ifs
    · exact ih
    · exact ih
  | pitchWheelMoved p _ ih => exact ih
  | killEntry _ _ _ ih => exact ih
  | loopEntry n _ ih => exact ih
  | subBlockHead pos n _ ih => exact ih
  | afterRelease _ ih => exact ih.of_same_envelopes (by simp) (by simp)
  | processRampUp blk n _ ih => exact ih.of_same_envelopes (by simp) (by simp)
  | subBlock r numSamples _ hp hsub ih =>
    obtain ⟨hsub, _⟩ := subBlock_of_some E C _ _ _ _ hsub
    subst hsub
    exact ih.of_same_envelopes (by simp) (by simp)

/-- C29. The floor for non-positive values applies to the sustain level as to the
durations: `setAmpParam` and `setFilterEnvParam` with the sustain identifier store
`numeric_limits<float>::epsilon ()` for every value `≤ 0` (and a positive value as it is),
so the sustain they store is strictly positive, and in every state the voice can be in both
sustain levels are strictly positive, never 0. Each call changes at most the field named
by the identifier: the other three fields of that envelope and the whole other envelope are
left as they were. -/
theorem sustain_floored_and_others_kept (E : Ext X) (C : Constants) (v : Voice X) :
    (∀ x : ℚ, x ≤ 0 →
      (setAmpParam E ParamId.ampSustainID x v).ampParams.sustain = floatEpsilon ∧
      (setFilterEnvParam E ParamId.filterEnvSustainID x v).filterEnvParams.sustain
        = floatEpsilon) ∧
    (∀ x : ℚ, 0 < x →
      (setAmpParam E ParamId.ampSustainID x v).ampParams.sustain = x ∧
      (setFilterEnvParam E ParamId.filterEnvSustainID x v).filterEnvParams.sustain = x) ∧
    (∀ x : ℚ,
      0 < (setAmpParam E ParamId.ampSustainID x v).ampParams.sustain ∧
      0 < (setFilterEnvParam E ParamId.filterEnvSustainID x v).filterEnvParams.sustain) ∧
    (Reachable E C v → 0 < v.ampParams.sustain ∧ 0 < v.filterEnvParams.sustain) ∧
    (∀ (p : ParamId) (x : ℚ),
      (setAmpParam E p x v).filterEnvParams = v.filterEnvParams ∧
      (p ≠ ParamId.ampAttackID →
        (setAmpParam E p x v).ampParams.attack = v.ampParams.attack) ∧
      (p ≠ ParamId.ampDecayID → (setAmpParam E p x v).ampParams.decay = v.ampParams.decay) ∧
      (p ≠ ParamId.ampSustainID →
        (setAmpParam E p x v).ampParams.sustain = v.ampParams.sustain) ∧
      (p ≠ ParamId.ampReleaseID →
        (setAmpParam E p x v).ampParams.release = v.ampParams.release)) ∧
    (∀ (p : ParamId) (x : ℚ),
      (setFilterEnvParam E p x v).ampParams = v.ampParams ∧
      (p ≠ ParamId.filterEnvAttackID →
        (setFilterEnvParam E p x v).filterEnvParams.attack = v.filterEnvParams.attack) ∧
      (p ≠ ParamId.filterEnvDecayID →
        (setFilterEnvParam E p x v).filterEnvParams.decay = v.filterEnvParams.decay) ∧
      (p ≠ ParamId.filterEnvSustainID →
        (setFilterEnvParam E p x v).filterEnvParams.sustain = v.filterEnvParams.sustain) ∧
      (p ≠ ParamId.filterEnvReleaseID →
        (setFilterEnvParam E p x v).filterEnvParams.release
          = v.filterEnvParams.release)) := by
  refine ⟨?_, ?_, ?_, ?_, fun p x => setAmpParam_frame E p x v,
    fun p x => setFilterEnvParam_frame E p x v⟩
  · intro x hx
    rw [setAmpParam_sustain, setFilterEnvParam_sustain]
    simp [hx]
  · intro x hx
    rw [setAmpParam_sustain, setFilterEnvParam_sustain]
    simp [not_le.mpr hx]
  · intro x
    rw [setAmpParam_sustain, setFilterEnvParam_sustain]
    simp only [if_true]
    exact ⟨floored_pos x, floored_pos x⟩
  · intro h
    exact reachable_sustainPositive E C v h

/-- Witness of C29: sustain 0 and sustain -1 on the example voice are stored as epsilon, and
the attack is left at its value. -/
theorem sustain_floored_and_others_kept_witness :
    (setAmpParam (demoExt 0 1) ParamId.ampSustainID 0
      (demoVoice (demoExt 0 1) (demoConstants 4 4))).ampParams.sustain = floatEpsilon ∧
    (setFilterEnvParam (demoExt 0 1) ParamId.filterEnvSustainID (-1)
      (demoVoice (demoExt 0 1) (demoConstants 4 4))).filterEnvParams.sustain
        = floatEpsilon ∧
    (setAmpParam (demoExt 0 1) ParamId.ampSustainID 0
      (demoVoice (demoExt 0 1) (demoConstants 4 4))).ampParams.attack
      = (demoVoice (demoExt 0 1) (demoConstants 4 4)).ampParams.attack ∧
    0 < (demoVoice (demoExt 0 1) (demoConstants 4 4)).ampParams.sustain :=
  have h := sustain_floored_and_others_kept (demoExt 0 1) (demoConstants 4 4)
    (demoVoice (demoExt 0 1) (demoConstants 4 4))
  ⟨(h.1 0 (le_refl 0)).1, (h.1 (-1) (by norm_num)).2,
    (h.2.2.2.2.1 ParamId.ampSustainID 0).2.1 (by decide),
    (h.2.2.2.1 (Reachable.prepare 44100 512 2 (Reachable.construct 0 7 ∅ 44100))).1⟩

/-! ## What the LFO leaves behind when its destination changes -/

theorem RoutingKept.rfl_kept (a : Voice X) : RoutingKept a a :=
  ⟨rfl, fun _ => rfl, fun _ => rfl⟩

theorem RoutingKept.trans_kept {a b c : Voice X} (h1 : RoutingKept a b)
    (h2 : RoutingKept b c) : RoutingKept a c := by
  obtain ⟨d1, c1, r1⟩ := h1
  obtain ⟨d2, c2, r2⟩ := h2
  refine ⟨d2.trans d1, fun h => ?_, fun h => ?_⟩
  · rw [c2 (by rw [d1]; exact h), c1 h]
  · rw [r2 (by rw [d1]; exact h), r1 h]

theorem RoutingKept.of_fields {a b : Voice X} (hd : b.lfoDest = a.lfoDest)
    (hc : b.lfoCutOffContributionHz = a.lfoCutOffContributionHz)
    (hr : b.ladderResonance = a.ladderResonance) : RoutingKept a b :=
  ⟨hd, fun _ => hc, fun _ => hr⟩

theorem subBlockTail_ladderResonance_of_ne (E : Ext X) (C : Constants) (n : Int) (fe : ℚ)
    (v : Voice X) (b : Buf) (h : v.lfoDest ≠ LfoDest.filterResonance) :
    (subBlockTail E C n fe v b).1.ladderResonance = v.ladderResonance := by
  unfold subBlockTail
  dsimp only
  split_ifs <;>
    simp [updateLfo_ladderResonance_of_ne, h]

theorem subBlockResult_ladderResonance_of_ne (E : Ext X) (C : Constants)
    (numSamples : Int) (st : LoopState X) (h : st.v.lfoDest ≠ LfoDest.filterResonance) :
    (subBlockResult E C numSamples st).v.ladderResonance = st.v.ladderResonance := by
  unfold subBlockResult
  dsimp only
  rw [subBlockTail_ladderResonance_of_ne]
  · simp
  · simpa using h

theorem subBlockResult_routingKept (E : Ext X) (C : Constants) (numSamples : Int)
    (st : LoopState X) : RoutingKept st.v (subBlockResult E C numSamples st).v :=
  ⟨by simp, fun h => subBlockResult_lfoCutOffContributionHz_of_ne E C numSamples st h,
    fun h => subBlockResult_ladderResonance_of_ne E C numSamples st h⟩

theorem render_routingKept (E : Ext X) (C : Constants) (v : Voice X) (out : Buf)
    (start : Nat) (n : Int) (res : Voice X × Buf)
    (hres : renderNextBlock E C v out start n = some res) : RoutingKept v res.1 := by
  rw [renderNextBlock_eq] at hres
  by_cases hg : v.currentlyKillingVoice = false ∧ v.isVoiceActive = false
  · rw [renderCore_skip E C _ v out start n hg] at hres
    simp only [Option.some.injEq] at hres
    subst hres
    exact RoutingKept.rfl_kept _
  · obtain ⟨st, hP, hr⟩ := renderCore_of_some E C _ v out start n res hg hres
      (fun s => RoutingKept v s.v) (RoutingKept.of_fields rfl rfl rfl)
      (fun s hs _ => hs.trans_kept (subBlockResult_routingKept E C _ s))
    rw [hr, renderExit_fst]
    exact ⟨hP.1, hP.2.1, hP.2.2⟩

theorem stopNote_routingKept (E : Ext X) (C : Constants) (v w : Voice X) (b : Bool)
    (hs : stopNote E C b v = some w) : RoutingKept v w := by
  cases b with
  | true =>
    rw [stopNote_tailOff] at hs
    simp only [Option.some.injEq] at hs
    subst hs
    exact RoutingKept.of_fields rfl rfl rfl
  | false =>
    by_cases hg : v.sampleRate ≠ 0 ∧ v.justDoneReleaseEnvelope = false
    · have hal := stopNote_kill_allocated E C v w hg hs
      unfold stopNote at hs
      rw [stopNoteCore_kill E C _ v hg hal] at hs
      cases hr : renderNextBlockAt E C nestingFuel (killEntry v) Buf.silence 0
          C.killRampSamples with
      | none => rw [hr] at hs; exact absurd hs (by simp)
      | some res =>
        rw [hr] at hs
        simp only [Option.map, Option.some.injEq] at hs
        subst hs
        have := render_routingKept E C (killEntry v) Buf.silence 0 C.killRampSamples res hr
        exact ⟨this.1, this.2.1, this.2.2⟩
    · unfold stopNote at hs
      rw [stopNoteCore_skip E C _ v hg] at hs
      simp only [Option.some.injEq] at hs
      subst hs
      exact RoutingKept.of_fields rfl rfl rfl

theorem parameterChanged_routingKept (E : Ext X) (C : Constants) (p : ParamId) (x : ℚ)
    (v : Voice X) (h1 : p ≠ ParamId.lfoDestID) (h2 : p ≠ ParamId.filterResonanceID) :
    RoutingKept v (parameterChanged E C p x v) := by
  unfold parameterChanged
  split_ifs
  · exact RoutingKept.of_fields rfl rfl rfl
  · exact RoutingKept.of_fields rfl rfl rfl
  · cases C.lfoShapeOfInt (truncToInt x) <;> exact RoutingKept.of_fields rfl rfl rfl
  · exact RoutingKept.of_fields rfl rfl rfl
  · exact RoutingKept.of_fields rfl rfl rfl
  · exact RoutingKept.of_fields rfl rfl rfl
  · exact RoutingKept.of_fields rfl rfl rfl

theorem controllerMoved_routingKept (C : Constants) (c x : Int) (v : Voice X) :
    RoutingKept v (controllerMoved C c x v) := by
  unfold controllerMoved
  split_ifs
  · exact RoutingKept.of_fields rfl rfl rfl
  · exact RoutingKept.rfl_kept v

theorem laterWithSameRouting_kept (E : Ext X) (C : Constants) (v w : Voice X)
    (h : LaterWithSameRouting E C v w) : RoutingKept v w := by
  induction h with
  | refl => exact RoutingKept.rfl_kept v
  | subBlock numSamples _ ih => exact ih.trans_kept (subBlockResult_routingKept E C _ _)
  | render out start n _ hr ih => exact ih.trans_kept (render_routingKept E C _ _ _ _ _ hr)
  | hostStartVoice note vel pw _ ih =>
    exact ih.trans_kept (RoutingKept.of_fields rfl rfl rfl)
  | startNote note vel pw _ ih => exact ih.trans_kept (RoutingKept.of_fields rfl rfl rfl)
  | stopNote b _ hs ih => exact ih.trans_kept (stopNote_routingKept E C _ _ b hs)
  | parameterChanged p x _ h1 h2 ih =>
    exact ih.trans_kept (parameterChanged_routingKept E C p x _ h1 h2)
  | controllerMoved c x _ ih => exact ih.trans_kept (controllerMoved_routingKept C c x _)
  | pitchWheelMoved p _ ih => exact ih.trans_kept (RoutingKept.of_fields rfl rfl rfl)

/-- C28. `setLfoDest` does not reset what the LFO wrote to the filter: it leaves
`lfoCutOffContributionHz` and the resonance and cutoff held by the filter as they were.
After `setLfoDest` to a destination other than the filter cutoff, in every later state
(sub-block iterations, render calls, note starts and stops, controller and pitch-wheel
moves, parameter changes other than the LFO destination and the filter resonance) the
contribution still has its old value `h`, and every sub-block adds `h` to the combined
cutoff it hands to the filter. After `setLfoDest` to a destination other than the filter
resonance, the resonance held by the filter keeps its last value in every such later state;
`setFilterResonance` replaces it. -/
theorem setLfoDest_keeps_filter_contributions (E : Ext X) (C : Constants) (d : LfoDest)
    (v : Voice X) :
    (setLfoDest E d v).lfoCutOffContributionHz = v.lfoCutOffContributionHz ∧
    (setLfoDest E d v).ladderResonance = v.ladderResonance ∧
    (setLfoDest E d v).ladderCutoffHz = v.ladderCutoffHz ∧
    (d ≠ LfoDest.filterCutOff → ∀ w, LaterWithSameRouting E C (setLfoDest E d v) w →
      w.lfoCutOffContributionHz = v.lfoCutOffContributionHz ∧
      ∀ (numSamples : Int) (st : LoopState X), st.v = w →
        (subBlockResult E C numSamples st).v.ladderCutoffHz
          = jlimit C.cutOffStart C.cutOffEnd
              ((w.curFilterCutoff + w.tiltCutoff)
                * (1 + envelopeAmount
                    * (subBlockHead E st.pos (subBlockSize numSamples st) st.v).filterEnvelope)
                + v.lfoCutOffContributionHz)) ∧
    (d ≠ LfoDest.filterResonance → ∀ w, LaterWithSameRouting E C (setLfoDest E d v) w →
      w.ladderResonance = v.ladderResonance) ∧
    (∀ (w : Voice X) (x : ℚ), (setFilterResonance x w).ladderResonance = jlimit 0 1 x) := by
  refine ⟨rfl, rfl, rfl, ?_, ?_, fun _ _ => rfl⟩
  · intro hd w hw
    obtain ⟨h1, h2, _⟩ := laterWithSameRouting_kept E C _ w hw
    have hc : w.lfoCutOffContributionHz = v.lfoCutOffContributionHz := h2 hd
    refine ⟨hc, ?_⟩
    intro numSamples st hst
    have hne : st.v.lfoDest ≠ LfoDest.filterCutOff := by
      rw [hst, h1]
      exact hd
    rw [subBlockResult_ladderCutoffHz,
      subBlockResult_lfoCutOffContributionHz_of_ne E C _ _ hne,
      subBlockResult_curFilterCutoff, subBlockResult_tiltCutoff, hst, hc]
  · intro hd w hw
    exact (laterWithSameRouting_kept E C _ w hw).2.2 hd

/-- Witness of C28: the LFO of the sounding example voice has written a cutoff contribution
of 5005 Hz (destination filter cutoff); after `setLfoDest osc1Freq` and a render call the
contribution is still 5005 Hz. -/
theorem setLfoDest_keeps_filter_contributions_witness :
    (updateLfo (demoExt 0 1) (demoConstants 4 4)
      (demoSounding (demoExt 0 1) (demoConstants 4 4))).lfoCutOffContributionHz = 5005 ∧
    ∃ res, renderNextBlock (demoExt 0 1) (demoConstants 4 4)
        (setLfoDest (demoExt 0 1) LfoDest.osc1Freq
          (updateLfo (demoExt 0 1) (demoConstants 4 4)
            (demoSounding (demoExt 0 1) (demoConstants 4 4)))) Buf.silence 0 4 = some res ∧
      res.1.lfoCutOffContributionHz = 5005 := by
  have h5 : (updateLfo (demoExt 0 1) (demoConstants 4 4)
      (demoSounding (demoExt 0 1) (demoConstants 4 4))).lfoCutOffContributionHz = 5005 := by
    show jmap ((1 / 2 : ℚ) * 1) 0 1 10 10000 = 5005
    unfold jmap
    norm_num
  obtain ⟨res, hres⟩ := renderNextBlock_total (demoExt 0 1) (demoConstants 4 4)
    (setLfoDest (demoExt 0 1) LfoDest.osc1Freq
      (updateLfo (demoExt 0 1) (demoConstants 4 4)
        (demoSounding (demoExt 0 1) (demoConstants 4 4)))) Buf.silence 0 4
    ⟨show (1 : Int) ≤ 100 by decide, show (100 : Int) ≤ 100 by decide⟩
    (scratchOk_of_idle rfl)
  refine ⟨h5, res, hres, ?_⟩
  rw [← h5]
  exact ((setLfoDest_keeps_filter_contributions (demoExt 0 1) (demoConstants 4 4)
    LfoDest.osc1Freq
    (updateLfo (demoExt 0 1) (demoConstants 4 4)
      (demoSounding (demoExt 0 1) (demoConstants 4 4)))).2.2.2.1 (by decide) res.1
    (LaterWithSameRouting.render Buf.silence 0 4 (LaterWithSameRouting.refl _) hres)).1

/-! ## The killing flag and render calls on a silent voice -/

/-- A render call that returns leaves the killing flag clear. -/
theorem render_clears_killing (E : Ext X) (C : Constants) (v : Voice X) (out : Buf)
    (start : Nat) (n : Int) (res : Voice X × Buf)
    (hres : renderNextBlock E C v out start n = some res) :
    res.1.currentlyKillingVoice = false := by
  rw [renderNextBlock_eq] at hres
  by_cases hg : v.currentlyKillingVoice = false ∧ v.isVoiceActive = false
  · rw [renderCore_skip E C _ v out start n hg] at hres
    simp only [Option.some.injEq] at hres
    subst hres
    exact hg.1
  · obtain ⟨st, _, hr⟩ := renderCore_of_some E C _ v out start n res hg hres
      (fun _ => True) trivial (fun _ _ _ => trivial)
    rw [hr, renderExit_fst]

/-- A render call that gets past the entry test, on a voice whose LFO counter is in range
and whose armed cursor has its scratch buffer: the sub-block loop is left in a loop state of
the call, with `pos` at the number of samples processed and the killing flag as on entry,
and the call returns `renderExit` of that state. -/
theorem render_exit_state (E : Ext X) (C : Constants) (v : Voice X) (out : Buf)
    (start : Nat) (n : Int)
    (hg : ¬ (v.currentlyKillingVoice = false ∧ v.isVoiceActive = false))
    (hok : LfoCounterOk v) (hA : ScratchOk v) :
    ∃ st, LoopReach E C (min n v.curPreparedSamples) (loopEntry E v n) st ∧
      st.pos = samplesProcessed v n ∧
      st.v.currentlyKillingVoice = v.currentlyKillingVoice ∧
      renderNextBlock E C v out start n
        = some (renderExit st out start (min n v.curPreparedSamples)) := by
  obtain ⟨st, ⟨hP, hk⟩, _, hpos, hres⟩ := renderCore_inner E C (renderNextBlockAt E C 1) v
    out start n hg hok hA
    (fun s => LoopReach E C (min n v.curPreparedSamples) (loopEntry E v n) s ∧
      s.v.currentlyKillingVoice = v.currentlyKillingVoice)
    ⟨LoopReach.entry, rfl⟩
    (fun s hs _ _ hlt =>
      ⟨LoopReach.step hs.1 hlt, (subBlockResult_currentlyKillingVoice E C _ s).trans hs.2⟩)
  refine ⟨st, hP, ?_, hk, ?_⟩
  · unfold samplesProcessed
    rw [if_neg hg, hpos]
  · rw [renderNextBlock_eq]
    exact hres

/-- The kill path of `stopNote` on a prepared voice: the nested render leaves its sub-block
loop in a loop state of that call, with `pos` at the number of samples processed and the
killing flag set, and `stopNote` returns `killExit` of that state. -/
theorem stopNote_kill_exit (E : Ext X) (C : Constants) (v : Voice X) (hok : LfoCounterOk v)
    (hal : v.overlapAllocated = true)
    (h : v.sampleRate ≠ 0 ∧ v.justDoneReleaseEnvelope = false) :
    ∃ st, LoopReach E C (min C.killRampSamples v.curPreparedSamples)
        (loopEntry E (killEntry v) C.killRampSamples) st ∧
      st.pos = samplesProcessed (killEntry v) C.killRampSamples ∧
      st.v.currentlyKillingVoice = true ∧
      stopNote E C false v
        = some (killExit st (min C.killRampSamples v.curPreparedSamples)) := by
  obtain ⟨st, ⟨hP, hk⟩, _, hpos, hres⟩ := stopNote_kill E C v hok hal h
    (fun s => LoopReach E C (min C.killRampSamples v.curPreparedSamples)
        (loopEntry E (killEntry v) C.killRampSamples) s ∧
      s.v.currentlyKillingVoice = true)
    ⟨LoopReach.entry, rfl⟩
    (fun s hs _ _ hlt =>
      ⟨LoopReach.step hs.1 hlt, (subBlockResult_currentlyKillingVoice E C _ s).trans hs.2⟩)
  refine ⟨st, hP, ?_, hk, hres⟩
  unfold samplesProcessed
  rw [if_neg (fun hh => absurd hh.1 (by simp [killEntry])), hpos]
  rfl

/-- The kill path of `stopNote` on a voice whose cursor is idle returns with the voice id
in the Active-Kill-Set. -/
theorem forcedKill_set (E : Ext X) (C : Constants) (v w : Voice X) (hok : LfoCounterOk v)
    (h : v.sampleRate ≠ 0 ∧ v.justDoneReleaseEnvelope = false) (hidx : v.overlapIndex = -1)
    (hs : stopNote E C false v = some w) :
    w.overlapIndex = 0 ∧ w.voicesBeingKilled = insert v.voiceId v.voicesBeingKilled := by
  obtain ⟨st, ⟨hi, hset⟩, _, _, hres⟩ := stopNote_kill_of_some E C v w hok h hs
    (fun s => s.v.overlapIndex = -1 ∧
      s.v.voicesBeingKilled = insert v.voiceId v.voicesBeingKilled)
    ⟨hidx, rfl⟩
    (by
      intro s hs _ _ _
      refine ⟨?_, ?_⟩
      · rw [subBlockResult_overlapIndex, hs.1]; rfl
      · rw [subBlockResult_voicesBeingKilled, hs.1, hs.2]; rfl)
  subst hres
  exact ⟨rfl, hset⟩

/-- The kill path of `stopNote` on a prepared voice whose kill window is still open, when
the nested render processes all `killRampSamples` samples: the nested render runs the open
window to its end, which erases the voice id, and `stopNote` returns with the cursor at 0
and the voice id not in the Active-Kill-Set. -/
theorem forcedKill_inside_window (E : Ext X) (C : Constants) (hK : 0 < C.killRampSamples)
    (v : Voice X) (hok : LfoCounterOk v) (hal : v.overlapAllocated = true)
    (h : v.sampleRate ≠ 0 ∧ v.justDoneReleaseEnvelope = false)
    (hidx : 0 ≤ v.overlapIndex ∧ v.overlapIndex < C.killRampSamples)
    (hprep : C.killRampSamples ≤ v.curPreparedSamples) :
    ∃ w, stopNote E C false v = some w ∧ w.overlapIndex = 0 ∧
      v.voiceId ∉ w.voicesBeingKilled ∧ w.currentlyPlayingNote = -1 ∧
      w.currentlyKillingVoice = false := by
  obtain ⟨st, hP, _, hpos, hres⟩ := stopNote_kill E C v hok hal h
    (fun s => KillWindow C v.voiceId (v.overlapIndex + s.pos) s.v)
    ⟨⟨hok, hal⟩, rfl, by simp only [loopEntry]; omega,
      fun _ => ⟨by simp [loopEntry, killEntry], by simp [loopEntry, killEntry]⟩,
      fun hge => absurd hge (by simp only [loopEntry]; omega)⟩
    (by
      intro s hs _ _ hlt
      have := subBlockResult_killWindow E C v.voiceId _ _ s hs hlt
      rw [subBlockResult_pos, ← add_assoc]
      exact this)
  refine ⟨_, hres, rfl, ?_, rfl, rfl⟩
  have hge : C.killRampSamples ≤ v.overlapIndex + st.pos := by
    rw [hpos]
    omega
  exact (hP.2.2.2.2 hge).2

/-- C25. The killing flag `currentlyKillingVoice` is false in every state between public
operations. No operation sets it but the kill path of `stopNote (_, false)`: `startNote`,
`stopNote (_, true)`, the skip path of `stopNote (_, false)`, the parameter changes, the
controller and pitch-wheel moves and the iterations of the sub-block loop keep it, and
every render call that returns leaves it false. The nested render of the kill path returns
with the flag false for every number of samples, also for none. A render call that gets
past its entry test returns what the sub-block loop of that call left, with the kill ramp
applied exactly when the call was entered with the flag set. So the kill path of `stopNote`
leaves in the scratch buffer the working block of its nested render times the ramp from 1
to 0, and a render call between public operations adds the working block of its loop to the
output buffer without a gain ramp. -/
theorem killing_flag_clear_on_return (E : Ext X) (C : Constants) (v : Voice X) :
    (BetweenOps E C v → v.currentlyKillingVoice = false) ∧
    (∀ (note : Int) (vel : ℚ) (pw : Int),
      (startNote E C note vel pw v).currentlyKillingVoice = v.currentlyKillingVoice) ∧
    (∀ w, stopNote E C true v = some w →
      w.currentlyKillingVoice = v.currentlyKillingVoice) ∧
    (¬ (v.sampleRate ≠ 0 ∧ v.justDoneReleaseEnvelope = false) →
      ∀ w, stopNote E C false v = some w →
        w.currentlyKillingVoice = v.currentlyKillingVoice) ∧
    (∀ (p : ParamId) (x : ℚ),
      (parameterChanged E C p x v).currentlyKillingVoice = v.currentlyKillingVoice) ∧
    (∀ c x : Int, (controllerMoved C c x v).currentlyKillingVoice = v.currentlyKillingVoice) ∧
    (∀ p : Int, (pitchWheelMoved E p v).currentlyKillingVoice = v.currentlyKillingVoice) ∧
    (∀ (numSamples : Int) (st : LoopState X),
      (subBlockResult E C numSamples st).v.currentlyKillingVoice
        = st.v.currentlyKillingVoice) ∧
    (∀ (out : Buf) (start : Nat) (n : Int) (res : Voice X × Buf),
      renderNextBlock E C v out start n = some res → res.1.currentlyKillingVoice = false) ∧
    (Reachable E C v → v.overlapAllocated = true → ∀ n : Int,
      ∃ res, renderNextBlock E C (killEntry v) Buf.silence 0 n = some res ∧
        res.1.currentlyKillingVoice = false) ∧
    (Reachable E C v →
      ¬ (v.currentlyKillingVoice = false ∧ v.isVoiceActive = false) →
      ∀ (out : Buf) (start : Nat) (n : Int),
        ∃ st, LoopReach E C (min n v.curPreparedSamples) (loopEntry E v n) st ∧
          st.pos = samplesProcessed v n ∧
          renderNextBlock E C v out start n
            = some (if v.currentlyKillingVoice = true then
                applyKillRamp st.v
                  (addToOutput out start (min n v.curPreparedSamples) st.block) start
                  (min n v.curPreparedSamples)
              else (st.v, addToOutput out start (min n v.curPreparedSamples) st.block))) ∧
    (Reachable E C v → v.sampleRate ≠ 0 ∧ v.justDoneReleaseEnvelope = false →
      v.overlapAllocated = true →
      ∃ st, LoopReach E C (min C.killRampSamples v.curPreparedSamples)
          (loopEntry E (killEntry v) C.killRampSamples) st ∧
        st.pos = samplesProcessed (killEntry v) C.killRampSamples ∧
        stopNote E C false v
          = some (killExit st (min C.killRampSamples v.curPreparedSamples)) ∧
        (killExit st (min C.killRampSamples v.curPreparedSamples)).currentlyKillingVoice
          = false ∧
        ∀ c i : Nat,
          (killExit st (min C.killRampSamples v.curPreparedSamples)).overlap c i
            = if (i : Int) < min C.killRampSamples v.curPreparedSamples then
                st.block c i
                  * (1 + (i : ℚ)
                      * ((0 - 1)
                          / ((min C.killRampSamples v.curPreparedSamples : Int) : ℚ)))
              else 0) ∧
    (BetweenOps E C v → ∀ (out : Buf) (start : Nat) (n : Int),
      (v.isVoiceActive = false → renderNextBlock E C v out start n = some (v, out)) ∧
      (v.isVoiceActive = true →
        ∃ st, LoopReach E C (min n v.curPreparedSamples) (loopEntry E v n) st ∧
          st.pos = samplesProcessed v n ∧
          renderNextBlock E C v out start n
            = some (st.v, addToOutput out start (min n v.curPreparedSamples) st.block))) := by
  refine ⟨fun h => (betweenOps_publicInv E C v h).2.1, fun _ _ _ => rfl, ?_, ?_,
    fun p x => (parameterChanged_sameLifecycle E C p x v).currentlyKillingVoice,
    fun c x => (controllerMoved_sameLifecycle C c x v).currentlyKillingVoice,
    fun _ => rfl, fun numSamples st => subBlockResult_currentlyKillingVoice E C numSamples st,
    fun out start n res hres => render_clears_killing E C v out start n res hres,
    ?_, ?_, ?_, ?_⟩
  · intro w hw
    rw [stopNote_tailOff] at hw
    simp only [Option.some.injEq] at hw
    subst hw
    rfl
  · intro hg w hw
    unfold stopNote at hw
    rw [stopNoteCore_skip E C _ v hg] at hw
    simp only [Option.some.injEq] at hw
    subst hw
    rfl
  · intro hr hal n
    obtain ⟨res, hres⟩ := renderNextBlock_total E C (killEntry v) Buf.silence 0 n
      (reachable_lfoCounterOk E C v hr) (scratchOk_of_allocated hal)
    exact ⟨res, hres, render_clears_killing E C _ _ _ _ res hres⟩
  · intro hr hg out start n
    obtain ⟨st, hP, hpos, hk, hres⟩ := render_exit_state E C v out start n hg
      (reachable_lfoCounterOk E C v hr) (reachable_scratchOk E C v hr)
    refine ⟨st, hP, hpos, ?_⟩
    rw [hres]
    unfold renderExit
    rw [hk]
  · intro hr hg hal
    obtain ⟨st, hP, hpos, _, hres⟩ := stopNote_kill_exit E C v
      (reachable_lfoCounterOk E C v hr) hal hg
    refine ⟨st, hP, hpos, hres, rfl, fun c i => ?_⟩
    show (applyKillRamp st.v
        (addToOutput Buf.silence 0 (min C.killRampSamples v.curPreparedSamples) st.block) 0
        (min C.killRampSamples v.curPreparedSamples)).2 c i = _
    rw [applyKillRamp_block, addToOutput_silence]
    split_ifs <;> rfl
  · intro h out start n
    have hinv := betweenOps_publicInv E C v h
    have hr := betweenOps_reachable E C v h
    refine ⟨fun ha => ?_, fun ha => ?_⟩
    · rw [renderNextBlock_eq]
      exact renderCore_skip E C _ v out start n ⟨hinv.2.1, ha⟩
    · obtain ⟨st, hP, hpos, hk, hres⟩ := render_exit_state E C v out start n
        (fun hh => by rw [ha] at hh; exact absurd hh.2 (by decide))
        hinv.1 (reachable_scratchOk E C v hr)
      refine ⟨st, hP, hpos, ?_⟩
      rw [hres]
      unfold renderExit
      rw [if_neg (by rw [hk, hinv.2.1]; decide)]

/-- Witness of C25: the sounding example voice is killed; the state `stopNote` returns has
the killing flag clear. -/
theorem killing_flag_clear_on_return_witness :
    ∃ w, stopNote (demoExt 0 1) (demoConstants 4 4) false
        (demoSounding (demoExt 0 1) (demoConstants 4 4)) = some w ∧
      w.currentlyKillingVoice = false := by
  obtain ⟨st, _, _, hs, hk, _⟩ :=
    (killing_flag_clear_on_return (demoExt 0 1) (demoConstants 4 4)
      (demoSounding (demoExt 0 1) (demoConstants 4 4))).2.2.2.2.2.2.2.2.2.2.2.1
      (betweenOps_reachable _ _ _ (demoSounding_betweenOps _ _))
      ⟨demoSounding_sampleRate 0 1 4 4, rfl⟩ rfl
  exact ⟨_, hs, hk⟩

/-- C26, amended. A render call on a voice that has no current note and whose killing flag
is clear returns the voice and the output buffer as they were, so that the overlap cursor,
the LFO counter and the Active-Kill-Set are unchanged, and so does every sequence of render
calls. A `stopNote (_, false)` issued between public operations returns (on a prepared
voice) and what it returns is such a voice: after
a forced kill every sequence of render calls leaves the voice as `stopNote` returned it,
with the overlap cursor at 0 when the kill path was taken and, when the kill window was
closed before the kill (cursor `-1`), with the voice id in the Active-Kill-Set, until
`startNote` makes the voice active again. -/
theorem idle_render_is_noop (E : Ext X) (C : Constants) (v : Voice X) :
    (v.isVoiceActive = false → v.currentlyKillingVoice = false →
      (∀ (out : Buf) (start : Nat) (n : Int),
        renderNextBlock E C v out start n = some (v, out)) ∧
      (∀ calls : List RenderCall, renderCalls E C calls v = some (v, 0))) ∧
    (BetweenOps E C v → ∀ w, stopNote E C false v = some w →
      w.isVoiceActive = false ∧ w.currentlyKillingVoice = false ∧
      (v.sampleRate ≠ 0 ∧ v.justDoneReleaseEnvelope = false → w.overlapIndex = 0) ∧
      (v.sampleRate ≠ 0 ∧ v.justDoneReleaseEnvelope = false → v.overlapIndex = -1 →
        v.voiceId ∈ w.voicesBeingKilled) ∧
      (∀ (out : Buf) (start : Nat) (n : Int),
        renderNextBlock E C w out start n = some (w, out)) ∧
      (∀ calls : List RenderCall, renderCalls E C calls w = some (w, 0))) ∧
    (BetweenOps E C v → v.overlapAllocated = true →
      ∃ w, stopNote E C false v = some w) ∧
    (∀ (note : Int) (vel : ℚ) (pw : Int), 0 ≤ note →
      (startNote E C note vel pw { v with currentlyPlayingNote := note }).isVoiceActive
        = true) := by
  refine ⟨?_, ?_,
    fun hb hal => stopNote_total E C v false (betweenOps_publicInv E C v hb).1 hal, ?_⟩
  · intro ha hk
    refine ⟨fun out start n => ?_, renderCalls_idle E C v hk ha⟩
    rw [renderNextBlock_eq]
    exact renderCore_skip E C _ v out start n ⟨hk, ha⟩
  · intro hb w hw
    have hinv := betweenOps_publicInv E C v hb
    have hpub := stopNote_publicInv E C v w false hinv hw
    have hact : w.isVoiceActive = false := by
      by_cases hg : v.sampleRate ≠ 0 ∧ v.justDoneReleaseEnvelope = false
      · obtain ⟨st, _, _, _, hres⟩ := stopNote_kill_of_some E C v w hinv.1 hg hw
          (fun _ => True) trivial (fun _ _ _ _ _ => trivial)
        subst hres
        rfl
      · unfold stopNote at hw
        rw [stopNoteCore_skip E C _ v hg] at hw
        simp only [Option.some.injEq] at hw
        subst hw
        rfl
    refine ⟨hact, hpub.2.1, ?_, ?_, fun out start n => ?_,
      renderCalls_idle E C w hpub.2.1 hact⟩
    · intro hg
      obtain ⟨st, _, _, _, hres⟩ := stopNote_kill_of_some E C v w hinv.1 hg hw
        (fun _ => True) trivial (fun _ _ _ _ _ => trivial)
      subst hres
      rfl
    · intro hg hidx
      rw [(forcedKill_set E C v w hinv.1 hg hidx hw).2]
      exact Finset.mem_insert_self _ _
    · rw [renderNextBlock_eq]
      exact renderCore_skip E C _ w out start n ⟨hpub.2.1, hact⟩
  · intro note vel pw hn
    show decide (0 ≤ note) = true
    exact decide_eq_true hn

/-- Witness of C26 (amended): the sounding example voice is killed; two render calls (of 4
and of 1000 samples) leave it as it was, with the cursor at 0 and the id 7 in the
Active-Kill-Set. -/
theorem idle_render_is_noop_witness :
    ∃ w, stopNote (demoExt 0 1) (demoConstants 4 4) false
        (demoSounding (demoExt 0 1) (demoConstants 4 4)) = some w ∧
      w.overlapIndex = 0 ∧ (7 : Int) ∈ w.voicesBeingKilled ∧
      renderCalls (demoExt 0 1) (demoConstants 4 4)
        [{ outputBuffer := Buf.silence, startSample := 0, numSamples := 4 },
         { outputBuffer := Buf.silence, startSample := 0, numSamples := 1000 }] w
        = some (w, 0) := by
  obtain ⟨w, hw, _⟩ := demo_forcedKill_flags
  obtain ⟨_, _, h3, h4, _, h6⟩ :=
    (idle_render_is_noop (demoExt 0 1) (demoConstants 4 4)
      (demoSounding (demoExt 0 1) (demoConstants 4 4))).2.1
      (demoSounding_betweenOps _ _) w hw
  exact ⟨w, hw, h3 ⟨demoSounding_sampleRate 0 1 4 4, rfl⟩,
    h4 ⟨demoSounding_sampleRate 0 1 4 4, rfl⟩ rfl, h6 _⟩

/-- C26 as stated fails: the sounding example voice (id 7, kill ramp of 4 samples) is
killed with `stopNote (_, false)`, started again, and killed again before it has rendered a
sample, so inside its open kill window. The nested render of the second kill runs the open
window to its end, which erases the id; `stopNote` then arms the cursor at 0. The voice
returned has no current note and the killing flag clear, render calls on it change nothing,
and the id 7 is not in the Active-Kill-Set. -/
theorem idle_render_is_noop_counterexample :
    ∃ w1 w2, stopNote (demoExt 0 1) (demoConstants 4 4) false
        (demoSounding (demoExt 0 1) (demoConstants 4 4)) = some w1 ∧
      stopNote (demoExt 0 1) (demoConstants 4 4) false
        (startNote (demoExt 0 1) (demoConstants 4 4) 60 1 8192
          { w1 with currentlyPlayingNote := 60 }) = some w2 ∧
      BetweenOps (demoExt 0 1) (demoConstants 4 4) w2 ∧
      w2.isVoiceActive = false ∧ w2.currentlyKillingVoice = false ∧
      w2.overlapIndex = 0 ∧ w2.voiceId = 7 ∧ (7 : Int) ∉ w2.voicesBeingKilled ∧
      renderCalls (demoExt 0 1) (demoConstants 4 4)
        [{ outputBuffer := Buf.silence, startSample := 0, numSamples := 4 },
         { outputBuffer := Buf.silence, startSample := 0, numSamples := 1000 }] w2
        = some (w2, 0) := by
  obtain ⟨st, ⟨hr, hp, hi⟩, hok1, _, h1⟩ := stopNote_kill (demoExt 0 1) (demoConstants 4 4)
    (demoSounding (demoExt 0 1) (demoConstants 4 4)) (demoSounding_lfoCounterOk 0 1 4 4)
    rfl ⟨demoSounding_sampleRate 0 1 4 4, rfl⟩
    (fun s => s.v.sampleRate = 44100 ∧ s.v.curPreparedSamples = 512 ∧ s.v.voiceId = 7 ∧
      s.v.overlapAllocated = true)
    ⟨rfl, rfl, rfl, rfl⟩
    (fun s hs _ _ _ => ⟨by simpa using hs.1, by simpa using hs.2.1, by simpa using hs.2.2.1,
      by simpa using hs.2.2.2⟩)
  have hK : min (demoConstants 4 4).killRampSamples
      (demoSounding (demoExt 0 1) (demoConstants 4 4)).curPreparedSamples = 4 :=
    show min (4 : Int) 512 = 4 by decide
  rw [hK] at h1
  have hrate : (startNote (demoExt 0 1) (demoConstants 4 4) 60 1 8192
      { killExit st 4 with currentlyPlayingNote := 60 }).sampleRate ≠ 0 := by
    show st.v.sampleRate ≠ 0
    rw [hr]
    norm_num
  obtain ⟨w2, h2, hidx, hset, hnote, hkill⟩ := forcedKill_inside_window (demoExt 0 1)
    (demoConstants 4 4) (by decide)
    (startNote (demoExt 0 1) (demoConstants 4 4) 60 1 8192
      { killExit st 4 with currentlyPlayingNote := 60 })
    hok1 hi.2 ⟨hrate, rfl⟩
    ⟨show (0 : Int) ≤ 0 by decide, show (0 : Int) < 4 by decide⟩
    (show (4 : Int) ≤ st.v.curPreparedSamples by rw [hp]; decide)
  have hact : w2.isVoiceActive = false := by
    show decide (0 ≤ w2.currentlyPlayingNote) = false
    rw [hnote]
    decide
  have hid : w2.voiceId = 7 := by
    obtain ⟨s2, hid2, _, _, hres⟩ := stopNote_kill_of_some (demoExt 0 1) (demoConstants 4 4)
      (startNote (demoExt 0 1) (demoConstants 4 4) 60 1 8192
        { killExit st 4 with currentlyPlayingNote := 60 })
      w2 hok1 ⟨hrate, rfl⟩ h2 (fun s => s.v.voiceId = 7) hi.1
      (fun s hs _ _ _ => by simpa using hs)
    rw [hres]
    exact hid2
  refine ⟨_, w2, h1, h2, ?_, hact, hkill, hidx, hid, ?_, ?_⟩
  · exact BetweenOps.stopNote false
      (BetweenOps.hostStartVoice 60 1 8192
        (BetweenOps.stopNote false (demoSounding_betweenOps _ _) h1)) h2
  · have h7 : (startNote (demoExt 0 1) (demoConstants 4 4) 60 1 8192
        { killExit st 4 with currentlyPlayingNote := 60 }).voiceId = 7 := hi.1
    rw [← h7]
    exact hset
  · exact renderCalls_idle _ _ w2 hkill hact _

/-! ## The iterations of the sub-block loop -/

theorem beforeLfoStage_lfoUpdateCounter (E : Ext X) (C : Constants) (numSamples : Int)
    (st : LoopState X) :
    (beforeLfoStage E C numSamples st).lfoUpdateCounter = st.v.lfoUpdateCounter := by
  unfold beforeLfoStage killOverlapStage rampUpStage
  split_ifs <;> simp

theorem subBlockResult_lfoStage (E : Ext X) (C : Constants) (numSamples : Int)
    (st : LoopState X) :
    (subBlockResult E C numSamples st).v
      = cutoffStage C
          (lfoStage E C (beforeLfoStage E C numSamples st) (subBlockSize numSamples st))
          (subBlockHead E st.pos (subBlockSize numSamples st) st.v).filterEnvelope := rfl

/-- An iteration calls `updateLfo ()` once when `lfoTicks` holds and not at all
otherwise. -/
theorem subBlockResult_of_lfoTicks (E : Ext X) (C : Constants) (numSamples : Int)
    (st : LoopState X) :
    (lfoTicks numSamples st = true →
      (subBlockResult E C numSamples st).v
        = cutoffStage C
            (updateLfo E C
              { beforeLfoStage E C numSamples st with lfoUpdateCounter := lfoUpdateRate })
            (subBlockHead E st.pos (subBlockSize numSamples st) st.v).filterEnvelope) ∧
    (lfoTicks numSamples st = false →
      (subBlockResult E C numSamples st).v
        = cutoffStage C
            { beforeLfoStage E C numSamples st with
                lfoUpdateCounter := st.v.lfoUpdateCounter - subBlockSize numSamples st }
            (subBlockHead E st.pos (subBlockSize numSamples st) st.v).filterEnvelope) := by
  have hc := beforeLfoStage_lfoUpdateCounter E C numSamples st
  constructor
  · intro h
    have h0 : (beforeLfoStage E C numSamples st).lfoUpdateCounter
        - subBlockSize numSamples st = 0 := by
      rw [hc]
      exact of_decide_eq_true h
    rw [subBlockResult_lfoStage]
    unfold lfoStage
    rw [if_pos h0]
  · intro h
    have h0 : ¬ (beforeLfoStage E C numSamples st).lfoUpdateCounter
        - subBlockSize numSamples st = 0 := by
      rw [hc]
      exact of_decide_eq_false h
    rw [subBlockResult_lfoStage]
    unfold lfoStage
    rw [if_neg h0, hc]

/-- The sub-block loop returns; its sub-blocks hold between 1 and `lfoUpdateRate` samples
and cover the samples that are left; `updateLfo ()` is called once for every
`lfoUpdateRate` samples, counted from the last call. -/
theorem loopTrace_spec (E : Ext X) (C : Constants)
    (r : Voice X → Buf → Nat → Int → Option (Voice X × Buf)) (numSamples : Int) :
    ∀ (fuel : Nat) (st : LoopState X), LfoCounterOk st.v → ScratchOk st.v →
      (numSamples - st.pos).toNat ≤ fuel →
      ∃ st1, renderLoop E C (stopNoteCore E C r false) numSamples fuel st = some st1 ∧
        st1.pos = max st.pos numSamples ∧
        ((loopTrace E C numSamples fuel st).map (subBlockSize numSamples)).sum
          = max 0 (numSamples - st.pos) ∧
        (∀ s ∈ loopTrace E C numSamples fuel st,
          LfoCounterOk s.v ∧ 1 ≤ subBlockSize numSamples s ∧
          subBlockSize numSamples s ≤ lfoUpdateRate ∧ s.pos < numSamples) ∧
        ((lfoUpdatesOf numSamples (loopTrace E C numSamples fuel st) : Nat) : Int)
          = (lfoUpdateRate - st.v.lfoUpdateCounter + max 0 (numSamples - st.pos))
              / lfoUpdateRate ∧
        st1.v.lfoUpdateCounter
          = lfoUpdateRate
            - (lfoUpdateRate - st.v.lfoUpdateCounter + max 0 (numSamples - st.pos))
                % lfoUpdateRate := by
  intro fuel
  induction fuel with
  | zero =>
    intro st hok _ hf
    have hp : ¬ st.pos < numSamples := by omega
    have h1 := hok.1
    have h2 := hok.2
    unfold lfoUpdateRate at *
    refine ⟨st, by unfold renderLoop; rw [if_neg hp], by omega, ?_, ?_, ?_, ?_⟩
    · simp only [loopTrace, List.map_nil, List.sum_nil]; omega
    · intro s hs
      simp [loopTrace] at hs
    · simp only [loopTrace, lfoUpdatesOf, List.countP_nil]
      push_cast
      omega
    · omega
  | succ f ih =>
    intro st hok hA hf
    have h1 := hok.1
    have h2 := hok.2
    by_cases hp : st.pos < numSamples
    · have hsz := subBlockSize_pos hok hp
      have hle := @subBlockSize_le X numSamples st
      have hlc : subBlockSize numSamples st ≤ st.v.lfoUpdateCounter := by
        unfold subBlockSize; omega
      obtain ⟨st1, hl, hpos, hsum, hall, hticks, hcnt⟩ :=
        ih (subBlockResult E C numSamples st)
          (subBlockResult_lfoCounterOk E C numSamples st hok hp)
          (subBlockResult_scratchOk E C numSamples st hA)
          (by rw [subBlockResult_pos]; omega)
      rw [subBlockResult_pos] at hpos hsum hticks hcnt
      rw [subBlockResult_lfoUpdateCounter] at hticks hcnt
      have htrace : loopTrace E C numSamples (f + 1) st
          = st :: loopTrace E C numSamples f (subBlockResult E C numSamples st) := by
        simp only [loopTrace, if_pos hp]
      refine ⟨st1, ?_, by omega, ?_, ?_, ?_, ?_⟩
      · unfold renderLoop
        rw [if_pos hp, subBlock_stopNoteCore E C r numSamples st hA]
        exact hl
      · rw [htrace, List.map_cons, List.sum_cons, hsum]
        omega
      · intro s hs
        rw [htrace, List.mem_cons] at hs
        rcases hs with hs | hs
        · subst hs
          exact ⟨hok, hsz, by omega, hp⟩
        · exact hall s hs
      · rw [htrace]
        unfold lfoUpdatesOf at hticks ⊢
        rw [List.countP_cons]
        push_cast
        rw [hticks]
        unfold lfoTicks lfoUpdateRate at *
        by_cases hz : st.v.lfoUpdateCounter - subBlockSize numSamples st = 0
        · simp only [hz, decide_True, if_true, Nat.cast_one]
          omega
        · simp only [hz, decide_False, if_false, Nat.cast_zero]
          simp
          omega
      · rw [hcnt]
        unfold lfoUpdateRate at *
        split_ifs <;> omega
    · unfold lfoUpdateRate at *
      refine ⟨st, by unfold renderLoop; rw [if_neg hp], by omega, ?_, ?_, ?_, ?_⟩
      · simp only [loopTrace, if_neg hp, List.map_nil, List.sum_nil]; omega
      · intro s hs
        simp [loopTrace, hp] at hs
      · simp only [loopTrace, if_neg hp, lfoUpdatesOf, List.countP_nil]
        push_cast
        omega
      · omega

theorem samplesProcessed_nonneg (v : Voice X) (n : Int) : 0 ≤ samplesProcessed v n := by
  unfold samplesProcessed
  split_ifs
  · exact le_refl 0
  · exact le_max_left _ _

/-- A render call, its sub-blocks and its calls of `updateLfo ()`. -/
theorem render_trace_spec (E : Ext X) (C : Constants) (v : Voice X) (out : Buf)
    (start : Nat) (n : Int) (hok : LfoCounterOk v) (hA : ScratchOk v) :
    ∃ res, renderNextBlock E C v out start n = some res ∧ LfoCounterOk res.1 ∧
      ((renderTrace E C v n).map (subBlockSize (min n v.curPreparedSamples))).sum
        = samplesProcessed v n ∧
      (∀ s ∈ renderTrace E C v n,
        LfoCounterOk s.v ∧ 1 ≤ subBlockSize (min n v.curPreparedSamples) s ∧
        subBlockSize (min n v.curPreparedSamples) s ≤ lfoUpdateRate) ∧
      ((lfoUpdatesOf (min n v.curPreparedSamples) (renderTrace E C v n) : Nat) : Int)
        = (lfoUpdateRate - v.lfoUpdateCounter + samplesProcessed v n) / lfoUpdateRate ∧
      res.1.lfoUpdateCounter
        = lfoUpdateRate
          - (lfoUpdateRate - v.lfoUpdateCounter + samplesProcessed v n) % lfoUpdateRate := by
  have h1 := hok.1
  have h2 := hok.2
  rw [renderNextBlock_eq]
  by_cases hg : v.currentlyKillingVoice = false ∧ v.isVoiceActive = false
  · refine ⟨_, renderCore_skip E C _ v out start n hg, hok, ?_, ?_, ?_, ?_⟩
    · simp [renderTrace, samplesProcessed, hg]
    · intro s hs
      simp [renderTrace, hg] at hs
    · simp only [renderTrace, samplesProcessed, if_pos hg, lfoUpdatesOf, List.countP_nil]
      unfold lfoUpdateRate at *
      push_cast
      omega
    · simp only [samplesProcessed, if_pos hg]
      unfold lfoUpdateRate at *
      omega
  · obtain ⟨st1, hl, hpos, hsum, hall, hticks, hcnt⟩ := loopTrace_spec E C
      (renderNextBlockAt E C 1) (min n v.curPreparedSamples)
      (min n v.curPreparedSamples).toNat (loopEntry E v n) hok hA (by simp [loopEntry])
    have hsp : samplesProcessed v n = max 0 (min n v.curPreparedSamples) := by
      unfold samplesProcessed
      rw [if_neg hg]
    have hp0 : (loopEntry E v n).pos = 0 := rfl
    have hc0 : (loopEntry E v n).v.lfoUpdateCounter = v.lfoUpdateCounter := rfl
    rw [hp0, sub_zero] at hsum hticks hcnt
    rw [hc0] at hticks hcnt
    have htr : renderTrace E C v n
        = loopTrace E C (min n v.curPreparedSamples) (min n v.curPreparedSamples).toNat
            (loopEntry E v n) := by
      unfold renderTrace
      rw [if_neg hg]
    refine ⟨renderExit st1 out start (min n v.curPreparedSamples), ?_, ?_, ?_, ?_, ?_, ?_⟩
    · rw [renderCore_run E C _ v out start n hg, hl]
      rfl
    · rw [renderExit_fst]
      show 1 ≤ st1.v.lfoUpdateCounter ∧ st1.v.lfoUpdateCounter ≤ lfoUpdateRate
      rw [hcnt]
      unfold lfoUpdateRate at *
      omega
    · rw [htr, hsum, hsp]
    · intro s hs
      rw [htr] at hs
      obtain ⟨a, b, c, _⟩ := hall s hs
      exact ⟨a, b, c⟩
    · rw [htr, hticks, hsp]
    · rw [renderExit_fst, hsp]
      exact hcnt

/-- A sequence of render calls and its calls of `updateLfo ()`. -/
theorem renderCalls_lfo (E : Ext X) (C : Constants) :
    ∀ (calls : List RenderCall) (v : Voice X), LfoCounterOk v → ScratchOk v →
      ∃ w total, renderCalls E C calls v = some (w, total) ∧ 0 ≤ total ∧ LfoCounterOk w ∧
        ((renderCallsLfoUpdates E C calls v : Nat) : Int)
          = (lfoUpdateRate - v.lfoUpdateCounter + total) / lfoUpdateRate ∧
        w.lfoUpdateCounter
          = lfoUpdateRate - (lfoUpdateRate - v.lfoUpdateCounter + total) % lfoUpdateRate := by
  intro calls
  induction calls with
  | nil =>
    intro v hok _
    have h1 := hok.1
    have h2 := hok.2
    refine ⟨v, 0, rfl, le_refl 0, hok, ?_, ?_⟩
    · simp only [renderCallsLfoUpdates]
      unfold lfoUpdateRate at *
      push_cast
      omega
    · unfold lfoUpdateRate at *
      omega
  | cons call calls ih =>
    intro v hok hA
    have h1 := hok.1
    have h2 := hok.2
    obtain ⟨res, hr, hok1, _, _, hticks, hcnt⟩ := render_trace_spec E C v call.outputBuffer
      call.startSample call.numSamples hok hA
    obtain ⟨w, total, hw, ht0, hokw, hticks2, hcnt2⟩ := ih res.1 hok1
      (render_scratchOk E C v _ _ _ res hA hr)
    have hn := samplesProcessed_nonneg v call.numSamples
    refine ⟨w, samplesProcessed v call.numSamples + total, ?_, by omega, hokw, ?_, ?_⟩
    · unfold renderCalls
      rw [hr]
      dsimp only
      rw [hw]
    · unfold renderCallsLfoUpdates
      rw [hr]
      dsimp only
      push_cast
      rw [hticks, hticks2, hcnt]
      unfold lfoUpdateRate at *
      omega
    · rw [hcnt2, hcnt]
      unfold lfoUpdateRate at *
      omega

/-! ## The LFO update rate -/

/-- C22. `updateLfo ()` is called once per `lfoUpdateRate = 100` processed samples,
whatever the block sizes: starting from `lfoUpdateCounter = 100` (the overlap cursor being
idle or the scratch buffer allocated, as in every state the voice can be in), after any
sequence of render calls that processed `N` samples in total, `updateLfo ()` has been
called `N / 100` times (rounded down) and `lfoUpdateCounter = 100 - N % 100`; from any
counter `c` in `[1, 100]` the same holds with `N` counted from `100 - c`. An iteration of the
sub-block loop calls `updateLfo ()` once when the counter reaches 0 and not at all
otherwise. In every state the voice can be in the counter lies in `[1, 100]`, also between
the sub-blocks of every render call, whose sub-blocks hold between 1 and 100 samples. -/
theorem lfo_updated_once_per_rate (E : Ext X) (C : Constants) :
    lfoUpdateRate = 100 ∧
    (∀ (calls : List RenderCall) (v : Voice X), v.lfoUpdateCounter = lfoUpdateRate →
      ScratchOk v →
      ∃ w N, renderCalls E C calls v = some (w, N) ∧ 0 ≤ N ∧
        ((renderCallsLfoUpdates E C calls v : Nat) : Int) = N / lfoUpdateRate ∧
        w.lfoUpdateCounter = lfoUpdateRate - N % lfoUpdateRate) ∧
    (∀ (calls : List RenderCall) (v : Voice X), LfoCounterOk v → ScratchOk v →
      ∃ w N, renderCalls E C calls v = some (w, N) ∧ 0 ≤ N ∧
        ((renderCallsLfoUpdates E C calls v : Nat) : Int)
          = (lfoUpdateRate - v.lfoUpdateCounter + N) / lfoUpdateRate ∧
        w.lfoUpdateCounter
          = lfoUpdateRate - (lfoUpdateRate - v.lfoUpdateCounter + N) % lfoUpdateRate) ∧
    (∀ (numSamples : Int) (st : LoopState X),
      (lfoTicks numSamples st = true →
        (subBlockResult E C numSamples st).v
          = cutoffStage C
              (updateLfo E C
                { beforeLfoStage E C numSamples st with lfoUpdateCounter := lfoUpdateRate })
              (subBlockHead E st.pos (subBlockSize numSamples st) st.v).filterEnvelope) ∧
      (lfoTicks numSamples st = false →
        (subBlockResult E C numSamples st).v
          = cutoffStage C
              { beforeLfoStage E C numSamples st with
                  lfoUpdateCounter := st.v.lfoUpdateCounter - subBlockSize numSamples st }
              (subBlockHead E st.pos (subBlockSize numSamples st) st.v).filterEnvelope)) ∧
    (∀ v : Voice X, Reachable E C v →
      1 ≤ v.lfoUpdateCounter ∧ v.lfoUpdateCounter ≤ lfoUpdateRate ∧
      ∀ n : Int, ∀ s ∈ renderTrace E C v n,
        1 ≤ s.v.lfoUpdateCounter ∧ s.v.lfoUpdateCounter ≤ lfoUpdateRate ∧
        1 ≤ subBlockSize (min n v.curPreparedSamples) s ∧
        subBlockSize (min n v.curPreparedSamples) s ≤ lfoUpdateRate) := by
  refine ⟨rfl, ?_, ?_, fun numSamples st => subBlockResult_of_lfoTicks E C numSamples st, ?_⟩
  · intro calls v hv hA
    obtain ⟨w, N, h1, h2, _, h4, h5⟩ := renderCalls_lfo E C calls v
      ⟨by rw [hv]; decide, by rw [hv]⟩ hA
    refine ⟨w, N, h1, h2, ?_, ?_⟩
    · rw [h4, hv]
      simp
    · rw [h5, hv]
      simp
  · intro calls v hv hA
    obtain ⟨w, N, h1, h2, _, h4, h5⟩ := renderCalls_lfo E C calls v hv hA
    exact ⟨w, N, h1, h2, h4, h5⟩
  · intro v hv
    have hok := reachable_lfoCounterOk E C v hv
    refine ⟨hok.1, hok.2, ?_⟩
    intro n s hs
    obtain ⟨_, _, _, _, hall, _⟩ := render_trace_spec E C v Buf.silence 0 n hok
      (reachable_scratchOk E C v hv)
    obtain ⟨a, b, c⟩ := hall s hs
    exact ⟨a.1, a.2, b, c⟩

/-- Witness of C22: a render call of 250 samples on the sounding example voice (counter
100) calls `updateLfo ()` twice and leaves the counter at 50. -/
theorem lfo_updated_once_per_rate_witness :
    ∃ w, renderCalls (demoExt 0 1) (demoConstants 4 4)
        [{ outputBuffer := Buf.silence, startSample := 0, numSamples := 250 }]
        (demoSounding (demoExt 0 1) (demoConstants 4 4)) = some (w, 250) ∧
      renderCallsLfoUpdates (demoExt 0 1) (demoConstants 4 4)
        [{ outputBuffer := Buf.silence, startSample := 0, numSamples := 250 }]
        (demoSounding (demoExt 0 1) (demoConstants 4 4)) = 2 ∧
      w.lfoUpdateCounter = 50 := by
  obtain ⟨w, N, h1, _, h3, h4⟩ :=
    (lfo_updated_once_per_rate (demoExt 0 1) (demoConstants 4 4)).2.1
      [{ outputBuffer := Buf.silence, startSample := 0, numSamples := 250 }]
      (demoSounding (demoExt 0 1) (demoConstants 4 4)) rfl (demoSounding_scratchOk _ _)
  have hN : N = 250 := by
    obtain ⟨res, hr⟩ := renderNextBlock_total (demoExt 0 1) (demoConstants 4 4)
      (demoSounding (demoExt 0 1) (demoConstants 4 4)) Buf.silence 0 250
      (demoSounding_lfoCounterOk 0 1 4 4) (demoSounding_scratchOk _ _)
    simp only [renderCalls, hr, Option.some.injEq, Prod.mk.injEq] at h1
    rw [← h1.2]
    decide
  subst hN
  unfold lfoUpdateRate at h3 h4
  refine ⟨w, h1, ?_, ?_⟩
  · omega
  · omega

/-! ## Termination of render and `stopNote` -/

/-- The sub-block loop never uses the nested render of the `stopNote` it issues. -/
theorem renderLoop_stop_irrelevant (E : Ext X) (C : Constants)
    (r r1 : Voice X → Buf → Nat → Int → Option (Voice X × Buf)) (numSamples : Int) :
    ∀ (fuel : Nat) (st : LoopState X),
      renderLoop E C (stopNoteCore E C r false) numSamples fuel st
        = renderLoop E C (stopNoteCore E C r1 false) numSamples fuel st := by
  intro fuel
  induction fuel with
  | zero => intro st; rfl
  | succ f ih =>
    intro st
    unfold renderLoop
    split_ifs
    · rw [subBlock_eq E C r, subBlock_eq E C r1]
      split_ifs
      · rfl
      · exact ih _
    · rfl

/-- A render call never uses the nested render of the `stopNote` it issues. -/
theorem renderCore_stop_irrelevant (E : Ext X) (C : Constants)
    (r r1 : Voice X → Buf → Nat → Int → Option (Voice X × Buf)) (v : Voice X) (out : Buf)
    (start : Nat) (n : Int) :
    renderCore E C (stopNoteCore E C r false) v out start n
      = renderCore E C (stopNoteCore E C r1 false) v out start n := by
  by_cases hg : v.currentlyKillingVoice = false ∧ v.isVoiceActive = false
  · rw [renderCore_skip E C _ v out start n hg, renderCore_skip E C _ v out start n hg]
  · rw [renderCore_run E C _ v out start n hg, renderCore_run E C _ v out start n hg,
      renderLoop_stop_irrelevant E C r r1]

theorem renderNextBlockAt_depth (E : Ext X) (C : Constants) (d : Nat) :
    renderNextBlockAt E C (d + 1) = renderNextBlockAt E C 1 := by
  funext v out start n
  exact renderCore_stop_irrelevant E C _ _ v out start n

/-- C27, amended. Render returns in every state the voice can be in, and so does `stopNote`
once the voice has been prepared: `prepare` allocates the scratch buffer, and no operation
frees it. `stopNote (_, true)` and the skip path of `stopNote (_, false)` return in every
state; on a voice that was never prepared the kill path of `stopNote (_, false)`
(sample rate non-zero, release not just finished) dereferences the null scratch pointer and
does not return. For every `numSamples ≥ 0` the sub-block loop of a render call that gets
past the entry test takes sub-blocks of at least one sample whose sizes add up to exactly
`min (numSamples, curPreparedSamples)` (a call that returns at the entry test takes none).
The `stopNote (0.f, false)` issued from inside render finds `justDoneReleaseEnvelope` set
and returns without a nested render, whatever that render would do; so a render call never
reaches a nested render, the nesting `stopNote` → render → `stopNote` is the deepest there
is, and a greater nesting bound gives the same render and `stopNote`. -/
theorem render_and_stopNote_terminate (E : Ext X) (C : Constants) (v : Voice X)
    (hreach : Reachable E C v) :
    (∀ (out : Buf) (start : Nat) (n : Int),
      ∃ res, renderNextBlock E C v out start n = some res) ∧
    (v.overlapAllocated = true → ∀ b : Bool, ∃ w, stopNote E C b v = some w) ∧
    (∃ w, stopNote E C true v = some w) ∧
    (¬ (v.sampleRate ≠ 0 ∧ v.justDoneReleaseEnvelope = false) →
      ∃ w, stopNote E C false v = some w) ∧
    (v.sampleRate ≠ 0 ∧ v.justDoneReleaseEnvelope = false → v.overlapAllocated = false →
      stopNote E C false v = none) ∧
    ((∀ (sampleRate : ℚ) (maximumBlockSize numChannels : Nat),
        (prepare E sampleRate maximumBlockSize numChannels v).overlapAllocated = true) ∧
      (∀ (b : Bool) (w : Voice X), stopNote E C b v = some w →
        w.overlapAllocated = v.overlapAllocated) ∧
      (∀ (out : Buf) (start : Nat) (n : Int) (res : Voice X × Buf),
        renderNextBlock E C v out start n = some res →
        res.1.overlapAllocated = v.overlapAllocated) ∧
      (∀ (note : Int) (vel : ℚ) (pw : Int),
        (startNote E C note vel pw v).overlapAllocated = v.overlapAllocated) ∧
      (∀ (p : ParamId) (x : ℚ),
        (parameterChanged E C p x v).overlapAllocated = v.overlapAllocated) ∧
      (∀ c x : Int, (controllerMoved C c x v).overlapAllocated = v.overlapAllocated) ∧
      (∀ p : Int, (pitchWheelMoved E p v).overlapAllocated = v.overlapAllocated)) ∧
    (∀ n : Int, 0 ≤ n → ¬ (v.currentlyKillingVoice = false ∧ v.isVoiceActive = false) →
      ((renderTrace E C v n).map (subBlockSize (min n v.curPreparedSamples))).sum
        = min n v.curPreparedSamples ∧
      ∀ s ∈ renderTrace E C v n, 1 ≤ subBlockSize (min n v.curPreparedSamples) s) ∧
    (∀ n : Int, v.currentlyKillingVoice = false ∧ v.isVoiceActive = false →
      renderTrace E C v n = []) ∧
    (∀ (r : Voice X → Buf → Nat → Int → Option (Voice X × Buf)) (u : Voice X),
      releaseCheck E (stopNoteCore E C r false) u = some (afterRelease E u)) ∧
    (∀ (r : Voice X → Buf → Nat → Int → Option (Voice X × Buf)) (u : Voice X),
      u.justDoneReleaseEnvelope = true →
      stopNoteCore E C r false u
        = some { u with justDoneReleaseEnvelope := false, currentlyPlayingNote := -1 }) ∧
    (∀ (r : Voice X → Buf → Nat → Int → Option (Voice X × Buf)) (out : Buf) (start : Nat)
      (n : Int),
      renderCore E C (stopNoteCore E C r false) v out start n
        = renderNextBlock E C v out start n) ∧
    (∀ d : Nat, renderNextBlockAt E C (d + 1) = renderNextBlock E C ∧
      stopNoteCore E C (renderNextBlockAt E C (d + 1)) = stopNote E C) := by
  have hok := reachable_lfoCounterOk E C v hreach
  have hA := reachable_scratchOk E C v hreach
  have hp := reachable_prepared_nonneg E C v hreach
  refine ⟨fun out start n => renderNextBlock_total E C v out start n hok hA,
    fun hal b => stopNote_total E C v b hok hal, ⟨_, stopNote_tailOff E C v⟩,
    fun hg => ⟨_, stopNoteCore_skip E C _ v hg⟩,
    fun hg hal => stopNoteCore_null E C _ v hg hal,
    ⟨fun _ _ _ => rfl, fun b w hs => stopNote_overlapAllocated E C v w b hs,
      fun out start n res hres => render_overlapAllocated E C v out start n res hres,
      fun _ _ _ => rfl,
      fun p x => (parameterChanged_sameLifecycle E C p x v).overlapAllocated,
      fun c x => (controllerMoved_sameLifecycle C c x v).overlapAllocated,
      fun _ => rfl⟩,
    ?_, ?_, fun r u => releaseCheck_stopNoteCore E C r u, ?_, ?_, ?_⟩
  · intro n hn hg
    obtain ⟨_, _, _, hsum, hall, _⟩ := render_trace_spec E C v Buf.silence 0 n hok hA
    refine ⟨?_, fun s hs => (hall s hs).2.1⟩
    rw [hsum]
    unfold samplesProcessed
    rw [if_neg hg]
    omega
  · intro n hg
    unfold renderTrace
    rw [if_pos hg]
  · intro r u hu
    exact stopNoteCore_skip E C r u (fun hh => by rw [hu] at hh; exact absurd hh.2 (by decide))
  · intro r out start n
    rw [renderNextBlock_eq]
    exact renderCore_stop_irrelevant E C _ _ v out start n
  · intro d
    have h1 : renderNextBlockAt E C (d + 1) = renderNextBlock E C :=
      (renderNextBlockAt_depth E C d).trans (renderNextBlockAt_depth E C 1).symm
    refine ⟨h1, ?_⟩
    unfold stopNote
    rw [h1]
    rfl

/-- Witness of C27 (amended): a render call of 250 samples on the sounding example voice
returns, in sub-blocks whose sizes add up to 250, and `stopNote (_, false)` on that voice,
which is prepared, returns. -/
theorem render_and_stopNote_terminate_witness :
    (∃ res, renderNextBlock (demoExt 0 1) (demoConstants 4 4)
      (demoSounding (demoExt 0 1) (demoConstants 4 4)) Buf.silence 0 250 = some res) ∧
    (∃ w, stopNote (demoExt 0 1) (demoConstants 4 4) false
      (demoSounding (demoExt 0 1) (demoConstants 4 4)) = some w) ∧
    ((renderTrace (demoExt 0 1) (demoConstants 4 4)
        (demoSounding (demoExt 0 1) (demoConstants 4 4)) 250).map
      (subBlockSize
        (min 250 (demoSounding (demoExt 0 1) (demoConstants 4 4)).curPreparedSamples))).sum
      = 250 :=
  have h := render_and_stopNote_terminate (demoExt 0 1) (demoConstants 4 4)
    (demoSounding (demoExt 0 1) (demoConstants 4 4))
    (betweenOps_reachable _ _ _ (demoSounding_betweenOps _ _))
  ⟨h.1 Buf.silence 0 250, h.2.1 rfl false,
    (h.2.2.2.2.2.2.1 250 (by decide) (by decide)).1⟩

/-- C27 as stated fails: the example voice as constructed, with the sample rate 44.1 kHz the
host gives it and never prepared, is a state the voice can be in; its scratch pointer is
null, `stopNote (_, false)` takes the kill path, dereferences the pointer and does not
return. -/
theorem render_and_stopNote_terminate_counterexample :
    Reachable (demoExt 0 1) (demoConstants 4 4)
      (construct (demoExt 0 1) (demoConstants 4 4) 0 7 ∅ 44100) ∧
    BetweenOps (demoExt 0 1) (demoConstants 4 4)
      (construct (demoExt 0 1) (demoConstants 4 4) 0 7 ∅ 44100) ∧
    (construct (demoExt 0 1) (demoConstants 4 4) 0 7 ∅ 44100).overlapAllocated = false ∧
    (construct (demoExt 0 1) (demoConstants 4 4) 0 7 ∅ 44100).sampleRate = 44100 ∧
    stopNote (demoExt 0 1) (demoConstants 4 4) false
      (construct (demoExt 0 1) (demoConstants 4 4) 0 7 ∅ 44100) = none ∧
    ¬ ∃ w, stopNote (demoExt 0 1) (demoConstants 4 4) false
      (construct (demoExt 0 1) (demoConstants 4 4) 0 7 ∅ 44100) = some w := by
  have hn : stopNote (demoExt 0 1) (demoConstants 4 4) false
      (construct (demoExt 0 1) (demoConstants 4 4) 0 7 ∅ 44100) = none :=
    stopNoteCore_null (demoExt 0 1) (demoConstants 4 4) _
      (construct (demoExt 0 1) (demoConstants 4 4) 0 7 ∅ 44100)
      ⟨show (44100 : ℚ) ≠ 0 by norm_num, rfl⟩ rfl
  refine ⟨Reachable.construct 0 7 ∅ 44100, BetweenOps.construct 0 7 ∅ 44100, rfl, rfl, hn, ?_⟩
  rintro ⟨w, hw⟩
  rw [hn] at hw
  exact absurd hw (by simp)

/-! ## The kill overlap, sample by sample -/

theorem mixedSamples_eq (E : Ext X) (C : Constants) (numSamples : Int) (st : LoopState X)
    (c i : Nat) :
    mixedSamples E C numSamples st c i
      = freshSamples E C numSamples st c i
        + killTail C st.v (subBlockSize numSamples st) c i := by
  unfold mixedSamples freshSamples rampUpStage
  rw [subBlockTail_block]
  congr 1
  apply killTail_congr <;> simp

/-- The working block holds the samples of the sub-block at the positions of the
sub-block. -/
theorem subBlockResult_block (E : Ext X) (C : Constants) (numSamples : Int)
    (st : LoopState X) (c i : Nat) (h0 : 0 ≤ st.pos)
    (hi : (i : Int) < subBlockSize numSamples st) :
    (subBlockResult E C numSamples st).block c (st.pos.toNat + i)
      = mixedSamples E C numSamples st c i := by
  show writeSubBlock st _ _ c (st.pos.toNat + i) = _
  unfold writeSubBlock
  rw [if_pos (by push_cast; omega)]
  simp only [Nat.add_sub_cancel_left]
  rfl

theorem render_overlap (E : Ext X) (C : Constants) (v : Voice X) (out : Buf)
    (start : Nat) (n : Int) (res : Voice X × Buf)
    (hres : renderNextBlock E C v out start n = some res) : res.1.overlap = v.overlap := by
  rw [renderNextBlock_eq] at hres
  by_cases hg : v.currentlyKillingVoice = false ∧ v.isVoiceActive = false
  · rw [renderCore_skip E C _ v out start n hg] at hres
    simp only [Option.some.injEq] at hres
    subst hres
    rfl
  · obtain ⟨st, hP, hr⟩ := renderCore_of_some E C _ v out start n res hg hres
      (fun s => s.v.overlap = v.overlap) rfl
      (fun s hs _ => (subBlockResult_overlap E C _ s).trans hs)
    rw [hr, renderExit_fst]
    exact hP

theorem renderCalls_killWindow_overlap (E : Ext X) (C : Constants) (vId : Int) :
    ∀ (calls : List RenderCall) (T : Int) (v : Voice X), KillWindow C vId T v →
      ∃ w total, renderCalls E C calls v = some (w, total) ∧ 0 ≤ total ∧
        KillWindow C vId (T + total) w ∧ w.overlap = v.overlap := by
  intro calls
  induction calls with
  | nil => intro T v h; exact ⟨v, 0, rfl, le_refl 0, by simpa using h, rfl⟩
  | cons call calls ih =>
    intro T v h
    obtain ⟨res, hr, hres⟩ := render_killWindow E C vId T v call.outputBuffer call.startSample
      call.numSamples h
    obtain ⟨w, total, hw, ht, hk, ho⟩ := ih _ res.1 hres
    have hn := samplesProcessed_nonneg v call.numSamples
    refine ⟨w, samplesProcessed v call.numSamples + total, ?_, by omega, ?_, ?_⟩
    · unfold renderCalls
      rw [hr]
      dsimp only
      rw [hw]
    · rw [← add_assoc]
      exact hk
    · rw [ho]
      exact render_overlap E C v _ _ _ res hr

theorem killTail_of_cursor (C : Constants) (v : Voice X) (n : Int) (c i : Nat)
    (h : 0 ≤ v.overlapIndex) :
    killTail C v n c i
      = if (i : Int) < min (C.killRampSamples - v.overlapIndex) n then
          v.overlap c (v.overlapIndex + (i : Int)).toNat
        else 0 := by
  unfold killTail
  by_cases hi : (i : Int) < min (C.killRampSamples - v.overlapIndex) n
  · rw [if_pos ⟨by omega, hi⟩, if_pos hi]
  · rw [if_neg (fun hh => hi hh.2), if_neg hi]

theorem killTail_of_window (C : Constants) (vId T : Int) (v : Voice X) (n : Int) (c i : Nat)
    (h : KillWindow C vId T v) (hi : (i : Int) < n) :
    killTail C v n c i
      = if T + (i : Int) < C.killRampSamples then v.overlap c (T + (i : Int)).toNat
        else 0 := by
  obtain ⟨_, _, hT, h1, h2⟩ := h
  unfold killTail
  by_cases hlt : T < C.killRampSamples
  · obtain ⟨hidx, _⟩ := h1 hlt
    rw [hidx]
    by_cases hti : T + (i : Int) < C.killRampSamples
    · rw [if_pos ⟨by omega, by omega⟩, if_pos hti]
    · rw [if_neg (fun hh => hti (by omega)), if_neg hti]
  · obtain ⟨hidx, _⟩ := h2 (by omega)
    rw [hidx, if_neg (fun hh => absurd hh.1 (by decide)), if_neg (by omega)]

/-- C21. With `killRampSamples > 0`. (1) `processKillOverlap` on a sub-block of `n ≥ 1`
samples with the cursor at `c ≥ 0`: with `m = min (killRampSamples - c, n)`, sample `i < m`
of every channel becomes what it was plus `scratch[c + i]`, the samples `i ≥ m` are left,
the scratch is not changed and the cursor becomes `c + m`, or `-1` when
`c + m = killRampSamples`. (2) In an iteration of the sub-block loop the samples it is
applied to are those after the effect chain, the amplitude envelope and the ramp-up, and
the result is what the working block holds at the positions of the sub-block. (3) Over the
sub-blocks and render calls that follow the opening of the kill window, the sample
processed as number `T + i` receives `scratch[T + i]` while `T + i < killRampSamples` and
nothing afterwards, the scratch staying as it is: every scratch sample is added once, in
order. (4) The window opens at `T = 0` when a prepared voice (scratch buffer allocated)
killed with an idle cursor is started again. -/
theorem killOverlap_adds_scratch_in_order (E : Ext X) (C : Constants)
    (hK : 0 < C.killRampSamples) :
    (∀ (v : Voice X) (blk : Buf) (n : Int), Reachable E C v → 0 ≤ v.overlapIndex → 1 ≤ n →
      (∀ ch i : Nat,
        (processKillOverlap C v blk n).2 ch i
          = if (i : Int) < min (C.killRampSamples - v.overlapIndex) n then
              blk ch i + v.overlap ch (v.overlapIndex + (i : Int)).toNat
            else blk ch i) ∧
      (processKillOverlap C v blk n).1.overlapIndex
        = (if v.overlapIndex + min (C.killRampSamples - v.overlapIndex) n
              = C.killRampSamples then -1
           else v.overlapIndex + min (C.killRampSamples - v.overlapIndex) n) ∧
      v.overlapIndex + min (C.killRampSamples - v.overlapIndex) n ≤ C.killRampSamples ∧
      (processKillOverlap C v blk n).1.overlap = v.overlap) ∧
    (∀ (numSamples : Int) (st : LoopState X), Reachable E C st.v → st.pos < numSamples →
      0 ≤ st.v.overlapIndex →
      (∀ ch i : Nat,
        mixedSamples E C numSamples st ch i
          = freshSamples E C numSamples st ch i
            + (if (i : Int) < min (C.killRampSamples - st.v.overlapIndex)
                  (subBlockSize numSamples st) then
                st.v.overlap ch (st.v.overlapIndex + (i : Int)).toNat
              else 0)) ∧
      (0 ≤ st.pos → ∀ ch i : Nat, (i : Int) < subBlockSize numSamples st →
        (subBlockResult E C numSamples st).block ch (st.pos.toNat + i)
          = mixedSamples E C numSamples st ch i) ∧
      (subBlockResult E C numSamples st).v.overlapIndex
        = (if st.v.overlapIndex
              + min (C.killRampSamples - st.v.overlapIndex) (subBlockSize numSamples st)
              = C.killRampSamples then -1
           else st.v.overlapIndex
              + min (C.killRampSamples - st.v.overlapIndex) (subBlockSize numSamples st))) ∧
    (∀ (vId T : Int) (numSamples : Int) (st : LoopState X), KillWindow C vId T st.v →
      st.pos < numSamples →
      (∀ ch i : Nat, (i : Int) < subBlockSize numSamples st →
        mixedSamples E C numSamples st ch i
          = freshSamples E C numSamples st ch i
            + (if T + (i : Int) < C.killRampSamples then
                st.v.overlap ch (T + (i : Int)).toNat
              else 0)) ∧
      KillWindow C vId (T + subBlockSize numSamples st)
        (subBlockResult E C numSamples st).v ∧
      (subBlockResult E C numSamples st).v.overlap = st.v.overlap) ∧
    (∀ (vId T : Int) (calls : List RenderCall) (v : Voice X), KillWindow C vId T v →
      ∃ w N, renderCalls E C calls v = some (w, N) ∧ 0 ≤ N ∧
        KillWindow C vId (T + N) w ∧ w.overlap = v.overlap) ∧
    (∀ v : Voice X, Reachable E C v → v.overlapAllocated = true →
      v.sampleRate ≠ 0 ∧ v.justDoneReleaseEnvelope = false → v.overlapIndex = -1 →
      ∃ w, stopNote E C false v = some w ∧
        ∀ (note : Int) (vel : ℚ) (pw : Int),
          KillWindow C v.voiceId 0
            (startNote E C note vel pw { w with currentlyPlayingNote := note })) := by
  refine ⟨?_, ?_, ?_, ?_, ?_⟩
  · intro v blk n hr h0 hn
    have hc := (reachable_cursorInv E C hK v hr).2
    have hlt : v.overlapIndex < C.killRampSamples := by
      rcases hc with h | h
      · omega
      · exact h.2
    refine ⟨fun ch i => processKillOverlap_block C v blk n ch i, ?_, by omega, by simp⟩
    rw [processKillOverlap_overlapIndex]
    split_ifs <;> first | rfl | omega
  · intro numSamples st hr hp h0
    have hc := (reachable_cursorInv E C hK st.v hr).2
    refine ⟨?_, fun hpos ch i hi => subBlockResult_block E C numSamples st ch i hpos hi, ?_⟩
    · intro ch i
      rw [mixedSamples_eq, killTail_of_cursor C st.v _ ch i h0]
    · rw [subBlockResult_overlapIndex]
      unfold overlapIndexAfter
      split_ifs <;> first | rfl | omega
  · intro vId T numSamples st hw hp
    refine ⟨?_, subBlockResult_killWindow E C vId T numSamples st hw hp,
      subBlockResult_overlap E C numSamples st⟩
    intro ch i hi
    rw [mixedSamples_eq, killTail_of_window C vId T st.v _ ch i hw hi]
  · intro vId T calls v hw
    exact renderCalls_killWindow_overlap E C vId calls T v hw
  · intro v hr hal hg hidx
    obtain ⟨w, hs, hw, _⟩ := forcedKill_window E C hK v (reachable_lfoCounterOk E C v hr)
      hal hg hidx
    exact ⟨w, hs, fun note vel pw => hw⟩

/-- Witness of C21: the sounding example voice is killed (kill ramp of 4 samples) and
started again; the kill window is open at `T = 0`, and render calls of 3 and of 5 samples
advance it by the `N` samples they process and leave the scratch as it is. -/
theorem killOverlap_adds_scratch_in_order_witness :
    ∃ w, stopNote (demoExt 0 1) (demoConstants 4 4) false
        (demoSounding (demoExt 0 1) (demoConstants 4 4)) = some w ∧
      KillWindow (demoConstants 4 4) 7 0
        (startNote (demoExt 0 1) (demoConstants 4 4) 60 1 8192
          { w with currentlyPlayingNote := 60 }) ∧
      ∃ u N, renderCalls (demoExt 0 1) (demoConstants 4 4)
          [{ outputBuffer := Buf.silence, startSample := 0, numSamples := 3 },
           { outputBuffer := Buf.silence, startSample := 0, numSamples := 5 }]
          (startNote (demoExt 0 1) (demoConstants 4 4) 60 1 8192
            { w with currentlyPlayingNote := 60 }) = some (u, N) ∧
        KillWindow (demoConstants 4 4) 7 (0 + N) u ∧ u.overlap = w.overlap := by
  have h := killOverlap_adds_scratch_in_order (demoExt 0 1) (demoConstants 4 4) (by decide)
  obtain ⟨w, hs, hw⟩ := h.2.2.2.2 (demoSounding (demoExt 0 1) (demoConstants 4 4))
    (betweenOps_reachable _ _ _ (demoSounding_betweenOps _ _)) rfl
    ⟨demoSounding_sampleRate 0 1 4 4, rfl⟩ rfl
  obtain ⟨u, N, hc, _, hk, ho⟩ := h.2.2.2.1 7 0
    [{ outputBuffer := Buf.silence, startSample := 0, numSamples := 3 },
     { outputBuffer := Buf.silence, startSample := 0, numSamples := 5 }]
    _ (hw 60 1 8192)
  exact ⟨w, hs, hw 60 1 8192, u, N, hc, hk, ho⟩

/-! ## The LFO shape functions -/

theorem lfoRandom_cases {R : Type} (nextFloat : R → R × ℚ) (s : RandomLfo R) (x : ℚ) :
    (decide (x > 0) ≠ s.valueWasBig →
      lfoRandom nextFloat s x
        = ({ rng := (nextFloat s.rng).1, randomValue := (nextFloat s.rng).2,
             valueWasBig := decide (x > 0), draws := s.draws + 1 },
            (nextFloat s.rng).2)) ∧
    (decide (x > 0) = s.valueWasBig → lfoRandom nextFloat s x = (s, s.randomValue)) := by
  unfold lfoRandom
  constructor
  · intro h
    by_cases hx : x > 0
    · have hb : s.valueWasBig = false := by
        cases hv : s.valueWasBig
        · rfl
        · rw [hv] at h; simp [hx] at h
      rw [if_neg (fun hh => absurd hh.1 (not_le.mpr hx)), if_pos ⟨hx, hb⟩]
      simp [hx]
    · have hb : s.valueWasBig = true := by
        cases hv : s.valueWasBig
        · rw [hv] at h; simp [hx] at h
        · rfl
      rw [if_pos ⟨not_lt.mp hx, hb⟩]
      simp [hx]
  · intro h
    by_cases hx : x > 0
    · have hb : s.valueWasBig = true := by rw [← h]; simp [hx]
      rw [if_neg (fun hh => absurd hh.1 (not_le.mpr hx)),
        if_neg (fun hh => by rw [hb] at hh; exact absurd hh.2 (by decide))]
    · have hb : s.valueWasBig = false := by rw [← h]; simp [hx]
      rw [if_neg (fun hh => by rw [hb] at hh; exact absurd hh.2 (by decide)),
        if_neg (fun hh => hx hh.1)]

theorem lfoRandom_flag {R : Type} (nextFloat : R → R × ℚ) (s : RandomLfo R) (x : ℚ) :
    (lfoRandom nextFloat s x).1.valueWasBig = decide (x > 0) := by
  by_cases h : decide (x > 0) = s.valueWasBig
  · rw [(lfoRandom_cases nextFloat s x).2 h]
    exact h.symm
  · rw [(lfoRandom_cases nextFloat s x).1 h]

theorem lfoRandom_value {R : Type} (nextFloat : R → R × ℚ) (s : RandomLfo R) (x : ℚ) :
    (lfoRandom nextFloat s x).2 = (lfoRandom nextFloat s x).1.randomValue := by
  by_cases h : decide (x > 0) = s.valueWasBig
  · rw [(lfoRandom_cases nextFloat s x).2 h]
  · rw [(lfoRandom_cases nextFloat s x).1 h]

theorem lfoRandom_draws {R : Type} (nextFloat : R → R × ℚ) (s : RandomLfo R) (x : ℚ) :
    (lfoRandom nextFloat s x).1.draws
      = s.draws + (if decide (x > 0) = s.valueWasBig then 0 else 1) := by
  by_cases h : decide (x > 0) = s.valueWasBig
  · rw [(lfoRandom_cases nextFloat s x).2 h, if_pos h]
    rfl
  · rw [(lfoRandom_cases nextFloat s x).1 h, if_neg h]

theorem lfoRandom_heldInUnit {R : Type} (nextFloat : R → R × ℚ)
    (hrng : ∀ r, 0 ≤ (nextFloat r).2 ∧ (nextFloat r).2 < 1) (s : RandomLfo R) (x : ℚ)
    (h : HeldInUnit s) : HeldInUnit (lfoRandom nextFloat s x).1 := by
  by_cases hc : decide (x > 0) = s.valueWasBig
  · rw [(lfoRandom_cases nextFloat s x).2 hc]
    exact h
  · rw [(lfoRandom_cases nextFloat s x).1 hc]
    exact hrng _

theorem lfoRandomRun_spec {R : Type} (nextFloat : R → R × ℚ)
    (hrng : ∀ r, 0 ≤ (nextFloat r).2 ∧ (nextFloat r).2 < 1) :
    ∀ (xs : List ℚ) (s : RandomLfo R), HeldInUnit s →
      HeldInUnit (lfoRandomRun nextFloat xs s).1 ∧
      ∀ y ∈ (lfoRandomRun nextFloat xs s).2, 0 ≤ y ∧ y < 1 := by
  intro xs
  induction xs with
  | nil => intro s h; exact ⟨h, fun y hy => by simp [lfoRandomRun] at hy⟩
  | cons x xs ih =>
    intro s h
    have h1 := lfoRandom_heldInUnit nextFloat hrng s x h
    obtain ⟨h2, h3⟩ := ih _ h1
    refine ⟨h2, ?_⟩
    intro y hy
    simp only [lfoRandomRun, List.mem_cons] at hy
    rcases hy with hy | hy
    · rw [hy, lfoRandom_value]
      exact h1
    · exact h3 y hy

theorem lfoRandomRun_draws {R : Type} (nextFloat : R → R × ℚ) :
    ∀ (xs : List ℚ) (s : RandomLfo R),
      (lfoRandomRun nextFloat xs s).1.draws
        = s.draws + signClassChanges s.valueWasBig xs := by
  intro xs
  induction xs with
  | nil => intro s; rfl
  | cons x xs ih =>
    intro s
    simp only [lfoRandomRun, signClassChanges]
    rw [ih, lfoRandom_draws, lfoRandom_flag]
    omega

theorem lfoSaw_eq (pi x : ℚ) : lfoSaw pi x = (x + pi) / (2 * pi) := by
  unfold lfoSaw jmap
  rw [zero_add, sub_zero, one_mul, sub_neg_eq_add, sub_neg_eq_add, two_mul]

theorem demoNextFloat_range (r : Nat) :
    0 ≤ (demoNextFloat r).2 ∧ (demoNextFloat r).2 < 1 := by
  unfold demoNextFloat
  dsimp only
  have h : r % 4 < 4 := Nat.mod_lt _ (by decide)
  have hq : ((r % 4 : Nat) : ℚ) < 4 := by exact_mod_cast h
  constructor
  · positivity
  · rw [div_lt_one (by norm_num)]
    exact hq

/-- C23. With `std::sin` in `[-1, 1]`, `pi > 0` and `nextFloat` in `[0, 1)`: for every
phase `x` in `[-pi, pi]` each of the four functions that `setLfoShape` installs returns a
value in `[0, 1]`. Triangle gives `(sin x + 1) / 2`, saw gives `(x + pi) / (2 pi)`, square
gives 0 for `x < 0` and 1 otherwise, and random returns its held value, which is 0
initially and from then on the last draw of `nextFloat`, so that it lies in `[0, 1)` after
any sequence of evaluations. An unrecognised shape installs no function. -/
theorem lfo_shapes_in_unit_interval {R : Type} (sin : ℚ → ℚ) (pi : ℚ)
    (nextFloat : R → R × ℚ) (hsin : ∀ x, -1 ≤ sin x ∧ sin x ≤ 1) (hpi : 0 < pi)
    (hrng : ∀ r, 0 ≤ (nextFloat r).2 ∧ (nextFloat r).2 < 1)
    (x : ℚ) (hlo : -pi ≤ x) (hhi : x ≤ pi) :
    (lfoTriangle sin x = (sin x + 1) / 2 ∧
      0 ≤ lfoTriangle sin x ∧ lfoTriangle sin x ≤ 1) ∧
    (lfoSaw pi x = (x + pi) / (2 * pi) ∧ 0 ≤ lfoSaw pi x ∧ lfoSaw pi x ≤ 1) ∧
    (lfoSquare x = (if x < 0 then 0 else 1) ∧ 0 ≤ lfoSquare x ∧ lfoSquare x ≤ 1) ∧
    (∀ rng : R, (RandomLfo.initial rng).randomValue = 0 ∧
      HeldInUnit (RandomLfo.initial rng)) ∧
    (∀ s : RandomLfo R, HeldInUnit s →
      (lfoRandom nextFloat s x).2 = (lfoRandom nextFloat s x).1.randomValue ∧
      ((lfoRandom nextFloat s x).2 = s.randomValue ∨
        (lfoRandom nextFloat s x).2 = (nextFloat s.rng).2) ∧
      0 ≤ (lfoRandom nextFloat s x).2 ∧ (lfoRandom nextFloat s x).2 < 1) ∧
    (∀ (rng : R) (xs : List ℚ),
      ∀ y ∈ (lfoRandomRun nextFloat xs (RandomLfo.initial rng)).2, 0 ≤ y ∧ y < 1) ∧
    (∀ (shape : LfoShape) (f : RandomLfo R → ℚ → RandomLfo R × ℚ),
      lfoShapeFunction sin pi nextFloat shape = some f →
      ∀ s : RandomLfo R, HeldInUnit s →
        0 ≤ (f s x).2 ∧ (f s x).2 ≤ 1 ∧ HeldInUnit (f s x).1) ∧
    (∀ raw : Int, lfoShapeFunction sin pi nextFloat (LfoShape.unrecognised raw) = none) := by
  have htri : 0 ≤ lfoTriangle sin x ∧ lfoTriangle sin x ≤ 1 := by
    unfold lfoTriangle
    obtain ⟨h1, h2⟩ := hsin x
    constructor
    · apply div_nonneg <;> linarith
    · rw [div_le_one (by norm_num)]
      linarith
  have hsaw : 0 ≤ lfoSaw pi x ∧ lfoSaw pi x ≤ 1 := by
    rw [lfoSaw_eq]
    constructor
    · apply div_nonneg <;> linarith
    · rw [div_le_one (by linarith)]
      linarith
  have hsq : 0 ≤ lfoSquare x ∧ lfoSquare x ≤ 1 := by
    unfold lfoSquare
    split_ifs <;> norm_num
  have hinit : ∀ rng : R, HeldInUnit (RandomLfo.initial rng) := by
    intro rng
    exact ⟨le_refl 0, show (0 : ℚ) < 1 by norm_num⟩
  have hrand : ∀ s : RandomLfo R, HeldInUnit s →
      0 ≤ (lfoRandom nextFloat s x).2 ∧ (lfoRandom nextFloat s x).2 < 1 := by
    intro s hs
    rw [lfoRandom_value]
    exact lfoRandom_heldInUnit nextFloat hrng s x hs
  refine ⟨⟨rfl, htri⟩, ⟨lfoSaw_eq pi x, hsaw⟩, ⟨rfl, hsq⟩, fun rng => ⟨rfl, hinit rng⟩,
    ?_, ?_, ?_, fun _ => rfl⟩
  · intro s hs
    refine ⟨lfoRandom_value nextFloat s x, ?_, hrand s hs⟩
    by_cases hc : decide (x > 0) = s.valueWasBig
    · left
      rw [(lfoRandom_cases nextFloat s x).2 hc]
    · right
      rw [(lfoRandom_cases nextFloat s x).1 hc]
  · intro rng xs
    exact (lfoRandomRun_spec nextFloat hrng xs _ (hinit rng)).2
  · intro shape f hf s hs
    cases shape with
    | triangle =>
      simp only [lfoShapeFunction, Option.some.injEq] at hf
      subst hf
      exact ⟨htri.1, htri.2, hs⟩
    | saw =>
      simp only [lfoShapeFunction, Option.some.injEq] at hf
      subst hf
      exact ⟨hsaw.1, hsaw.2, hs⟩
    | square =>
      simp only [lfoShapeFunction, Option.some.injEq] at hf
      subst hf
      exact ⟨hsq.1, hsq.2, hs⟩
    | random =>
      simp only [lfoShapeFunction, Option.some.injEq] at hf
      subst hf
      exact ⟨(hrand s hs).1, le_of_lt (hrand s hs).2,
        lfoRandom_heldInUnit nextFloat hrng s x hs⟩
    | unrecognised raw =>
      simp [lfoShapeFunction] at hf

/-- Witness of C23: the shapes at the phase 1, with `sin` replaced by the clamp to
`[-1, 1]`, `pi` by 22/7 and the example random generator. -/
theorem lfo_shapes_in_unit_interval_witness :
    (0 ≤ lfoTriangle (jlimit (-1) 1) 1 ∧ lfoTriangle (jlimit (-1) 1) 1 ≤ 1) ∧
    (lfoSaw (22 / 7) 1 = (1 + 22 / 7) / (2 * (22 / 7)) ∧
      0 ≤ lfoSaw (22 / 7) 1 ∧ lfoSaw (22 / 7) 1 ≤ 1) ∧
    (0 ≤ lfoSquare 1 ∧ lfoSquare 1 ≤ 1) ∧
    ∀ y ∈ (lfoRandomRun demoNextFloat [1, -1, 2, 3, -2] (RandomLfo.initial 0)).2,
      0 ≤ y ∧ y < 1 :=
  have h := lfo_shapes_in_unit_interval (jlimit (-1) 1) (22 / 7) demoNextFloat
    (fun x => ⟨jlimit_ge (by norm_num) x, jlimit_le (by norm_num) x⟩) (by norm_num)
    demoNextFloat_range 1 (by norm_num) (by norm_num)
  ⟨h.1.2, h.2.1, h.2.2.1.2, h.2.2.2.2.2.1 0 [1, -1, 2, 3, -2]⟩

/-- C24. The random shape, at every evaluation and from every state: a new value is drawn
(one call of `nextFloat`) exactly when the sign class of the phase (`x > 0` against
`x ≤ 0`) differs from the flag `valueWasBig`, and it becomes the held value; otherwise the
state is left as it is. After the evaluation `valueWasBig` is `x > 0` and the value
returned is the held value. So a following evaluation with a phase of the same sign class
returns the same value and draws nothing, and over any sequence of phases the number of
draws is the number of changes of sign class. -/
theorem random_lfo_draws_on_sign_change {R : Type} (nextFloat : R → R × ℚ)
    (s : RandomLfo R) (x : ℚ) :
    ((lfoRandom nextFloat s x).1.draws = s.draws + 1 ↔ decide (x > 0) ≠ s.valueWasBig) ∧
    ((lfoRandom nextFloat s x).1.draws = s.draws ↔ decide (x > 0) = s.valueWasBig) ∧
    (decide (x > 0) ≠ s.valueWasBig →
      (lfoRandom nextFloat s x).1.randomValue = (nextFloat s.rng).2 ∧
      (lfoRandom nextFloat s x).1.rng = (nextFloat s.rng).1) ∧
    (decide (x > 0) = s.valueWasBig → lfoRandom nextFloat s x = (s, s.randomValue)) ∧
    (lfoRandom nextFloat s x).1.valueWasBig = decide (x > 0) ∧
    (lfoRandom nextFloat s x).2 = (lfoRandom nextFloat s x).1.randomValue ∧
    (∀ y : ℚ, decide (y > 0) = decide (x > 0) →
      lfoRandom nextFloat (lfoRandom nextFloat s x).1 y
        = ((lfoRandom nextFloat s x).1, (lfoRandom nextFloat s x).2)) ∧
    (∀ xs : List ℚ,
      (lfoRandomRun nextFloat xs s).1.draws
        = s.draws + signClassChanges s.valueWasBig xs) := by
  have hd := lfoRandom_draws nextFloat s x
  refine ⟨?_, ?_, ?_, (lfoRandom_cases nextFloat s x).2, lfoRandom_flag nextFloat s x,
    lfoRandom_value nextFloat s x, ?_, fun xs => lfoRandomRun_draws nextFloat xs s⟩
  · rw [hd]
    split_ifs with h
    · simp [h]
    · simp [h]
  · rw [hd]
    split_ifs with h
    · simp [h]
    · simp [h]
  · intro h
    rw [(lfoRandom_cases nextFloat s x).1 h]
    exact ⟨rfl, rfl⟩
  · intro y hy
    rw [(lfoRandom_cases nextFloat _ y).2 (by rw [lfoRandom_flag]; exact hy),
      ← lfoRandom_value]

/-- Witness of C24: from the initial state the phase 1 draws a value, and the phase 2 that
follows returns the same value without a draw. -/
theorem random_lfo_draws_on_sign_change_witness :
    (lfoRandom demoNextFloat (RandomLfo.initial 0) 1).1.draws = 1 ∧
    lfoRandom demoNextFloat (lfoRandom demoNextFloat (RandomLfo.initial 0) 1).1 2
      = ((lfoRandom demoNextFloat (RandomLfo.initial 0) 1).1,
          (lfoRandom demoNextFloat (RandomLfo.initial 0) 1).2) :=
  have h := random_lfo_draws_on_sign_change demoNextFloat (RandomLfo.initial 0) 1
  ⟨h.1.mpr (by simp [RandomLfo.initial]), h.2.2.2.2.2.2.1 2 (by simp)⟩

end ProPhat
